import Mathlib

/-!
# Intel PT decoder: return-address stack and timing arithmetic

A shallow embedding of parts of `tools/perf/util/intel-pt-decoder/intel-pt-decoder.c`.

Conventions of the embedding:

* `uint64_t` / `uint32_t` values are natural numbers; every C operation that can
  wrap is followed by an explicit `% 2 ^ 64` or `% 2 ^ 32`;
* `int` values are integers;
* a linked list of blocks (`blk->prev`) is a Lean list whose head is `stack->blk`
  and whose tail is the `prev` chain, `NULL` being the empty list;
* a function that would dereference `NULL` or index `ip[]` outside
  `[0, INTEL_PT_BLK_SIZE)` returns `none`.
-/

namespace IntelPt

/-! ## Return-address stack -/

/-- The constant `INTEL_PT_BLK_SIZE`. -/
def INTEL_PT_BLK_SIZE : Nat := 1024

/-- The errno value `ENOMEM`. -/
def ENOMEM : Int := 12

/-- One `struct intel_pt_blk`: the array `ip[INTEL_PT_BLK_SIZE]`, as a map from index to
the 64-bit value stored there (the `prev` link is the tail of the list the block sits in). -/
structure intel_pt_blk where
  ip : Nat → Nat

/-- The `struct intel_pt_stack`: top block with its `prev` chain, spare block, `pos`. -/
structure intel_pt_stack where
  blk : List intel_pt_blk := []
  spare : Option intel_pt_blk := none
  pos : Int := 0

/-- The function `intel_pt_pop_blk`: unlink the top block, keep it as the spare when there
is none, free it otherwise. `none` when `stack->blk` is `NULL`. -/
def intel_pt_pop_blk (stack : intel_pt_stack) : Option intel_pt_stack :=
  match stack.blk with
  | [] => none
  | blk :: prev =>
    some { stack with
      blk := prev
      spare := match stack.spare with
        | none => some blk
        | some sp => some sp }

/-- The last statement of `intel_pt_pop`: `return stack->blk->ip[--stack->pos];`. -/
def intel_pt_pop_read (stack : intel_pt_stack) : Option (Nat × intel_pt_stack) :=
  match stack.blk with
  | [] => none
  | blk :: _ =>
    let pos := stack.pos - 1
    if 0 ≤ pos ∧ pos < INTEL_PT_BLK_SIZE then
      some (blk.ip pos.toNat, { stack with pos := pos })
    else none

/-- The function `intel_pt_pop`: the value returned and the stack afterwards. -/
def intel_pt_pop (stack : intel_pt_stack) : Option (Nat × intel_pt_stack) :=
  if stack.pos = 0 then
    if stack.blk.isEmpty then some (0, stack)
    else
      match intel_pt_pop_blk stack with
      | none => none
      | some stack1 =>
        if stack1.blk.isEmpty then some (0, stack1)
        else intel_pt_pop_read { stack1 with pos := INTEL_PT_BLK_SIZE }
  else intel_pt_pop_read stack

/-- The function `intel_pt_alloc_blk`. The argument `malloc` is what `malloc` hands out
if it is called: `none` for `NULL`, otherwise a block of arbitrary content. -/
def intel_pt_alloc_blk (stack : intel_pt_stack) (malloc : Option intel_pt_blk) :
    Int × intel_pt_stack :=
  match stack.spare with
  | some blk => (0, { blk := blk :: stack.blk, spare := none, pos := 0 })
  | none =>
    match malloc with
    | none => (-ENOMEM, stack)
    | some blk => (0, { stack with blk := blk :: stack.blk, pos := 0 })

/-- The function `intel_pt_push`: the error code returned and the stack afterwards. -/
def intel_pt_push (stack : intel_pt_stack) (ip : Nat) (malloc : Option intel_pt_blk) :
    Option (Int × intel_pt_stack) :=
  let r : Int × intel_pt_stack :=
    if stack.blk.isEmpty ∨ stack.pos = INTEL_PT_BLK_SIZE then intel_pt_alloc_blk stack malloc
    else (0, stack)
  if r.1 ≠ 0 then some r
  else
    match r.2.blk with
    | [] => none
    | blk :: prev =>
      if 0 ≤ r.2.pos ∧ r.2.pos < INTEL_PT_BLK_SIZE then
        some (0, { r.2 with
          blk := { ip := Function.update blk.ip r.2.pos.toNat ip } :: prev
          pos := r.2.pos + 1 })
      else none

/-- The loop `while (stack->blk) intel_pt_pop_blk(stack);` with a bound on its iterations. -/
def intel_pt_clear_stack_loop : Nat → intel_pt_stack → Option intel_pt_stack
  | 0, stack => if stack.blk.isEmpty then some stack else none
  | fuel + 1, stack =>
    if stack.blk.isEmpty then some stack
    else
      match intel_pt_pop_blk stack with
      | none => none
      | some stack1 => intel_pt_clear_stack_loop fuel stack1

/-- The function `intel_pt_clear_stack`; the loop is given one iteration per block. -/
def intel_pt_clear_stack (stack : intel_pt_stack) : Option intel_pt_stack :=
  match intel_pt_clear_stack_loop stack.blk.length stack with
  | none => none
  | some stack1 => some { stack1 with pos := 0 }

/-- The first `n` entries of a block, last written first. -/
def blk_entries (blk : intel_pt_blk) (n : Nat) : List Nat :=
  ((List.range n).map blk.ip).reverse

/-- The entries of a chain of full blocks, top block first. -/
def blks_entries : List intel_pt_blk → List Nat
  | [] => []
  | blk :: prev => blk_entries blk INTEL_PT_BLK_SIZE ++ blks_entries prev

/-- The live entries of the stack, top first: `pos` entries of the top block, then every
entry of the blocks reached through `prev`. -/
def live_entries (stack : intel_pt_stack) : List Nat :=
  match stack.blk with
  | [] => []
  | blk :: prev => blk_entries blk stack.pos.toNat ++ blks_entries prev

/-- The block invariant of the stack: `0 <= pos <= INTEL_PT_BLK_SIZE`, and `pos = 0` when
there is no block. -/
def stack_inv (stack : intel_pt_stack) : Prop :=
  0 ≤ stack.pos ∧ stack.pos ≤ INTEL_PT_BLK_SIZE ∧ (stack.blk.isEmpty = true → stack.pos = 0)

instance (stack : intel_pt_stack) : Decidable (stack_inv stack) := by
  unfold stack_inv; infer_instance

/-- A client pushing a sequence of addresses; each push comes with the block `malloc`
would hand out. Stops at the first push that reports an error. -/
def push_seq : intel_pt_stack → List (Nat × Option intel_pt_blk) → Option (Int × intel_pt_stack)
  | stack, [] => some (0, stack)
  | stack, (ip, malloc) :: rest =>
    match intel_pt_push stack ip malloc with
    | none => none
    | some (err, stack1) => if err ≠ 0 then some (err, stack1) else push_seq stack1 rest

/-- A client popping `n` times: the values returned, in order, and the final stack. -/
def pop_seq : Nat → intel_pt_stack → Option (List Nat × intel_pt_stack)
  | 0, stack => some ([], stack)
  | n + 1, stack =>
    match intel_pt_pop stack with
    | none => none
    | some (ip, stack1) =>
      match pop_seq n stack1 with
      | none => none
      | some (ips, stack2) => some (ip :: ips, stack2)

/-! ## Timing reconstruction -/

/-- The `~x` of C on a `uint32_t` value `x`. -/
def not32 (x : Nat) : Nat := 2 ^ 32 - 1 - x % 2 ^ 32

/-- The `x << s` of C on a `uint32_t` value `x` with an `int` count `s`; C defines it for
`0 <= s < 32` only. -/
def shl32 (x : Nat) (s : Int) : Nat := (x * 2 ^ s.toNat) % 2 ^ 32

/-- The function `multdiv` on `uint64_t t`, `uint32_t n`, `uint32_t d`; both products and
the sum are taken in 64 bits. -/
def multdiv (t n d : Nat) : Nat :=
  if d = 0 then 0
  else ((t / d) * n % 2 ^ 64 + ((t % d) * n % 2 ^ 64) / d) % 2 ^ 64

/-- The function `intel_pt_tsc_cmp`. -/
def intel_pt_tsc_cmp (tsc1 tsc2 : Nat) : Int :=
  let halfway : Nat := 1 <<< 55
  if tsc1 = tsc2 then 0
  else if tsc1 < tsc2 then
    if tsc2 - tsc1 < halfway then -1 else 1
  else
    if tsc1 - tsc2 < halfway then 1 else -1

/-- The function `intel_pt_fixup_last_mtc`: the value left in `*last_mtc`. -/
def intel_pt_fixup_last_mtc (mtc : Nat) (mtc_shift : Int) (last_mtc : Nat) : Nat :=
  let first_missing_bit : Nat := shl32 1 (16 - mtc_shift)
  let mask : Nat := not32 ((first_missing_bit + 2 ^ 32 - 1) % 2 ^ 32)
  let last_mtc : Nat := last_mtc ||| (mtc &&& mask)
  if last_mtc ≥ mtc then
    ((last_mtc + 2 ^ 32 - first_missing_bit) % 2 ^ 32) &&& 0xff
  else last_mtc

/-- Modelled from the spec: the packet kinds of `enum intel_pt_pkt_type`, which is declared
in `intel-pt-pkt-decoder.h`; the decoder only compares them for equality. -/
inductive intel_pt_pkt_type where
  | INTEL_PT_BAD
  | INTEL_PT_PAD
  | INTEL_PT_TNT
  | INTEL_PT_TIP_PGD
  | INTEL_PT_TIP_PGE
  | INTEL_PT_TSC
  | INTEL_PT_TMA
  | INTEL_PT_MODE_EXEC
  | INTEL_PT_MODE_TSX
  | INTEL_PT_MTC
  | INTEL_PT_TIP
  | INTEL_PT_FUP
  | INTEL_PT_CYC
  | INTEL_PT_VMCS
  | INTEL_PT_PSB
  | INTEL_PT_PSBEND
  | INTEL_PT_CBR
  | INTEL_PT_TRACESTOP
  | INTEL_PT_PIP
  | INTEL_PT_OVF
  | INTEL_PT_MNT
  deriving DecidableEq, Repr

/-- Modelled from the spec: the packet record `struct intel_pt_pkt` of
`intel-pt-pkt-decoder.h`, with its kind, its `count` and its 64-bit `payload`. -/
structure intel_pt_pkt where
  type : intel_pt_pkt_type := intel_pt_pkt_type.INTEL_PT_BAD
  count : Int := 0
  payload : Nat := 0

/-- The `enum intel_pt_pkt_state`. -/
inductive intel_pt_pkt_state where
  | INTEL_PT_STATE_NO_PSB
  | INTEL_PT_STATE_NO_IP
  | INTEL_PT_STATE_ERR_RESYNC
  | INTEL_PT_STATE_IN_SYNC
  | INTEL_PT_STATE_TNT_CONT
  | INTEL_PT_STATE_TNT
  | INTEL_PT_STATE_TIP
  | INTEL_PT_STATE_TIP_PGD
  | INTEL_PT_STATE_FUP
  | INTEL_PT_STATE_FUP_NO_TIP
  deriving DecidableEq, Repr

/-- Modelled from the spec: the period types of `enum intel_pt_period_type`, declared in
`intel-pt-decoder.h`. -/
inductive intel_pt_period_type where
  | INTEL_PT_PERIOD_NONE
  | INTEL_PT_PERIOD_INSTRUCTIONS
  | INTEL_PT_PERIOD_TICKS
  | INTEL_PT_PERIOD_MTC
  deriving DecidableEq, Repr

/-- Modelled from the spec: the instruction kinds of `enum intel_pt_insn_op`, declared in
`intel-pt-insn-decoder.h`; the decoder tells `CALL` and `RET` from all the others. -/
inductive intel_pt_insn_op where
  | INTEL_PT_OP_OTHER
  | INTEL_PT_OP_CALL
  | INTEL_PT_OP_RET
  deriving DecidableEq, Repr

/-- Modelled from the spec: the branch kinds of `enum intel_pt_insn_branch`, declared in
`intel-pt-insn-decoder.h`. -/
inductive intel_pt_insn_branch where
  | INTEL_PT_BR_NO_BRANCH
  | INTEL_PT_BR_INDIRECT
  | INTEL_PT_BR_CONDITIONAL
  | INTEL_PT_BR_UNCONDITIONAL
  deriving DecidableEq, Repr

/-- Modelled from the spec: the instruction record `struct intel_pt_insn` the walker fills
in, with the fields the decoder reads (`length` is an `int`, `rel` an `int32_t`). -/
structure intel_pt_insn where
  op : intel_pt_insn_op := intel_pt_insn_op.INTEL_PT_OP_OTHER
  branch : intel_pt_insn_branch := intel_pt_insn_branch.INTEL_PT_BR_NO_BRANCH
  length : Int := 0
  rel : Int := 0
  deriving DecidableEq, Repr

/-- Modelled from the spec: the published record `struct intel_pt_state` of
`intel-pt-decoder.h`, with the fields the decoder writes. `type` and `flags` are bit
sets. -/
structure intel_pt_state where
  type : Nat := 0
  err : Int := 0
  from_ip : Nat := 0
  to_ip : Nat := 0
  cr3 : Nat := 0
  tot_insn_cnt : Nat := 0
  timestamp : Nat := 0
  est_timestamp : Nat := 0
  trace_nr : Nat := 0
  flags : Nat := 0
  insn_op : intel_pt_insn_op := intel_pt_insn_op.INTEL_PT_OP_OTHER
  insn_len : Int := 0
  deriving DecidableEq, Repr

/-- Modelled from the spec: the `struct intel_pt_buffer` the `get_trace` callback fills in;
`buf` holds the `len` bytes of the buffer. -/
structure intel_pt_buffer where
  buf : List Nat := []
  consecutive : Bool := false
  ref_timestamp : Nat := 0
  trace_nr : Nat := 0
  deriving DecidableEq, Repr

/-- What one call of the `get_trace` callback leaves: its return value and the buffer. -/
structure get_trace_result where
  ret : Int := 0
  buffer : intel_pt_buffer := {}
  deriving DecidableEq, Repr

/-- The `struct intel_pt_decoder`, without its callbacks (see `intel_pt_env`). Unsigned
fields are naturals below `2 ^ 64` (`uint64_t`) or `2 ^ 32` (`uint32_t`, `unsigned int`);
the `double` fields are carried as opaque 64-bit patterns. The byte cursor `buf`, `len` is
the list `buf` of the `len` bytes from `decoder->buf` on, and `next_buf`, `next_len`
likewise (`none` for `NULL`). The field `data` stands for the state behind the context
pointer `data`: what the `get_trace` callback returns at its next calls. The default value
of every field is the one `zalloc` leaves. -/
structure intel_pt_decoder where
  return_compression : Bool := false
  mtc_insn : Bool := false
  pge : Bool := false
  have_tma : Bool := false
  have_cyc : Bool := false
  fixup_last_mtc : Bool := false
  have_last_ip : Bool := false
  pos : Nat := 0
  last_ip : Nat := 0
  ip : Nat := 0
  cr3 : Nat := 0
  timestamp : Nat := 0
  tsc_timestamp : Nat := 0
  ref_timestamp : Nat := 0
  sample_timestamp : Nat := 0
  ret_addr : Nat := 0
  ctc_timestamp : Nat := 0
  ctc_delta : Nat := 0
  cycle_cnt : Nat := 0
  cyc_ref_timestamp : Nat := 0
  last_mtc : Nat := 0
  tsc_ctc_ratio_n : Nat := 0
  tsc_ctc_ratio_d : Nat := 0
  tsc_ctc_mult : Nat := 0
  tsc_slip : Nat := 0
  ctc_rem_mask : Nat := 0
  mtc_shift : Int := 0
  stack : intel_pt_stack := {}
  pkt_state : intel_pt_pkt_state := intel_pt_pkt_state.INTEL_PT_STATE_NO_PSB
  packet : intel_pt_pkt := {}
  tnt : intel_pt_pkt := {}
  pkt_step : Int := 0
  pkt_len : Int := 0
  last_packet_type : intel_pt_pkt_type := intel_pt_pkt_type.INTEL_PT_BAD
  cbr : Nat := 0
  max_non_turbo_ratio : Nat := 0
  max_non_turbo_ratio_fp : Nat := 0
  cbr_cyc_to_tsc : Nat := 0
  calc_cyc_to_tsc : Nat := 0
  have_calc_cyc_to_tsc : Bool := false
  exec_mode : Int := 0
  insn_bytes : Nat := 0
  period : Nat := 0
  tot_insn_cnt : Nat := 0
  period_insn_cnt : Nat := 0
  period_mask : Nat := 0
  period_ticks : Nat := 0
  last_masked_timestamp : Nat := 0
  continuous_period : Bool := false
  overflow : Bool := false
  set_fup_tx_flags : Bool := false
  fup_tx_flags : Nat := 0
  tx_flags : Nat := 0
  timestamp_insn_cnt : Nat := 0
  sample_insn_cnt : Nat := 0
  stuck_ip : Nat := 0
  no_progress : Int := 0
  stuck_ip_prd : Int := 0
  stuck_ip_cnt : Int := 0
  period_type : intel_pt_period_type := intel_pt_period_type.INTEL_PT_PERIOD_NONE
  state : intel_pt_state := {}
  buf : List Nat := []
  next_buf : Option (List Nat) := none
  data : List get_trace_result := []

/-- The function `intel_pt_calc_cyc_to_tsc`. It runs `intel_pt_pkt_lookahead` with the
callback `intel_pt_calc_cyc_cb` over the bytes still in the buffer; the callback works on
its own copy of the timing fields and writes to the decoder in one place only, where it
stores the ratio in `calc_cyc_to_tsc` and sets `have_calc_cyc_to_tsc`. The outcome of that
pass is the argument `lookahead`: `none` when nothing is stored, `some r` when the ratio
`r` is. -/
def intel_pt_calc_cyc_to_tsc (decoder : intel_pt_decoder) (lookahead : Option Nat) :
    intel_pt_decoder :=
  match lookahead with
  | none => decoder
  | some r => { decoder with calc_cyc_to_tsc := r, have_calc_cyc_to_tsc := true }

/-- The function `intel_pt_calc_tsc_timestamp`, for the TSC packet in `decoder.packet`. -/
def intel_pt_calc_tsc_timestamp (decoder : intel_pt_decoder) (lookahead : Option Nat) :
    intel_pt_decoder :=
  let decoder := { decoder with have_tma := false }
  let decoder :=
    if decoder.ref_timestamp ≠ 0 then
      let timestamp := decoder.packet.payload ||| (decoder.ref_timestamp &&& (0xff <<< 56))
      let timestamp :=
        if timestamp < decoder.ref_timestamp then
          if decoder.ref_timestamp - timestamp > 1 <<< 55 then
            (timestamp + (1 <<< 56)) % 2 ^ 64
          else timestamp
        else
          if timestamp - decoder.ref_timestamp > 1 <<< 55 then
            (timestamp + 2 ^ 64 - (1 <<< 56)) % 2 ^ 64
          else timestamp
      { decoder with
        tsc_timestamp := timestamp
        timestamp := timestamp
        ref_timestamp := 0
        timestamp_insn_cnt := 0 }
    else if decoder.timestamp ≠ 0 then
      let timestamp := decoder.packet.payload ||| (decoder.timestamp &&& (0xff <<< 56))
      let decoder := { decoder with tsc_timestamp := timestamp }
      let timestamp :=
        if timestamp < decoder.timestamp ∧ decoder.timestamp - timestamp < decoder.tsc_slip then
          decoder.timestamp
        else timestamp
      if timestamp < decoder.timestamp then
        let timestamp := (timestamp + (1 <<< 56)) % 2 ^ 64
        { decoder with
          tsc_timestamp := timestamp
          timestamp := timestamp
          timestamp_insn_cnt := 0 }
      else
        { decoder with
          timestamp := timestamp
          timestamp_insn_cnt := 0 }
    else decoder
  if decoder.last_packet_type = intel_pt_pkt_type.INTEL_PT_CYC then
    intel_pt_calc_cyc_to_tsc
      { decoder with
        cyc_ref_timestamp := decoder.timestamp
        cycle_cnt := 0
        have_calc_cyc_to_tsc := false }
      lookahead
  else decoder

/-- The local `mtc_delta` of `intel_pt_calc_mtc_timestamp`, from the `uint32_t` values
`mtc` and `decoder->last_mtc`. -/
def mtc_delta (mtc last_mtc : Nat) : Nat :=
  if mtc > last_mtc then mtc - last_mtc
  else (mtc + 256 + 2 ^ 32 - last_mtc) % 2 ^ 32

/-- The value of `decoder->last_mtc` that `intel_pt_calc_mtc_timestamp` subtracts: the
stored one, fixed up first when `mtc_shift > 8` and `fixup_last_mtc` is set. -/
def last_mtc_fixed (decoder : intel_pt_decoder) : Nat :=
  if decoder.mtc_shift > 8 ∧ decoder.fixup_last_mtc = true then
    intel_pt_fixup_last_mtc (decoder.packet.payload % 2 ^ 32) decoder.mtc_shift decoder.last_mtc
  else decoder.last_mtc

/-- The function `intel_pt_calc_mtc_timestamp`, for the MTC packet in `decoder.packet`. -/
def intel_pt_calc_mtc_timestamp (decoder : intel_pt_decoder) (lookahead : Option Nat) :
    intel_pt_decoder :=
  if decoder.have_tma = false then decoder
  else
    let mtc : Nat := decoder.packet.payload % 2 ^ 32
    let decoder :=
      if decoder.mtc_shift > 8 ∧ decoder.fixup_last_mtc = true then
        { decoder with
          fixup_last_mtc := false
          last_mtc := intel_pt_fixup_last_mtc mtc decoder.mtc_shift decoder.last_mtc }
      else decoder
    let delta : Nat := mtc_delta mtc decoder.last_mtc
    let decoder :=
      { decoder with ctc_delta := (decoder.ctc_delta + shl32 delta decoder.mtc_shift) % 2 ^ 64 }
    let timestamp : Nat :=
      if decoder.tsc_ctc_mult ≠ 0 then
        (decoder.ctc_timestamp + decoder.ctc_delta * decoder.tsc_ctc_mult % 2 ^ 64) % 2 ^ 64
      else
        (decoder.ctc_timestamp +
          multdiv decoder.ctc_delta decoder.tsc_ctc_ratio_n decoder.tsc_ctc_ratio_d) % 2 ^ 64
    let decoder :=
      if timestamp < decoder.timestamp then decoder
      else { decoder with timestamp := timestamp }
    let decoder := { decoder with timestamp_insn_cnt := 0, last_mtc := mtc }
    if decoder.last_packet_type = intel_pt_pkt_type.INTEL_PT_CYC then
      intel_pt_calc_cyc_to_tsc
        { decoder with
          cyc_ref_timestamp := decoder.timestamp
          cycle_cnt := 0
          have_calc_cyc_to_tsc := false }
        lookahead
    else decoder

/-- The distance between two 64-bit values in wrap-around arithmetic: the smaller of
`a - b` and `b - a` taken modulo `2 ^ 64`. -/
def wrap_dist (a b : Nat) : Nat :=
  min ((a + 2 ^ 64 - b % 2 ^ 64) % 2 ^ 64) ((b + 2 ^ 64 - a % 2 ^ 64) % 2 ^ 64)

/-! ## Error codes, construction, estimates -/

/-- The errno value `ENOENT` (Linux). -/
def ENOENT : Int := 2

/-- The errno value `EAGAIN` (Linux). -/
def EAGAIN : Int := 11

/-- The errno value `EINVAL` (Linux). -/
def EINVAL : Int := 22

/-- The errno value `ENOSPC` (Linux). -/
def ENOSPC : Int := 28

/-- The errno value `ENOSYS` (Linux). -/
def ENOSYS : Int := 38

/-- The errno value `ELOOP` (Linux). -/
def ELOOP : Int := 40

/-- The errno value `ENODATA` (Linux). -/
def ENODATA : Int := 61

/-- The errno value `ENOLINK` (Linux). -/
def ENOLINK : Int := 67

/-- The errno value `EBADMSG` (Linux). -/
def EBADMSG : Int := 74

/-- The errno value `EOVERFLOW` (Linux). -/
def EOVERFLOW : Int := 75

/-- The errno value `EILSEQ` (Linux). -/
def EILSEQ : Int := 84

/-- Modelled from the spec: `INTEL_PT_ERR_NOMEM` of `enum intel_pt_err`
(`intel-pt-decoder.h`). The ten codes are numbered from 1 in the order of the public error
taxonomy; `intel_pt__strerror` takes every code below 1 to be out of range. -/
def INTEL_PT_ERR_NOMEM : Int := 1

/-- Modelled from the spec: `INTEL_PT_ERR_INTERN` of `enum intel_pt_err`. -/
def INTEL_PT_ERR_INTERN : Int := 2

/-- Modelled from the spec: `INTEL_PT_ERR_BADPKT` of `enum intel_pt_err`. -/
def INTEL_PT_ERR_BADPKT : Int := 3

/-- Modelled from the spec: `INTEL_PT_ERR_NODATA` of `enum intel_pt_err`. -/
def INTEL_PT_ERR_NODATA : Int := 4

/-- Modelled from the spec: `INTEL_PT_ERR_NOINSN` of `enum intel_pt_err`. -/
def INTEL_PT_ERR_NOINSN : Int := 5

/-- Modelled from the spec: `INTEL_PT_ERR_MISMAT` of `enum intel_pt_err`. -/
def INTEL_PT_ERR_MISMAT : Int := 6

/-- Modelled from the spec: `INTEL_PT_ERR_OVR` of `enum intel_pt_err`. -/
def INTEL_PT_ERR_OVR : Int := 7

/-- Modelled from the spec: `INTEL_PT_ERR_LOST` of `enum intel_pt_err`. -/
def INTEL_PT_ERR_LOST : Int := 8

/-- Modelled from the spec: `INTEL_PT_ERR_UNK` of `enum intel_pt_err`. -/
def INTEL_PT_ERR_UNK : Int := 9

/-- Modelled from the spec: `INTEL_PT_ERR_NELOOP` of `enum intel_pt_err`. -/
def INTEL_PT_ERR_NELOOP : Int := 10

/-- The function `intel_pt_ext_err`. -/
def intel_pt_ext_err (code : Int) : Int :=
  if code = -ENOMEM then INTEL_PT_ERR_NOMEM
  else if code = -ENOSYS then INTEL_PT_ERR_INTERN
  else if code = -EBADMSG then INTEL_PT_ERR_BADPKT
  else if code = -ENODATA then INTEL_PT_ERR_NODATA
  else if code = -EILSEQ then INTEL_PT_ERR_NOINSN
  else if code = -ENOENT then INTEL_PT_ERR_MISMAT
  else if code = -EOVERFLOW then INTEL_PT_ERR_OVR
  else if code = -ENOSPC then INTEL_PT_ERR_LOST
  else if code = -ELOOP then INTEL_PT_ERR_NELOOP
  else INTEL_PT_ERR_UNK

/-- The `x >> s` of C on a `uint32_t` value `x` with an `int` count `s`; C defines it for
`0 <= s < 32` only. -/
def shr32 (x : Nat) (s : Int) : Nat := x % 2 ^ 32 / 2 ^ s.toNat

/-- The function `intel_pt_calc_tma`, for the TMA packet in `decoder.packet`. The locals
`ctc`, `fc` and `ctc_rem` are `uint32_t`, and so is the product
`ctc_rem * decoder->tsc_ctc_mult`. -/
def intel_pt_calc_tma (decoder : intel_pt_decoder) : intel_pt_decoder :=
  let ctc : Nat := decoder.packet.payload % 2 ^ 32
  let fc : Nat := (decoder.packet.count % 2 ^ 32).toNat
  let ctc_rem : Nat := ctc &&& decoder.ctc_rem_mask
  if decoder.tsc_ctc_ratio_d = 0 then decoder
  else
    let decoder := { decoder with
      last_mtc := shr32 ctc decoder.mtc_shift &&& 0xff
      ctc_timestamp := (decoder.tsc_timestamp + 2 ^ 64 - fc) % 2 ^ 64 }
    let decoder :=
      if decoder.tsc_ctc_mult ≠ 0 then
        { decoder with
          ctc_timestamp :=
            (decoder.ctc_timestamp + 2 ^ 64 - ctc_rem * decoder.tsc_ctc_mult % 2 ^ 32) % 2 ^ 64 }
      else
        { decoder with
          ctc_timestamp :=
            (decoder.ctc_timestamp + 2 ^ 64
              - multdiv ctc_rem decoder.tsc_ctc_ratio_n decoder.tsc_ctc_ratio_d) % 2 ^ 64 }
    { decoder with ctc_delta := 0, have_tma := true, fixup_last_mtc := true }

/-- The function `intel_pt_est_timestamp`. -/
def intel_pt_est_timestamp (decoder : intel_pt_decoder) : Nat :=
  let est : Nat := (decoder.sample_insn_cnt <<< 1) % 2 ^ 64
  let est : Nat :=
    if decoder.cbr = 0 ∨ decoder.max_non_turbo_ratio = 0 then est
    else est * decoder.max_non_turbo_ratio % 2 ^ 64 / decoder.cbr
  (decoder.sample_timestamp + est) % 2 ^ 64

/-- The loop `for (i = 0; x != 1; i++) x >>= 1;` of `intel_pt_lower_power_of_2` with a
bound on its iterations: the final `x` and `i`, or `none` when the bound is used up. -/
def intel_pt_lower_power_of_2_loop : Nat → Nat → Nat → Option (Nat × Nat)
  | 0, x, i => if x ≠ 1 then none else some (x, i)
  | fuel + 1, x, i =>
    if x ≠ 1 then intel_pt_lower_power_of_2_loop fuel (x >>> 1) (i + 1) else some (x, i)

/-- The function `intel_pt_lower_power_of_2` on a `uint64_t`. -/
def intel_pt_lower_power_of_2 (fuel : Nat) (x : Nat) : Option Nat :=
  match intel_pt_lower_power_of_2_loop fuel x 0 with
  | none => none
  | some (x1, i) => some ((x1 <<< i) % 2 ^ 64)

/-- The function `intel_pt_setup_period`. -/
def intel_pt_setup_period (fuel : Nat) (decoder : intel_pt_decoder) : Option intel_pt_decoder :=
  if decoder.period_type = intel_pt_period_type.INTEL_PT_PERIOD_TICKS then
    match intel_pt_lower_power_of_2 fuel decoder.period with
    | none => none
    | some period =>
      some { decoder with
        period_mask := 2 ^ 64 - 1 - (period + 2 ^ 64 - 1) % 2 ^ 64
        period_ticks := period }
  else some decoder

/-- Modelled from the spec: the construction parameters `struct intel_pt_params` of
`intel-pt-decoder.h`. For the two mandatory callbacks only whether the pointer is set is
kept here, and `data` is what the `get_trace` callback will return at its calls. -/
structure intel_pt_params where
  get_trace : Bool := true
  walk_insn : Bool := true
  return_compression : Bool := false
  period : Nat := 0
  period_type : intel_pt_period_type := intel_pt_period_type.INTEL_PT_PERIOD_NONE
  max_non_turbo_ratio : Nat := 0
  mtc_period : Nat := 0
  tsc_ctc_ratio_n : Nat := 0
  tsc_ctc_ratio_d : Nat := 0
  data : List get_trace_result := []

/-- The decoder `zalloc` hands out: every field zero. -/
def zalloc_decoder : intel_pt_decoder := {}

/-- The part of `intel_pt_decoder_new` after `intel_pt_setup_period`: `mtc_shift`,
`ctc_rem_mask`, the TSC/CTC ratio with its multiplier shortcut, and `tsc_slip`. -/
def intel_pt_decoder_new_timing (decoder : intel_pt_decoder) (params : intel_pt_params) :
    intel_pt_decoder :=
  let tsc_ctc_ratio_d : Nat :=
    if params.tsc_ctc_ratio_n = 0 then 0 else params.tsc_ctc_ratio_d
  { decoder with
    mtc_shift := (params.mtc_period : Int)
    ctc_rem_mask := (shl32 1 (params.mtc_period : Int) + 2 ^ 32 - 1) % 2 ^ 32
    tsc_ctc_ratio_n := params.tsc_ctc_ratio_n
    tsc_ctc_ratio_d := tsc_ctc_ratio_d
    tsc_ctc_mult :=
      if tsc_ctc_ratio_d ≠ 0 then
        if params.tsc_ctc_ratio_n % tsc_ctc_ratio_d = 0 then
          params.tsc_ctc_ratio_n / tsc_ctc_ratio_d
        else decoder.tsc_ctc_mult
      else decoder.tsc_ctc_mult
    tsc_slip := 0x10000 }

/-- The function `intel_pt_decoder_new`: `some none` for a `NULL` result, and `none` when
`intel_pt_setup_period` does not return. `zalloc_ok` says whether `zalloc` succeeds and
`to_double` is the conversion of `max_non_turbo_ratio` to `double`. -/
def intel_pt_decoder_new (fuel : Nat) (to_double : Nat → Nat) (zalloc_ok : Bool)
    (params : intel_pt_params) : Option (Option intel_pt_decoder) :=
  if params.get_trace = false ∨ params.walk_insn = false then some none
  else if zalloc_ok = false then some none
  else
    match intel_pt_setup_period fuel
        { zalloc_decoder with
          data := params.data
          return_compression := params.return_compression
          period := params.period
          period_type := params.period_type
          max_non_turbo_ratio := params.max_non_turbo_ratio
          max_non_turbo_ratio_fp := to_double params.max_non_turbo_ratio } with
    | none => none
    | some decoder => some (some (intel_pt_decoder_new_timing decoder params))

/-! ## Callbacks, byte cursor and packet fetching -/

/-- The constant `INTEL_PT_RETURN`. -/
def INTEL_PT_RETURN : Int := 1

/-- The constant `INTEL_PT_MAX_LOOPS`. -/
def INTEL_PT_MAX_LOOPS : Int := 10000

/-- The constant `BIT63`. -/
def BIT63 : Nat := 2 ^ 63

/-- Modelled from the spec: the sample-type bit `INTEL_PT_BRANCH` of `state.type`
(`intel-pt-decoder.h`); the three sample-type bits are distinct single bits. -/
def INTEL_PT_BRANCH : Nat := 1

/-- Modelled from the spec: the sample-type bit `INTEL_PT_INSTRUCTION` of `state.type`. -/
def INTEL_PT_INSTRUCTION : Nat := 2

/-- Modelled from the spec: the sample-type bit `INTEL_PT_TRANSACTION` of `state.type`. -/
def INTEL_PT_TRANSACTION : Nat := 4

/-- Modelled from the spec: the flag bit `INTEL_PT_IN_TX` (`intel-pt-decoder.h`); the three
flag bits are distinct single bits. -/
def INTEL_PT_IN_TX : Nat := 1

/-- Modelled from the spec: the flag bit `INTEL_PT_ABORT_TX`. -/
def INTEL_PT_ABORT_TX : Nat := 2

/-- Modelled from the spec: the flag bit `INTEL_PT_ASYNC`. -/
def INTEL_PT_ASYNC : Nat := 4

/-- The macro `INTEL_PT_STATE_ERR1` when `INTEL_PT_STRICT` is not defined. -/
def INTEL_PT_STATE_ERR1 (decoder : intel_pt_decoder) : intel_pt_pkt_state := decoder.pkt_state

/-- The macro `INTEL_PT_STATE_ERR2` when `INTEL_PT_STRICT` is not defined. -/
def INTEL_PT_STATE_ERR2 : intel_pt_pkt_state := intel_pt_pkt_state.INTEL_PT_STATE_NO_IP

/-- The macro `INTEL_PT_STATE_ERR3` when `INTEL_PT_STRICT` is not defined. -/
def INTEL_PT_STATE_ERR3 : intel_pt_pkt_state := intel_pt_pkt_state.INTEL_PT_STATE_ERR_RESYNC

/-- The macro `INTEL_PT_STATE_ERR4` when `INTEL_PT_STRICT` is not defined. -/
def INTEL_PT_STATE_ERR4 : intel_pt_pkt_state := intel_pt_pkt_state.INTEL_PT_STATE_IN_SYNC

/-- What one call of the `walk_insn` callback leaves: its return value, the instruction
record, the instruction count and the value it stores in `decoder->ip`. -/
structure walk_insn_result where
  err : Int := 0
  insn : intel_pt_insn := {}
  insn_cnt : Nat := 0
  ip : Nat := 0

/-- The collaborators of the decoder that are not part of its sources:
* `walk_insn ip to_ip max_insn_cnt`: the `walk_insn` callback, called with the current
  `decoder->ip`;
* `pgd_ip`: the optional `pgd_ip` callback;
* `malloc`: what `malloc` hands out when `intel_pt_push` needs a block;
* `get_packet`: the unit decoder `intel_pt_get_packet` on the bytes from `buf` to
  `buf + len`, giving its return value and the packet it stores;
* `INTEL_PT_NEED_MORE_BYTES`, `INTEL_PT_PKT_MAX_SZ`, `INTEL_PT_PSB_STR`: constants of
  `intel-pt-pkt-decoder.h` (`INTEL_PT_PSB_LEN` is the length of `INTEL_PT_PSB_STR`);
* `lookahead decoder from_mtc`: the outcome of the look-ahead pass of
  `intel_pt_calc_cyc_to_tsc` started in the state `decoder`;
* `fp_div` and `fp_cyc`: the `double` operations `max_non_turbo_ratio_fp / cbr` and
  `timestamp + cycle_cnt * ratio` (converted back to `uint64_t`). -/
structure intel_pt_env where
  walk_insn : Nat → Nat → Nat → walk_insn_result := fun _ _ _ => {}
  pgd_ip : Option (Nat → Bool) := none
  malloc : intel_pt_stack → Option intel_pt_blk := fun _ => none
  get_packet : List Nat → Int × intel_pt_pkt := fun _ => (0, {})
  INTEL_PT_NEED_MORE_BYTES : Int := -1
  INTEL_PT_PKT_MAX_SZ : Nat := 16
  INTEL_PT_PSB_STR : List Nat := []
  lookahead : intel_pt_decoder → Bool → Option Nat := fun _ _ => none
  fp_div : Nat → Nat → Nat := fun _ _ => 0
  fp_cyc : Nat → Nat → Nat → Nat := fun t _ _ => t

/-- The addition `a + b` of C for a `uint64_t` value `a` and an `int` value `b`. -/
def add_u64_int (a : Nat) (b : Int) : Nat := (((a : Int) + b) % 2 ^ 64).toNat

/-- The addition `a + b` of C for two `int` values (an `int32_t` is an `int`), as the
machine computes it: in two's complement on 32 bits. -/
def add_int (a b : Int) : Int := (a + b + 2 ^ 31) % 2 ^ 32 - 2 ^ 31

/-- The function `intel_pt_calc_ip`. -/
def intel_pt_calc_ip (packet : intel_pt_pkt) (last_ip : Nat) : Nat :=
  if packet.count = 1 then (last_ip &&& 0xffffffffffff0000) ||| packet.payload
  else if packet.count = 2 then (last_ip &&& 0xffffffff00000000) ||| packet.payload
  else if packet.count = 3 then
    if packet.payload &&& 0x800000000000 ≠ 0 then packet.payload ||| 0xffff000000000000
    else packet.payload
  else if packet.count = 4 then (last_ip &&& 0xffff000000000000) ||| packet.payload
  else if packet.count = 6 then packet.payload
  else 0

/-- The function `intel_pt_set_last_ip`. -/
def intel_pt_set_last_ip (decoder : intel_pt_decoder) : intel_pt_decoder :=
  { decoder with
    last_ip := intel_pt_calc_ip decoder.packet decoder.last_ip
    have_last_ip := true }

/-- The function `intel_pt_set_ip`. -/
def intel_pt_set_ip (decoder : intel_pt_decoder) : intel_pt_decoder :=
  { intel_pt_set_last_ip decoder with ip := (intel_pt_set_last_ip decoder).last_ip }

/-- The function `intel_pt_bug`: its return value and the decoder afterwards. -/
def intel_pt_bug (decoder : intel_pt_decoder) : Int × intel_pt_decoder :=
  (-ENOSYS, { decoder with pkt_state := intel_pt_pkt_state.INTEL_PT_STATE_NO_PSB })

/-- The function `intel_pt_clear_tx_flags`. -/
def intel_pt_clear_tx_flags (decoder : intel_pt_decoder) : intel_pt_decoder :=
  { decoder with tx_flags := 0 }

/-- The function `intel_pt_update_in_tx`. -/
def intel_pt_update_in_tx (decoder : intel_pt_decoder) : intel_pt_decoder :=
  { decoder with tx_flags := (decoder.packet.payload &&& INTEL_PT_IN_TX) % 2 ^ 32 }

/-- The function `intel_pt_bad_packet`. -/
def intel_pt_bad_packet (decoder : intel_pt_decoder) : Int × intel_pt_decoder :=
  let decoder := intel_pt_clear_tx_flags decoder
  let decoder := { decoder with have_tma := false, pkt_len := 1, pkt_step := 1 }
  let decoder :=
    if decoder.pkt_state ≠ intel_pt_pkt_state.INTEL_PT_STATE_NO_PSB then
      { decoder with pkt_state := INTEL_PT_STATE_ERR1 decoder }
    else decoder
  (-EBADMSG, decoder)

/-- The function `intel_pt_get_data`. The callback `get_trace` returns the head of
`decoder.data`; once that list is used up it reports an empty buffer. -/
def intel_pt_get_data (decoder : intel_pt_decoder) : Int × intel_pt_decoder :=
  let decoder := { decoder with pkt_step := 0 }
  let r : get_trace_result := decoder.data.headD {}
  let decoder := { decoder with data := decoder.data.tail }
  if r.ret ≠ 0 then (r.ret, decoder)
  else
    let decoder := { decoder with buf := r.buffer.buf }
    if decoder.buf.length = 0 then (-ENODATA, decoder)
    else if r.buffer.consecutive = false then
      (-ENOLINK,
        { decoder with
          ip := 0
          pkt_state := intel_pt_pkt_state.INTEL_PT_STATE_NO_PSB
          ref_timestamp := r.buffer.ref_timestamp
          timestamp := 0
          have_tma := false
          state := { decoder.state with trace_nr := r.buffer.trace_nr } })
    else (0, decoder)

/-- The function `intel_pt_get_next_data`. -/
def intel_pt_get_next_data (decoder : intel_pt_decoder) : Int × intel_pt_decoder :=
  match decoder.next_buf with
  | none => intel_pt_get_data decoder
  | some next_buf => (0, { decoder with buf := next_buf, next_buf := none })

/-- The function `intel_pt_get_split_packet`. The bytes gathered in `temp_buf` are only
ever read through `decoder->buf`, so `buf` carries them. -/
def intel_pt_get_split_packet (env : intel_pt_env) (decoder : intel_pt_decoder) :
    Int × intel_pt_decoder :=
  let old : List Nat := decoder.buf
  let r := intel_pt_get_data decoder
  if r.1 ≠ 0 then
    (if r.1 < 0 then r.1 else -EINVAL, { r.2 with pos := (r.2.pos + old.length) % 2 ^ 64 })
  else
    let decoder := r.2
    let n : Nat := min (env.INTEL_PT_PKT_MAX_SZ - old.length) decoder.buf.length
    let temp : List Nat := old ++ decoder.buf.take n
    let p := env.get_packet temp
    let decoder := { decoder with packet := p.2 }
    if p.1 < (old.length : Int) then
      intel_pt_bad_packet { decoder with next_buf := some decoder.buf, buf := old }
    else
      (p.1,
        { decoder with
          next_buf := some (decoder.buf.drop (p.1.toNat - old.length))
          buf := temp.take p.1.toNat })

/-- The `do ... while` loop of `intel_pt_get_next_packet` with a bound on its iterations;
`none` when the bound is used up or `pkt_step` points outside the buffer. -/
def intel_pt_get_next_packet_loop (env : intel_pt_env) :
    Nat → intel_pt_decoder → Option (Int × intel_pt_decoder)
  | 0, _ => none
  | fuel + 1, decoder =>
    if decoder.pkt_step < 0 ∨ (decoder.buf.length : Int) < decoder.pkt_step then none
    else
      let decoder := { decoder with
        pos := (decoder.pos + decoder.pkt_step.toNat) % 2 ^ 64
        buf := decoder.buf.drop decoder.pkt_step.toNat }
      let r := if decoder.buf.length = 0 then intel_pt_get_next_data decoder else (0, decoder)
      if r.1 ≠ 0 then some r
      else
        let decoder := r.2
        let p := env.get_packet decoder.buf
        let decoder := { decoder with packet := p.2 }
        let split : Bool :=
          decide (p.1 = env.INTEL_PT_NEED_MORE_BYTES ∧
            decoder.buf.length < env.INTEL_PT_PKT_MAX_SZ ∧ decoder.next_buf.isNone = true)
        let r := if split then intel_pt_get_split_packet env decoder else (p.1, decoder)
        if split = true ∧ r.1 < 0 then some r
        else if r.1 ≤ 0 then some (intel_pt_bad_packet r.2)
        else
          let decoder := { r.2 with pkt_len := r.1, pkt_step := r.1 }
          if decoder.packet.type = intel_pt_pkt_type.INTEL_PT_PAD then
            intel_pt_get_next_packet_loop env fuel decoder
          else some (0, decoder)

/-- The function `intel_pt_get_next_packet`. -/
def intel_pt_get_next_packet (env : intel_pt_env) (fuel : Nat) (decoder : intel_pt_decoder) :
    Option (Int × intel_pt_decoder) :=
  intel_pt_get_next_packet_loop env fuel
    { decoder with last_packet_type := decoder.packet.type }

/-! ## Instruction walking -/

/-- The function `intel_pt_overflow`. -/
def intel_pt_overflow (decoder : intel_pt_decoder) : Int × intel_pt_decoder :=
  let decoder := intel_pt_clear_tx_flags decoder
  (-EOVERFLOW,
    { decoder with
      timestamp_insn_cnt := 0
      pkt_state := intel_pt_pkt_state.INTEL_PT_STATE_ERR_RESYNC
      overflow := true })

/-- The function `intel_pt_calc_cbr`. -/
def intel_pt_calc_cbr (env : intel_pt_env) (decoder : intel_pt_decoder) : intel_pt_decoder :=
  let cbr : Nat := decoder.packet.payload % 2 ^ 32
  if decoder.cbr = cbr then decoder
  else
    { decoder with
      cbr := cbr
      cbr_cyc_to_tsc := env.fp_div decoder.max_non_turbo_ratio_fp cbr }

/-- The function `intel_pt_calc_cyc_timestamp`. -/
def intel_pt_calc_cyc_timestamp (env : intel_pt_env) (decoder : intel_pt_decoder) :
    intel_pt_decoder :=
  let decoder := { decoder with
    have_cyc := true
    cycle_cnt := (decoder.cycle_cnt + decoder.packet.payload) % 2 ^ 64 }
  if decoder.cyc_ref_timestamp = 0 then decoder
  else if decoder.have_calc_cyc_to_tsc = false ∧ decoder.cbr = 0 then decoder
  else
    let timestamp : Nat :=
      if decoder.have_calc_cyc_to_tsc = true then
        env.fp_cyc decoder.cyc_ref_timestamp decoder.cycle_cnt decoder.calc_cyc_to_tsc
      else env.fp_cyc decoder.cyc_ref_timestamp decoder.cycle_cnt decoder.cbr_cyc_to_tsc
    let decoder :=
      if timestamp < decoder.timestamp then decoder
      else { decoder with timestamp := timestamp }
    { decoder with timestamp_insn_cnt := 0 }

/-- The function `intel_pt_next_period`: its return value and the decoder afterwards. -/
def intel_pt_next_period (decoder : intel_pt_decoder) : Nat × intel_pt_decoder :=
  let timestamp : Nat := (decoder.timestamp + decoder.timestamp_insn_cnt) % 2 ^ 64
  let masked_timestamp : Nat := timestamp &&& decoder.period_mask
  if decoder.continuous_period = true ∧ masked_timestamp ≠ decoder.last_masked_timestamp then
    (1, decoder)
  else if decoder.continuous_period = true then
    ((decoder.period_ticks + 2 ^ 64 - (timestamp - masked_timestamp)) % 2 ^ 64, decoder)
  else
    let timestamp : Nat := (timestamp + 1) % 2 ^ 64
    let masked_timestamp : Nat := timestamp &&& decoder.period_mask
    let decoder :=
      if masked_timestamp ≠ decoder.last_masked_timestamp then
        { decoder with last_masked_timestamp := masked_timestamp, continuous_period := true }
      else decoder
    ((decoder.period_ticks + 2 ^ 64 - (timestamp - masked_timestamp)) % 2 ^ 64, decoder)

/-- The function `intel_pt_next_sample`: its return value and the decoder afterwards. -/
def intel_pt_next_sample (decoder : intel_pt_decoder) : Nat × intel_pt_decoder :=
  match decoder.period_type with
  | intel_pt_period_type.INTEL_PT_PERIOD_INSTRUCTIONS =>
    ((decoder.period + 2 ^ 64 - decoder.period_insn_cnt) % 2 ^ 64, decoder)
  | intel_pt_period_type.INTEL_PT_PERIOD_TICKS => intel_pt_next_period decoder
  | intel_pt_period_type.INTEL_PT_PERIOD_NONE => (0, decoder)
  | intel_pt_period_type.INTEL_PT_PERIOD_MTC => (0, decoder)

/-- The function `intel_pt_sample_insn`. -/
def intel_pt_sample_insn (decoder : intel_pt_decoder) : intel_pt_decoder :=
  let decoder :=
    match decoder.period_type with
    | intel_pt_period_type.INTEL_PT_PERIOD_INSTRUCTIONS => { decoder with period_insn_cnt := 0 }
    | intel_pt_period_type.INTEL_PT_PERIOD_TICKS =>
      { decoder with
        last_masked_timestamp :=
          ((decoder.timestamp + decoder.timestamp_insn_cnt) % 2 ^ 64) &&& decoder.period_mask }
    | intel_pt_period_type.INTEL_PT_PERIOD_NONE => decoder
    | intel_pt_period_type.INTEL_PT_PERIOD_MTC => decoder
  { decoder with state := { decoder.state with type := decoder.state.type ||| INTEL_PT_INSTRUCTION } }

/-- The end of `intel_pt_walk_insn` from the label `out` (`reset = true`) or from the label
`out_no_progress` (`reset = false`). -/
def intel_pt_walk_insn_out (reset : Bool) (insn : intel_pt_insn) (decoder : intel_pt_decoder) :
    intel_pt_decoder :=
  let decoder := if reset then { decoder with no_progress := 0 } else decoder
  let decoder :=
    { decoder with state := { decoder.state with insn_op := insn.op, insn_len := insn.length } }
  if decoder.tx_flags &&& INTEL_PT_IN_TX ≠ 0 then
    { decoder with state := { decoder.state with flags := decoder.state.flags ||| INTEL_PT_IN_TX } }
  else decoder

/-- The part of `intel_pt_walk_insn` for an unconditional branch, with the loop guard: the
return value, whether `no_progress` is reset on the way out, and the decoder. Here `cnt`
is the local `cnt`, the value of `no_progress` before its increment. -/
def intel_pt_walk_insn_uncond (insn : intel_pt_insn) (decoder : intel_pt_decoder) :
    Int × Bool × intel_pt_decoder :=
  let cnt : Int := decoder.no_progress
  let to_ip : Nat := add_u64_int decoder.ip (add_int insn.length insn.rel)
  let d : intel_pt_decoder :=
    { decoder with
      no_progress := decoder.no_progress + 1
      state := { decoder.state with from_ip := decoder.ip, to_ip := to_ip }
      ip := to_ip }
  if cnt ≠ 0 then
    if cnt = 1 then
      (INTEL_PT_RETURN, false, { d with stuck_ip := to_ip, stuck_ip_prd := 1, stuck_ip_cnt := 1 })
    else if cnt > INTEL_PT_MAX_LOOPS ∨ to_ip = d.stuck_ip then
      (-ELOOP, true, { d with pkt_state := intel_pt_pkt_state.INTEL_PT_STATE_ERR_RESYNC })
    else if d.stuck_ip_cnt - 1 = 0 then
      (INTEL_PT_RETURN, false,
        { d with
          stuck_ip_prd := d.stuck_ip_prd + 1
          stuck_ip_cnt := d.stuck_ip_prd + 1
          stuck_ip := to_ip })
    else (INTEL_PT_RETURN, false, { d with stuck_ip_cnt := d.stuck_ip_cnt - 1 })
  else (INTEL_PT_RETURN, false, d)

/-- The function `intel_pt_walk_insn`: its return value, the instruction record the walker
filled in, and the decoder afterwards; `none` when a stack operation faults. -/
def intel_pt_walk_insn (env : intel_pt_env) (decoder : intel_pt_decoder) (ip : Nat) :
    Option (Int × intel_pt_insn × intel_pt_decoder) :=
  let decoder := if decoder.mtc_insn = false then { decoder with mtc_insn := true } else decoder
  let s := intel_pt_next_sample decoder
  let max_insn_cnt : Nat := s.1
  let decoder := s.2
  let res := env.walk_insn decoder.ip ip max_insn_cnt
  let insn := res.insn
  let decoder :=
    { decoder with
      ip := res.ip
      tot_insn_cnt := (decoder.tot_insn_cnt + res.insn_cnt) % 2 ^ 64
      timestamp_insn_cnt := (decoder.timestamp_insn_cnt + res.insn_cnt) % 2 ^ 64
      sample_insn_cnt := (decoder.sample_insn_cnt + res.insn_cnt) % 2 ^ 64
      period_insn_cnt := (decoder.period_insn_cnt + res.insn_cnt) % 2 ^ 64 }
  if res.err ≠ 0 then
    some (if res.err = -ENOENT then -ENOLINK else -EILSEQ, insn,
      { decoder with no_progress := 0, pkt_state := INTEL_PT_STATE_ERR2 })
  else if ip ≠ 0 ∧ decoder.ip = ip then
    some (-EAGAIN, insn, intel_pt_walk_insn_out true insn decoder)
  else
    let decoder :=
      if max_insn_cnt ≠ 0 ∧ res.insn_cnt ≥ max_insn_cnt then intel_pt_sample_insn decoder
      else decoder
    if insn.branch = intel_pt_insn_branch.INTEL_PT_BR_NO_BRANCH then
      let decoder :=
        { decoder with
          state := { decoder.state with
            type := INTEL_PT_INSTRUCTION, from_ip := decoder.ip, to_ip := 0 }
          ip := add_u64_int decoder.ip insn.length }
      some (INTEL_PT_RETURN, insn, intel_pt_walk_insn_out true insn decoder)
    else
      let stacked : Option (Int × intel_pt_decoder) :=
        if insn.op = intel_pt_insn_op.INTEL_PT_OP_CALL then
          if insn.branch ≠ intel_pt_insn_branch.INTEL_PT_BR_UNCONDITIONAL ∨ insn.rel ≠ 0 then
            match intel_pt_push decoder.stack (add_u64_int decoder.ip insn.length)
                (env.malloc decoder.stack) with
            | none => none
            | some (err, stack) => some (err, { decoder with stack := stack })
          else some (0, decoder)
        else if insn.op = intel_pt_insn_op.INTEL_PT_OP_RET then
          match intel_pt_pop decoder.stack with
          | none => none
          | some (ret_addr, stack) => some (0, { decoder with ret_addr := ret_addr, stack := stack })
        else some (0, decoder)
      match stacked with
      | none => none
      | some (err, decoder) =>
        if err ≠ 0 then some (err, insn, intel_pt_walk_insn_out true insn decoder)
        else if insn.branch = intel_pt_insn_branch.INTEL_PT_BR_UNCONDITIONAL then
          let r := intel_pt_walk_insn_uncond insn decoder
          some (r.1, insn, intel_pt_walk_insn_out r.2.1 insn r.2.2)
        else some (0, insn, intel_pt_walk_insn_out true insn decoder)

/-- The function `intel_pt_walk_fup`, its loop bounded by `fuel`. -/
def intel_pt_walk_fup (env : intel_pt_env) :
    Nat → intel_pt_decoder → Option (Int × intel_pt_decoder)
  | 0, _ => none
  | fuel + 1, decoder =>
    match intel_pt_walk_insn env decoder decoder.last_ip with
    | none => none
    | some (err, insn, d) =>
      if err = INTEL_PT_RETURN then some (0, d)
      else if err = -EAGAIN then
        if d.set_fup_tx_flags = true then
          some (0,
            { d with
              set_fup_tx_flags := false
              tx_flags := d.fup_tx_flags
              state := { d.state with
                type := INTEL_PT_TRANSACTION
                from_ip := d.ip
                to_ip := 0
                flags := d.fup_tx_flags } })
        else some (err, d)
      else
        let d := { d with set_fup_tx_flags := false }
        if err ≠ 0 then some (err, d)
        else if insn.branch = intel_pt_insn_branch.INTEL_PT_BR_INDIRECT then
          some (-ENOENT, { d with pkt_state := intel_pt_pkt_state.INTEL_PT_STATE_ERR_RESYNC })
        else if insn.branch = intel_pt_insn_branch.INTEL_PT_BR_CONDITIONAL then
          some (-ENOENT, { d with pkt_state := intel_pt_pkt_state.INTEL_PT_STATE_ERR_RESYNC })
        else
          -- the walk goes on from `decoder->last_ip`, which `intel_pt_bug` leaves alone
          intel_pt_walk_fup env fuel (intel_pt_bug d).2

/-- The function `intel_pt_walk_tip`. -/
def intel_pt_walk_tip (env : intel_pt_env) (decoder : intel_pt_decoder) :
    Option (Int × intel_pt_decoder) :=
  match intel_pt_walk_insn env decoder 0 with
  | none => none
  | some (err, insn, d) =>
    let leaves : Bool :=
      match env.pgd_ip with
      | none => false
      | some pgd_ip =>
        decide (err = INTEL_PT_RETURN ∧
          d.pkt_state = intel_pt_pkt_state.INTEL_PT_STATE_TIP_PGD ∧
          d.state.type &&& INTEL_PT_BRANCH ≠ 0) && pgd_ip d.state.to_ip
    if leaves then
      some (0,
        { d with
          no_progress := 0
          pge := false
          continuous_period := false
          pkt_state := intel_pt_pkt_state.INTEL_PT_STATE_IN_SYNC
          state := { d.state with to_ip := 0 } })
    else if err = INTEL_PT_RETURN then some (0, d)
    else if err ≠ 0 then some (err, d)
    else if insn.branch = intel_pt_insn_branch.INTEL_PT_BR_INDIRECT then
      if d.pkt_state = intel_pt_pkt_state.INTEL_PT_STATE_TIP_PGD then
        let d := { d with
          pge := false
          continuous_period := false
          pkt_state := intel_pt_pkt_state.INTEL_PT_STATE_IN_SYNC
          state := { d.state with from_ip := d.ip, to_ip := 0 } }
        if d.packet.count ≠ (0 : Int) then some (0, { d with ip := d.last_ip })
        else some (0, d)
      else
        let d := { d with
          pkt_state := intel_pt_pkt_state.INTEL_PT_STATE_IN_SYNC
          state := { d.state with from_ip := d.ip } }
        if d.packet.count = (0 : Int) then
          some (0, { d with state := { d.state with to_ip := 0 } })
        else some (0, { d with state := { d.state with to_ip := d.last_ip }, ip := d.last_ip })
    else if insn.branch = intel_pt_insn_branch.INTEL_PT_BR_CONDITIONAL then
      let to_ip : Nat := add_u64_int d.ip (insn.length + insn.rel)
      let leaves : Bool :=
        match env.pgd_ip with
        | none => false
        | some pgd_ip =>
          decide (d.pkt_state = intel_pt_pkt_state.INTEL_PT_STATE_TIP_PGD) && pgd_ip to_ip
      if leaves then
        some (0,
          { d with
            pge := false
            continuous_period := false
            pkt_state := intel_pt_pkt_state.INTEL_PT_STATE_IN_SYNC
            ip := to_ip
            state := { d.state with from_ip := to_ip, to_ip := 0 } })
      else
        some (-ENOENT, { d with pkt_state := intel_pt_pkt_state.INTEL_PT_STATE_ERR_RESYNC })
    else some (intel_pt_bug d)

/-- The part of `intel_pt_walk_tnt` for a RET instruction: its return value and the
decoder afterwards. -/
def intel_pt_walk_tnt_ret (d : intel_pt_decoder) : Int × intel_pt_decoder :=
  if d.return_compression = false then (-ENOENT, { d with pkt_state := INTEL_PT_STATE_ERR3 })
  else if d.ret_addr = 0 then (-ENOENT, { d with pkt_state := INTEL_PT_STATE_ERR3 })
  else if d.tnt.payload &&& BIT63 = 0 then
    (-ENOENT, { d with pkt_state := INTEL_PT_STATE_ERR3 })
  else
    let d := { d with tnt := { d.tnt with count := d.tnt.count - 1 } }
    let d :=
      { d with
        pkt_state :=
          if d.tnt.count ≠ 0 then intel_pt_pkt_state.INTEL_PT_STATE_TNT_CONT
          else intel_pt_pkt_state.INTEL_PT_STATE_IN_SYNC }
    let d := { d with tnt := { d.tnt with payload := (d.tnt.payload <<< 1) % 2 ^ 64 } }
    (0,
      { d with
        state := { d.state with from_ip := d.ip, to_ip := d.ret_addr }
        ip := d.ret_addr })

/-- The part of `intel_pt_walk_tnt` for a conditional branch: `some` of the return value
and the decoder when the function returns, `none` with the decoder when the loop goes on
(`continue`). -/
def intel_pt_walk_tnt_cond (insn : intel_pt_insn) (d : intel_pt_decoder) :
    Option Int × intel_pt_decoder :=
  let d := { d with tnt := { d.tnt with count := d.tnt.count - 1 } }
  let d :=
    { d with
      pkt_state :=
        if d.tnt.count ≠ 0 then intel_pt_pkt_state.INTEL_PT_STATE_TNT_CONT
        else intel_pt_pkt_state.INTEL_PT_STATE_IN_SYNC }
  if d.tnt.payload &&& BIT63 ≠ 0 then
    (some 0,
      { d with
        tnt := { d.tnt with payload := (d.tnt.payload <<< 1) % 2 ^ 64 }
        state := { d.state with
          from_ip := d.ip, to_ip := add_u64_int d.ip (add_int insn.length insn.rel) }
        ip := add_u64_int d.ip (add_int insn.length insn.rel) })
  else if d.state.type &&& INTEL_PT_INSTRUCTION ≠ 0 then
    (some 0,
      { d with
        tnt := { d.tnt with payload := (d.tnt.payload <<< 1) % 2 ^ 64 }
        state := { d.state with type := INTEL_PT_INSTRUCTION, from_ip := d.ip, to_ip := 0 }
        ip := add_u64_int d.ip insn.length })
  else
    let d := { d with ip := add_u64_int d.ip insn.length }
    if d.tnt.count = 0 then (some (-EAGAIN), d)
    else (none, { d with tnt := { d.tnt with payload := (d.tnt.payload <<< 1) % 2 ^ 64 } })

/-- The function `intel_pt_walk_tnt`, its loop bounded by `fuel`. -/
def intel_pt_walk_tnt (env : intel_pt_env) :
    Nat → intel_pt_decoder → Option (Int × intel_pt_decoder)
  | 0, _ => none
  | fuel + 1, decoder =>
    match intel_pt_walk_insn env decoder 0 with
    | none => none
    | some (err, insn, d) =>
      if err = INTEL_PT_RETURN then some (0, d)
      else if err ≠ 0 then some (err, d)
      else if insn.op = intel_pt_insn_op.INTEL_PT_OP_RET then some (intel_pt_walk_tnt_ret d)
      else if insn.branch = intel_pt_insn_branch.INTEL_PT_BR_INDIRECT then
        match intel_pt_get_next_packet env fuel d with
        | none => none
        | some (err, d) =>
          if err ≠ 0 then some (err, d)
          else if d.packet.type ≠ intel_pt_pkt_type.INTEL_PT_TIP ∨ d.packet.count = 0 then
            some (-ENOENT, { d with pkt_state := INTEL_PT_STATE_ERR3, pkt_step := 0 })
          else
            let d := intel_pt_set_last_ip d
            some (0,
              { d with
                state := { d.state with from_ip := d.ip, to_ip := d.last_ip }
                ip := d.last_ip })
      else if insn.branch = intel_pt_insn_branch.INTEL_PT_BR_CONDITIONAL then
        match intel_pt_walk_tnt_cond insn d with
        | (some err, d) => some (err, d)
        | (none, d) => intel_pt_walk_tnt env fuel d
      else some (intel_pt_bug d)

/-! ## Packet walking -/

/-- The function `intel_pt_mode_tsx`: its return value, the value left in `*no_tip`, and
the decoder afterwards. -/
def intel_pt_mode_tsx (env : intel_pt_env) (fuel : Nat) (no_tip : Bool)
    (decoder : intel_pt_decoder) : Option (Int × Bool × intel_pt_decoder) :=
  let fup_tx_flags : Nat :=
    (decoder.packet.payload &&& (INTEL_PT_IN_TX ||| INTEL_PT_ABORT_TX)) % 2 ^ 32
  match intel_pt_get_next_packet env fuel decoder with
  | none => none
  | some (err, d) =>
    if err ≠ 0 then some (err, no_tip, d)
    else if d.packet.type = intel_pt_pkt_type.INTEL_PT_FUP then
      some (0, (if fup_tx_flags &&& INTEL_PT_ABORT_TX = 0 then true else no_tip),
        { d with fup_tx_flags := fup_tx_flags, set_fup_tx_flags := true })
    else some (0, no_tip, intel_pt_update_in_tx d)

/-- The `switch` of `intel_pt_walk_psbend` on the packet just fetched: `some` of the return
value when the function returns, `none` when the loop goes on. -/
def intel_pt_walk_psbend_packet (env : intel_pt_env) (d : intel_pt_decoder) :
    Option Int × intel_pt_decoder :=
  match d.packet.type with
  | intel_pt_pkt_type.INTEL_PT_PSBEND => (some 0, d)
  | intel_pt_pkt_type.INTEL_PT_TIP_PGD => (some (-EAGAIN), { d with have_tma := false })
  | intel_pt_pkt_type.INTEL_PT_TIP_PGE => (some (-EAGAIN), { d with have_tma := false })
  | intel_pt_pkt_type.INTEL_PT_TIP => (some (-EAGAIN), { d with have_tma := false })
  | intel_pt_pkt_type.INTEL_PT_TNT => (some (-EAGAIN), { d with have_tma := false })
  | intel_pt_pkt_type.INTEL_PT_TRACESTOP => (some (-EAGAIN), { d with have_tma := false })
  | intel_pt_pkt_type.INTEL_PT_BAD => (some (-EAGAIN), { d with have_tma := false })
  | intel_pt_pkt_type.INTEL_PT_PSB => (some (-EAGAIN), { d with have_tma := false })
  | intel_pt_pkt_type.INTEL_PT_OVF => (some (intel_pt_overflow d).1, (intel_pt_overflow d).2)
  | intel_pt_pkt_type.INTEL_PT_TSC =>
    (none, intel_pt_calc_tsc_timestamp d (env.lookahead d false))
  | intel_pt_pkt_type.INTEL_PT_TMA => (none, intel_pt_calc_tma d)
  | intel_pt_pkt_type.INTEL_PT_CBR => (none, intel_pt_calc_cbr env d)
  | intel_pt_pkt_type.INTEL_PT_MODE_EXEC =>
    (none, { d with exec_mode := ((d.packet.payload : Int) + 2 ^ 31) % 2 ^ 32 - 2 ^ 31 })
  | intel_pt_pkt_type.INTEL_PT_PIP => (none, { d with cr3 := d.packet.payload &&& (BIT63 - 1) })
  | intel_pt_pkt_type.INTEL_PT_FUP =>
    (none,
      if d.packet.count ≠ (0 : Int) then { intel_pt_set_last_ip d with pge := true }
      else { d with pge := true })
  | intel_pt_pkt_type.INTEL_PT_MODE_TSX => (none, intel_pt_update_in_tx d)
  | intel_pt_pkt_type.INTEL_PT_MTC =>
    let d1 := intel_pt_calc_mtc_timestamp d (env.lookahead d true)
    (none,
      if d1.period_type = intel_pt_period_type.INTEL_PT_PERIOD_MTC then
        { d1 with state := { d1.state with type := d1.state.type ||| INTEL_PT_INSTRUCTION } }
      else d1)
  | intel_pt_pkt_type.INTEL_PT_CYC => (none, d)
  | intel_pt_pkt_type.INTEL_PT_VMCS => (none, d)
  | intel_pt_pkt_type.INTEL_PT_MNT => (none, d)
  | intel_pt_pkt_type.INTEL_PT_PAD => (none, d)

/-- The function `intel_pt_walk_psbend`, its loop bounded by `fuel`. -/
def intel_pt_walk_psbend (env : intel_pt_env) :
    Nat → intel_pt_decoder → Option (Int × intel_pt_decoder)
  | 0, _ => none
  | fuel + 1, decoder =>
    match intel_pt_get_next_packet env fuel decoder with
    | none => none
    | some (err, d) =>
      if err ≠ 0 then some (err, d)
      else
        match intel_pt_walk_psbend_packet env d with
        | (some r, d) => some (r, d)
        | (none, d) => intel_pt_walk_psbend env fuel d

/-- The start of `intel_pt_walk_fup_tip`, before its loop. -/
def intel_pt_walk_fup_tip_flags (d : intel_pt_decoder) : intel_pt_decoder :=
  if d.tx_flags &&& INTEL_PT_ABORT_TX ≠ 0 then
    { d with
      tx_flags := 0
      state := { d.state with
        flags :=
          (d.state.flags &&& (2 ^ 32 - 1 - INTEL_PT_IN_TX)) ||| INTEL_PT_ABORT_TX } }
  else { d with state := { d.state with flags := d.state.flags ||| INTEL_PT_ASYNC } }

/-- The `switch` of `intel_pt_walk_fup_tip` on the packet just fetched: `some` of the
return value when the function returns, `none` when the loop goes on. -/
def intel_pt_walk_fup_tip_packet (env : intel_pt_env) (d : intel_pt_decoder) :
    Option Int × intel_pt_decoder :=
  match d.packet.type with
  | intel_pt_pkt_type.INTEL_PT_TNT => (some (-ENOENT), { d with pkt_state := INTEL_PT_STATE_ERR3 })
  | intel_pt_pkt_type.INTEL_PT_FUP => (some (-ENOENT), { d with pkt_state := INTEL_PT_STATE_ERR3 })
  | intel_pt_pkt_type.INTEL_PT_TRACESTOP =>
    (some (-ENOENT), { d with pkt_state := INTEL_PT_STATE_ERR3 })
  | intel_pt_pkt_type.INTEL_PT_PSB => (some (-ENOENT), { d with pkt_state := INTEL_PT_STATE_ERR3 })
  | intel_pt_pkt_type.INTEL_PT_TSC => (some (-ENOENT), { d with pkt_state := INTEL_PT_STATE_ERR3 })
  | intel_pt_pkt_type.INTEL_PT_TMA => (some (-ENOENT), { d with pkt_state := INTEL_PT_STATE_ERR3 })
  | intel_pt_pkt_type.INTEL_PT_CBR => (some (-ENOENT), { d with pkt_state := INTEL_PT_STATE_ERR3 })
  | intel_pt_pkt_type.INTEL_PT_MODE_TSX =>
    (some (-ENOENT), { d with pkt_state := INTEL_PT_STATE_ERR3 })
  | intel_pt_pkt_type.INTEL_PT_BAD => (some (-ENOENT), { d with pkt_state := INTEL_PT_STATE_ERR3 })
  | intel_pt_pkt_type.INTEL_PT_PSBEND =>
    (some (-ENOENT), { d with pkt_state := INTEL_PT_STATE_ERR3 })
  | intel_pt_pkt_type.INTEL_PT_OVF => (some (intel_pt_overflow d).1, (intel_pt_overflow d).2)
  | intel_pt_pkt_type.INTEL_PT_TIP_PGD =>
    let d1 := { d with state := { d.state with from_ip := d.ip, to_ip := 0 } }
    let d2 := if d1.packet.count ≠ (0 : Int) then intel_pt_set_ip d1 else d1
    (some 0, { d2 with pge := false, continuous_period := false })
  | intel_pt_pkt_type.INTEL_PT_TIP_PGE =>
    let d1 := { d with pge := true, state := { d.state with from_ip := 0 } }
    if d1.packet.count = (0 : Int) then
      (some 0, { d1 with state := { d1.state with to_ip := 0 } })
    else
      (some 0,
        { intel_pt_set_ip d1 with
          state := { (intel_pt_set_ip d1).state with to_ip := (intel_pt_set_ip d1).ip } })
  | intel_pt_pkt_type.INTEL_PT_TIP =>
    let d1 := { d with state := { d.state with from_ip := d.ip } }
    if d1.packet.count = (0 : Int) then
      (some 0, { d1 with state := { d1.state with to_ip := 0 } })
    else
      (some 0,
        { intel_pt_set_ip d1 with
          state := { (intel_pt_set_ip d1).state with to_ip := (intel_pt_set_ip d1).ip } })
  | intel_pt_pkt_type.INTEL_PT_PIP => (none, { d with cr3 := d.packet.payload &&& (BIT63 - 1) })
  | intel_pt_pkt_type.INTEL_PT_MTC =>
    let d1 := intel_pt_calc_mtc_timestamp d (env.lookahead d true)
    (none,
      if d1.period_type = intel_pt_period_type.INTEL_PT_PERIOD_MTC then
        { d1 with state := { d1.state with type := d1.state.type ||| INTEL_PT_INSTRUCTION } }
      else d1)
  | intel_pt_pkt_type.INTEL_PT_CYC => (none, intel_pt_calc_cyc_timestamp env d)
  | intel_pt_pkt_type.INTEL_PT_MODE_EXEC =>
    (none, { d with exec_mode := ((d.packet.payload : Int) + 2 ^ 31) % 2 ^ 32 - 2 ^ 31 })
  | intel_pt_pkt_type.INTEL_PT_VMCS => (none, d)
  | intel_pt_pkt_type.INTEL_PT_MNT => (none, d)
  | intel_pt_pkt_type.INTEL_PT_PAD => (none, d)

/-- The loop of `intel_pt_walk_fup_tip`, bounded by `fuel`. -/
def intel_pt_walk_fup_tip_loop (env : intel_pt_env) :
    Nat → intel_pt_decoder → Option (Int × intel_pt_decoder)
  | 0, _ => none
  | fuel + 1, decoder =>
    match intel_pt_get_next_packet env fuel decoder with
    | none => none
    | some (err, d) =>
      if err ≠ 0 then some (err, d)
      else
        match intel_pt_walk_fup_tip_packet env d with
        | (some r, d) => some (r, d)
        | (none, d) => intel_pt_walk_fup_tip_loop env fuel d

/-- The function `intel_pt_walk_fup_tip`. -/
def intel_pt_walk_fup_tip (env : intel_pt_env) (fuel : Nat) (decoder : intel_pt_decoder) :
    Option (Int × intel_pt_decoder) :=
  intel_pt_walk_fup_tip_loop env fuel (intel_pt_walk_fup_tip_flags decoder)

/-- How the `switch` of `intel_pt_walk_trace` leaves: by `return`, by `break` (the loop
fetches the next packet) or by `goto next` (the packet now in `decoder->packet` is
dispatched again). The flag is the local `no_tip`. -/
inductive walk_trace_step where
  | ret (err : Int) (decoder : intel_pt_decoder)
  | brk (no_tip : Bool) (decoder : intel_pt_decoder)
  | next (no_tip : Bool) (decoder : intel_pt_decoder)

/-- The case `INTEL_PT_FUP` of the `switch` of `intel_pt_walk_trace`. -/
def intel_pt_walk_trace_fup (env : intel_pt_env) (fuel : Nat) (no_tip : Bool)
    (d : intel_pt_decoder) : Option walk_trace_step :=
  if d.packet.count = (0 : Int) then some (walk_trace_step.brk false d)
  else
    match intel_pt_walk_fup env fuel (intel_pt_set_last_ip d) with
    | none => none
    | some (err, d1) =>
      if err ≠ -EAGAIN then
        if err ≠ 0 then some (walk_trace_step.ret err d1)
        else if no_tip then
          some (walk_trace_step.ret 0
            { d1 with pkt_state := intel_pt_pkt_state.INTEL_PT_STATE_FUP_NO_TIP })
        else
          some (walk_trace_step.ret 0
            { d1 with pkt_state := intel_pt_pkt_state.INTEL_PT_STATE_FUP })
      else if no_tip then some (walk_trace_step.brk false d1)
      else
        match intel_pt_walk_fup_tip env fuel d1 with
        | none => none
        | some (err, d2) => some (walk_trace_step.ret err d2)

/-- The case `INTEL_PT_MTC` of the `switch` of `intel_pt_walk_trace`. -/
def intel_pt_walk_trace_mtc (env : intel_pt_env) (no_tip : Bool) (d : intel_pt_decoder) :
    walk_trace_step :=
  let d1 := intel_pt_calc_mtc_timestamp d (env.lookahead d true)
  if d1.period_type ≠ intel_pt_period_type.INTEL_PT_PERIOD_MTC then walk_trace_step.brk no_tip d1
  else if d1.mtc_insn = false then walk_trace_step.brk no_tip d1
  else if d1.timestamp = 0 then walk_trace_step.brk no_tip { d1 with mtc_insn := false }
  else
    walk_trace_step.ret 0
      { d1 with
        mtc_insn := false
        state := { d1.state with type := INTEL_PT_INSTRUCTION, from_ip := d1.ip, to_ip := 0 } }

/-- The `switch` of `intel_pt_walk_trace` on the packet in `decoder->packet`. -/
def intel_pt_walk_trace_packet (env : intel_pt_env) (fuel : Nat) (no_tip : Bool)
    (d : intel_pt_decoder) : Option walk_trace_step :=
  match d.packet.type with
  | intel_pt_pkt_type.INTEL_PT_TNT =>
    if d.packet.count = (0 : Int) then some (walk_trace_step.brk no_tip d)
    else
      match intel_pt_walk_tnt env fuel
          { d with tnt := d.packet, pkt_state := intel_pt_pkt_state.INTEL_PT_STATE_TNT } with
      | none => none
      | some (err, d1) =>
        if err = -EAGAIN then some (walk_trace_step.brk no_tip d1)
        else some (walk_trace_step.ret err d1)
  | intel_pt_pkt_type.INTEL_PT_TIP_PGD =>
    let d1 := if d.packet.count ≠ (0 : Int) then intel_pt_set_last_ip d else d
    match intel_pt_walk_tip env
        { d1 with pkt_state := intel_pt_pkt_state.INTEL_PT_STATE_TIP_PGD } with
    | none => none
    | some (err, d2) => some (walk_trace_step.ret err d2)
  | intel_pt_pkt_type.INTEL_PT_TIP_PGE =>
    if d.packet.count = (0 : Int) then some (walk_trace_step.brk no_tip { d with pge := true })
    else
      let d1 := intel_pt_set_ip { d with pge := true }
      some (walk_trace_step.ret 0
        { d1 with state := { d1.state with from_ip := 0, to_ip := d1.ip } })
  | intel_pt_pkt_type.INTEL_PT_OVF =>
    some (walk_trace_step.ret (intel_pt_overflow d).1 (intel_pt_overflow d).2)
  | intel_pt_pkt_type.INTEL_PT_TIP =>
    let d1 := if d.packet.count ≠ (0 : Int) then intel_pt_set_last_ip d else d
    match intel_pt_walk_tip env
        { d1 with pkt_state := intel_pt_pkt_state.INTEL_PT_STATE_TIP } with
    | none => none
    | some (err, d2) => some (walk_trace_step.ret err d2)
  | intel_pt_pkt_type.INTEL_PT_FUP => intel_pt_walk_trace_fup env fuel no_tip d
  | intel_pt_pkt_type.INTEL_PT_TRACESTOP =>
    some (walk_trace_step.brk no_tip
      { intel_pt_clear_tx_flags d with
        pge := false
        continuous_period := false
        have_tma := false })
  | intel_pt_pkt_type.INTEL_PT_PSB =>
    match intel_pt_clear_stack d.stack with
    | none => none
    | some stack =>
      match intel_pt_walk_psbend env fuel
          { d with last_ip := 0, have_last_ip := true, stack := stack } with
      | none => none
      | some (err, d1) =>
        if err = -EAGAIN then some (walk_trace_step.next no_tip d1)
        else if err ≠ 0 then some (walk_trace_step.ret err d1)
        else some (walk_trace_step.brk no_tip d1)
  | intel_pt_pkt_type.INTEL_PT_PIP =>
    some (walk_trace_step.brk no_tip { d with cr3 := d.packet.payload &&& (BIT63 - 1) })
  | intel_pt_pkt_type.INTEL_PT_MTC => some (intel_pt_walk_trace_mtc env no_tip d)
  | intel_pt_pkt_type.INTEL_PT_TSC =>
    some (walk_trace_step.brk no_tip (intel_pt_calc_tsc_timestamp d (env.lookahead d false)))
  | intel_pt_pkt_type.INTEL_PT_TMA => some (walk_trace_step.brk no_tip (intel_pt_calc_tma d))
  | intel_pt_pkt_type.INTEL_PT_CYC =>
    some (walk_trace_step.brk no_tip (intel_pt_calc_cyc_timestamp env d))
  | intel_pt_pkt_type.INTEL_PT_CBR => some (walk_trace_step.brk no_tip (intel_pt_calc_cbr env d))
  | intel_pt_pkt_type.INTEL_PT_MODE_EXEC =>
    some (walk_trace_step.brk no_tip
      { d with exec_mode := ((d.packet.payload : Int) + 2 ^ 31) % 2 ^ 32 - 2 ^ 31 })
  | intel_pt_pkt_type.INTEL_PT_MODE_TSX =>
    if d.pge = false then some (walk_trace_step.brk no_tip (intel_pt_update_in_tx d))
    else
      match intel_pt_mode_tsx env fuel no_tip d with
      | none => none
      | some (err, no_tip1, d1) =>
        if err ≠ 0 then some (walk_trace_step.ret err d1)
        else some (walk_trace_step.next no_tip1 d1)
  | intel_pt_pkt_type.INTEL_PT_BAD =>
    some (walk_trace_step.ret (intel_pt_bug d).1 (intel_pt_bug d).2)
  | intel_pt_pkt_type.INTEL_PT_PSBEND => some (walk_trace_step.brk no_tip d)
  | intel_pt_pkt_type.INTEL_PT_VMCS => some (walk_trace_step.brk no_tip d)
  | intel_pt_pkt_type.INTEL_PT_MNT => some (walk_trace_step.brk no_tip d)
  | intel_pt_pkt_type.INTEL_PT_PAD => some (walk_trace_step.brk no_tip d)

/-- The loop of `intel_pt_walk_trace`, bounded by `fuel`; `at_next` says that the loop is
entered at the label `next`, without fetching a packet. -/
def intel_pt_walk_trace_loop (env : intel_pt_env) :
    Nat → Bool → Bool → intel_pt_decoder → Option (Int × intel_pt_decoder)
  | 0, _, _, _ => none
  | fuel + 1, no_tip, at_next, decoder =>
    match (if at_next then some (0, decoder) else intel_pt_get_next_packet env fuel decoder) with
    | none => none
    | some (err, d) =>
      if err ≠ 0 then some (err, d)
      else
        match intel_pt_walk_trace_packet env fuel no_tip d with
        | none => none
        | some (walk_trace_step.ret r d1) => some (r, d1)
        | some (walk_trace_step.brk no_tip1 d1) =>
          intel_pt_walk_trace_loop env fuel no_tip1 false d1
        | some (walk_trace_step.next no_tip1 d1) =>
          intel_pt_walk_trace_loop env fuel no_tip1 true d1

/-- The function `intel_pt_walk_trace`. -/
def intel_pt_walk_trace (env : intel_pt_env) (fuel : Nat) (decoder : intel_pt_decoder) :
    Option (Int × intel_pt_decoder) :=
  intel_pt_walk_trace_loop env fuel false false decoder

/-! ## Synchronisation and the decode step -/

/-- The function `intel_pt_have_ip`. -/
def intel_pt_have_ip (d : intel_pt_decoder) : Bool :=
  decide (d.packet.count ≠ 0 ∧
    (d.have_last_ip = true ∨ d.packet.count = 3 ∨ d.packet.count = 6))

/-- The timing, PIP and MODE cases shared by the `switch` of `intel_pt_walk_psb` and of
`intel_pt_walk_to_ip`: the decoder after the case, or `none` for a packet of another
kind. -/
def intel_pt_walk_sync_timing (env : intel_pt_env) (d : intel_pt_decoder) :
    Option intel_pt_decoder :=
  match d.packet.type with
  | intel_pt_pkt_type.INTEL_PT_MTC =>
    some (intel_pt_calc_mtc_timestamp d (env.lookahead d true))
  | intel_pt_pkt_type.INTEL_PT_TSC =>
    some (intel_pt_calc_tsc_timestamp d (env.lookahead d false))
  | intel_pt_pkt_type.INTEL_PT_TMA => some (intel_pt_calc_tma d)
  | intel_pt_pkt_type.INTEL_PT_CYC => some (intel_pt_calc_cyc_timestamp env d)
  | intel_pt_pkt_type.INTEL_PT_CBR => some (intel_pt_calc_cbr env d)
  | intel_pt_pkt_type.INTEL_PT_PIP => some { d with cr3 := d.packet.payload &&& (BIT63 - 1) }
  | intel_pt_pkt_type.INTEL_PT_MODE_EXEC =>
    some { d with exec_mode := ((d.packet.payload : Int) + 2 ^ 31) % 2 ^ 32 - 2 ^ 31 }
  | intel_pt_pkt_type.INTEL_PT_MODE_TSX => some (intel_pt_update_in_tx d)
  | _ => none

/-- The `switch` of `intel_pt_walk_psb` on the packet just fetched: `some` of the return
value when the function returns, `none` when the loop goes on. -/
def intel_pt_walk_psb_packet (env : intel_pt_env) (d : intel_pt_decoder) :
    Option Int × intel_pt_decoder :=
  match intel_pt_walk_sync_timing env d with
  | some d1 => (none, d1)
  | none =>
    match d.packet.type with
    | intel_pt_pkt_type.INTEL_PT_TIP_PGD => (some (-ENOENT), { d with continuous_period := false })
    | intel_pt_pkt_type.INTEL_PT_TIP_PGE => (some (-ENOENT), d)
    | intel_pt_pkt_type.INTEL_PT_TIP => (some (-ENOENT), d)
    | intel_pt_pkt_type.INTEL_PT_FUP =>
      (none,
        if intel_pt_have_ip { d with pge := true } then intel_pt_set_ip { d with pge := true }
        else { d with pge := true })
    | intel_pt_pkt_type.INTEL_PT_TRACESTOP =>
      (some (-ENOENT),
        { intel_pt_clear_tx_flags d with
          pge := false
          continuous_period := false
          have_tma := false
          pkt_state := if d.ip ≠ 0 then INTEL_PT_STATE_ERR4 else INTEL_PT_STATE_ERR3 })
    | intel_pt_pkt_type.INTEL_PT_TNT =>
      (some (-ENOENT),
        { d with
          have_tma := false
          pkt_state := if d.ip ≠ 0 then INTEL_PT_STATE_ERR4 else INTEL_PT_STATE_ERR3 })
    | intel_pt_pkt_type.INTEL_PT_BAD => (some (intel_pt_bug d).1, (intel_pt_bug d).2)
    | intel_pt_pkt_type.INTEL_PT_OVF => (some (intel_pt_overflow d).1, (intel_pt_overflow d).2)
    | intel_pt_pkt_type.INTEL_PT_PSBEND => (some 0, d)
    | _ => (none, d)

/-- The function `intel_pt_walk_psb`, its loop bounded by `fuel`. -/
def intel_pt_walk_psb (env : intel_pt_env) :
    Nat → intel_pt_decoder → Option (Int × intel_pt_decoder)
  | 0, _ => none
  | fuel + 1, decoder =>
    match intel_pt_get_next_packet env fuel decoder with
    | none => none
    | some (err, d) =>
      if err ≠ 0 then some (err, d)
      else
        match intel_pt_walk_psb_packet env d with
        | (some r, d) => some (r, d)
        | (none, d) => intel_pt_walk_psb env fuel d

/-- The `switch` of `intel_pt_walk_to_ip` on the packet just fetched: `some` of the return
value when the function returns, `none` when the loop goes on; the outer `none` when the
bound `fuel` is used up or the stack faults. -/
def intel_pt_walk_to_ip_packet (env : intel_pt_env) (fuel : Nat) (d : intel_pt_decoder) :
    Option (Option Int × intel_pt_decoder) :=
  match intel_pt_walk_sync_timing env d with
  | some d1 => some (none, d1)
  | none =>
    match d.packet.type with
    | intel_pt_pkt_type.INTEL_PT_TIP_PGD =>
      let d1 := { d with continuous_period := false, pge := false }
      let d2 := if intel_pt_have_ip d1 then intel_pt_set_ip d1 else d1
      some (if d2.ip ≠ 0 then some 0 else none, d2)
    | intel_pt_pkt_type.INTEL_PT_TIP_PGE =>
      let d1 := { d with pge := true }
      let d2 := if intel_pt_have_ip d1 then intel_pt_set_ip d1 else d1
      some (if d2.ip ≠ 0 then some 0 else none, d2)
    | intel_pt_pkt_type.INTEL_PT_TIP =>
      let d1 := { d with pge := true }
      let d2 := if intel_pt_have_ip d1 then intel_pt_set_ip d1 else d1
      some (if d2.ip ≠ 0 then some 0 else none, d2)
    | intel_pt_pkt_type.INTEL_PT_FUP =>
      let d2 := if intel_pt_have_ip d then intel_pt_set_ip d else d
      some (if d2.ip ≠ 0 then some 0 else none, d2)
    | intel_pt_pkt_type.INTEL_PT_OVF =>
      some (some (intel_pt_overflow d).1, (intel_pt_overflow d).2)
    | intel_pt_pkt_type.INTEL_PT_BAD => some (some (intel_pt_bug d).1, (intel_pt_bug d).2)
    | intel_pt_pkt_type.INTEL_PT_TRACESTOP =>
      some (none,
        { intel_pt_clear_tx_flags d with
          pge := false
          continuous_period := false
          have_tma := false })
    | intel_pt_pkt_type.INTEL_PT_PSB =>
      match intel_pt_clear_stack d.stack with
      | none => none
      | some stack =>
        match intel_pt_walk_psb env fuel
            { d with last_ip := 0, have_last_ip := true, stack := stack } with
        | none => none
        | some (err, d1) =>
          if err ≠ 0 then some (some err, d1)
          else if d1.ip ≠ 0 then some (some 0, { d1 with state := { d1.state with type := 0 } })
          else some (none, d1)
    | _ => some (none, d)

/-- The function `intel_pt_walk_to_ip`, its loop bounded by `fuel`. -/
def intel_pt_walk_to_ip (env : intel_pt_env) :
    Nat → intel_pt_decoder → Option (Int × intel_pt_decoder)
  | 0, _ => none
  | fuel + 1, decoder =>
    match intel_pt_get_next_packet env fuel decoder with
    | none => none
    | some (err, d) =>
      if err ≠ 0 then some (err, d)
      else
        match intel_pt_walk_to_ip_packet env fuel d with
        | none => none
        | some (some r, d) => some (r, d)
        | some (none, d) => intel_pt_walk_to_ip env fuel d

/-- The function `intel_pt_sync_ip`. -/
def intel_pt_sync_ip (env : intel_pt_env) (fuel : Nat) (decoder : intel_pt_decoder) :
    Option (Int × intel_pt_decoder) :=
  match intel_pt_walk_to_ip env fuel { decoder with set_fup_tx_flags := false } with
  | none => none
  | some (err, d) =>
    if err ≠ 0 then some (err, d)
    else
      some (0,
        { d with
          pkt_state := intel_pt_pkt_state.INTEL_PT_STATE_IN_SYNC
          overflow := false
          state := { d.state with from_ip := 0, to_ip := d.ip } })

/-- The loop of `intel_pt_part_psb`, from `i` down to 1. -/
def intel_pt_part_psb_loop (psb buf : List Nat) : Nat → Nat
  | 0 => 0
  | i + 1 =>
    if i + 1 > buf.length then intel_pt_part_psb_loop psb buf i
    else if buf.drop (buf.length - (i + 1)) = psb.take (i + 1) then i + 1
    else intel_pt_part_psb_loop psb buf i

/-- The function `intel_pt_part_psb`. -/
def intel_pt_part_psb (env : intel_pt_env) (d : intel_pt_decoder) : Nat :=
  intel_pt_part_psb_loop env.INTEL_PT_PSB_STR d.buf (env.INTEL_PT_PSB_STR.length - 1)

/-- The function `intel_pt_rest_psb`. -/
def intel_pt_rest_psb (env : intel_pt_env) (d : intel_pt_decoder) (part_psb : Nat) : Nat :=
  let rest_psb : Nat := env.INTEL_PT_PSB_STR.length - part_psb
  if rest_psb > d.buf.length ∨ d.buf.take rest_psb ≠ env.INTEL_PT_PSB_STR.drop part_psb then 0
  else rest_psb

/-- The function `intel_pt_get_split_psb`. -/
def intel_pt_get_split_psb (env : intel_pt_env) (decoder : intel_pt_decoder) (part_psb : Nat) :
    Int × intel_pt_decoder :=
  let r := intel_pt_get_next_data
    { decoder with pos := (decoder.pos + decoder.buf.length) % 2 ^ 64, buf := [] }
  if r.1 ≠ 0 then r
  else if intel_pt_rest_psb env r.2 part_psb = 0 then (0, r.2)
  else
    (0,
      { r.2 with
        pos := (r.2.pos + 2 ^ 64 - part_psb) % 2 ^ 64
        next_buf := some (r.2.buf.drop (intel_pt_rest_psb env r.2 part_psb))
        buf := env.INTEL_PT_PSB_STR })

/-- The position of the first occurrence of `needle` in `hay` (the `memmem` of C). -/
def memmem (needle : List Nat) : List Nat → Option Nat
  | [] => if needle.isEmpty then some 0 else none
  | b :: rest =>
    if needle.isPrefixOf (b :: rest) then some 0
    else
      match memmem needle rest with
      | none => none
      | some i => some (i + 1)

/-- The function `intel_pt_scan_for_psb`, its loop bounded by `fuel`. -/
def intel_pt_scan_for_psb (env : intel_pt_env) :
    Nat → intel_pt_decoder → Option (Int × intel_pt_decoder)
  | 0, _ => none
  | fuel + 1, decoder =>
    let r := if decoder.buf.length = 0 then intel_pt_get_next_data decoder else (0, decoder)
    if r.1 ≠ 0 then some r
    else
      match memmem env.INTEL_PT_PSB_STR r.2.buf with
      | none =>
        if intel_pt_part_psb env r.2 ≠ 0 then
          let r1 := intel_pt_get_split_psb env r.2 (intel_pt_part_psb env r.2)
          if r1.1 ≠ 0 then some r1 else intel_pt_scan_for_psb env fuel r1.2
        else
          intel_pt_scan_for_psb env fuel
            { r.2 with pos := (r.2.pos + r.2.buf.length) % 2 ^ 64, buf := [] }
      | some next => intel_pt_get_next_packet env fuel { r.2 with pkt_step := (next : Int) }

/-- The function `intel_pt_sync`. -/
def intel_pt_sync (env : intel_pt_env) (fuel : Nat) (decoder : intel_pt_decoder) :
    Option (Int × intel_pt_decoder) :=
  match intel_pt_clear_stack decoder.stack with
  | none => none
  | some stack =>
    match intel_pt_scan_for_psb env fuel
        { decoder with
          pge := false
          continuous_period := false
          have_last_ip := false
          last_ip := 0
          ip := 0
          stack := stack } with
    | none => none
    | some (err, d) =>
      if err ≠ 0 then some (err, d)
      else
        match intel_pt_walk_psb env fuel
            { d with
              have_last_ip := true
              pkt_state := intel_pt_pkt_state.INTEL_PT_STATE_NO_IP } with
        | none => none
        | some (err, d1) =>
          if err ≠ 0 then some (err, d1)
          else if d1.ip ≠ 0 then
            some (0,
              { d1 with
                state := { d1.state with type := 0 }
                pkt_state := intel_pt_pkt_state.INTEL_PT_STATE_IN_SYNC })
          else intel_pt_sync_ip env fuel d1

/-- The function `intel_pt_sample_time`. -/
def intel_pt_sample_time (pkt_state : intel_pt_pkt_state) : Bool :=
  match pkt_state with
  | intel_pt_pkt_state.INTEL_PT_STATE_NO_PSB => true
  | intel_pt_pkt_state.INTEL_PT_STATE_NO_IP => true
  | intel_pt_pkt_state.INTEL_PT_STATE_ERR_RESYNC => true
  | intel_pt_pkt_state.INTEL_PT_STATE_IN_SYNC => true
  | intel_pt_pkt_state.INTEL_PT_STATE_TNT_CONT => true
  | intel_pt_pkt_state.INTEL_PT_STATE_TNT => false
  | intel_pt_pkt_state.INTEL_PT_STATE_TIP => false
  | intel_pt_pkt_state.INTEL_PT_STATE_TIP_PGD => false
  | intel_pt_pkt_state.INTEL_PT_STATE_FUP => false
  | intel_pt_pkt_state.INTEL_PT_STATE_FUP_NO_TIP => false

/-- The body of the `do ... while` loop of `intel_pt_decode`: the `switch` on
`pkt_state`. -/
def intel_pt_decode_step (env : intel_pt_env) (fuel : Nat) (decoder : intel_pt_decoder) :
    Option (Int × intel_pt_decoder) :=
  let d : intel_pt_decoder :=
    { decoder with state := { decoder.state with type := INTEL_PT_BRANCH, flags := 0 } }
  match d.pkt_state with
  | intel_pt_pkt_state.INTEL_PT_STATE_NO_PSB => intel_pt_sync env fuel d
  | intel_pt_pkt_state.INTEL_PT_STATE_NO_IP =>
    intel_pt_sync_ip env fuel { d with have_last_ip := false, last_ip := 0, ip := 0 }
  | intel_pt_pkt_state.INTEL_PT_STATE_ERR_RESYNC => intel_pt_sync_ip env fuel d
  | intel_pt_pkt_state.INTEL_PT_STATE_IN_SYNC => intel_pt_walk_trace env fuel d
  | intel_pt_pkt_state.INTEL_PT_STATE_TNT =>
    match intel_pt_walk_tnt env fuel d with
    | none => none
    | some (err, d1) => if err = -EAGAIN then intel_pt_walk_trace env fuel d1 else some (err, d1)
  | intel_pt_pkt_state.INTEL_PT_STATE_TNT_CONT =>
    match intel_pt_walk_tnt env fuel d with
    | none => none
    | some (err, d1) => if err = -EAGAIN then intel_pt_walk_trace env fuel d1 else some (err, d1)
  | intel_pt_pkt_state.INTEL_PT_STATE_TIP => intel_pt_walk_tip env d
  | intel_pt_pkt_state.INTEL_PT_STATE_TIP_PGD => intel_pt_walk_tip env d
  | intel_pt_pkt_state.INTEL_PT_STATE_FUP =>
    match intel_pt_walk_fup env fuel
        { d with pkt_state := intel_pt_pkt_state.INTEL_PT_STATE_IN_SYNC } with
    | none => none
    | some (err, d1) =>
      if err = -EAGAIN then intel_pt_walk_fup_tip env fuel d1
      else if err = 0 then
        some (err, { d1 with pkt_state := intel_pt_pkt_state.INTEL_PT_STATE_FUP })
      else some (err, d1)
  | intel_pt_pkt_state.INTEL_PT_STATE_FUP_NO_TIP =>
    match intel_pt_walk_fup env fuel
        { d with pkt_state := intel_pt_pkt_state.INTEL_PT_STATE_IN_SYNC } with
    | none => none
    | some (err, d1) => if err = -EAGAIN then intel_pt_walk_trace env fuel d1 else some (err, d1)

/-- The `do ... while (err == -ENOLINK)` loop of `intel_pt_decode`, bounded by `fuel`. -/
def intel_pt_decode_loop (env : intel_pt_env) :
    Nat → intel_pt_decoder → Option (Int × intel_pt_decoder)
  | 0, _ => none
  | fuel + 1, decoder =>
    match intel_pt_decode_step env fuel decoder with
    | none => none
    | some (err, d) => if err = -ENOLINK then intel_pt_decode_loop env fuel d else some (err, d)

/-- The end of `intel_pt_decode`, after its loop has left the value `err`. -/
def intel_pt_decode_publish (err : Int) (d : intel_pt_decoder) : intel_pt_decoder :=
  let d1 : intel_pt_decoder :=
    if err ≠ 0 then
      { d with
        state := { d.state with err := intel_pt_ext_err err, from_ip := d.ip }
        sample_timestamp := d.timestamp
        sample_insn_cnt := d.timestamp_insn_cnt }
    else if intel_pt_sample_time d.pkt_state then
      { d with
        state := { d.state with err := 0 }
        sample_timestamp := d.timestamp
        sample_insn_cnt := d.timestamp_insn_cnt }
    else { d with state := { d.state with err := 0 } }
  { d1 with
    state := { d1.state with
      timestamp := d1.sample_timestamp
      est_timestamp := intel_pt_est_timestamp d1
      cr3 := d1.cr3
      tot_insn_cnt := d1.tot_insn_cnt } }

/-- The function `intel_pt_decode`: the decoder afterwards, whose field `state` is the
record the function returns a pointer to. -/
def intel_pt_decode (env : intel_pt_env) (fuel : Nat) (decoder : intel_pt_decoder) :
    Option intel_pt_decoder :=
  match intel_pt_decode_loop env fuel decoder with
  | none => none
  | some (err, d) => some (intel_pt_decode_publish err d)

/-! ## Overlap of two trace buffers

A buffer is the list of its bytes; `buf_b` is the address of the first byte of buffer B,
and the pointers the functions return are addresses, so that `0` is `NULL`. -/

/-- The function `intel_pt_next_psb` on the bytes from `*buf` to `*buf + *len`: the offset
`next - *buf` by which it advances `*buf` and shortens `*len`, or `none` when it returns
`false` and leaves both alone. -/
def intel_pt_next_psb (env : intel_pt_env) (buf : List Nat) : Option Nat :=
  memmem env.INTEL_PT_PSB_STR buf

/-- The function `intel_pt_step_psb`: as `intel_pt_next_psb`, the offset by which `*buf`
advances, or `none`. -/
def intel_pt_step_psb (env : intel_pt_env) (buf : List Nat) : Option Nat :=
  if buf.length = 0 then none
  else
    match memmem env.INTEL_PT_PSB_STR (buf.drop 1) with
    | some i => some (i + 1)
    | none => none

/-- The position of the last occurrence of the byte `c` among the first `n` bytes of `s`
(the `memrchr` of C). -/
def memrchr (s : List Nat) (c : Nat) : Nat → Option Nat
  | 0 => none
  | n + 1 => if s.get? n = some c then some n else memrchr s c n

/-- The loop of `intel_pt_last_psb`, bounded by `fuel`: the offset `p - buf` of the PSB it
returns, or the inner `none` for `NULL`. -/
def intel_pt_last_psb_loop (env : intel_pt_env) (buf : List Nat) :
    Nat → Nat → Option (Option Nat)
  | 0, _ => none
  | fuel + 1, k =>
    match memrchr buf (env.INTEL_PT_PSB_STR.headD 0) k with
    | none => some none
    | some p =>
      if (buf.drop (p + 1)).take (env.INTEL_PT_PSB_STR.length - 1)
          = env.INTEL_PT_PSB_STR.drop 1 then some (some p)
      else if p = 0 then some none
      else intel_pt_last_psb_loop env buf fuel p

/-- The function `intel_pt_last_psb`. -/
def intel_pt_last_psb (env : intel_pt_env) (fuel : Nat) (buf : List Nat) :
    Option (Option Nat) :=
  if buf.length < env.INTEL_PT_PSB_STR.length then some none
  else intel_pt_last_psb_loop env buf fuel (buf.length - env.INTEL_PT_PSB_STR.length + 1)

/-- The function `intel_pt_next_tsc`, its loop bounded by `fuel`: the values it stores in
`*tsc` and `*rem` when it returns `true`, the inner `none` when it returns `false`. The
outer `none` also stands for a unit decoder that reports more bytes than there are, after
which the function would read past the buffer. -/
def intel_pt_next_tsc (env : intel_pt_env) : Nat → List Nat → Option (Option (Nat × Nat))
  | 0, _ => none
  | fuel + 1, buf =>
    if buf.length = 0 then some none
    else if (env.get_packet buf).1 ≤ 0 then some none
    else if (env.get_packet buf).2.type = intel_pt_pkt_type.INTEL_PT_TSC then
      some (some ((env.get_packet buf).2.payload, buf.length))
    else if (env.get_packet buf).2.type = intel_pt_pkt_type.INTEL_PT_PSBEND then some none
    else if (env.get_packet buf).1.toNat > buf.length then none
    else intel_pt_next_tsc env fuel (buf.drop (env.get_packet buf).1.toNat)

/-- The `while (1)` loop of `intel_pt_find_overlap_tsc`, bounded by `fuel`: the pointer it
returns and the value of `*consecutive` afterwards. -/
def intel_pt_find_overlap_tsc_loop (env : intel_pt_env) (tsc_a rem_a : Nat) :
    Nat → Nat → List Nat → Bool → Option (Nat × Bool)
  | 0, _, _, _ => none
  | fuel + 1, buf_b, b, consecutive =>
    match intel_pt_next_tsc env fuel b with
    | none => none
    | some r =>
      let found : Option (Nat × Bool) :=
        match r with
        | some (tsc_b, rem_b) =>
          if intel_pt_tsc_cmp tsc_a tsc_b = 0 ∧ rem_b ≥ rem_a then
            some (buf_b + b.length - (rem_b - rem_a), true)
          else if intel_pt_tsc_cmp tsc_a tsc_b < 0 then some (buf_b, consecutive)
          else none
        | none => none
      match found with
      | some x => some x
      | none =>
        match intel_pt_step_psb env b with
        | none => some (buf_b + b.length, consecutive)
        | some i => intel_pt_find_overlap_tsc_loop env tsc_a rem_a fuel (buf_b + i) (b.drop i)
            consecutive

/-- The function `intel_pt_find_overlap_tsc`. -/
def intel_pt_find_overlap_tsc (env : intel_pt_env) (fuel : Nat) (a : List Nat) (buf_b : Nat)
    (b : List Nat) (consecutive : Bool) : Option (Nat × Bool) :=
  match intel_pt_last_psb env fuel a with
  | none => none
  | some none => some (buf_b, consecutive)
  | some (some p) =>
    match intel_pt_next_tsc env fuel (a.drop p) with
    | none => none
    | some (some (tsc_a, rem_a)) =>
      intel_pt_find_overlap_tsc_loop env tsc_a rem_a fuel buf_b b consecutive
    | some none =>
      match intel_pt_last_psb env fuel (a.take p) with
      | none => none
      | some none => some (buf_b, consecutive)
      | some (some p1) =>
        match intel_pt_next_tsc env fuel ((a.take p).drop p1) with
        | none => none
        | some none => some (buf_b, consecutive)
        | some (some (tsc_a, rem_a)) =>
          intel_pt_find_overlap_tsc_loop env tsc_a rem_a fuel buf_b b consecutive

/-- The loop `while (len_b < len_a)` of `intel_pt_find_overlap`, bounded by `fuel`: what is
left of buffer A, or the inner `none` when `intel_pt_step_psb` fails. -/
def intel_pt_find_overlap_skip (env : intel_pt_env) (len_b : Nat) :
    Nat → List Nat → Option (Option (List Nat))
  | 0, _ => none
  | fuel + 1, a =>
    if len_b < a.length then
      match intel_pt_step_psb env a with
      | none => some none
      | some i => intel_pt_find_overlap_skip env len_b fuel (a.drop i)
    else some (some a)

/-- The last loop of `intel_pt_find_overlap`, which compares the bytes, bounded by
`fuel`. -/
def intel_pt_find_overlap_cmp (env : intel_pt_env) (buf_b : Nat) (b : List Nat) :
    Nat → List Nat → Bool → Option (Nat × Bool)
  | 0, _, _ => none
  | fuel + 1, a, consecutive =>
    match memmem (b.take a.length) a with
    | some _ => some (buf_b + a.length, true)
    | none =>
      match intel_pt_step_psb env a with
      | none => some (buf_b, consecutive)
      | some i => intel_pt_find_overlap_cmp env buf_b b fuel (a.drop i) consecutive

/-- The function `intel_pt_find_overlap`: the pointer it returns and the value of
`*consecutive` afterwards. -/
def intel_pt_find_overlap (env : intel_pt_env) (fuel : Nat) (a : List Nat) (buf_b : Nat)
    (b : List Nat) (have_tsc : Bool) (consecutive : Bool) : Option (Nat × Bool) :=
  match intel_pt_next_psb env b with
  | none => some (buf_b + b.length, consecutive)
  | some ib =>
    match intel_pt_next_psb env a with
    | none => some (buf_b + ib, consecutive)
    | some ia =>
      match (if have_tsc then
          intel_pt_find_overlap_tsc env fuel (a.drop ia) (buf_b + ib) (b.drop ib) consecutive
        else some (0, consecutive)) with
      | none => none
      | some (found, consecutive1) =>
        if have_tsc = true ∧ found ≠ 0 then some (found, consecutive1)
        else
          match intel_pt_find_overlap_skip env (b.drop ib).length fuel (a.drop ia) with
          | none => none
          | some none => some (buf_b + ib, consecutive1)
          | some (some a1) =>
            intel_pt_find_overlap_cmp env (buf_b + ib) (b.drop ib) fuel a1 consecutive1

/-! ## Notions used in the statements -/

/-- A full block holding the addresses `0x1000, 0x1001, ...`, used in examples. -/
def example_blk : intel_pt_blk := { ip := fun i => 0x1000 + i }

/-- A stack whose only block is full, used in examples. -/
def example_full_stack : intel_pt_stack := { blk := [example_blk], spare := none, pos := 1024 }

/-- The relation "`tsc1` is before `tsc2`" on 7-byte TSC values: `tsc1` is the smaller one
and the difference is below `2 ^ 55`, or it is the larger one and the difference is at
least `2 ^ 55`. -/
def tsc_before (tsc1 tsc2 : Nat) : Prop :=
  (tsc1 < tsc2 ∧ tsc2 - tsc1 < 2 ^ 55) ∨ (tsc2 < tsc1 ∧ 2 ^ 55 ≤ tsc1 - tsc2)

/-- A decoder that has seen a TMA packet and now handles an MTC packet whose payload
equals the stored `last_mtc`, used in examples. -/
def example_mtc_decoder : intel_pt_decoder :=
  { have_tma := true
    last_mtc := 5
    packet := { type := intel_pt_pkt_type.INTEL_PT_MTC, payload := 5 } }

/-- The candidate of `intel_pt_calc_tsc_timestamp`: the 7-byte payload under the top byte
of the anchor. -/
def tsc_candidate (payload anchor : Nat) : Nat :=
  payload ||| (anchor &&& (0xff <<< 56))

/-- A decoder with `timestamp = 0x0100000000020000` handling a TSC packet whose payload
`0x10` lies `0x1fff0` below it, used in examples. -/
def example_tsc_decoder : intel_pt_decoder :=
  { timestamp := 0x0100000000020000
    tsc_slip := 0x10000
    packet := { type := intel_pt_pkt_type.INTEL_PT_TSC, payload := 0x10 } }

/-- A decoder after a buffer discontinuity with `ref_timestamp = 0x02ffffffffffff00`
handling a TSC packet with payload `0x20`, used in examples. -/
def example_ref_decoder : intel_pt_decoder :=
  { ref_timestamp := 0x02ffffffffffff00
    tsc_slip := 0x10000
    packet := { type := intel_pt_pkt_type.INTEL_PT_TSC, payload := 0x20 } }

/-- A decoder that has seen a TMA packet with `last_mtc = 0xFE` and now handles an MTC
packet with payload `0x02`, used in examples. -/
def example_wrap_decoder : intel_pt_decoder :=
  { have_tma := true
    last_mtc := 0xFE
    packet := { type := intel_pt_pkt_type.INTEL_PT_MTC, payload := 0x02 } }

/-- A decoder at `timestamp = 0x1000` whose next MTC packet gives the candidate `0x800`
(`ctc_timestamp = 0x600`, one MTC period of `2 ^ 9` ticks, multiplier 1), used in
examples. -/
def example_late_decoder : intel_pt_decoder :=
  { have_tma := true
    timestamp := 0x1000
    ctc_timestamp := 0x600
    last_mtc := 2
    mtc_shift := 9
    tsc_ctc_mult := 1
    tsc_ctc_ratio_n := 1
    tsc_ctc_ratio_d := 1
    packet := { type := intel_pt_pkt_type.INTEL_PT_MTC, payload := 3 } }

/-- The decoder `example_late_decoder` with `have_tma` cleared, used in examples. -/
def example_no_tma_decoder : intel_pt_decoder :=
  { example_late_decoder with have_tma := false }

/-- A decoder with `timestamp = 0x0100000000020000` handling a TSC packet whose payload
`0x1fff0` lies `0x10` below it, used in examples. -/
def example_slip_decoder : intel_pt_decoder :=
  { timestamp := 0x0100000000020000
    tsc_slip := 0x10000
    packet := { type := intel_pt_pkt_type.INTEL_PT_TSC, payload := 0x1fff0 } }

/-- A decoder with a TSC/CTC ratio of `0x1000000` (so `tsc_ctc_mult = 0x1000000`) and
`mtc_shift = 10` handling a TMA packet with CTC payload `0x3ff` and count 0, used in
examples. -/
def example_tma_decoder : intel_pt_decoder :=
  { tsc_timestamp := 0x1000000000000
    tsc_ctc_ratio_n := 0x1000000
    tsc_ctc_ratio_d := 1
    tsc_ctc_mult := 0x1000000
    tsc_slip := 0x10000
    mtc_shift := 10
    ctc_rem_mask := 0x3ff
    packet := { type := intel_pt_pkt_type.INTEL_PT_TMA, payload := 0x3ff, count := 0 } }

/-- A decoder that has counted one instruction since the sample at timestamp 100 and has
seen no CBR packet, used in examples. -/
def example_est_decoder : intel_pt_decoder :=
  { sample_timestamp := 100
    sample_insn_cnt := 1
    max_non_turbo_ratio := 24
    cbr := 0 }

/-- A decoder configured for a period of 1000 ticks, used in examples. -/
def example_ticks_decoder : intel_pt_decoder :=
  { period := 1000
    period_type := intel_pt_period_type.INTEL_PT_PERIOD_TICKS }


/-- The answer of the `walk_insn` callback to the call that `intel_pt_walk_insn` makes for
the decoder `d` and the stop address `ip`. -/
def walker_answer (env : intel_pt_env) (d : intel_pt_decoder) (ip : Nat) : walk_insn_result :=
  env.walk_insn d.ip ip (intel_pt_next_sample d).1

/-- The walker succeeds with an unconditional branch, whatever the instruction is (a jump,
a call or a return), before reaching the stop address `ip`. -/
def walker_uncond (res : walk_insn_result) (ip : Nat) : Prop :=
  res.err = 0 ∧ ¬ (ip ≠ 0 ∧ res.ip = ip) ∧
  res.insn.branch = intel_pt_insn_branch.INTEL_PT_BR_UNCONDITIONAL

/-- The branch target that `intel_pt_walk_insn` computes from the walker's answer. -/
def walker_target (res : walk_insn_result) : Nat :=
  add_u64_int res.ip (add_int res.insn.length res.insn.rel)

/-- A run of `n` consecutive calls of `intel_pt_walk_insn`, each answered with
`INTEL_PT_RETURN`: the decoder after the run, `none` when one of the calls is answered
otherwise. -/
def walk_insn_run (env : intel_pt_env) (ip : Nat) : Nat → intel_pt_decoder → Option intel_pt_decoder
  | 0, d => some d
  | n + 1, d =>
    match walk_insn_run env ip n d with
    | none => none
    | some d1 =>
      match intel_pt_walk_insn env d1 ip with
      | some (ret, _, d2) => if ret = INTEL_PT_RETURN then some d2 else none
      | none => none

/-- A walker that always reports a two-byte unconditional jump to itself (`length = 2`,
`rel = -2`) at the address it was started from. -/
def example_self_branch_env : intel_pt_env :=
  { walk_insn := fun ip _ _ =>
      { err := 0
        insn := { op := intel_pt_insn_op.INTEL_PT_OP_OTHER
                  branch := intel_pt_insn_branch.INTEL_PT_BR_UNCONDITIONAL
                  length := 2
                  rel := -2 }
        insn_cnt := 1
        ip := ip } }


/-- The walker succeeds at a RET instruction, reported as an indirect or conditional
branch, so that `intel_pt_walk_insn` returns 0 after popping the return address. -/
def walker_ret (res : walk_insn_result) : Prop :=
  res.err = 0 ∧ res.insn.op = intel_pt_insn_op.INTEL_PT_OP_RET ∧
  res.insn.branch ≠ intel_pt_insn_branch.INTEL_PT_BR_NO_BRANCH ∧
  res.insn.branch ≠ intel_pt_insn_branch.INTEL_PT_BR_UNCONDITIONAL

/-- The walker succeeds at a conditional branch that is not a call or a return. -/
def walker_cond (res : walk_insn_result) : Prop :=
  res.err = 0 ∧ res.insn.op = intel_pt_insn_op.INTEL_PT_OP_OTHER ∧
  res.insn.branch = intel_pt_insn_branch.INTEL_PT_BR_CONDITIONAL

/-- A walker that always reports a RET instruction at address `0x2000`. -/
def example_ret_env : intel_pt_env :=
  { walk_insn := fun _ _ _ =>
      { err := 0
        insn := { op := intel_pt_insn_op.INTEL_PT_OP_RET
                  branch := intel_pt_insn_branch.INTEL_PT_BR_INDIRECT
                  length := 1
                  rel := 0 }
        insn_cnt := 1
        ip := 0x2000 } }

/-- A decoder with return compression, the return address `0x1234` on its stack, and a TNT
packet of two bits whose first bit is 1. -/
def example_ret_decoder : intel_pt_decoder :=
  { return_compression := true
    stack := { blk := [{ ip := fun _ => 0x1234 }], spare := none, pos := 1 }
    pkt_state := intel_pt_pkt_state.INTEL_PT_STATE_TNT
    tnt := { type := intel_pt_pkt_type.INTEL_PT_TNT, count := 2, payload := 0xc000000000000000 } }

/-- The branches decided from one TNT packet, as `intel_pt_walk_tnt` meets them: the
decoder after `i` conditional branches in a row. Before the `i`-th call of the walker
(counted from 0) the caller may have changed the decoder by `g i`; `none` when the walker
does not answer with a conditional branch. -/
def tnt_run (env : intel_pt_env) (g : Nat → intel_pt_decoder → intel_pt_decoder) :
    Nat → intel_pt_decoder → Option intel_pt_decoder
  | 0, d => some d
  | i + 1, d =>
    match tnt_run env g i d with
    | none => none
    | some di =>
      match intel_pt_walk_insn env (g i di) 0 with
      | some (ret, insn, d1) =>
        if ret = 0 ∧ insn.op = intel_pt_insn_op.INTEL_PT_OP_OTHER ∧
            insn.branch = intel_pt_insn_branch.INTEL_PT_BR_CONDITIONAL then
          some (intel_pt_walk_tnt_cond insn d1).2
        else none
      | none => none

/-- A walker that always reports, at the address it was started from, a conditional branch
of length 2 with displacement `0x10`. -/
def example_cond_env : intel_pt_env :=
  { walk_insn := fun ip _ _ =>
      { err := 0
        insn := { op := intel_pt_insn_op.INTEL_PT_OP_OTHER
                  branch := intel_pt_insn_branch.INTEL_PT_BR_CONDITIONAL
                  length := 2
                  rel := 0x10 }
        insn_cnt := 1
        ip := ip } }

/-- A decoder at `0x1000` with a TNT packet of two bits, `1` then `0`. -/
def example_tnt_decoder : intel_pt_decoder :=
  { ip := 0x1000
    pkt_state := intel_pt_pkt_state.INTEL_PT_STATE_TNT
    tnt := { type := intel_pt_pkt_type.INTEL_PT_TNT, count := 2, payload := 0x8000000000000000 } }

/-- A walker that fails with `-EINVAL` after three instructions. -/
def example_error_env : intel_pt_env :=
  { walk_insn := fun _ _ _ => { err := -EINVAL, insn_cnt := 3 } }

/-- The fields that instruction walking never writes: `x` agrees with `d` on the stored
packets, on `last_ip`, on the tracing and transaction flags and on the byte cursor. -/
def walk_frame (d x : intel_pt_decoder) : Prop :=
  x.packet = d.packet ∧ x.tnt = d.tnt ∧ x.last_ip = d.last_ip ∧
  x.have_last_ip = d.have_last_ip ∧ x.pge = d.pge ∧ x.tx_flags = d.tx_flags ∧
  x.fup_tx_flags = d.fup_tx_flags ∧ x.set_fup_tx_flags = d.set_fup_tx_flags ∧
  x.overflow = d.overflow ∧ x.timestamp = d.timestamp ∧ x.pos = d.pos ∧ x.buf = d.buf ∧
  x.next_buf = d.next_buf ∧ x.data = d.data ∧ x.pkt_step = d.pkt_step ∧
  x.return_compression = d.return_compression

/-- The walker succeeds at a branch that `intel_pt_walk_insn` hands back to its caller
with the result 0: an indirect or conditional branch that is not a call or a return. -/
def walker_branch (res : walk_insn_result) (branch : intel_pt_insn_branch) : Prop :=
  res.err = 0 ∧ res.insn.op = intel_pt_insn_op.INTEL_PT_OP_OTHER ∧ res.insn.branch = branch ∧
  (branch = intel_pt_insn_branch.INTEL_PT_BR_INDIRECT ∨
    branch = intel_pt_insn_branch.INTEL_PT_BR_CONDITIONAL)

/-- A walker that always reports, at address `0x3000`, an indirect jump of length 2. -/
def example_indirect_env : intel_pt_env :=
  { walk_insn := fun _ _ _ =>
      { err := 0
        insn := { op := intel_pt_insn_op.INTEL_PT_OP_OTHER
                  branch := intel_pt_insn_branch.INTEL_PT_BR_INDIRECT
                  length := 2
                  rel := 0 }
        insn_cnt := 1
        ip := 0x3000 } }

/-- A decoder in the state TIP with `last_ip = 0x600` from a TIP packet that carried an
address. -/
def example_tip_decoder : intel_pt_decoder :=
  { pge := true
    ip := 0x2ff0
    last_ip := 0x600
    have_last_ip := true
    pkt_state := intel_pt_pkt_state.INTEL_PT_STATE_TIP
    packet := { type := intel_pt_pkt_type.INTEL_PT_TIP, count := 1, payload := 0x600 } }

/-- The walker of `example_cond_env` with a `pgd_ip` predicate that holds from `0x1010`
on. -/
def example_filter_env : intel_pt_env :=
  { example_cond_env with pgd_ip := some (fun ip => decide (0x1010 ≤ ip)) }

/-- A decoder at `0x1000` in the state TIP_PGD. -/
def example_tip_pgd_decoder : intel_pt_decoder :=
  { pge := true
    ip := 0x1000
    pkt_state := intel_pt_pkt_state.INTEL_PT_STATE_TIP_PGD
    packet := { type := intel_pt_pkt_type.INTEL_PT_TIP_PGD, count := 0 } }

/-- A walker that always reports, at address `0x3000`, an instruction of length 3 that is
not a branch. -/
def example_no_branch_env : intel_pt_env :=
  { walk_insn := fun _ _ _ =>
      { err := 0
        insn := { op := intel_pt_insn_op.INTEL_PT_OP_OTHER
                  branch := intel_pt_insn_branch.INTEL_PT_BR_NO_BRANCH
                  length := 3
                  rel := 0 }
        insn_cnt := 1
        ip := 0x3000 } }

/-- A walker that walks to the stop address it is given without meeting a branch. -/
def example_straight_env : intel_pt_env :=
  { walk_insn := fun _ to_ip _ => { err := 0, insn_cnt := 4, ip := to_ip } }

/-- A decoder after a FUP packet with the address `0x4000`, walking from `0x2ff0`. -/
def example_fup_decoder : intel_pt_decoder :=
  { pge := true
    ip := 0x2ff0
    last_ip := 0x4000
    have_last_ip := true
    pkt_state := intel_pt_pkt_state.INTEL_PT_STATE_IN_SYNC
    packet := { type := intel_pt_pkt_type.INTEL_PT_FUP, count := 1, payload := 0x4000 } }

/-- A unit decoder that knows three packets: PSB (its 16 bytes), PSBEND (`02 23`) and
OVF (`02 f3`); it asks for more bytes on anything else. -/
def example_get_packet (buf : List Nat) : Int × intel_pt_pkt :=
  if buf.take 16 = [2, 0x82, 2, 0x82, 2, 0x82, 2, 0x82, 2, 0x82, 2, 0x82, 2, 0x82, 2, 0x82] then
    (16, { type := intel_pt_pkt_type.INTEL_PT_PSB })
  else if buf.take 2 = [2, 0x23] then (2, { type := intel_pt_pkt_type.INTEL_PT_PSBEND })
  else if buf.take 2 = [2, 0xf3] then (2, { type := intel_pt_pkt_type.INTEL_PT_OVF })
  else (-1, {})

/-- An environment with the unit decoder `example_get_packet`. -/
def example_packet_env : intel_pt_env := { get_packet := example_get_packet }

/-- A synchronised decoder that has seen a TMA packet, in front of a PSB packet directly
followed by PSBEND, with no trace data after that. -/
def example_psb_decoder : intel_pt_decoder :=
  { have_tma := true
    pkt_state := intel_pt_pkt_state.INTEL_PT_STATE_IN_SYNC
    buf := [2, 0x82, 2, 0x82, 2, 0x82, 2, 0x82, 2, 0x82, 2, 0x82, 2, 0x82, 2, 0x82, 2, 0x23] }

/-- A synchronised decoder that has seen a TMA packet, in front of an OVF packet. -/
def example_ovf_decoder : intel_pt_decoder :=
  { have_tma := true
    pkt_state := intel_pt_pkt_state.INTEL_PT_STATE_IN_SYNC
    buf := [2, 0xf3] }

/-- A decoder that has seen a TMA packet, for which `get_trace` next returns a
non-consecutive buffer of one byte. -/
def example_gap_decoder : intel_pt_decoder :=
  { have_tma := true
    data := [{ ret := 0, buffer := { buf := [0], consecutive := false, ref_timestamp := 7 } }] }

/-- The invariant on `have_tma`, for a decoder built with `tsc_ctc_ratio_d = c`: the field
`tsc_ctc_ratio_d` still is `c`, and if `c = 0` then `have_tma = false`. -/
def tma_inv (c : Nat) (d : intel_pt_decoder) : Prop :=
  d.tsc_ctc_ratio_d = c ∧ (c = 0 → d.have_tma = false)

/-- The decoder in a `walk_trace_step`. -/
def step_decoder : walk_trace_step → intel_pt_decoder
  | walk_trace_step.ret _ d => d
  | walk_trace_step.brk _ d => d
  | walk_trace_step.next _ d => d

/-- The states a decoder built as `d0` goes through: the states between calls of
`intel_pt_decode`, and, for the states inside a call, the results of the steps a call is
made of, applied in any order: fetching a packet, walking instructions, the timing
handlers of the TSC, MTC and TMA packets, an assignment to fields other than `have_tma`
and `tsc_ctc_ratio_d` (`update`), and an assignment that clears `have_tma` (`clear`). -/
inductive reachable (env : intel_pt_env) (d0 : intel_pt_decoder) : intel_pt_decoder → Prop
  | init : reachable env d0 d0
  | decode (fuel : Nat) (d d1 : intel_pt_decoder) :
      reachable env d0 d → intel_pt_decode env fuel d = some d1 → reachable env d0 d1
  | step (fuel : Nat) (d : intel_pt_decoder) (r : Int × intel_pt_decoder) :
      reachable env d0 d → intel_pt_decode_step env fuel d = some r → reachable env d0 r.2
  | fetch (fuel : Nat) (d : intel_pt_decoder) (r : Int × intel_pt_decoder) :
      reachable env d0 d → intel_pt_get_next_packet env fuel d = some r → reachable env d0 r.2
  | walk (d : intel_pt_decoder) (ip : Nat) (r : Int × intel_pt_insn × intel_pt_decoder) :
      reachable env d0 d → intel_pt_walk_insn env d ip = some r → reachable env d0 r.2.2
  | tsc (d : intel_pt_decoder) (la : Option Nat) :
      reachable env d0 d → reachable env d0 (intel_pt_calc_tsc_timestamp d la)
  | mtc (d : intel_pt_decoder) (la : Option Nat) :
      reachable env d0 d → reachable env d0 (intel_pt_calc_mtc_timestamp d la)
  | tma (d : intel_pt_decoder) :
      reachable env d0 d → reachable env d0 (intel_pt_calc_tma d)
  | update (d d1 : intel_pt_decoder) :
      reachable env d0 d → d1.have_tma = d.have_tma →
      d1.tsc_ctc_ratio_d = d.tsc_ctc_ratio_d → reachable env d0 d1
  | clear (d d1 : intel_pt_decoder) :
      reachable env d0 d → d1.have_tma = false →
      d1.tsc_ctc_ratio_d = d.tsc_ctc_ratio_d → reachable env d0 d1

/-- Construction parameters without a TSC/CTC ratio numerator. -/
def example_params : intel_pt_params := { tsc_ctc_ratio_n := 0, tsc_ctc_ratio_d := 3 }

/-- The decoder `intel_pt_decoder_new` builds from `example_params`. -/
def example_new_decoder : intel_pt_decoder :=
  intel_pt_decoder_new_timing
    { zalloc_decoder with
      data := example_params.data
      return_compression := example_params.return_compression
      period := example_params.period
      period_type := example_params.period_type
      max_non_turbo_ratio := example_params.max_non_turbo_ratio
      max_non_turbo_ratio_fp := example_params.max_non_turbo_ratio }
    example_params
/-- The PSB packet: `02 82` eight times. -/
def psb_bytes : List Nat := [2, 0x82, 2, 0x82, 2, 0x82, 2, 0x82, 2, 0x82, 2, 0x82, 2, 0x82, 2, 0x82]

/-- The byte `i` of a little-endian value. -/
def le_byte (bytes : List Nat) (i : Nat) : Nat := bytes.getD i 0 * 256 ^ i

/-- A unit decoder that knows four packets: PSB (its 16 bytes), PSBEND (`02 23`), TSC
(`19` and seven bytes of payload, least significant first) and PAD (`00`); on anything
else, and on a packet cut short by the end of the bytes, it gives -1. -/
def example_tsc_get_packet (buf : List Nat) : Int × intel_pt_pkt :=
  if buf.take 16 = psb_bytes then (16, { type := intel_pt_pkt_type.INTEL_PT_PSB })
  else if buf.take 2 = [2, 0x23] then (2, { type := intel_pt_pkt_type.INTEL_PT_PSBEND })
  else if buf.take 1 = [0x19] ∧ 8 ≤ buf.length then
    (8, { type := intel_pt_pkt_type.INTEL_PT_TSC
          payload := le_byte (buf.drop 1) 0 + le_byte (buf.drop 1) 1 + le_byte (buf.drop 1) 2
            + le_byte (buf.drop 1) 3 + le_byte (buf.drop 1) 4 + le_byte (buf.drop 1) 5
            + le_byte (buf.drop 1) 6 })
  else if buf.take 1 = [0] then (1, { type := intel_pt_pkt_type.INTEL_PT_PAD })
  else (-1, {})

/-- An environment with the unit decoder `example_tsc_get_packet` and the PSB bytes. -/
def example_overlap_env : intel_pt_env :=
  { get_packet := example_tsc_get_packet, INTEL_PT_PSB_STR := psb_bytes }

/-- A first capture: PSB, TSC = 0x100, PSBEND, three PAD bytes, PSB, TSC = 0x200,
PSBEND. -/
def example_buf_a : List Nat :=
  psb_bytes ++ [0x19, 0x00, 0x01, 0, 0, 0, 0, 0] ++ [2, 0x23] ++ [0, 0, 0] ++
  psb_bytes ++ [0x19, 0x00, 0x02, 0, 0, 0, 0, 0] ++ [2, 0x23]

/-- A second capture, which starts with the last PSB+ of `example_buf_a`: PSB,
TSC = 0x200, PSBEND, and then two PAD bytes and a PSB that `example_buf_a` does not
have. -/
def example_buf_b : List Nat :=
  psb_bytes ++ [0x19, 0x00, 0x02, 0, 0, 0, 0, 0] ++ [2, 0x23] ++ [0, 0] ++ psb_bytes

/-- The bytes `buf` have a PSB at offset `p` and none after it. -/
def last_psb_at (env : intel_pt_env) (buf : List Nat) (p : Nat) : Prop :=
  env.INTEL_PT_PSB_STR <+: buf.drop p ∧ ∀ j, p < j → ¬ env.INTEL_PT_PSB_STR <+: buf.drop j

/-- The bytes `buf` have their first PSB at offset `i`. -/
def first_psb_at (env : intel_pt_env) (buf : List Nat) (i : Nat) : Prop :=
  env.INTEL_PT_PSB_STR <+: buf.drop i ∧ ∀ j, j < i → ¬ env.INTEL_PT_PSB_STR <+: buf.drop j

/-- For bytes `b` that start with a PSB: the first PSB+ that carries a TSC starts at offset
`off`, its TSC is `tsc`, and `rem` bytes remain from that TSC packet to the end of `b`.
A PSB+ carries the TSC that `intel_pt_next_tsc` finds from its PSB on, and the PSB+ that
follows is the one `intel_pt_step_psb` moves to. -/
inductive first_tsc_psb (env : intel_pt_env) : List Nat → Nat → Nat → Nat → Prop
  | here (b : List Nat) (tsc rem : Nat) :
      intel_pt_next_tsc env (b.length + 1) b = some (some (tsc, rem)) →
      first_tsc_psb env b 0 tsc rem
  | skip (b : List Nat) (i off tsc rem : Nat) :
      intel_pt_next_tsc env (b.length + 1) b = some none →
      intel_pt_step_psb env b = some i →
      first_tsc_psb env (b.drop i) off tsc rem →
      first_tsc_psb env b (i + off) tsc rem

/-- A walker that always arrives at the stop address, after as many instructions as its
budget `max_insn_cnt` allows, and after 5 instructions when the budget is 0
(unlimited). -/
def example_budget_env : intel_pt_env :=
  { walk_insn := fun _ to_ip max_insn_cnt =>
      { insn_cnt := if max_insn_cnt = 0 then 5 else max_insn_cnt, ip := to_ip } }

/-- A decoder that samples every 2 instructions. -/
def example_period_decoder : intel_pt_decoder :=
  { period := 2, period_type := intel_pt_period_type.INTEL_PT_PERIOD_INSTRUCTIONS }

/-- The number of calls of a run that come before the call at which the loop guard of
`intel_pt_walk_insn` records `stuck_ip` for the `j`-th time: 1, 2, 4, 7, 11, ... -/
def stuck_sample (j : Nat) : Nat := 1 + j * (j - 1) / 2

/-- The loop guard after `n` calls of a run started at `d0`, all answered with
`INTEL_PT_RETURN`: for some `j`, the recorded `stuck_ip` is the branch target of the call
that came after `stuck_sample j` calls, `stuck_ip_prd` is `j`, and `stuck_ip_cnt` counts
the calls left until the next recording, which comes `j` calls after this one. -/
def stuck_inv (env : intel_pt_env) (ip : Nat) (d0 : intel_pt_decoder) (n : Nat)
    (dn : intel_pt_decoder) : Prop :=
  ∃ (j : Nat) (ds : intel_pt_decoder), 1 ≤ j ∧ stuck_sample j < n ∧ n ≤ stuck_sample j + j ∧
    walk_insn_run env ip (stuck_sample j) d0 = some ds ∧
    dn.stuck_ip = walker_target (walker_answer env ds ip) ∧
    dn.stuck_ip_prd = j ∧ dn.stuck_ip_cnt = (stuck_sample j : Int) + j + 1 - n

/-- A unit decoder that knows three packets: MODE.TSX (`99` and a byte whose two lowest
bits are the TXAbort and the InTX bit), and FUP (`dd`) and TIP (`cd`) with a full address
of eight bytes, least significant first (`count = 6`); on anything else, and on a packet
cut short by the end of the bytes, it gives -1. -/
def example_tip_get_packet (buf : List Nat) : Int × intel_pt_pkt :=
  if buf.take 1 = [0x99] ∧ 2 ≤ buf.length then
    (2, { type := intel_pt_pkt_type.INTEL_PT_MODE_TSX, payload := buf.getD 1 0 &&& 3 })
  else if (buf.take 1 = [0xdd] ∨ buf.take 1 = [0xcd]) ∧ 9 ≤ buf.length then
    (9, { type := if buf.take 1 = [0xdd] then intel_pt_pkt_type.INTEL_PT_FUP
                  else intel_pt_pkt_type.INTEL_PT_TIP
          count := 6
          payload := le_byte (buf.drop 1) 0 + le_byte (buf.drop 1) 1 + le_byte (buf.drop 1) 2
            + le_byte (buf.drop 1) 3 + le_byte (buf.drop 1) 4 + le_byte (buf.drop 1) 5
            + le_byte (buf.drop 1) 6 + le_byte (buf.drop 1) 7 })
  else (-1, {})

/-- An environment with the unit decoder `example_tip_get_packet`. -/
def example_tip_env : intel_pt_env := { get_packet := example_tip_get_packet }

/-- A decoder that has lost its address (state NO_IP), in front of a TIP packet with the
address 0x600. -/
def example_no_ip_decoder : intel_pt_decoder :=
  { pkt_state := intel_pt_pkt_state.INTEL_PT_STATE_NO_IP
    buf := [0xcd, 0x00, 0x06, 0, 0, 0, 0, 0, 0] }

/-- An environment with the unit decoder `example_tip_get_packet` and a walker that, given
a stop address, arrives there after four instructions without meeting a branch, and,
given none, reports an indirect jump of length 2 at the address it starts from. -/
def example_tsx_env : intel_pt_env :=
  { get_packet := example_tip_get_packet
    walk_insn := fun ip to_ip _ =>
      if to_ip ≠ 0 then { err := 0, insn_cnt := 4, ip := to_ip }
      else
        { err := 0
          insn := { op := intel_pt_insn_op.INTEL_PT_OP_OTHER
                    branch := intel_pt_insn_branch.INTEL_PT_BR_INDIRECT
                    length := 2 }
          insn_cnt := 1
          ip := ip } }

/-- A synchronised decoder with tracing enabled at address 0x4f0, in front of the packets
MODE.TSX (InTX set, TXAbort clear), FUP with the address 0x500 and TIP with the address
0x600. -/
def example_tsx_decoder : intel_pt_decoder :=
  { pkt_state := intel_pt_pkt_state.INTEL_PT_STATE_IN_SYNC
    pge := true
    ip := 0x4f0
    buf := [0x99, 0x21, 0xdd, 0x00, 0x05, 0, 0, 0, 0, 0, 0, 0xcd, 0x00, 0x06, 0, 0, 0, 0, 0, 0] }

/-- The decoder with which `intel_pt_walk_trace` calls `intel_pt_walk_fup` for a FUP packet
that follows a MODE.TSX packet with InTX set and TXAbort clear, `d` being the decoder
after the fetch of the FUP packet. -/
def tsx_fup_decoder (d : intel_pt_decoder) : intel_pt_decoder :=
  intel_pt_set_last_ip { d with fup_tx_flags := INTEL_PT_IN_TX, set_fup_tx_flags := true }

/-- The decoder with which `intel_pt_decode`, entered in state FUP_NO_TIP, calls
`intel_pt_walk_fup`. -/
def fup_no_tip_decoder (d : intel_pt_decoder) : intel_pt_decoder :=
  { d with
    state := { d.state with type := INTEL_PT_BRANCH, flags := 0 }
    pkt_state := intel_pt_pkt_state.INTEL_PT_STATE_IN_SYNC }

/-- The decoder with which `intel_pt_walk_trace` calls `intel_pt_walk_tip` for a TIP packet
with an address, `d` being the decoder after the fetch of the packet. -/
def tip_decoder (d : intel_pt_decoder) : intel_pt_decoder :=
  { intel_pt_set_last_ip d with pkt_state := intel_pt_pkt_state.INTEL_PT_STATE_TIP }

/-- The unit decoder `env.get_packet` gives a TNT packet a count that is not negative (it
is the number of TNT bits in the packet). -/
def tnt_counts (env : intel_pt_env) : Prop :=
  ∀ buf : List Nat, (env.get_packet buf).2.type = intel_pt_pkt_type.INTEL_PT_TNT →
    0 ≤ (env.get_packet buf).2.count

/-- The invariant of the TNT states: in the states TNT and TNT_CONT, `tnt.count > 0`; and a
TNT packet in `packet` has a count that is not negative. -/
def tnt_inv (d : intel_pt_decoder) : Prop :=
  ((d.pkt_state = intel_pt_pkt_state.INTEL_PT_STATE_TNT ∨
      d.pkt_state = intel_pt_pkt_state.INTEL_PT_STATE_TNT_CONT) → 0 < d.tnt.count) ∧
  (d.packet.type = intel_pt_pkt_type.INTEL_PT_TNT → 0 ≤ d.packet.count)


/-- The field `tnt` of the decoder `d` is `c`. -/
def tnt_kept (c : intel_pt_pkt) (d : intel_pt_decoder) : Prop := d.tnt = c

/-- The decoders a chain of `intel_pt_decode` calls leads to, starting from `d0`. -/
inductive decode_calls (env : intel_pt_env) (d0 : intel_pt_decoder) : intel_pt_decoder → Prop
  | init : decode_calls env d0 d0
  | decode (fuel : Nat) (d d1 : intel_pt_decoder) :
      decode_calls env d0 d → intel_pt_decode env fuel d = some d1 → decode_calls env d0 d1

/-- The walker of `example_cond_env` with a unit decoder that finds a TNT packet of two
bits in one byte wherever it looks. -/
def example_tnt_env : intel_pt_env :=
  { example_cond_env with
    get_packet := fun _ =>
      (1, { type := intel_pt_pkt_type.INTEL_PT_TNT, count := 2, payload := 0x8000000000000000 }) }

/-- The error code of the push that `intel_pt_walk_insn` makes for the branch `res` the
walker reports to the decoder `d`: a call, other than an unconditional call with the
displacement 0, pushes the address behind it, and `intel_pt_push` gives `-ENOMEM` when it
needs a block that `malloc` does not hand out. The code is 0 when nothing is pushed. -/
def walker_push_err (env : intel_pt_env) (d : intel_pt_decoder) (res : walk_insn_result) : Int :=
  if res.insn.op = intel_pt_insn_op.INTEL_PT_OP_CALL ∧
      (res.insn.branch ≠ intel_pt_insn_branch.INTEL_PT_BR_UNCONDITIONAL ∨ res.insn.rel ≠ 0) then
    match intel_pt_push d.stack (add_u64_int res.ip res.insn.length) (env.malloc d.stack) with
    | some (err, _) => err
    | none => 0
  else 0

/-- The stack operation in the middle of `intel_pt_walk_insn`, for the branch `insn` the
walker has stopped at: a call, other than an unconditional call with the displacement 0,
pushes the address behind it, a return pops into `ret_addr`. The error code and the
decoder afterwards; `none` when the operation faults. -/
def walk_insn_stack (env : intel_pt_env) (insn : intel_pt_insn) (decoder : intel_pt_decoder) :
    Option (Int × intel_pt_decoder) :=
  if insn.op = intel_pt_insn_op.INTEL_PT_OP_CALL then
    if insn.branch ≠ intel_pt_insn_branch.INTEL_PT_BR_UNCONDITIONAL ∨ insn.rel ≠ 0 then
      match intel_pt_push decoder.stack (add_u64_int decoder.ip insn.length)
          (env.malloc decoder.stack) with
      | none => none
      | some (err, stack) => some (err, { decoder with stack := stack })
    else some (0, decoder)
  else if insn.op = intel_pt_insn_op.INTEL_PT_OP_RET then
    match intel_pt_pop decoder.stack with
    | none => none
    | some (ret_addr, stack) => some (0, { decoder with ret_addr := ret_addr, stack := stack })
  else some (0, decoder)

/-- The conditions under which a call of `intel_pt_walk_insn` goes through its loop guard:
the walker succeeds with an unconditional branch before the stop address `ip`, the stack
of the decoder `d` is well formed, and the push of the return address, if there is one to
push, succeeds. -/
def walker_jumps (env : intel_pt_env) (d : intel_pt_decoder) (ip : Nat) : Prop :=
  walker_uncond (walker_answer env d ip) ip ∧ stack_inv d.stack ∧
  walker_push_err env d (walker_answer env d ip) = 0

/-- A walker that reports a two-byte jump ahead by `0x1000` at every address but `0x3000`,
where it reports a five-byte call of the address `0x3000` itself; `malloc` fails. -/
def example_call_env : intel_pt_env :=
  { walk_insn := fun ip _ _ =>
      if ip = 0x3000 then
        { err := 0
          insn := { op := intel_pt_insn_op.INTEL_PT_OP_CALL
                    branch := intel_pt_insn_branch.INTEL_PT_BR_UNCONDITIONAL
                    length := 5
                    rel := -5 }
          insn_cnt := 1
          ip := ip }
      else
        { err := 0
          insn := { op := intel_pt_insn_op.INTEL_PT_OP_OTHER
                    branch := intel_pt_insn_branch.INTEL_PT_BR_UNCONDITIONAL
                    length := 2
                    rel := 0xffe }
          insn_cnt := 1
          ip := ip } }

/-- A decoder at `0x1000` whose stack has one block, which is full. -/
def example_call_decoder : intel_pt_decoder := { ip := 0x1000, stack := example_full_stack }

/-- A walker that always reports, at the address it was started from, a five-byte call of
that address itself; `malloc` fails. -/
def example_self_call_env : intel_pt_env :=
  { walk_insn := fun ip _ _ =>
      { err := 0
        insn := { op := intel_pt_insn_op.INTEL_PT_OP_CALL
                  branch := intel_pt_insn_branch.INTEL_PT_BR_UNCONDITIONAL
                  length := 5
                  rel := -5 }
        insn_cnt := 1
        ip := ip } }

/-- A decoder at `0x1000` whose stack has one block with room for two more entries. -/
def example_self_call_decoder : intel_pt_decoder :=
  { ip := 0x1000, stack := { blk := [example_blk], spare := none, pos := 1022 } }

/-- A walker that always reports, at address `0x3000`, an indirect call of length 2;
`malloc` fails. -/
def example_indirect_call_env : intel_pt_env :=
  { walk_insn := fun _ _ _ =>
      { err := 0
        insn := { op := intel_pt_insn_op.INTEL_PT_OP_CALL
                  branch := intel_pt_insn_branch.INTEL_PT_BR_INDIRECT
                  length := 2
                  rel := 0 }
        insn_cnt := 1
        ip := 0x3000 } }
/-- A call of one of the functions of the decoder that fetch packets, or that call the
ones that do, with the bound `fuel` on its loop and its arguments: `walk_trace` is the
loop of `intel_pt_walk_trace` with its local `no_tip` and the flag `at_next` of
`intel_pt_walk_trace_loop`, `walk_fup_tip` is the loop of `intel_pt_walk_fup_tip`,
`decode_step` is the body of the loop of `intel_pt_decode` and `decode_loop` that loop. -/
inductive handler_call where
  | walk_trace (fuel : Nat) (no_tip at_next : Bool) (d : intel_pt_decoder)
  | walk_psbend (fuel : Nat) (d : intel_pt_decoder)
  | walk_fup_tip (fuel : Nat) (d : intel_pt_decoder)
  | walk_psb (fuel : Nat) (d : intel_pt_decoder)
  | walk_to_ip (fuel : Nat) (d : intel_pt_decoder)
  | sync_ip (fuel : Nat) (d : intel_pt_decoder)
  | sync (fuel : Nat) (d : intel_pt_decoder)
  | decode_step (fuel : Nat) (d : intel_pt_decoder)
  | decode_loop (fuel : Nat) (d : intel_pt_decoder)

/-- What the call `c` returns. -/
def handler_result (env : intel_pt_env) : handler_call → Option (Int × intel_pt_decoder)
  | handler_call.walk_trace fuel no_tip at_next d =>
    intel_pt_walk_trace_loop env fuel no_tip at_next d
  | handler_call.walk_psbend fuel d => intel_pt_walk_psbend env fuel d
  | handler_call.walk_fup_tip fuel d => intel_pt_walk_fup_tip_loop env fuel d
  | handler_call.walk_psb fuel d => intel_pt_walk_psb env fuel d
  | handler_call.walk_to_ip fuel d => intel_pt_walk_to_ip env fuel d
  | handler_call.sync_ip fuel d => intel_pt_sync_ip env fuel d
  | handler_call.sync fuel d => intel_pt_sync env fuel d
  | handler_call.decode_step fuel d => intel_pt_decode_step env fuel d
  | handler_call.decode_loop fuel d => intel_pt_decode_loop env fuel d

/-- The call `c` meets the packet that `d1` holds in the `switch` of one of the five packet
walkers `intel_pt_walk_trace`, `intel_pt_walk_psbend`, `intel_pt_walk_fup_tip`,
`intel_pt_walk_psb` and `intel_pt_walk_to_ip`, where `d1` is the decoder as that `switch`
finds it. The rules follow the control flow of the code. A walker meets the packet in
this round of its loop (`_here`: the packet it fetches, or for `intel_pt_walk_trace`
entered at the label `next` the current one, leaves the decoder `d1`), or in a later round,
after a `switch` that lets the loop go on (`_go`, `trace_brk`, `trace_next`), or in a
callee: `intel_pt_walk_psbend` for `intel_pt_walk_trace` on PSB, `intel_pt_walk_fup_tip`
for `intel_pt_walk_trace` on a FUP with `no_tip` clear after `intel_pt_walk_fup` gave
`-EAGAIN`, `intel_pt_walk_psb` for `intel_pt_walk_to_ip` on PSB. `intel_pt_sync_ip` calls
`intel_pt_walk_to_ip`; `intel_pt_sync` calls `intel_pt_walk_psb` after the scan for a PSB
and, if that returns 0 and leaves `ip = 0`, `intel_pt_sync_ip`. The body of the loop of
`intel_pt_decode` calls, by `pkt_state`, `intel_pt_sync`, `intel_pt_sync_ip`,
`intel_pt_walk_trace` (in the TNT states and in FUP_NO_TIP after `intel_pt_walk_tnt` or
`intel_pt_walk_fup` gave `-EAGAIN`) or `intel_pt_walk_fup_tip` (in FUP, after
`intel_pt_walk_fup` gave `-EAGAIN`), and the loop runs its body again after `-ENOLINK`. -/
inductive meets_ovf (env : intel_pt_env) (d1 : intel_pt_decoder) : handler_call → Prop
  | trace_here (fuel : Nat) (no_tip at_next : Bool) (d : intel_pt_decoder)
      (h : (if at_next then some ((0 : Int), d) else intel_pt_get_next_packet env fuel d) =
        some (0, d1)) :
      meets_ovf env d1 (handler_call.walk_trace (fuel + 1) no_tip at_next d)
  | trace_brk (fuel : Nat) (no_tip at_next no_tip1 : Bool) (d dh d2 : intel_pt_decoder)
      (h : (if at_next then some ((0 : Int), d) else intel_pt_get_next_packet env fuel d) =
        some (0, dh))
      (hsw : intel_pt_walk_trace_packet env fuel no_tip dh =
        some (walk_trace_step.brk no_tip1 d2))
      (hm : meets_ovf env d1 (handler_call.walk_trace fuel no_tip1 false d2)) :
      meets_ovf env d1 (handler_call.walk_trace (fuel + 1) no_tip at_next d)
  | trace_next (fuel : Nat) (no_tip at_next no_tip1 : Bool) (d dh d2 : intel_pt_decoder)
      (h : (if at_next then some ((0 : Int), d) else intel_pt_get_next_packet env fuel d) =
        some (0, dh))
      (hsw : intel_pt_walk_trace_packet env fuel no_tip dh =
        some (walk_trace_step.next no_tip1 d2))
      (hm : meets_ovf env d1 (handler_call.walk_trace fuel no_tip1 true d2)) :
      meets_ovf env d1 (handler_call.walk_trace (fuel + 1) no_tip at_next d)
  | trace_psbend (fuel : Nat) (no_tip at_next : Bool) (d dh : intel_pt_decoder)
      (stack : intel_pt_stack)
      (h : (if at_next then some ((0 : Int), d) else intel_pt_get_next_packet env fuel d) =
        some (0, dh))
      (hp : dh.packet.type = intel_pt_pkt_type.INTEL_PT_PSB)
      (hcs : intel_pt_clear_stack dh.stack = some stack)
      (hm : meets_ovf env d1
        (handler_call.walk_psbend fuel
          { dh with last_ip := 0, have_last_ip := true, stack := stack })) :
      meets_ovf env d1 (handler_call.walk_trace (fuel + 1) no_tip at_next d)
  | trace_fup_tip (fuel : Nat) (at_next : Bool) (d dh da : intel_pt_decoder)
      (h : (if at_next then some ((0 : Int), d) else intel_pt_get_next_packet env fuel d) =
        some (0, dh))
      (hp : dh.packet.type = intel_pt_pkt_type.INTEL_PT_FUP)
      (hc : dh.packet.count ≠ 0)
      (hf : intel_pt_walk_fup env fuel (intel_pt_set_last_ip dh) = some (-EAGAIN, da))
      (hm : meets_ovf env d1
        (handler_call.walk_fup_tip fuel (intel_pt_walk_fup_tip_flags da))) :
      meets_ovf env d1 (handler_call.walk_trace (fuel + 1) false at_next d)
  | psbend_here (fuel : Nat) (d : intel_pt_decoder)
      (h : intel_pt_get_next_packet env fuel d = some (0, d1)) :
      meets_ovf env d1 (handler_call.walk_psbend (fuel + 1) d)
  | psbend_go (fuel : Nat) (d dh d2 : intel_pt_decoder)
      (h : intel_pt_get_next_packet env fuel d = some (0, dh))
      (hsw : intel_pt_walk_psbend_packet env dh = (none, d2))
      (hm : meets_ovf env d1 (handler_call.walk_psbend fuel d2)) :
      meets_ovf env d1 (handler_call.walk_psbend (fuel + 1) d)
  | fup_tip_here (fuel : Nat) (d : intel_pt_decoder)
      (h : intel_pt_get_next_packet env fuel d = some (0, d1)) :
      meets_ovf env d1 (handler_call.walk_fup_tip (fuel + 1) d)
  | fup_tip_go (fuel : Nat) (d dh d2 : intel_pt_decoder)
      (h : intel_pt_get_next_packet env fuel d = some (0, dh))
      (hsw : intel_pt_walk_fup_tip_packet env dh = (none, d2))
      (hm : meets_ovf env d1 (handler_call.walk_fup_tip fuel d2)) :
      meets_ovf env d1 (handler_call.walk_fup_tip (fuel + 1) d)
  | psb_here (fuel : Nat) (d : intel_pt_decoder)
      (h : intel_pt_get_next_packet env fuel d = some (0, d1)) :
      meets_ovf env d1 (handler_call.walk_psb (fuel + 1) d)
  | psb_go (fuel : Nat) (d dh d2 : intel_pt_decoder)
      (h : intel_pt_get_next_packet env fuel d = some (0, dh))
      (hsw : intel_pt_walk_psb_packet env dh = (none, d2))
      (hm : meets_ovf env d1 (handler_call.walk_psb fuel d2)) :
      meets_ovf env d1 (handler_call.walk_psb (fuel + 1) d)
  | to_ip_here (fuel : Nat) (d : intel_pt_decoder)
      (h : intel_pt_get_next_packet env fuel d = some (0, d1)) :
      meets_ovf env d1 (handler_call.walk_to_ip (fuel + 1) d)
  | to_ip_go (fuel : Nat) (d dh d2 : intel_pt_decoder)
      (h : intel_pt_get_next_packet env fuel d = some (0, dh))
      (hsw : intel_pt_walk_to_ip_packet env fuel dh = some (none, d2))
      (hm : meets_ovf env d1 (handler_call.walk_to_ip fuel d2)) :
      meets_ovf env d1 (handler_call.walk_to_ip (fuel + 1) d)
  | to_ip_psb (fuel : Nat) (d dh : intel_pt_decoder) (stack : intel_pt_stack)
      (h : intel_pt_get_next_packet env fuel d = some (0, dh))
      (hp : dh.packet.type = intel_pt_pkt_type.INTEL_PT_PSB)
      (hcs : intel_pt_clear_stack dh.stack = some stack)
      (hm : meets_ovf env d1
        (handler_call.walk_psb fuel
          { dh with last_ip := 0, have_last_ip := true, stack := stack })) :
      meets_ovf env d1 (handler_call.walk_to_ip (fuel + 1) d)
  | sync_ip_walk (fuel : Nat) (d : intel_pt_decoder)
      (hm : meets_ovf env d1
        (handler_call.walk_to_ip fuel { d with set_fup_tx_flags := false })) :
      meets_ovf env d1 (handler_call.sync_ip fuel d)
  | sync_psb (fuel : Nat) (d dp : intel_pt_decoder) (stack : intel_pt_stack)
      (hcs : intel_pt_clear_stack d.stack = some stack)
      (hscan : intel_pt_scan_for_psb env fuel
        { d with
          pge := false
          continuous_period := false
          have_last_ip := false
          last_ip := 0
          ip := 0
          stack := stack } = some (0, dp))
      (hm : meets_ovf env d1
        (handler_call.walk_psb fuel
          { dp with
            have_last_ip := true
            pkt_state := intel_pt_pkt_state.INTEL_PT_STATE_NO_IP })) :
      meets_ovf env d1 (handler_call.sync fuel d)
  | sync_sync_ip (fuel : Nat) (d dp dq : intel_pt_decoder) (stack : intel_pt_stack)
      (hcs : intel_pt_clear_stack d.stack = some stack)
      (hscan : intel_pt_scan_for_psb env fuel
        { d with
          pge := false
          continuous_period := false
          have_last_ip := false
          last_ip := 0
          ip := 0
          stack := stack } = some (0, dp))
      (hpsb : intel_pt_walk_psb env fuel
        { dp with
          have_last_ip := true
          pkt_state := intel_pt_pkt_state.INTEL_PT_STATE_NO_IP } = some (0, dq))
      (hip : dq.ip = 0)
      (hm : meets_ovf env d1 (handler_call.sync_ip fuel dq)) :
      meets_ovf env d1 (handler_call.sync fuel d)
  | step_no_psb (fuel : Nat) (d : intel_pt_decoder)
      (hs : d.pkt_state = intel_pt_pkt_state.INTEL_PT_STATE_NO_PSB)
      (hm : meets_ovf env d1
        (handler_call.sync fuel
          { d with state := { d.state with type := INTEL_PT_BRANCH, flags := 0 } })) :
      meets_ovf env d1 (handler_call.decode_step fuel d)
  | step_no_ip (fuel : Nat) (d : intel_pt_decoder)
      (hs : d.pkt_state = intel_pt_pkt_state.INTEL_PT_STATE_NO_IP)
      (hm : meets_ovf env d1
        (handler_call.sync_ip fuel
          { d with
            state := { d.state with type := INTEL_PT_BRANCH, flags := 0 }
            have_last_ip := false
            last_ip := 0
            ip := 0 })) :
      meets_ovf env d1 (handler_call.decode_step fuel d)
  | step_err_resync (fuel : Nat) (d : intel_pt_decoder)
      (hs : d.pkt_state = intel_pt_pkt_state.INTEL_PT_STATE_ERR_RESYNC)
      (hm : meets_ovf env d1
        (handler_call.sync_ip fuel
          { d with state := { d.state with type := INTEL_PT_BRANCH, flags := 0 } })) :
      meets_ovf env d1 (handler_call.decode_step fuel d)
  | step_in_sync (fuel : Nat) (d : intel_pt_decoder)
      (hs : d.pkt_state = intel_pt_pkt_state.INTEL_PT_STATE_IN_SYNC)
      (hm : meets_ovf env d1
        (handler_call.walk_trace fuel false false
          { d with state := { d.state with type := INTEL_PT_BRANCH, flags := 0 } })) :
      meets_ovf env d1 (handler_call.decode_step fuel d)
  | step_tnt (fuel : Nat) (d da : intel_pt_decoder)
      (hs : d.pkt_state = intel_pt_pkt_state.INTEL_PT_STATE_TNT ∨
        d.pkt_state = intel_pt_pkt_state.INTEL_PT_STATE_TNT_CONT)
      (ht : intel_pt_walk_tnt env fuel
        { d with state := { d.state with type := INTEL_PT_BRANCH, flags := 0 } } =
          some (-EAGAIN, da))
      (hm : meets_ovf env d1 (handler_call.walk_trace fuel false false da)) :
      meets_ovf env d1 (handler_call.decode_step fuel d)
  | step_fup (fuel : Nat) (d da : intel_pt_decoder)
      (hs : d.pkt_state = intel_pt_pkt_state.INTEL_PT_STATE_FUP)
      (hf : intel_pt_walk_fup env fuel
        { d with
          state := { d.state with type := INTEL_PT_BRANCH, flags := 0 }
          pkt_state := intel_pt_pkt_state.INTEL_PT_STATE_IN_SYNC } = some (-EAGAIN, da))
      (hm : meets_ovf env d1
        (handler_call.walk_fup_tip fuel (intel_pt_walk_fup_tip_flags da))) :
      meets_ovf env d1 (handler_call.decode_step fuel d)
  | step_fup_no_tip (fuel : Nat) (d da : intel_pt_decoder)
      (hs : d.pkt_state = intel_pt_pkt_state.INTEL_PT_STATE_FUP_NO_TIP)
      (hf : intel_pt_walk_fup env fuel
        { d with
          state := { d.state with type := INTEL_PT_BRANCH, flags := 0 }
          pkt_state := intel_pt_pkt_state.INTEL_PT_STATE_IN_SYNC } = some (-EAGAIN, da))
      (hm : meets_ovf env d1 (handler_call.walk_trace fuel false false da)) :
      meets_ovf env d1 (handler_call.decode_step fuel d)
  | loop_here (fuel : Nat) (d : intel_pt_decoder)
      (hm : meets_ovf env d1 (handler_call.decode_step fuel d)) :
      meets_ovf env d1 (handler_call.decode_loop (fuel + 1) d)
  | loop_again (fuel : Nat) (d d2 : intel_pt_decoder)
      (hstep : intel_pt_decode_step env fuel d = some (-ENOLINK, d2))
      (hm : meets_ovf env d1 (handler_call.decode_loop fuel d2)) :
      meets_ovf env d1 (handler_call.decode_loop (fuel + 1) d)

/-- The walker of `example_indirect_env`, an indirect jump at `0x3000`, with the unit
decoder `example_get_packet`. -/
def example_ovf_tnt_env : intel_pt_env :=
  { example_indirect_env with get_packet := example_get_packet }

/-- A decoder in the state TNT at `0x2ff0` with one TNT bit left, in front of an OVF
packet. -/
def example_ovf_tnt_decoder : intel_pt_decoder :=
  { have_tma := true
    ip := 0x2ff0
    pkt_state := intel_pt_pkt_state.INTEL_PT_STATE_TNT
    tnt := { type := intel_pt_pkt_type.INTEL_PT_TNT, count := 1, payload := 0x8000000000000000 }
    buf := [2, 0xf3] }

/-- A walker that always reports, at the address it was started from, a conditional branch
of length 6 with the displacement `0x7fffffff`, and a `pgd_ip` predicate that always
holds. -/
def example_far_env : intel_pt_env :=
  { walk_insn := fun ip _ _ =>
      { err := 0
        insn := { op := intel_pt_insn_op.INTEL_PT_OP_OTHER
                  branch := intel_pt_insn_branch.INTEL_PT_BR_CONDITIONAL
                  length := 6
                  rel := 0x7fffffff }
        insn_cnt := 1
        ip := ip }
    pgd_ip := some (fun _ => true) }

/-- A decoder at `0x100000000` with a TNT packet of one bit, `1`. -/
def example_far_decoder : intel_pt_decoder :=
  { ip := 0x100000000
    pkt_state := intel_pt_pkt_state.INTEL_PT_STATE_TNT
    tnt := { type := intel_pt_pkt_type.INTEL_PT_TNT, count := 1, payload := 0x8000000000000000 } }

/-! ### Lemmas on the stack -/

theorem blk_entries_zero (blk : intel_pt_blk) : blk_entries blk 0 = [] := rfl

theorem blk_entries_succ (blk : intel_pt_blk) (n : Nat) :
    blk_entries blk (n + 1) = blk.ip n :: blk_entries blk n := by
  simp [blk_entries, List.range_succ]

theorem blk_entries_update (blk : intel_pt_blk) (n v : Nat) :
    blk_entries { ip := Function.update blk.ip n v } n = blk_entries blk n := by
  unfold blk_entries
  congr 1
  apply List.map_congr_left
  intro i hi
  have : i ≠ n := Nat.ne_of_lt (List.mem_range.mp hi)
  simp [Function.update, this]

theorem int_pos_cases (pos : Int) (h0 : 0 ≤ pos) (hne : pos ≠ 0) :
    ∃ n : Nat, pos = (n : Int) + 1 := by
  refine ⟨(pos - 1).toNat, ?_⟩
  omega

/-- What `intel_pt_pop` does on a stack satisfying the invariant: it returns the first
live entry (0 when there is none) and leaves the remaining live entries. -/
theorem pop_spec (s : intel_pt_stack) (h : stack_inv s) :
    ∃ s1, intel_pt_pop s = some ((live_entries s).headD 0, s1) ∧ stack_inv s1 ∧
      live_entries s1 = (live_entries s).tail := by
  obtain ⟨blk, spare, pos⟩ := s
  obtain ⟨h0, h1, h2⟩ := h
  simp only [INTEL_PT_BLK_SIZE] at h0 h1 h2
  cases blk with
  | nil =>
    have hp : pos = 0 := h2 rfl
    subst hp
    exact ⟨_, rfl, ⟨le_refl _, by simp [INTEL_PT_BLK_SIZE], fun _ => rfl⟩, rfl⟩
  | cons b prev =>
    by_cases hp : pos = 0
    · subst hp
      cases prev with
      | nil =>
        refine ⟨_, rfl, ?_, rfl⟩
        simp [stack_inv]
      | cons b2 prev2 =>
        refine ⟨{ blk := b2 :: prev2,
                  spare := (match spare with | none => some b | some sp => some sp),
                  pos := 1023 }, ?_, ?_, ?_⟩
        · cases spare <;>
          simp [intel_pt_pop, intel_pt_pop_blk, intel_pt_pop_read, INTEL_PT_BLK_SIZE,
            live_entries, blks_entries, blk_entries_zero, blk_entries_succ b2 1023]
        · simp [stack_inv, INTEL_PT_BLK_SIZE]
        · simp [live_entries, blks_entries, INTEL_PT_BLK_SIZE, blk_entries_zero,
            blk_entries_succ b2 1023]
    · obtain ⟨n, rfl⟩ := int_pos_cases pos h0 hp
      have hn : n < 1024 := by omega
      refine ⟨{ blk := b :: prev, spare := spare, pos := (n : Int) }, ?_, ?_, ?_⟩
      · have e1 : ((n : Int) + 1).toNat = n + 1 := by omega
        have e2 : ((n : Int) + 1 - 1) = (n : Int) := by omega
        have e3 : (n : Int) < 1024 := by omega
        simp [intel_pt_pop, intel_pt_pop_read, INTEL_PT_BLK_SIZE, live_entries, hp, e1,
          blk_entries_succ, e3]
      · refine ⟨Int.ofNat_nonneg n, ?_, ?_⟩
        · simp only [INTEL_PT_BLK_SIZE]; omega
        · intro hh; simp at hh
      · have e1 : ((n : Int) + 1).toNat = n + 1 := by omega
        simp [live_entries, e1, blk_entries_succ]

theorem blk_entries_succ_update (blk : intel_pt_blk) (n ip : Nat) :
    blk_entries { ip := Function.update blk.ip n ip } (n + 1) = ip :: blk_entries blk n := by
  rw [blk_entries_succ, blk_entries_update]
  simp

theorem blk_entries_one_update (blk : intel_pt_blk) (ip : Nat) :
    blk_entries { ip := Function.update blk.ip 0 ip } 1 = [ip] :=
  blk_entries_succ_update blk 0 ip

/-- The stack `intel_pt_push` leaves after taking a fresh top block `nb`. -/
theorem push_fresh_spec (nb : intel_pt_blk) (blk : List intel_pt_blk)
    (spare : Option intel_pt_blk) (ip : Nat) :
    stack_inv { blk := { ip := Function.update nb.ip 0 ip } :: blk, spare := spare, pos := 1 } ∧
    live_entries { blk := { ip := Function.update nb.ip 0 ip } :: blk, spare := spare, pos := 1 }
      = ip :: blks_entries blk := by
  refine ⟨⟨?_, ?_, ?_⟩, ?_⟩
  · show (0 : Int) ≤ 1
    decide
  · show (1 : Int) ≤ ((1024 : Nat) : Int)
    decide
  · intro hh; simp at hh
  · simp [live_entries, blk_entries_one_update]

/-- The result of `intel_pt_push` when a block has to be allocated. -/
theorem push_alloc_eq (blk : List intel_pt_blk) (spare : Option intel_pt_blk) (pos : Int)
    (ip : Nat) (m : Option intel_pt_blk) (hfull : blk.isEmpty = true ∨ pos = 1024) :
    intel_pt_push { blk := blk, spare := spare, pos := pos } ip m =
      match spare, m with
      | some sp, _ =>
        some (0, { blk := { ip := Function.update sp.ip 0 ip } :: blk, spare := none, pos := 1 })
      | none, some nb =>
        some (0, { blk := { ip := Function.update nb.ip 0 ip } :: blk, spare := none, pos := 1 })
      | none, none => some (-ENOMEM, { blk := blk, spare := none, pos := pos }) := by
  have hc : (blk.isEmpty = true ∨ pos = ((INTEL_PT_BLK_SIZE : Nat) : Int)) := by
    simpa [INTEL_PT_BLK_SIZE] using hfull
  unfold intel_pt_push
  simp only [if_pos hc]
  cases spare with
  | some sp => simp [intel_pt_alloc_blk, INTEL_PT_BLK_SIZE]
  | none =>
    cases m with
    | none => simp [intel_pt_alloc_blk, ENOMEM]
    | some nb => simp [intel_pt_alloc_blk, INTEL_PT_BLK_SIZE]

/-- The result of `intel_pt_push` when the top block has room. -/
theorem push_room_eq (b : intel_pt_blk) (prev : List intel_pt_blk)
    (spare : Option intel_pt_blk) (n : Nat) (ip : Nat) (m : Option intel_pt_blk)
    (hn : n < 1024) :
    intel_pt_push { blk := b :: prev, spare := spare, pos := (n : Int) } ip m =
      some (0, { blk := { ip := Function.update b.ip n ip } :: prev, spare := spare,
                 pos := (n : Int) + 1 }) := by
  have hc : ¬ ((b :: prev).isEmpty = true ∨ (n : Int) = ((INTEL_PT_BLK_SIZE : Nat) : Int)) := by
    simp [INTEL_PT_BLK_SIZE]; omega
  have e3 : (n : Int) < 1024 := by omega
  unfold intel_pt_push
  simp only [if_neg hc]
  simp [INTEL_PT_BLK_SIZE, e3]

/-- What `intel_pt_push` does on a stack satisfying the invariant when it reports success:
the pushed address becomes the first live entry. -/
theorem push_spec (s : intel_pt_stack) (ip : Nat) (m : Option intel_pt_blk)
    (s1 : intel_pt_stack) (h : stack_inv s) (hp : intel_pt_push s ip m = some (0, s1)) :
    stack_inv s1 ∧ live_entries s1 = ip :: live_entries s := by
  obtain ⟨blk, spare, pos⟩ := s
  obtain ⟨h0, h1, h2⟩ := h
  simp only [INTEL_PT_BLK_SIZE] at h0 h1 h2
  by_cases hfull : blk.isEmpty = true ∨ pos = 1024
  · -- a block is allocated, the address goes to its slot 0
    have hlive : live_entries { blk := blk, spare := spare, pos := pos } = blks_entries blk := by
      rcases hfull with he | hf
      · cases blk with
        | nil => rfl
        | cons b prev => simp at he
      · subst hf
        cases blk with
        | nil => rfl
        | cons b prev => rfl
    rw [hlive]
    rw [push_alloc_eq blk spare pos ip m hfull] at hp
    cases spare with
    | some sp =>
      simp only [Option.some.injEq, Prod.mk.injEq, true_and] at hp
      subst hp
      exact push_fresh_spec sp blk none ip
    | none =>
      cases m with
      | none => simp [ENOMEM] at hp
      | some nb =>
        simp only [Option.some.injEq, Prod.mk.injEq, true_and] at hp
        subst hp
        exact push_fresh_spec nb blk none ip
  · -- the address goes to slot `pos` of the top block
    have hne : ¬ blk.isEmpty = true := fun hh => hfull (Or.inl hh)
    have hpos : pos ≠ 1024 := fun hh => hfull (Or.inr hh)
    cases blk with
    | nil => simp at hne
    | cons b prev =>
      obtain ⟨n, rfl⟩ : ∃ n : Nat, pos = (n : Int) := ⟨pos.toNat, by omega⟩
      have hn : n < 1024 := by omega
      rw [push_room_eq b prev spare n ip m hn] at hp
      simp only [Option.some.injEq, Prod.mk.injEq, true_and] at hp
      subst hp
      refine ⟨⟨?_, ?_, ?_⟩, ?_⟩
      · show (0 : Int) ≤ (n : Int) + 1
        omega
      · show (n : Int) + 1 ≤ ((1024 : Nat) : Int)
        omega
      · intro hh; simp at hh
      · have e1 : ((n : Int) + 1).toNat = n + 1 := by omega
        simp [live_entries, e1, blk_entries_succ_update]

/-- On a stack satisfying the invariant `intel_pt_push` always returns, and the invariant
holds afterwards whether or not the push succeeded. -/
theorem push_total (s : intel_pt_stack) (ip : Nat) (m : Option intel_pt_blk)
    (h : stack_inv s) :
    ∃ r, intel_pt_push s ip m = some r ∧ stack_inv r.2 ∧ (m.isSome = true → r.1 = 0) := by
  obtain ⟨blk, spare, pos⟩ := s
  have hinv := h
  obtain ⟨h0, h1, h2⟩ := h
  simp only [INTEL_PT_BLK_SIZE] at h0 h1 h2
  by_cases hfull : blk.isEmpty = true ∨ pos = 1024
  · rw [push_alloc_eq blk spare pos ip m hfull]
    cases spare with
    | some sp => exact ⟨_, rfl, (push_fresh_spec sp blk none ip).1, fun _ => rfl⟩
    | none =>
      cases m with
      | none => exact ⟨_, rfl, hinv, fun hh => by simp at hh⟩
      | some nb => exact ⟨_, rfl, (push_fresh_spec nb blk none ip).1, fun _ => rfl⟩
  · have hne : ¬ blk.isEmpty = true := fun hh => hfull (Or.inl hh)
    have hpos : pos ≠ 1024 := fun hh => hfull (Or.inr hh)
    cases blk with
    | nil => simp at hne
    | cons b prev =>
      obtain ⟨n, rfl⟩ : ∃ n : Nat, pos = (n : Int) := ⟨pos.toNat, by omega⟩
      have hn : n < 1024 := by omega
      have hp := push_room_eq b prev spare n ip m hn
      exact ⟨_, hp, (push_spec _ ip m _ hinv hp).1, fun _ => rfl⟩

/-- Pushing a sequence with every allocation succeeding puts the addresses on top of the
live entries, last pushed first. -/
theorem push_seq_spec (l : List (Nat × intel_pt_blk)) :
    ∀ s : intel_pt_stack, stack_inv s →
      ∃ s1, push_seq s (l.map fun p => (p.1, some p.2)) = some (0, s1) ∧ stack_inv s1 ∧
        live_entries s1 = (l.map Prod.fst).reverse ++ live_entries s := by
  induction l with
  | nil => intro s h; exact ⟨s, rfl, h, by simp⟩
  | cons p rest ih =>
    intro s h
    obtain ⟨r, hr, _, hz⟩ := push_total s p.1 (some p.2) h
    obtain ⟨e, s1⟩ := r
    have he : e = 0 := hz rfl
    subst he
    obtain ⟨hinv1, hlive1⟩ := push_spec s p.1 (some p.2) s1 h hr
    obtain ⟨s2, hs2, hinv2, hlive2⟩ := ih s1 hinv1
    refine ⟨s2, ?_, hinv2, ?_⟩
    · simp only [List.map_cons, push_seq, hr]
      simpa using hs2
    · rw [hlive2, hlive1]
      simp

/-- Popping as many times as a prefix of the live entries is long returns that prefix. -/
theorem pop_seq_spec (xs : List Nat) :
    ∀ (s : intel_pt_stack) (ys : List Nat), stack_inv s → live_entries s = xs ++ ys →
      ∃ s1, pop_seq xs.length s = some (xs, s1) ∧ stack_inv s1 ∧ live_entries s1 = ys := by
  induction xs with
  | nil => intro s ys h hl; exact ⟨s, rfl, h, by simpa using hl⟩
  | cons x rest ih =>
    intro s ys h hl
    obtain ⟨s1, hpop, hinv1, hlive1⟩ := pop_spec s h
    rw [hl] at hpop hlive1
    obtain ⟨s2, hs2, hinv2, hlive2⟩ := ih s1 ys hinv1 (by simpa using hlive1)
    refine ⟨s2, ?_, hinv2, hlive2⟩
    simp only [List.length_cons, pop_seq]
    simp only [List.cons_append, List.headD_cons] at hpop
    rw [hpop]
    simp only [hs2]

/-- Popping a stack without live entries returns 0 every time. -/
theorem pop_seq_empty (k : Nat) :
    ∀ s : intel_pt_stack, stack_inv s → live_entries s = [] →
      ∃ s1, pop_seq k s = some (List.replicate k 0, s1) ∧ stack_inv s1 ∧
        live_entries s1 = [] := by
  induction k with
  | zero => intro s h hl; exact ⟨s, rfl, h, hl⟩
  | succ k ih =>
    intro s h hl
    obtain ⟨s1, hpop, hinv1, hlive1⟩ := pop_spec s h
    rw [hl] at hpop hlive1
    obtain ⟨s2, hs2, hinv2, hlive2⟩ := ih s1 hinv1 (by simpa using hlive1)
    refine ⟨s2, ?_, hinv2, hlive2⟩
    simp only [pop_seq]
    simp only [List.headD_nil] at hpop
    rw [hpop]
    simp only [hs2, List.replicate_succ]

/-- The loop of `intel_pt_clear_stack` ends with no block left once it is given at least
one iteration per block. -/
theorem clear_stack_loop_spec (fuel : Nat) :
    ∀ s : intel_pt_stack, s.blk.length ≤ fuel →
      ∃ s1, intel_pt_clear_stack_loop fuel s = some s1 ∧ s1.blk = [] := by
  induction fuel with
  | zero =>
    intro s hs
    have : s.blk = [] := List.length_eq_zero.mp (Nat.le_zero.mp hs)
    exact ⟨s, by simp [intel_pt_clear_stack_loop, this], this⟩
  | succ fuel ih =>
    intro s hs
    obtain ⟨blk, spare, pos⟩ := s
    cases blk with
    | nil => exact ⟨{ blk := [], spare := spare, pos := pos }, rfl, rfl⟩
    | cons b prev =>
      have hlen : prev.length ≤ fuel := by simpa using hs
      clear hs
      cases spare with
      | none =>
        obtain ⟨s1, hs1, hb⟩ := ih { blk := prev, spare := some b, pos := pos } hlen
        exact ⟨s1, by simpa [intel_pt_clear_stack_loop, intel_pt_pop_blk] using hs1, hb⟩
      | some sp =>
        obtain ⟨s1, hs1, hb⟩ := ih { blk := prev, spare := some sp, pos := pos } hlen
        exact ⟨s1, by simpa [intel_pt_clear_stack_loop, intel_pt_pop_blk] using hs1, hb⟩

theorem blk_entries_length (blk : intel_pt_blk) (n : Nat) : (blk_entries blk n).length = n := by
  simp [blk_entries]

theorem blks_entries_length (blks : List intel_pt_blk) :
    (blks_entries blks).length = INTEL_PT_BLK_SIZE * blks.length := by
  induction blks with
  | nil => rfl
  | cons b prev ih =>
    simp only [blks_entries, List.length_append, blk_entries_length, ih, List.length_cons]
    ring

/-! ### The claims on the stack -/

/-- C1: on a stack satisfying the block invariant, when `intel_pt_push(stack, ip)`
succeeds the following `intel_pt_pop` returns `ip` and leaves the list of live entries
(top first) equal to the list before the push. -/
theorem push_pop_roundtrip (stack : intel_pt_stack) (ip : Nat) (malloc : Option intel_pt_blk)
    (stack1 : intel_pt_stack) (hinv : stack_inv stack)
    (hpush : intel_pt_push stack ip malloc = some (0, stack1)) :
    ∃ stack2, intel_pt_pop stack1 = some (ip, stack2) ∧
      live_entries stack2 = live_entries stack := by
  obtain ⟨hinv1, hlive1⟩ := push_spec stack ip malloc stack1 hinv hpush
  obtain ⟨stack2, hpop, _, hlive2⟩ := pop_spec stack1 hinv1
  refine ⟨stack2, ?_, ?_⟩
  · simpa [hlive1] using hpop
  · simpa [hlive1] using hlive2

/-- C1 at a push that has to allocate: the only block is full. -/
theorem push_pop_roundtrip_witness :
    stack_inv example_full_stack ∧
    intel_pt_push example_full_stack 0x401000 (some { ip := fun _ => 0 }) =
      some (0, { blk := [{ ip := Function.update (fun _ => 0) 0 0x401000 }, example_blk],
                 spare := none, pos := 1 }) ∧
    ∃ stack2,
      intel_pt_pop { blk := [{ ip := Function.update (fun _ => 0) 0 0x401000 }, example_blk],
                     spare := none, pos := 1 } = some (0x401000, stack2) ∧
      live_entries stack2 = live_entries example_full_stack :=
  ⟨by decide, rfl,
    push_pop_roundtrip example_full_stack 0x401000 (some { ip := fun _ => 0 }) _
      (by decide) rfl⟩

/-- C2: for every sequence of addresses pushed onto the empty stack with every allocation
succeeding (whatever the length, so also across block boundaries), as many pops return
the addresses in reverse order, and every further pop returns 0 and leaves the stack
without live entries. -/
theorem push_all_pop_all (pushes : List (Nat × intel_pt_blk)) :
    ∃ stack1 stack2,
      push_seq {} (pushes.map fun p => (p.1, some p.2)) = some (0, stack1) ∧
      pop_seq pushes.length stack1 = some ((pushes.map Prod.fst).reverse, stack2) ∧
      ∀ k, ∃ stack3, pop_seq k stack2 = some (List.replicate k 0, stack3) ∧
        live_entries stack3 = [] := by
  have hempty : stack_inv {} := by decide
  obtain ⟨stack1, hpush, hinv1, hlive1⟩ := push_seq_spec pushes {} hempty
  have hl : live_entries stack1 = (pushes.map Prod.fst).reverse ++ [] := by
    rw [hlive1]; rfl
  obtain ⟨stack2, hpop, hinv2, hlive2⟩ := pop_seq_spec _ stack1 [] hinv1 hl
  refine ⟨stack1, stack2, hpush, ?_, ?_⟩
  · simpa using hpop
  · intro k
    obtain ⟨stack3, h3, _, hl3⟩ := pop_seq_empty k stack2 hinv2 hlive2
    exact ⟨stack3, h3, hl3⟩

/-- C3: the stack invariant (`0 <= pos <= 1024`, `pos = 0` when there is no block, the top
block holding `pos` live entries and every block below it 1024) holds for the empty
stack and is preserved by `intel_pt_push`, `intel_pt_pop` and `intel_pt_clear_stack`;
under it each of them returns, so no push or pop indexes a block outside `[0, 1023]`. -/
theorem stack_inv_preserved (stack : intel_pt_stack) (hinv : stack_inv stack) :
    stack_inv {} ∧
    (live_entries stack).length =
      stack.pos.toNat + INTEL_PT_BLK_SIZE * (stack.blk.length - 1) ∧
    (∀ ip malloc, ∃ r, intel_pt_push stack ip malloc = some r ∧ stack_inv r.2) ∧
    (∃ r, intel_pt_pop stack = some r ∧ stack_inv r.2) ∧
    (∃ stack1, intel_pt_clear_stack stack = some stack1 ∧ stack_inv stack1) := by
  refine ⟨by decide, ?_, ?_, ?_, ?_⟩
  · obtain ⟨blk, spare, pos⟩ := stack
    cases blk with
    | nil =>
      have hp : pos = 0 := hinv.2.2 rfl
      subst hp
      rfl
    | cons b prev =>
      simp [live_entries, blk_entries_length, blks_entries_length]
  · intro ip malloc
    obtain ⟨r, hr, hi, _⟩ := push_total stack ip malloc hinv
    exact ⟨r, hr, hi⟩
  · obtain ⟨s1, hpop, hi, _⟩ := pop_spec stack hinv
    exact ⟨_, hpop, hi⟩
  · obtain ⟨s1, hs1, hb⟩ := clear_stack_loop_spec stack.blk.length stack (le_refl _)
    refine ⟨{ s1 with pos := 0 }, by simp [intel_pt_clear_stack, hs1], ?_⟩
    exact ⟨le_refl _, by simp [INTEL_PT_BLK_SIZE], fun _ => rfl⟩

/-- C3 at a stack whose only block is full. -/
theorem stack_inv_preserved_witness :
    stack_inv example_full_stack ∧
    (stack_inv {} ∧
    (live_entries example_full_stack).length =
      example_full_stack.pos.toNat + INTEL_PT_BLK_SIZE * (example_full_stack.blk.length - 1) ∧
    (∀ ip malloc, ∃ r, intel_pt_push example_full_stack ip malloc = some r ∧ stack_inv r.2) ∧
    (∃ r, intel_pt_pop example_full_stack = some r ∧ stack_inv r.2) ∧
    (∃ stack1, intel_pt_clear_stack example_full_stack = some stack1 ∧ stack_inv stack1)) :=
  ⟨by decide, stack_inv_preserved example_full_stack (by decide)⟩

/-! ### The claims on the timing arithmetic -/

theorem multdiv_exact (t n d : Nat) (hd : d ≠ 0) :
    t / d * n + t % d * n / d = t * n / d := by
  have hpos : 0 < d := Nat.pos_of_ne_zero hd
  have h1 : t * n = d * (t / d * n) + t % d * n := by
    conv_lhs => rw [← Nat.div_add_mod t d]
    ring
  rw [h1, Nat.mul_add_div hpos]

/-- C4: for every `t` (so every 64-bit one) and 32-bit `n`, `d` with `d != 0`, the product
`(t % d) * n` formed by `multdiv` fits in 64 bits, and the result is `floor(t * n / d)` modulo `2 ^ 64`, hence
exactly `floor(t * n / d)` when that fits in 64 bits; for `d = 0` the result is 0. -/
theorem multdiv_spec (t n d : Nat) (hn : n < 2 ^ 32) (hd : d < 2 ^ 32) :
    (d ≠ 0 →
      t % d * n < 2 ^ 64 ∧
      multdiv t n d = t * n / d % 2 ^ 64 ∧
      (t * n / d < 2 ^ 64 → multdiv t n d = t * n / d)) ∧
    (d = 0 → multdiv t n d = 0) := by
  constructor
  · intro hd0
    have hpos : 0 < d := Nat.pos_of_ne_zero hd0
    have hr : t % d < 2 ^ 32 := lt_trans (Nat.mod_lt t hpos) hd
    have hprod : t % d * n < 2 ^ 64 := by
      have hle : t % d * n ≤ (2 ^ 32 - 1) * (2 ^ 32 - 1) :=
        Nat.mul_le_mul (by omega) (by omega)
      omega
    have hval : multdiv t n d = t * n / d % 2 ^ 64 := by
      unfold multdiv
      rw [if_neg hd0, Nat.mod_eq_of_lt hprod, Nat.mod_add_mod, multdiv_exact t n d hd0]
    refine ⟨hprod, hval, ?_⟩
    intro hfit
    rw [hval, Nat.mod_eq_of_lt hfit]
  · intro hd0
    simp [multdiv, hd0]

/-- C4 at `t = 10 ^ 18`, `n = 3`, taken with `d = 7` (where the quotient fits in 64 bits)
and with `d = 0`. -/
theorem multdiv_spec_witness :
    ((3 : Nat) < 2 ^ 32 ∧ (7 : Nat) < 2 ^ 32 ∧ (7 : Nat) ≠ 0 ∧
      1000000000000000000 * 3 / 7 < 2 ^ 64) ∧
    (1000000000000000000 % 7 * 3 < 2 ^ 64 ∧
      multdiv 1000000000000000000 3 7 = 1000000000000000000 * 3 / 7 % 2 ^ 64) ∧
    multdiv 1000000000000000000 3 7 = 1000000000000000000 * 3 / 7 ∧
    multdiv 1000000000000000000 3 0 = 0 :=
  ⟨by norm_num,
    ⟨((multdiv_spec 1000000000000000000 3 7 (by norm_num) (by norm_num)).1 (by norm_num)).1,
      ((multdiv_spec 1000000000000000000 3 7 (by norm_num) (by norm_num)).1
        (by norm_num)).2.1⟩,
    ((multdiv_spec 1000000000000000000 3 7 (by norm_num) (by norm_num)).1 (by norm_num)).2.2
      (by norm_num),
    (multdiv_spec 1000000000000000000 3 0 (by norm_num) (by norm_num)).2 rfl⟩

/-- C5: `intel_pt_tsc_cmp` returns 0 exactly when the values are equal, -1 exactly when
`tsc1` is before `tsc2` and 1 exactly when it is after (that is, `tsc2` is before `tsc1`);
and `intel_pt_tsc_cmp(0x00FFFFFFFFFFFFFF, 0x0100000000000000) = -1`. -/
theorem intel_pt_tsc_cmp_spec (tsc1 tsc2 : Nat) :
    (intel_pt_tsc_cmp tsc1 tsc2 = 0 ↔ tsc1 = tsc2) ∧
    (intel_pt_tsc_cmp tsc1 tsc2 = -1 ↔ tsc_before tsc1 tsc2) ∧
    (intel_pt_tsc_cmp tsc1 tsc2 = 1 ↔ tsc_before tsc2 tsc1) ∧
    (intel_pt_tsc_cmp tsc1 tsc2 = 1 ↔ tsc1 ≠ tsc2 ∧ ¬ tsc_before tsc1 tsc2) ∧
    intel_pt_tsc_cmp 0x00FFFFFFFFFFFFFF 0x0100000000000000 = -1 := by
  have h55 : (1 : Nat) <<< 55 = 2 ^ 55 := by norm_num [Nat.shiftLeft_eq]
  unfold intel_pt_tsc_cmp tsc_before
  simp only [h55]
  refine ⟨?_, ?_, ?_, ?_, by decide⟩
  · split_ifs <;> simp_all
  · split_ifs <;> first | (simp_all; done) | (simp_all; omega)
  · split_ifs <;> first | (simp_all; done) | (simp_all; omega)
  · split_ifs <;> first | (simp_all; done) | (simp_all; omega)

/-- The `ctc_delta` that `intel_pt_calc_mtc_timestamp` leaves when `have_tma` is set. -/
theorem calc_mtc_ctc_delta (decoder : intel_pt_decoder) (lookahead : Option Nat)
    (htma : decoder.have_tma = true) :
    (intel_pt_calc_mtc_timestamp decoder lookahead).ctc_delta =
      (decoder.ctc_delta +
        shl32 (mtc_delta (decoder.packet.payload % 2 ^ 32) (last_mtc_fixed decoder))
          decoder.mtc_shift) % 2 ^ 64 := by
  unfold intel_pt_calc_mtc_timestamp last_mtc_fixed intel_pt_calc_cyc_to_tsc
  simp only [htma, Bool.true_eq_false, if_false]
  cases lookahead <;> split_ifs <;> rfl

/-- C6, as stated, fails when the MTC payload equals `last_mtc`: with both equal to 5 (and
`mtc_shift = 0`, `ctc_delta = 0`) the delta added to `ctc_delta` is 256, while
`(mtc - last_mtc)` modulo 256 is 0. -/
theorem mtc_delta_equal_counterexample :
    example_mtc_decoder.have_tma = true ∧
    example_mtc_decoder.packet.payload ≤ 255 ∧
    last_mtc_fixed example_mtc_decoder ≤ 255 ∧
    (example_mtc_decoder.packet.payload + 256 - last_mtc_fixed example_mtc_decoder) % 256 = 0 ∧
    mtc_delta (example_mtc_decoder.packet.payload % 2 ^ 32)
      (last_mtc_fixed example_mtc_decoder) = 256 ∧
    (intel_pt_calc_mtc_timestamp example_mtc_decoder none).ctc_delta = 256 ∧
    (intel_pt_calc_mtc_timestamp example_mtc_decoder none).ctc_delta ≠
      (example_mtc_decoder.ctc_delta +
        shl32 ((example_mtc_decoder.packet.payload + 256
                 - last_mtc_fixed example_mtc_decoder) % 256)
          example_mtc_decoder.mtc_shift) % 2 ^ 64 := by
  decide

/-- C6, amended: with `have_tma` set and the MTC value `mtc` and `last_mtc` (after any
fix-up) both in `[0, 255]`, the delta added to `ctc_delta` (before the shift by
`mtc_shift`) is `(mtc - last_mtc)` modulo 256 when `mtc` differs from `last_mtc`, and 256
when they are equal; `last_mtc = 0xFE` and `mtc = 0x02` give 4. -/
theorem mtc_delta_spec (decoder : intel_pt_decoder) (lookahead : Option Nat)
    (htma : decoder.have_tma = true) (hmtc : decoder.packet.payload ≤ 255)
    (hlast : last_mtc_fixed decoder ≤ 255) :
    (intel_pt_calc_mtc_timestamp decoder lookahead).ctc_delta =
      (decoder.ctc_delta +
        shl32 (mtc_delta decoder.packet.payload (last_mtc_fixed decoder))
          decoder.mtc_shift) % 2 ^ 64 ∧
    mtc_delta decoder.packet.payload (last_mtc_fixed decoder) =
      (if decoder.packet.payload = last_mtc_fixed decoder then 256
       else (decoder.packet.payload + 256 - last_mtc_fixed decoder) % 256) ∧
    mtc_delta 0x02 0xFE = 4 := by
  have hmod : decoder.packet.payload % 2 ^ 32 = decoder.packet.payload :=
    Nat.mod_eq_of_lt (by omega)
  refine ⟨?_, ?_, by decide⟩
  · rw [calc_mtc_ctc_delta decoder lookahead htma, hmod]
  · unfold mtc_delta
    split_ifs <;> omega

/-- C6, amended, at `last_mtc = 0xFE` and an MTC packet with payload `0x02`: 4 is added to
`ctc_delta`. -/
theorem mtc_delta_spec_witness :
    (example_wrap_decoder.have_tma = true ∧ example_wrap_decoder.packet.payload ≤ 255 ∧
      last_mtc_fixed example_wrap_decoder ≤ 255) ∧
    (intel_pt_calc_mtc_timestamp example_wrap_decoder none).ctc_delta = 4 ∧
    ((intel_pt_calc_mtc_timestamp example_wrap_decoder none).ctc_delta =
      (example_wrap_decoder.ctc_delta +
        shl32 (mtc_delta example_wrap_decoder.packet.payload
            (last_mtc_fixed example_wrap_decoder))
          example_wrap_decoder.mtc_shift) % 2 ^ 64 ∧
    mtc_delta example_wrap_decoder.packet.payload (last_mtc_fixed example_wrap_decoder) =
      (if example_wrap_decoder.packet.payload = last_mtc_fixed example_wrap_decoder then 256
       else (example_wrap_decoder.packet.payload + 256
              - last_mtc_fixed example_wrap_decoder) % 256) ∧
    mtc_delta 0x02 0xFE = 4) :=
  ⟨by decide, by decide,
    mtc_delta_spec example_wrap_decoder none rfl (by decide) (by decide)⟩

/-- C8: `intel_pt_calc_mtc_timestamp` never decreases `timestamp` (a smaller candidate is
dropped and the old value kept), and with `have_tma` false it changes no field of the
decoder. -/
theorem calc_mtc_timestamp_monotone (decoder : intel_pt_decoder) (lookahead : Option Nat) :
    decoder.timestamp ≤ (intel_pt_calc_mtc_timestamp decoder lookahead).timestamp ∧
    (decoder.have_tma = false → intel_pt_calc_mtc_timestamp decoder lookahead = decoder) := by
  constructor
  · unfold intel_pt_calc_mtc_timestamp intel_pt_calc_cyc_to_tsc
    cases lookahead <;>
    simp only [apply_ite intel_pt_decoder.timestamp, apply_ite intel_pt_decoder.tsc_ctc_mult,
      apply_ite intel_pt_decoder.ctc_timestamp, apply_ite intel_pt_decoder.ctc_delta,
      apply_ite intel_pt_decoder.last_packet_type, apply_ite intel_pt_decoder.mtc_shift,
      apply_ite intel_pt_decoder.last_mtc, apply_ite intel_pt_decoder.tsc_ctc_ratio_n,
      apply_ite intel_pt_decoder.tsc_ctc_ratio_d, ite_self] <;>
    split_ifs <;> omega
  · intro h
    simp [intel_pt_calc_mtc_timestamp, h]

/-- C8 at a decoder with TMA whose MTC candidate `0x800` is below the timestamp `0x1000`
(the timestamp stays), and at the same decoder without TMA (nothing changes). -/
theorem calc_mtc_timestamp_monotone_witness :
    (intel_pt_calc_mtc_timestamp example_late_decoder none).timestamp = 0x1000 ∧
    example_late_decoder.timestamp ≤
      (intel_pt_calc_mtc_timestamp example_late_decoder none).timestamp ∧
    example_no_tma_decoder.have_tma = false ∧
    intel_pt_calc_mtc_timestamp example_no_tma_decoder none = example_no_tma_decoder :=
  ⟨by decide, (calc_mtc_timestamp_monotone example_late_decoder none).1, rfl,
    (calc_mtc_timestamp_monotone example_no_tma_decoder none).2 rfl⟩

/-! ### Bit-level lemmas and the TSC / MTC fix-up claims -/

theorem and_high_mask (x k m : Nat) (hx : x < 2 ^ (k + m)) :
    x &&& ((2 ^ m - 1) * 2 ^ k) = x / 2 ^ k * 2 ^ k := by
  apply Nat.eq_of_testBit_eq
  intro i
  rw [← Nat.shiftLeft_eq, ← Nat.shiftRight_eq_div_pow, ← Nat.shiftLeft_eq]
  simp only [Nat.testBit_and, Nat.testBit_shiftLeft, Nat.testBit_two_pow_sub_one,
    Nat.testBit_shiftRight]
  by_cases hik : k ≤ i
  · have e : k + (i - k) = i := by omega
    by_cases him : i - k < m
    · simp [hik, him, e]
    · have hle : 2 ^ (k + m) ≤ 2 ^ i := Nat.pow_le_pow_right (by norm_num) (by omega)
      have hb : x.testBit i = false := Nat.testBit_lt_two_pow (lt_of_lt_of_le hx hle)
      simp [hik, him, e, hb]
  · simp [hik]

theorem or_low_add (q k b : Nat) (hb : b < 2 ^ k) : b ||| q * 2 ^ k = q * 2 ^ k + b := by
  rw [Nat.or_comm, Nat.mul_comm q, Nat.mul_add_lt_is_or hb]

theorem fixup_arith (mtc last k : Nat) (hk : k ≤ 7) (hmtc : mtc < 2 ^ 32) (hlast : last < 2 ^ k) :
    intel_pt_fixup_last_mtc mtc (16 - (k : Int)) last =
      if mtc / 2 ^ k * 2 ^ k + last ≥ mtc then
        (mtc / 2 ^ k * 2 ^ k + last + 2 ^ 32 - 2 ^ k) % 2 ^ 32 % 256
      else mtc / 2 ^ k * 2 ^ k + last := by
  have hs : shl32 1 (16 - (16 - (k : Int))) = 2 ^ k := by
    have e : (16 - (16 - (k : Int))).toNat = k := by omega
    have hlt : 2 ^ k < 2 ^ 32 := Nat.pow_lt_pow_right (by norm_num) (by omega)
    rw [shl32, e, one_mul, Nat.mod_eq_of_lt hlt]
  have hmask : not32 ((2 ^ k + 2 ^ 32 - 1) % 2 ^ 32) = (2 ^ (32 - k) - 1) * 2 ^ k := by
    interval_cases k <;> rfl
  have hand : mtc &&& ((2 ^ (32 - k) - 1) * 2 ^ k) = mtc / 2 ^ k * 2 ^ k :=
    and_high_mask mtc k (32 - k) (by rw [show k + (32 - k) = 32 by omega]; exact hmtc)
  have hff : ∀ x : Nat, x &&& 0xff = x % 256 := fun x => Nat.and_pow_two_sub_one_eq_mod x 8
  unfold intel_pt_fixup_last_mtc
  simp only [hs, hmask, hand, or_low_add _ _ _ hlast, hff]

/-- C7: for `8 < mtc_shift <= 16`, `mtc` in `[0, 255]` and `last_mtc` below
`2 ^ (16 - mtc_shift)`, `intel_pt_fixup_last_mtc` yields a value in `[0, 255]` whose low
`16 - mtc_shift` bits are those of `last_mtc` and which precedes `mtc` by a distance
(modulo 256) in `[1, 2 ^ (16 - mtc_shift)]`; no other 8-bit value with those low bits
that differs from `mtc` is closer before `mtc`. -/
theorem fixup_last_mtc_spec (mtc : Nat) (mtc_shift : Int) (last_mtc : Nat)
    (h1 : 8 < mtc_shift) (h2 : mtc_shift ≤ 16) (hmtc : mtc ≤ 255)
    (hlast : last_mtc < 2 ^ (16 - mtc_shift).toNat) :
    intel_pt_fixup_last_mtc mtc mtc_shift last_mtc ≤ 255 ∧
    intel_pt_fixup_last_mtc mtc mtc_shift last_mtc % 2 ^ (16 - mtc_shift).toNat =
      last_mtc % 2 ^ (16 - mtc_shift).toNat ∧
    1 ≤ (mtc + 256 - intel_pt_fixup_last_mtc mtc mtc_shift last_mtc) % 256 ∧
    (mtc + 256 - intel_pt_fixup_last_mtc mtc mtc_shift last_mtc) % 256 ≤
      2 ^ (16 - mtc_shift).toNat ∧
    ∀ other : Nat, other ≤ 255 →
      other % 2 ^ (16 - mtc_shift).toNat = last_mtc % 2 ^ (16 - mtc_shift).toNat →
      1 ≤ (mtc + 256 - other) % 256 →
      (mtc + 256 - intel_pt_fixup_last_mtc mtc mtc_shift last_mtc) % 256 ≤
        (mtc + 256 - other) % 256 := by
  obtain ⟨k, hk, rfl⟩ : ∃ k : Nat, k ≤ 7 ∧ mtc_shift = 16 - (k : Int) :=
    ⟨(16 - mtc_shift).toNat, by omega, by omega⟩
  have e : (16 - (16 - (k : Int))).toNat = k := by omega
  rw [e] at hlast ⊢
  rw [fixup_arith mtc last_mtc k hk (by omega) hlast]
  interval_cases k <;> simp only [Nat.reducePow] at hlast ⊢ <;> split_ifs <;>
    refine ⟨?_, ?_, ?_, ?_, ?_⟩ <;> omega

/-- C7 at `mtc_shift = 9`, `mtc = 0x02` and `last_mtc = 0x7E`, where the fixed-up value is
`0xFE`, 4 before `mtc`; the other candidate `0x7E` is 132 before it. -/
theorem fixup_last_mtc_spec_witness :
    ((8 : Int) < 9 ∧ (9 : Int) ≤ 16 ∧ (0x02 : Nat) ≤ 255 ∧
      (0x7E : Nat) < 2 ^ (16 - (9 : Int)).toNat) ∧
    intel_pt_fixup_last_mtc 0x02 9 0x7E = 0xFE ∧
    (intel_pt_fixup_last_mtc 0x02 9 0x7E ≤ 255 ∧
      intel_pt_fixup_last_mtc 0x02 9 0x7E % 2 ^ (16 - (9 : Int)).toNat =
        0x7E % 2 ^ (16 - (9 : Int)).toNat ∧
      1 ≤ (0x02 + 256 - intel_pt_fixup_last_mtc 0x02 9 0x7E) % 256 ∧
      (0x02 + 256 - intel_pt_fixup_last_mtc 0x02 9 0x7E) % 256 ≤
        2 ^ (16 - (9 : Int)).toNat) ∧
    (0x02 + 256 - intel_pt_fixup_last_mtc 0x02 9 0x7E) % 256 ≤ (0x02 + 256 - 0x7E) % 256 :=
  ⟨by decide, by decide,
    ⟨(fixup_last_mtc_spec 0x02 9 0x7E (by decide) (by decide) (by decide) (by decide)).1,
      (fixup_last_mtc_spec 0x02 9 0x7E (by decide) (by decide) (by decide) (by decide)).2.1,
      (fixup_last_mtc_spec 0x02 9 0x7E (by decide) (by decide) (by decide) (by decide)).2.2.1,
      (fixup_last_mtc_spec 0x02 9 0x7E (by decide) (by decide) (by decide)
        (by decide)).2.2.2.1⟩,
    (fixup_last_mtc_spec 0x02 9 0x7E (by decide) (by decide) (by decide) (by decide)).2.2.2.2
      0x7E (by decide) (by decide) (by decide)⟩

theorem tsc_stitch (ts payload : Nat) (hts : ts < 2 ^ 64) (hp : payload < 2 ^ 56) :
    payload ||| (ts &&& (0xff <<< 56)) = ts / 2 ^ 56 * 2 ^ 56 + payload := by
  have hc : (0xff : Nat) <<< 56 = (2 ^ 8 - 1) * 2 ^ 56 := by norm_num [Nat.shiftLeft_eq]
  rw [hc, and_high_mask ts 56 8 (by simpa using hts), or_low_add _ _ _ hp]

theorem calc_tsc_timestamp_no_ref (decoder : intel_pt_decoder) (lookahead : Option Nat)
    (href : decoder.ref_timestamp = 0) (hts : decoder.timestamp ≠ 0) :
    (intel_pt_calc_tsc_timestamp decoder lookahead).timestamp =
      (if tsc_candidate decoder.packet.payload decoder.timestamp < decoder.timestamp then
        if decoder.timestamp - tsc_candidate decoder.packet.payload decoder.timestamp
            < decoder.tsc_slip then decoder.timestamp
        else (tsc_candidate decoder.packet.payload decoder.timestamp + 2 ^ 56) % 2 ^ 64
       else tsc_candidate decoder.packet.payload decoder.timestamp) ∧
    (intel_pt_calc_tsc_timestamp decoder lookahead).timestamp_insn_cnt = 0 := by
  have h56 : (1 : Nat) <<< 56 = 2 ^ 56 := by norm_num [Nat.shiftLeft_eq]
  unfold intel_pt_calc_tsc_timestamp intel_pt_calc_cyc_to_tsc tsc_candidate
  simp only [href, hts, h56, ne_eq, not_true_eq_false, not_false_eq_true, if_true, if_false]
  constructor
  · cases lookahead <;>
    simp only [apply_ite intel_pt_decoder.timestamp,
      apply_ite intel_pt_decoder.last_packet_type, ite_self] <;>
    split_ifs <;> omega
  · cases lookahead <;>
    simp only [apply_ite intel_pt_decoder.timestamp_insn_cnt,
      apply_ite intel_pt_decoder.last_packet_type, ite_self]

theorem calc_tsc_timestamp_ref (decoder : intel_pt_decoder) (lookahead : Option Nat)
    (href : decoder.ref_timestamp ≠ 0) :
    (intel_pt_calc_tsc_timestamp decoder lookahead).timestamp =
      (if tsc_candidate decoder.packet.payload decoder.ref_timestamp < decoder.ref_timestamp then
        if decoder.ref_timestamp - tsc_candidate decoder.packet.payload decoder.ref_timestamp
            > 2 ^ 55 then
          (tsc_candidate decoder.packet.payload decoder.ref_timestamp + 2 ^ 56) % 2 ^ 64
        else tsc_candidate decoder.packet.payload decoder.ref_timestamp
       else
        if tsc_candidate decoder.packet.payload decoder.ref_timestamp - decoder.ref_timestamp
            > 2 ^ 55 then
          (tsc_candidate decoder.packet.payload decoder.ref_timestamp + 2 ^ 64 - 2 ^ 56) % 2 ^ 64
        else tsc_candidate decoder.packet.payload decoder.ref_timestamp) ∧
    (intel_pt_calc_tsc_timestamp decoder lookahead).tsc_timestamp =
      (intel_pt_calc_tsc_timestamp decoder lookahead).timestamp ∧
    (intel_pt_calc_tsc_timestamp decoder lookahead).ref_timestamp = 0 ∧
    (intel_pt_calc_tsc_timestamp decoder lookahead).timestamp_insn_cnt = 0 := by
  have h56 : (1 : Nat) <<< 56 = 2 ^ 56 := by norm_num [Nat.shiftLeft_eq]
  have h55 : (1 : Nat) <<< 55 = 2 ^ 55 := by norm_num [Nat.shiftLeft_eq]
  unfold intel_pt_calc_tsc_timestamp intel_pt_calc_cyc_to_tsc tsc_candidate
  simp only [href, h56, h55, ne_eq, not_true_eq_false, not_false_eq_true, if_true, if_false]
  refine ⟨?_, ?_, ?_, ?_⟩ <;> cases lookahead <;> split_ifs <;> rfl


/-- C9: in `intel_pt_calc_tsc_timestamp` with `ref_timestamp = 0`, `timestamp != 0` and a
payload below `2 ^ 56`, with `cand = payload | (timestamp & 0xff << 56)`: when `cand` is
below `timestamp` by less than `tsc_slip` the timestamp is kept; when it is below by
`tsc_slip` or more the new timestamp is `cand + 2 ^ 56` in 64-bit arithmetic; otherwise it
is `cand`. When the top byte of the old timestamp is not `0xff` the sum `cand + 2 ^ 56`
does not wrap and the new timestamp is at least the old one. `timestamp_insn_cnt`
becomes 0. -/
theorem calc_tsc_timestamp_no_ref_spec (decoder : intel_pt_decoder) (lookahead : Option Nat)
    (href : decoder.ref_timestamp = 0) (hts : decoder.timestamp ≠ 0)
    (hts64 : decoder.timestamp < 2 ^ 64) (hp : decoder.packet.payload < 2 ^ 56) :
    (tsc_candidate decoder.packet.payload decoder.timestamp < decoder.timestamp →
      decoder.timestamp - tsc_candidate decoder.packet.payload decoder.timestamp
        < decoder.tsc_slip →
      (intel_pt_calc_tsc_timestamp decoder lookahead).timestamp = decoder.timestamp) ∧
    (tsc_candidate decoder.packet.payload decoder.timestamp < decoder.timestamp →
      decoder.tsc_slip ≤
        decoder.timestamp - tsc_candidate decoder.packet.payload decoder.timestamp →
      (intel_pt_calc_tsc_timestamp decoder lookahead).timestamp =
        (tsc_candidate decoder.packet.payload decoder.timestamp + 2 ^ 56) % 2 ^ 64) ∧
    (decoder.timestamp ≤ tsc_candidate decoder.packet.payload decoder.timestamp →
      (intel_pt_calc_tsc_timestamp decoder lookahead).timestamp =
        tsc_candidate decoder.packet.payload decoder.timestamp) ∧
    (decoder.timestamp / 2 ^ 56 ≠ 0xff →
      tsc_candidate decoder.packet.payload decoder.timestamp + 2 ^ 56 < 2 ^ 64 ∧
      decoder.timestamp ≤ (intel_pt_calc_tsc_timestamp decoder lookahead).timestamp) ∧
    (intel_pt_calc_tsc_timestamp decoder lookahead).timestamp_insn_cnt = 0 := by
  obtain ⟨hval, hcnt⟩ := calc_tsc_timestamp_no_ref decoder lookahead href hts
  have hc : tsc_candidate decoder.packet.payload decoder.timestamp =
      decoder.timestamp / 2 ^ 56 * 2 ^ 56 + decoder.packet.payload :=
    tsc_stitch decoder.timestamp decoder.packet.payload hts64 hp
  rw [hval]
  refine ⟨?_, ?_, ?_, ?_, hcnt⟩
  · intro h1 h2
    rw [if_pos h1, if_pos h2]
  · intro h1 h2
    rw [if_pos h1, if_neg (by omega)]
  · intro h1
    rw [if_neg (by omega)]
  · intro htop
    rw [hc]
    split_ifs <;> omega

/-- C9 at a decoder whose timestamp is `0x0100000000020000`: a payload `0x10` lies
`0x1fff0` below it, so the new timestamp is `0x0200000000000010`; a payload `0x1fff0` lies
`0x10` below it, so the timestamp is kept. -/
theorem calc_tsc_timestamp_no_ref_spec_witness :
    (example_tsc_decoder.ref_timestamp = 0 ∧ example_tsc_decoder.timestamp ≠ 0 ∧
      example_tsc_decoder.timestamp < 2 ^ 64 ∧ example_tsc_decoder.packet.payload < 2 ^ 56 ∧
      example_tsc_decoder.timestamp / 2 ^ 56 ≠ 0xff) ∧
    (intel_pt_calc_tsc_timestamp example_tsc_decoder none).timestamp = 0x0200000000000010 ∧
    (intel_pt_calc_tsc_timestamp example_tsc_decoder none).timestamp =
      (tsc_candidate example_tsc_decoder.packet.payload example_tsc_decoder.timestamp
        + 2 ^ 56) % 2 ^ 64 ∧
    (tsc_candidate example_tsc_decoder.packet.payload example_tsc_decoder.timestamp + 2 ^ 56
        < 2 ^ 64 ∧
      example_tsc_decoder.timestamp ≤
        (intel_pt_calc_tsc_timestamp example_tsc_decoder none).timestamp) ∧
    (intel_pt_calc_tsc_timestamp example_tsc_decoder none).timestamp_insn_cnt = 0 ∧
    (intel_pt_calc_tsc_timestamp example_slip_decoder none).timestamp =
      example_slip_decoder.timestamp :=
  ⟨by decide, by decide,
    (calc_tsc_timestamp_no_ref_spec example_tsc_decoder none rfl (by decide) (by decide)
      (by decide)).2.1 (by decide) (by decide),
    (calc_tsc_timestamp_no_ref_spec example_tsc_decoder none rfl (by decide) (by decide)
      (by decide)).2.2.2.1 (by decide),
    (calc_tsc_timestamp_no_ref_spec example_tsc_decoder none rfl (by decide) (by decide)
      (by decide)).2.2.2.2,
    (calc_tsc_timestamp_no_ref_spec example_slip_decoder none rfl (by decide) (by decide)
      (by decide)).1 (by decide) (by decide)⟩

/-- C10: in `intel_pt_calc_tsc_timestamp` with `ref_timestamp != 0` and a payload below
`2 ^ 56`, the resulting timestamp has its low 56 bits equal to the payload, is within
`2 ^ 55` of `ref_timestamp` in 64-bit wrap-around arithmetic and equals `tsc_timestamp`;
afterwards `ref_timestamp = 0` and `timestamp_insn_cnt = 0`. -/
theorem calc_tsc_timestamp_ref_spec (decoder : intel_pt_decoder) (lookahead : Option Nat)
    (href : decoder.ref_timestamp ≠ 0) (href64 : decoder.ref_timestamp < 2 ^ 64)
    (hp : decoder.packet.payload < 2 ^ 56) :
    (intel_pt_calc_tsc_timestamp decoder lookahead).timestamp % 2 ^ 56 =
      decoder.packet.payload ∧
    (intel_pt_calc_tsc_timestamp decoder lookahead).timestamp < 2 ^ 64 ∧
    wrap_dist (intel_pt_calc_tsc_timestamp decoder lookahead).timestamp decoder.ref_timestamp
      ≤ 2 ^ 55 ∧
    (intel_pt_calc_tsc_timestamp decoder lookahead).timestamp =
      (intel_pt_calc_tsc_timestamp decoder lookahead).tsc_timestamp ∧
    (intel_pt_calc_tsc_timestamp decoder lookahead).ref_timestamp = 0 ∧
    (intel_pt_calc_tsc_timestamp decoder lookahead).timestamp_insn_cnt = 0 := by
  obtain ⟨hval, htsc, hr, hcnt⟩ := calc_tsc_timestamp_ref decoder lookahead href
  have hc : tsc_candidate decoder.packet.payload decoder.ref_timestamp =
      decoder.ref_timestamp / 2 ^ 56 * 2 ^ 56 + decoder.packet.payload :=
    tsc_stitch decoder.ref_timestamp decoder.packet.payload href64 hp
  refine ⟨?_, ?_, ?_, htsc.symm, hr, hcnt⟩
  · rw [hval, hc]
    split_ifs <;> omega
  · rw [hval, hc]
    split_ifs <;> omega
  · rw [hval, hc]
    unfold wrap_dist
    split_ifs <;> omega

/-- C10 at `ref_timestamp = 0x02ffffffffffff00` and a payload `0x20`: the timestamp becomes
`0x0300000000000020`. -/
theorem calc_tsc_timestamp_ref_spec_witness :
    (example_ref_decoder.ref_timestamp ≠ 0 ∧ example_ref_decoder.ref_timestamp < 2 ^ 64 ∧
      example_ref_decoder.packet.payload < 2 ^ 56) ∧
    (intel_pt_calc_tsc_timestamp example_ref_decoder none).timestamp = 0x0300000000000020 ∧
    ((intel_pt_calc_tsc_timestamp example_ref_decoder none).timestamp % 2 ^ 56 =
      example_ref_decoder.packet.payload ∧
    (intel_pt_calc_tsc_timestamp example_ref_decoder none).timestamp < 2 ^ 64 ∧
    wrap_dist (intel_pt_calc_tsc_timestamp example_ref_decoder none).timestamp
      example_ref_decoder.ref_timestamp ≤ 2 ^ 55 ∧
    (intel_pt_calc_tsc_timestamp example_ref_decoder none).timestamp =
      (intel_pt_calc_tsc_timestamp example_ref_decoder none).tsc_timestamp ∧
    (intel_pt_calc_tsc_timestamp example_ref_decoder none).ref_timestamp = 0 ∧
    (intel_pt_calc_tsc_timestamp example_ref_decoder none).timestamp_insn_cnt = 0) :=
  ⟨by decide, by decide,
    calc_tsc_timestamp_ref_spec example_ref_decoder none (by decide) (by decide) (by decide)⟩

/-! ### TMA, estimate, period and error-code claims -/

/-- What `intel_pt_calc_tma` leaves in the fields other than `ctc_timestamp`, and that it
does nothing when `tsc_ctc_ratio_d` is 0. -/
theorem calc_tma_fields (decoder : intel_pt_decoder) :
    (decoder.tsc_ctc_ratio_d = 0 → intel_pt_calc_tma decoder = decoder) ∧
    (decoder.tsc_ctc_ratio_d ≠ 0 →
      (intel_pt_calc_tma decoder).last_mtc =
        shr32 (decoder.packet.payload % 2 ^ 32) decoder.mtc_shift &&& 0xff ∧
      (intel_pt_calc_tma decoder).have_tma = true ∧
      (intel_pt_calc_tma decoder).fixup_last_mtc = true ∧
      (intel_pt_calc_tma decoder).ctc_delta = 0 ∧
      (intel_pt_calc_tma decoder).tsc_ctc_ratio_d = decoder.tsc_ctc_ratio_d ∧
      (intel_pt_calc_tma decoder).timestamp = decoder.timestamp) := by
  constructor
  · intro h
    simp [intel_pt_calc_tma, h]
  · intro h
    unfold intel_pt_calc_tma
    simp only [h, if_false]
    refine ⟨?_, ?_, ?_, ?_, ?_, ?_⟩ <;> first | trivial | rfl | (split_ifs <;> rfl)

/-- The `ctc_timestamp` that `intel_pt_calc_tma` leaves: the product of the multiplier
shortcut is taken modulo `2 ^ 32`. -/
theorem calc_tma_ctc_timestamp (decoder : intel_pt_decoder)
    (hd : decoder.tsc_ctc_ratio_d ≠ 0) :
    (intel_pt_calc_tma decoder).ctc_timestamp =
      if decoder.tsc_ctc_mult ≠ 0 then
        ((decoder.tsc_timestamp + 2 ^ 64 - (decoder.packet.count % 2 ^ 32).toNat) % 2 ^ 64
          + 2 ^ 64
          - (decoder.packet.payload % 2 ^ 32 &&& decoder.ctc_rem_mask) * decoder.tsc_ctc_mult
              % 2 ^ 32) % 2 ^ 64
      else
        ((decoder.tsc_timestamp + 2 ^ 64 - (decoder.packet.count % 2 ^ 32).toNat) % 2 ^ 64
          + 2 ^ 64
          - multdiv (decoder.packet.payload % 2 ^ 32 &&& decoder.ctc_rem_mask)
              decoder.tsc_ctc_ratio_n decoder.tsc_ctc_ratio_d) % 2 ^ 64 := by
  unfold intel_pt_calc_tma
  simp only [hd, if_false]
  split_ifs <;> rfl

/-- C11 at a TMA packet with `ctc & ctc_rem_mask = 0x3ff` and `tsc_ctc_mult = 0x1000000`:
the exact product is `0x3ff000000`, but the code subtracts the 32-bit product `0xff000000`
from `tsc_timestamp - fc`, while `multdiv` on the same ratio gives the exact product. -/
theorem calc_tma_product_truncated :
    example_tma_decoder.tsc_ctc_ratio_d ≠ 0 ∧ example_tma_decoder.tsc_ctc_mult ≠ 0 ∧
    (example_tma_decoder.packet.payload % 2 ^ 32 &&& example_tma_decoder.ctc_rem_mask)
      * example_tma_decoder.tsc_ctc_mult = 0x3ff000000 ∧
    (intel_pt_calc_tma example_tma_decoder).ctc_timestamp = 0x1000000000000 - 0xff000000 ∧
    (intel_pt_calc_tma example_tma_decoder).ctc_timestamp ≠
      (example_tma_decoder.tsc_timestamp + 2 ^ 64 - 0 + 2 ^ 64 - 0x3ff000000) % 2 ^ 64 ∧
    multdiv 0x3ff example_tma_decoder.tsc_ctc_ratio_n example_tma_decoder.tsc_ctc_ratio_d
      = 0x3ff000000 := by
  decide

/-- C14, as stated, fails when `cbr` is 0: with `sample_timestamp = 100` and
`sample_insn_cnt = 1` the result is 102, not `sample_timestamp`. -/
theorem est_timestamp_no_cbr_counterexample :
    example_est_decoder.cbr = 0 ∧
    intel_pt_est_timestamp example_est_decoder = 102 ∧
    intel_pt_est_timestamp example_est_decoder ≠ example_est_decoder.sample_timestamp := by
  decide

/-- C14, amended: `intel_pt_est_timestamp` returns
`sample_timestamp + ((sample_insn_cnt << 1) * max_non_turbo_ratio) / cbr` (64-bit
arithmetic, integer division) when both `cbr` and `max_non_turbo_ratio` are nonzero, and
`sample_timestamp + (sample_insn_cnt << 1)` when either of them is zero. -/
theorem est_timestamp_spec (decoder : intel_pt_decoder) :
    (decoder.cbr ≠ 0 → decoder.max_non_turbo_ratio ≠ 0 →
      intel_pt_est_timestamp decoder =
        (decoder.sample_timestamp +
          (decoder.sample_insn_cnt * 2 % 2 ^ 64) * decoder.max_non_turbo_ratio % 2 ^ 64
            / decoder.cbr) % 2 ^ 64) ∧
    (decoder.cbr = 0 ∨ decoder.max_non_turbo_ratio = 0 →
      intel_pt_est_timestamp decoder =
        (decoder.sample_timestamp + decoder.sample_insn_cnt * 2 % 2 ^ 64) % 2 ^ 64) := by
  have hs : decoder.sample_insn_cnt <<< 1 = decoder.sample_insn_cnt * 2 := by
    simp [Nat.shiftLeft_eq]
  constructor
  · intro h1 h2
    have hn : ¬ (decoder.cbr = 0 ∨ decoder.max_non_turbo_ratio = 0) := by
      intro h; rcases h with h | h
      · exact h1 h
      · exact h2 h
    unfold intel_pt_est_timestamp
    simp only [if_neg hn, hs]
  · intro h
    unfold intel_pt_est_timestamp
    simp only [if_pos h, hs]

/-- C14, amended, at `cbr = 12`, `max_non_turbo_ratio = 24` and 5 instructions since the
sample at 100 (estimate 120), and at the same decoder with `cbr = 0` (estimate 110). -/
theorem est_timestamp_spec_witness :
    intel_pt_est_timestamp
      { sample_timestamp := 100, sample_insn_cnt := 5, max_non_turbo_ratio := 24, cbr := 12 }
      = (100 + (5 * 2 % 2 ^ 64) * 24 % 2 ^ 64 / 12) % 2 ^ 64 ∧
    intel_pt_est_timestamp
      { sample_timestamp := 100, sample_insn_cnt := 5, max_non_turbo_ratio := 24, cbr := 0 }
      = (100 + 5 * 2 % 2 ^ 64) % 2 ^ 64 :=
  ⟨(est_timestamp_spec
      { sample_timestamp := 100, sample_insn_cnt := 5, max_non_turbo_ratio := 24, cbr := 12 }).1
      (by decide) (by decide),
    (est_timestamp_spec
      { sample_timestamp := 100, sample_insn_cnt := 5, max_non_turbo_ratio := 24, cbr := 0 }).2
      (Or.inl rfl)⟩

/-- The loop of `intel_pt_lower_power_of_2` on a value in `[2 ^ k, 2 ^ (k + 1))` ends after
`k` iterations with `x = 1`. -/
theorem lower_power_of_2_loop_spec (k : Nat) :
    ∀ fuel x i : Nat, 2 ^ k ≤ x → x < 2 ^ (k + 1) → k ≤ fuel →
      intel_pt_lower_power_of_2_loop fuel x i = some (1, i + k) := by
  induction k with
  | zero =>
    intro fuel x i h1 h2 _
    have hx : x = 1 := by omega
    subst hx
    cases fuel <;> simp [intel_pt_lower_power_of_2_loop]
  | succ k ih =>
    intro fuel x i h1 h2 hf
    have hx : x ≠ 1 := by
      have : 1 ≤ 2 ^ k := Nat.one_le_two_pow
      rw [pow_succ] at h1
      omega
    obtain ⟨fuel1, rfl⟩ : ∃ f, fuel = f + 1 := ⟨fuel - 1, by omega⟩
    have hlo : 2 ^ k ≤ x >>> 1 := by
      rw [Nat.shiftRight_eq_div_pow, pow_one]
      rw [pow_succ] at h1
      omega
    have hhi : x >>> 1 < 2 ^ (k + 1) := by
      rw [Nat.shiftRight_eq_div_pow, pow_one]
      rw [pow_succ] at h2
      omega
    rw [intel_pt_lower_power_of_2_loop, if_pos hx, ih fuel1 (x >>> 1) (i + 1) hlo hhi (by omega)]
    congr 2
    omega

theorem exists_log2 (x : Nat) (h1 : 1 ≤ x) : ∃ k, 2 ^ k ≤ x ∧ x < 2 ^ (k + 1) :=
  ⟨Nat.log 2 x, Nat.pow_log_le_self 2 (by omega), Nat.lt_pow_succ_log_self (by norm_num) x⟩

/-- C15: for `period >= 1` and `period_type` TICKS, `intel_pt_setup_period` returns (64
loop iterations are enough), with `period_ticks` the greatest power of two that is
`<= period` and `period_mask = ~(period_ticks - 1)`; for any other `period_type` it
returns the decoder unchanged. -/
theorem setup_period_spec (decoder : intel_pt_decoder) (fuel : Nat) :
    (decoder.period_type = intel_pt_period_type.INTEL_PT_PERIOD_TICKS →
      1 ≤ decoder.period → decoder.period < 2 ^ 64 → 64 ≤ fuel →
      ∃ k, 2 ^ k ≤ decoder.period ∧ decoder.period < 2 ^ (k + 1) ∧
        intel_pt_lower_power_of_2 fuel decoder.period = some (2 ^ k) ∧
        intel_pt_setup_period fuel decoder =
          some { decoder with period_mask := 2 ^ 64 - 1 - (2 ^ k - 1), period_ticks := 2 ^ k }) ∧
    (decoder.period_type ≠ intel_pt_period_type.INTEL_PT_PERIOD_TICKS →
      intel_pt_setup_period fuel decoder = some decoder) := by
  constructor
  · intro hty h1 h64 hfuel
    obtain ⟨k, hlo, hhi⟩ := exists_log2 decoder.period h1
    have hk : k < 64 := by
      by_contra hc
      have : 2 ^ 64 ≤ 2 ^ k := Nat.pow_le_pow_right (by norm_num) (by omega)
      omega
    have hloop := lower_power_of_2_loop_spec k fuel decoder.period 0 hlo hhi (by omega)
    have hpk : 2 ^ k < 2 ^ 64 := Nat.pow_lt_pow_right (by norm_num) hk
    have hlp : intel_pt_lower_power_of_2 fuel decoder.period = some (2 ^ k) := by
      unfold intel_pt_lower_power_of_2
      rw [hloop]
      simp only [Nat.zero_add, Nat.shiftLeft_eq, one_mul]
      rw [Nat.mod_eq_of_lt hpk]
    refine ⟨k, hlo, hhi, hlp, ?_⟩
    unfold intel_pt_setup_period
    rw [if_pos hty, hlp]
    have h1k : 1 ≤ 2 ^ k := Nat.one_le_two_pow
    have hm : (2 ^ k + 2 ^ 64 - 1) % 2 ^ 64 = 2 ^ k - 1 := by omega
    simp only [hm]
  · intro hty
    unfold intel_pt_setup_period
    rw [if_neg hty]

/-- C15 at a period of 1000 ticks (`period_ticks = 512`), and at a decoder whose period
type is not TICKS. -/
theorem setup_period_spec_witness :
    (example_ticks_decoder.period_type = intel_pt_period_type.INTEL_PT_PERIOD_TICKS ∧
      1 ≤ example_ticks_decoder.period ∧ example_ticks_decoder.period < 2 ^ 64) ∧
    (∃ k, 2 ^ k ≤ example_ticks_decoder.period ∧ example_ticks_decoder.period < 2 ^ (k + 1) ∧
      intel_pt_lower_power_of_2 64 example_ticks_decoder.period = some (2 ^ k) ∧
      intel_pt_setup_period 64 example_ticks_decoder =
        some { example_ticks_decoder with
          period_mask := 2 ^ 64 - 1 - (2 ^ k - 1), period_ticks := 2 ^ k }) ∧
    intel_pt_lower_power_of_2 64 1000 = some 512 ∧
    intel_pt_setup_period 64 zalloc_decoder = some zalloc_decoder :=
  ⟨by decide,
    (setup_period_spec example_ticks_decoder 64).1 rfl (by decide) (by decide) (le_refl _),
    by decide,
    (setup_period_spec zalloc_decoder 64).2 (by decide)⟩

/-- C16: `intel_pt_ext_err` maps the nine listed codes as stated and every other code to
UNK; it is injective on the nine listed codes and never yields 0. -/
theorem ext_err_spec (code : Int) :
    intel_pt_ext_err (-ENOMEM) = INTEL_PT_ERR_NOMEM ∧
    intel_pt_ext_err (-ENOSYS) = INTEL_PT_ERR_INTERN ∧
    intel_pt_ext_err (-EBADMSG) = INTEL_PT_ERR_BADPKT ∧
    intel_pt_ext_err (-ENODATA) = INTEL_PT_ERR_NODATA ∧
    intel_pt_ext_err (-EILSEQ) = INTEL_PT_ERR_NOINSN ∧
    intel_pt_ext_err (-ENOENT) = INTEL_PT_ERR_MISMAT ∧
    intel_pt_ext_err (-EOVERFLOW) = INTEL_PT_ERR_OVR ∧
    intel_pt_ext_err (-ENOSPC) = INTEL_PT_ERR_LOST ∧
    intel_pt_ext_err (-ELOOP) = INTEL_PT_ERR_NELOOP ∧
    (code ∉ [-ENOMEM, -ENOSYS, -EBADMSG, -ENODATA, -EILSEQ, -ENOENT, -EOVERFLOW, -ENOSPC,
        -ELOOP] → intel_pt_ext_err code = INTEL_PT_ERR_UNK) ∧
    (∀ other : Int,
      code ∈ [-ENOMEM, -ENOSYS, -EBADMSG, -ENODATA, -EILSEQ, -ENOENT, -EOVERFLOW, -ENOSPC,
        -ELOOP] →
      other ∈ [-ENOMEM, -ENOSYS, -EBADMSG, -ENODATA, -EILSEQ, -ENOENT, -EOVERFLOW, -ENOSPC,
        -ELOOP] →
      intel_pt_ext_err code = intel_pt_ext_err other → code = other) ∧
    intel_pt_ext_err code ≠ 0 := by
  refine ⟨by decide, by decide, by decide, by decide, by decide, by decide, by decide,
    by decide, by decide, ?_, ?_, ?_⟩
  · intro h
    simp only [List.mem_cons, List.mem_singleton, not_or, List.not_mem_nil, or_false] at h
    obtain ⟨h1, h2, h3, h4, h5, h6, h7, h8, h9⟩ := h
    simp [intel_pt_ext_err, h1, h2, h3, h4, h5, h6, h7, h8, h9]
  · intro other hc ho
    simp only [List.mem_cons, List.mem_singleton, List.not_mem_nil, or_false] at hc ho
    rcases hc with rfl | rfl | rfl | rfl | rfl | rfl | rfl | rfl | rfl <;>
    rcases ho with rfl | rfl | rfl | rfl | rfl | rfl | rfl | rfl | rfl <;>
    first | (intro _; rfl) | (intro h; exact absurd h (by decide))
  · unfold intel_pt_ext_err
    split_ifs <;> decide

/-- C16 at `-EINVAL`, which is none of the nine listed codes. -/
theorem ext_err_spec_witness :
    -EINVAL ∉ [-ENOMEM, -ENOSYS, -EBADMSG, -ENODATA, -EILSEQ, -ENOENT, -EOVERFLOW, -ENOSPC,
        -ELOOP] ∧
    intel_pt_ext_err (-EINVAL) = INTEL_PT_ERR_UNK ∧
    (intel_pt_ext_err (-ENOENT) = intel_pt_ext_err (-ENOENT) → -ENOENT = -ENOENT) :=
  ⟨by decide, (ext_err_spec (-EINVAL)).2.2.2.2.2.2.2.2.2.1 (by decide),
    (ext_err_spec (-ENOENT)).2.2.2.2.2.2.2.2.2.2.1 (-ENOENT) (by decide) (by decide)⟩

/-! ### Instruction walking: walker errors and the loop guard -/

theorem next_period_frame (d : intel_pt_decoder) :
    (intel_pt_next_period d).2 = d ∨
    ∃ m, (intel_pt_next_period d).2 =
      { d with last_masked_timestamp := m, continuous_period := true } := by
  unfold intel_pt_next_period
  simp only []
  split_ifs
  · exact Or.inl rfl
  · exact Or.inl rfl
  · exact Or.inr ⟨_, rfl⟩
  · exact Or.inl rfl

theorem next_sample_frame (d : intel_pt_decoder) :
    (intel_pt_next_sample d).2 = d ∨
    ∃ m, (intel_pt_next_sample d).2 =
      { d with last_masked_timestamp := m, continuous_period := true } := by
  unfold intel_pt_next_sample
  split
  · exact Or.inl rfl
  · exact next_period_frame d
  · exact Or.inl rfl
  · exact Or.inl rfl

theorem next_sample_mtc_insn (d : intel_pt_decoder) (b : Bool) :
    (intel_pt_next_sample { d with mtc_insn := b }).1 = (intel_pt_next_sample d).1 := by
  unfold intel_pt_next_sample intel_pt_next_period
  simp only []
  split <;> first | rfl | (split_ifs <;> rfl)

/-- The start of `intel_pt_walk_insn`: setting `mtc_insn` and calling
`intel_pt_next_sample` leaves the fields below alone. -/
theorem walk_insn_sample (d : intel_pt_decoder) :
    ∃ d1 : intel_pt_decoder,
      d1.ip = d.ip ∧ d1.no_progress = d.no_progress ∧ d1.pkt_state = d.pkt_state ∧
      d1.tot_insn_cnt = d.tot_insn_cnt ∧ d1.timestamp_insn_cnt = d.timestamp_insn_cnt ∧
      d1.sample_insn_cnt = d.sample_insn_cnt ∧ d1.period_insn_cnt = d.period_insn_cnt ∧
      d1.stuck_ip = d.stuck_ip ∧ d1.stack = d.stack ∧ d1.tnt = d.tnt ∧
      d1.return_compression = d.return_compression ∧ d1.ret_addr = d.ret_addr ∧
      intel_pt_next_sample
          (if d.mtc_insn = false then { d with mtc_insn := true } else d) =
        ((intel_pt_next_sample d).1, d1) := by
  have h1 : (intel_pt_next_sample
      (if d.mtc_insn = false then { d with mtc_insn := true } else d)).1 =
      (intel_pt_next_sample d).1 := by
    split_ifs
    · exact next_sample_mtc_insn d true
    · rfl
  refine ⟨(intel_pt_next_sample
      (if d.mtc_insn = false then { d with mtc_insn := true } else d)).2, ?_⟩
  have hf := next_sample_frame (if d.mtc_insn = false then { d with mtc_insn := true } else d)
  refine ⟨?_, ?_, ?_, ?_, ?_, ?_, ?_, ?_, ?_, ?_, ?_, ?_, ?_⟩
  all_goals first
    | (rw [← h1])
    | (rcases hf with hf | ⟨m, hf⟩ <;> rw [hf] <;> split_ifs <;> rfl)

/-- C17, as stated, fails: when the walker returns `-EINVAL` or `-EIO` (-5) the call
returns `-EILSEQ`, which `intel_pt_ext_err` maps to NOINSN in both cases, so a nonzero
walker code other than the one for missing instruction text does not give MISMAT; and
when it returns `-ENOENT` the call returns `-ENOLINK`, which maps to UNK. -/
theorem walk_insn_error_counterexample :
    (intel_pt_walk_insn { walk_insn := fun _ _ _ => { err := -EINVAL } } {} 0).map
        (fun r => (r.1, intel_pt_ext_err r.1)) = some (-EILSEQ, INTEL_PT_ERR_NOINSN) ∧
    (intel_pt_walk_insn { walk_insn := fun _ _ _ => { err := -5 } } {} 0).map
        (fun r => (r.1, intel_pt_ext_err r.1)) = some (-EILSEQ, INTEL_PT_ERR_NOINSN) ∧
    (intel_pt_walk_insn { walk_insn := fun _ _ _ => { err := -ENOENT } } {} 0).map
        (fun r => (r.1, intel_pt_ext_err r.1)) = some (-ENOLINK, INTEL_PT_ERR_UNK) ∧
    INTEL_PT_ERR_NOINSN ≠ INTEL_PT_ERR_MISMAT ∧ INTEL_PT_ERR_UNK ≠ INTEL_PT_ERR_MISMAT := by
  decide

/-- C17, amended: when the `walk_insn` callback fails inside `intel_pt_walk_insn`, the call
returns `-ENOLINK` if the callback returned `-ENOENT`, and `-EILSEQ`, which
`intel_pt_ext_err` maps to NOINSN, for every other nonzero value; in both cases
`pkt_state` becomes ERR2 (NO_IP), `no_progress` is reset to 0 and the instruction counters
are advanced by the reported `insn_cnt`. -/
theorem walk_insn_error_spec (env : intel_pt_env) (d : intel_pt_decoder) (ip : Nat)
    (herr : (env.walk_insn d.ip ip (intel_pt_next_sample d).1).err ≠ 0) :
    ∃ d1, intel_pt_walk_insn env d ip =
        some ((if (env.walk_insn d.ip ip (intel_pt_next_sample d).1).err = -ENOENT then -ENOLINK
               else -EILSEQ),
          (env.walk_insn d.ip ip (intel_pt_next_sample d).1).insn, d1) ∧
      ((env.walk_insn d.ip ip (intel_pt_next_sample d).1).err ≠ -ENOENT →
        intel_pt_ext_err
          (if (env.walk_insn d.ip ip (intel_pt_next_sample d).1).err = -ENOENT then -ENOLINK
           else -EILSEQ) = INTEL_PT_ERR_NOINSN) ∧
      d1.pkt_state = intel_pt_pkt_state.INTEL_PT_STATE_NO_IP ∧
      d1.no_progress = 0 ∧
      d1.tot_insn_cnt =
        (d.tot_insn_cnt + (env.walk_insn d.ip ip (intel_pt_next_sample d).1).insn_cnt) % 2 ^ 64 ∧
      d1.timestamp_insn_cnt =
        (d.timestamp_insn_cnt + (env.walk_insn d.ip ip (intel_pt_next_sample d).1).insn_cnt)
          % 2 ^ 64 ∧
      d1.sample_insn_cnt =
        (d.sample_insn_cnt + (env.walk_insn d.ip ip (intel_pt_next_sample d).1).insn_cnt)
          % 2 ^ 64 ∧
      d1.period_insn_cnt =
        (d.period_insn_cnt + (env.walk_insn d.ip ip (intel_pt_next_sample d).1).insn_cnt)
          % 2 ^ 64 := by
  obtain ⟨s, hip, _, _, h4, h5, h6, h7, _, _, _, _, _, hs⟩ := walk_insn_sample d
  unfold intel_pt_walk_insn
  simp only [hs, hip, h4, h5, h6, h7, herr, ne_eq, not_false_eq_true, if_true]
  refine ⟨_, rfl, ?_, rfl, rfl, rfl, rfl, rfl, rfl⟩
  intro hne
  rw [if_neg hne]
  decide

/-- The fields that `intel_pt_sample_insn` leaves alone. -/
theorem sample_insn_frame (d : intel_pt_decoder) :
    (intel_pt_sample_insn d).ip = d.ip ∧ (intel_pt_sample_insn d).no_progress = d.no_progress ∧
    (intel_pt_sample_insn d).pkt_state = d.pkt_state ∧
    (intel_pt_sample_insn d).stuck_ip = d.stuck_ip ∧ (intel_pt_sample_insn d).stack = d.stack ∧
    (intel_pt_sample_insn d).tnt = d.tnt ∧
    (intel_pt_sample_insn d).return_compression = d.return_compression ∧
    (intel_pt_sample_insn d).ret_addr = d.ret_addr := by
  unfold intel_pt_sample_insn
  refine ⟨?_, ?_, ?_, ?_, ?_, ?_, ?_, ?_⟩ <;> (split <;> rfl)

/-- The fields that the end of `intel_pt_walk_insn` leaves alone, and `no_progress`. -/
theorem walk_insn_out_frame (reset : Bool) (insn : intel_pt_insn) (d : intel_pt_decoder) :
    (intel_pt_walk_insn_out reset insn d).ip = d.ip ∧
    (intel_pt_walk_insn_out reset insn d).no_progress = (if reset then 0 else d.no_progress) ∧
    (intel_pt_walk_insn_out reset insn d).pkt_state = d.pkt_state ∧
    (intel_pt_walk_insn_out reset insn d).stuck_ip = d.stuck_ip ∧
    (intel_pt_walk_insn_out reset insn d).stack = d.stack ∧
    (intel_pt_walk_insn_out reset insn d).tnt = d.tnt ∧
    (intel_pt_walk_insn_out reset insn d).return_compression = d.return_compression ∧
    (intel_pt_walk_insn_out reset insn d).ret_addr = d.ret_addr := by
  unfold intel_pt_walk_insn_out
  refine ⟨?_, ?_, ?_, ?_, ?_, ?_, ?_, ?_⟩ <;> cases reset <;> simp only [] <;> split_ifs <;> rfl

/-- One more call at the end of a run of `intel_pt_walk_insn` calls. -/
theorem walk_insn_run_succ (env : intel_pt_env) (ip : Nat) (n : Nat)
    (d0 d2 : intel_pt_decoder) (h : walk_insn_run env ip (n + 1) d0 = some d2) :
    ∃ d1 insn, walk_insn_run env ip n d0 = some d1 ∧
      intel_pt_walk_insn env d1 ip = some (INTEL_PT_RETURN, insn, d2) := by
  unfold walk_insn_run at h
  split at h
  · exact absurd h (by simp)
  · rename_i d1 h1
    split at h
    · rename_i ret insn d3 h3
      split_ifs at h with hr
      simp only [Option.some.injEq] at h
      subst h
      subst hr
      exact ⟨d1, insn, h1, h3⟩
    · exact absurd h (by simp)

/-! ### TNT walking: compressed returns and conditional branches -/

/-- A call of `intel_pt_walk_insn` from `intel_pt_walk_tnt` that the walker answers with a
RET instruction returns 0 and leaves the popped address in `ret_addr`. -/
theorem walk_insn_ret_call (env : intel_pt_env) (d : intel_pt_decoder)
    (hw : walker_ret (walker_answer env d 0)) (hs : stack_inv d.stack) :
    ∃ d1 : intel_pt_decoder,
      intel_pt_walk_insn env d 0 = some (0, (walker_answer env d 0).insn, d1) ∧
      d1.ip = (walker_answer env d 0).ip ∧ d1.tnt = d.tnt ∧
      d1.return_compression = d.return_compression ∧
      d1.ret_addr = (live_entries d.stack).headD 0 ∧
      live_entries d1.stack = (live_entries d.stack).tail ∧ stack_inv d1.stack := by
  obtain ⟨s, hip, _, _, _, _, _, _, _, h9, h10, h11, _, hsm⟩ := walk_insn_sample d
  obtain ⟨he, hop, hb1, hb2⟩ := hw
  obtain ⟨s1, hpop, hinv1, hlive1⟩ := pop_spec d.stack hs
  unfold walker_answer at he hop hb1 hb2 ⊢
  unfold intel_pt_walk_insn
  simp only [hsm, hip, he, hop, hb1, hb2, ne_eq, not_true_eq_false, if_false, if_true,
    false_and, reduceCtorEq, not_false_eq_true]
  split_ifs
  · simp only [(sample_insn_frame _).2.2.2.2.1, h9, hpop]
    refine ⟨_, rfl, ?_, ?_, ?_, ?_, ?_, ?_⟩
    · rw [(walk_insn_out_frame _ _ _).1]; exact (sample_insn_frame _).1
    · rw [(walk_insn_out_frame _ _ _).2.2.2.2.2.1]
      exact ((sample_insn_frame _).2.2.2.2.2.1).trans h10
    · rw [(walk_insn_out_frame _ _ _).2.2.2.2.2.2.1]
      exact ((sample_insn_frame _).2.2.2.2.2.2.1).trans h11
    · rw [(walk_insn_out_frame _ _ _).2.2.2.2.2.2.2]
    · rw [(walk_insn_out_frame _ _ _).2.2.2.2.1]; exact hlive1
    · rw [(walk_insn_out_frame _ _ _).2.2.2.2.1]; exact hinv1
  · simp only [h9, hpop]
    refine ⟨_, rfl, ?_, ?_, ?_, ?_, ?_, ?_⟩
    · rw [(walk_insn_out_frame _ _ _).1]
    · rw [(walk_insn_out_frame _ _ _).2.2.2.2.2.1]; exact h10
    · rw [(walk_insn_out_frame _ _ _).2.2.2.2.2.2.1]; exact h11
    · rw [(walk_insn_out_frame _ _ _).2.2.2.2.2.2.2]
    · rw [(walk_insn_out_frame _ _ _).2.2.2.2.1]; exact hlive1
    · rw [(walk_insn_out_frame _ _ _).2.2.2.2.1]; exact hinv1

/-- What `intel_pt_walk_tnt_ret` does, in terms of the fields it reads. -/
theorem walk_tnt_ret_fields (d : intel_pt_decoder) :
    ((d.return_compression = true ∧ d.ret_addr ≠ 0 ∧ d.tnt.payload &&& BIT63 ≠ 0) →
      (intel_pt_walk_tnt_ret d).1 = 0 ∧
      (intel_pt_walk_tnt_ret d).2.tnt.count = d.tnt.count - 1 ∧
      (intel_pt_walk_tnt_ret d).2.tnt.payload = (d.tnt.payload <<< 1) % 2 ^ 64 ∧
      (intel_pt_walk_tnt_ret d).2.state.from_ip = d.ip ∧
      (intel_pt_walk_tnt_ret d).2.ip = d.ret_addr ∧
      (intel_pt_walk_tnt_ret d).2.state.to_ip = d.ret_addr ∧
      (intel_pt_walk_tnt_ret d).2.pkt_state =
        (if d.tnt.count - 1 ≠ 0 then intel_pt_pkt_state.INTEL_PT_STATE_TNT_CONT
         else intel_pt_pkt_state.INTEL_PT_STATE_IN_SYNC) ∧
      (intel_pt_walk_tnt_ret d).2.stack = d.stack) ∧
    (¬ (d.return_compression = true ∧ d.ret_addr ≠ 0 ∧ d.tnt.payload &&& BIT63 ≠ 0) →
      (intel_pt_walk_tnt_ret d).1 = -ENOENT ∧
      (intel_pt_walk_tnt_ret d).2.pkt_state = intel_pt_pkt_state.INTEL_PT_STATE_ERR_RESYNC ∧
      (intel_pt_walk_tnt_ret d).2.tnt = d.tnt ∧
      (intel_pt_walk_tnt_ret d).2.stack = d.stack) := by
  unfold intel_pt_walk_tnt_ret
  constructor
  · rintro ⟨h1, h2, h3⟩
    have h1f : ¬ d.return_compression = false := by rw [h1]; simp
    simp only [h1f, h2, h3, if_false]
    exact ⟨rfl, rfl, rfl, rfl, rfl, rfl, rfl, rfl⟩
  · intro h
    split_ifs with a b c
    · exact ⟨rfl, rfl, rfl, rfl⟩
    · exact ⟨rfl, rfl, rfl, rfl⟩
    · exact ⟨rfl, rfl, rfl, rfl⟩
    · exfalso
      apply h
      refine ⟨?_, b, c⟩
      cases hrc : d.return_compression
      · exact absurd hrc a
      · rfl

/-- C19: in `intel_pt_walk_tnt`, when the walker stops at a RET instruction, the step
returns 0 exactly when `return_compression` is set, the popped return address is nonzero
and bit 63 of the TNT payload is 1; then `tnt.count` decreases by 1, the payload is shifted
left by 1, `from_ip` is the address of the RET, `ip = to_ip` is the popped address and
`pkt_state` is TNT_CONT if bits remain, else IN_SYNC; otherwise the step returns `-ENOENT`,
which `intel_pt_ext_err` maps to MISMAT, with `pkt_state = ERR3` (ERR_RESYNC) and the
TNT packet unchanged. -/
theorem walk_tnt_ret_spec (env : intel_pt_env) (fuel : Nat) (d : intel_pt_decoder)
    (hw : walker_ret (walker_answer env d 0)) (hs : stack_inv d.stack) :
    ∃ ret d2, intel_pt_walk_tnt env (fuel + 1) d = some (ret, d2) ∧
      ((d.return_compression = true ∧ (live_entries d.stack).headD 0 ≠ 0 ∧
          d.tnt.payload &&& BIT63 ≠ 0) →
        ret = 0 ∧ d2.tnt.count = d.tnt.count - 1 ∧
        d2.tnt.payload = (d.tnt.payload <<< 1) % 2 ^ 64 ∧
        d2.state.from_ip = (walker_answer env d 0).ip ∧
        d2.ip = (live_entries d.stack).headD 0 ∧
        d2.state.to_ip = (live_entries d.stack).headD 0 ∧
        d2.pkt_state =
          (if d.tnt.count - 1 ≠ 0 then intel_pt_pkt_state.INTEL_PT_STATE_TNT_CONT
           else intel_pt_pkt_state.INTEL_PT_STATE_IN_SYNC) ∧
        live_entries d2.stack = (live_entries d.stack).tail) ∧
      (¬ (d.return_compression = true ∧ (live_entries d.stack).headD 0 ≠ 0 ∧
          d.tnt.payload &&& BIT63 ≠ 0) →
        ret = -ENOENT ∧ intel_pt_ext_err ret = INTEL_PT_ERR_MISMAT ∧
        d2.pkt_state = intel_pt_pkt_state.INTEL_PT_STATE_ERR_RESYNC ∧ d2.tnt = d.tnt) := by
  obtain ⟨d1, hcall, hip, htnt, hrc, hra, hlive, _⟩ := walk_insn_ret_call env d hw hs
  have hop := hw.2.1
  have hwt : intel_pt_walk_tnt env (fuel + 1) d = some (intel_pt_walk_tnt_ret d1) := by
    unfold intel_pt_walk_tnt
    simp only [hcall, hop]
    rw [if_neg (by decide), if_neg (by simp)]
    simp
  obtain ⟨hok, hbad⟩ := walk_tnt_ret_fields d1
  rw [hrc, hra, htnt] at hok hbad
  rw [hip] at hok
  refine ⟨(intel_pt_walk_tnt_ret d1).1, (intel_pt_walk_tnt_ret d1).2, hwt, ?_, ?_⟩
  · intro hc
    obtain ⟨a1, a2, a3, a4, a5, a6, a7, a8⟩ := hok hc
    exact ⟨a1, a2, a3, a4, a5, a6, a7, (congrArg live_entries a8).trans hlive⟩
  · intro hc
    obtain ⟨a1, a2, a3, _⟩ := hbad hc
    refine ⟨a1, ?_, a2, a3⟩
    rw [a1]; decide

/-- C19 at a decoder with return compression, `0x1234` on the stack and a TNT packet
`11`: the RET at `0x2000` consumes one bit and goes to `0x1234`, leaving TNT_CONT. -/
theorem walk_tnt_ret_spec_witness :
    ∃ ret d2, intel_pt_walk_tnt example_ret_env 1 example_ret_decoder = some (ret, d2) ∧
      ret = 0 ∧ d2.tnt.count = 1 ∧ d2.tnt.payload = 0x8000000000000000 ∧
      d2.state.from_ip = 0x2000 ∧ d2.ip = 0x1234 ∧ d2.state.to_ip = 0x1234 ∧
      d2.pkt_state = intel_pt_pkt_state.INTEL_PT_STATE_TNT_CONT := by
  obtain ⟨ret, d2, h, hok, _⟩ :=
    walk_tnt_ret_spec example_ret_env 0 example_ret_decoder
      ⟨rfl, rfl, by decide, by decide⟩ (by decide)
  obtain ⟨a1, a2, a3, a4, a5, a6, a7, _⟩ := hok ⟨rfl, by decide, by decide⟩
  refine ⟨ret, d2, h, a1, ?_, ?_, a4, ?_, ?_, ?_⟩
  · rw [a2]; rfl
  · rw [a3]; decide
  · rw [a5]; rfl
  · rw [a6]; rfl
  · rw [a7]; rfl

/-- A call of `intel_pt_walk_insn` from `intel_pt_walk_tnt` that the walker answers with a
conditional branch returns 0 at the address of the branch and leaves the TNT packet
alone. -/
theorem walk_insn_cond_call (env : intel_pt_env) (d : intel_pt_decoder)
    (hw : walker_cond (walker_answer env d 0)) :
    ∃ d1 : intel_pt_decoder,
      intel_pt_walk_insn env d 0 = some (0, (walker_answer env d 0).insn, d1) ∧
      d1.ip = (walker_answer env d 0).ip ∧ d1.tnt = d.tnt := by
  obtain ⟨s, hip, _, _, _, _, _, _, _, _, h10, _, _, hsm⟩ := walk_insn_sample d
  obtain ⟨he, hop, hbr⟩ := hw
  unfold walker_answer at he hop hbr ⊢
  unfold intel_pt_walk_insn
  simp only [hsm, hip, he, hop, hbr, ne_eq, not_true_eq_false, if_false, if_true,
    false_and, reduceCtorEq, not_false_eq_true]
  split_ifs
  · refine ⟨_, rfl, ?_, ?_⟩
    · rw [(walk_insn_out_frame _ _ _).1]; exact (sample_insn_frame _).1
    · rw [(walk_insn_out_frame _ _ _).2.2.2.2.2.1]
      exact ((sample_insn_frame _).2.2.2.2.2.1).trans h10
  · refine ⟨_, rfl, ?_, ?_⟩
    · rw [(walk_insn_out_frame _ _ _).1]
    · rw [(walk_insn_out_frame _ _ _).2.2.2.2.2.1]; exact h10

/-- What `intel_pt_walk_tnt_cond` does to the TNT packet, `ip` and `pkt_state`, and when
the loop of `intel_pt_walk_tnt` goes on. -/
theorem walk_tnt_cond_fields (insn : intel_pt_insn) (d : intel_pt_decoder) :
    (intel_pt_walk_tnt_cond insn d).2.tnt.count = d.tnt.count - 1 ∧
    (intel_pt_walk_tnt_cond insn d).2.ip =
      (if d.tnt.payload &&& BIT63 ≠ 0 then add_u64_int d.ip (add_int insn.length insn.rel)
       else add_u64_int d.ip insn.length) ∧
    (intel_pt_walk_tnt_cond insn d).2.pkt_state =
      (if d.tnt.count - 1 ≠ 0 then intel_pt_pkt_state.INTEL_PT_STATE_TNT_CONT
       else intel_pt_pkt_state.INTEL_PT_STATE_IN_SYNC) ∧
    (d.tnt.count - 1 ≠ 0 →
      (intel_pt_walk_tnt_cond insn d).2.tnt.payload = (d.tnt.payload <<< 1) % 2 ^ 64) ∧
    ((intel_pt_walk_tnt_cond insn d).1 = some 0 ∨
      ((intel_pt_walk_tnt_cond insn d).1 = some (-EAGAIN) ∧ d.tnt.count - 1 = 0 ∧
        d.tnt.payload &&& BIT63 = 0) ∨
      ((intel_pt_walk_tnt_cond insn d).1 = none ∧ d.tnt.count - 1 ≠ 0 ∧
        d.tnt.payload &&& BIT63 = 0)) := by
  unfold intel_pt_walk_tnt_cond
  simp only []
  refine ⟨?_, ?_, ?_, ?_, ?_⟩
  · split_ifs <;> rfl
  · split_ifs <;> rfl
  · split_ifs <;> rfl
  · intro h
    split_ifs <;> rfl
  · split_ifs <;> first
      | exact Or.inl rfl
      | exact Or.inr (Or.inl ⟨rfl, by omega, by omega⟩)
      | exact Or.inr (Or.inr ⟨rfl, by omega, by omega⟩)

/-- One conditional branch in `intel_pt_walk_tnt`: the decoder after the branch, and how
the call of `intel_pt_walk_tnt` goes on from there. -/
theorem walk_tnt_cond_step (env : intel_pt_env) (d : intel_pt_decoder)
    (hw : walker_cond (walker_answer env d 0)) :
    ∃ d1 dn, intel_pt_walk_insn env d 0 = some (0, (walker_answer env d 0).insn, d1) ∧
      dn = (intel_pt_walk_tnt_cond (walker_answer env d 0).insn d1).2 ∧
      dn.tnt.count = d.tnt.count - 1 ∧
      dn.ip =
        (if d.tnt.payload &&& BIT63 ≠ 0 then
          add_u64_int (walker_answer env d 0).ip
            (add_int (walker_answer env d 0).insn.length (walker_answer env d 0).insn.rel)
         else add_u64_int (walker_answer env d 0).ip (walker_answer env d 0).insn.length) ∧
      dn.pkt_state =
        (if d.tnt.count - 1 ≠ 0 then intel_pt_pkt_state.INTEL_PT_STATE_TNT_CONT
         else intel_pt_pkt_state.INTEL_PT_STATE_IN_SYNC) ∧
      (d.tnt.count - 1 ≠ 0 → dn.tnt.payload = (d.tnt.payload <<< 1) % 2 ^ 64) ∧
      ∀ fuel, (intel_pt_walk_tnt env (fuel + 1) d = some (0, dn) ∨
        (d.tnt.count - 1 = 0 ∧ intel_pt_walk_tnt env (fuel + 1) d = some (-EAGAIN, dn)) ∨
        (d.tnt.count - 1 ≠ 0 ∧
          intel_pt_walk_tnt env (fuel + 1) d = intel_pt_walk_tnt env fuel dn)) := by
  obtain ⟨d1, hcall, hip, htnt⟩ := walk_insn_cond_call env d hw
  obtain ⟨_, hop, hbr⟩ := hw
  obtain ⟨f1, f2, f3, f4, f5⟩ := walk_tnt_cond_fields (walker_answer env d 0).insn d1
  rw [htnt] at f1 f2 f3 f4 f5
  rw [hip] at f2
  refine ⟨d1, _, hcall, rfl, f1, f2, f3, f4, ?_⟩
  intro fuel
  have hwt : intel_pt_walk_tnt env (fuel + 1) d =
      (match intel_pt_walk_tnt_cond (walker_answer env d 0).insn d1 with
       | (some err, d2) => some (err, d2)
       | (none, d2) => intel_pt_walk_tnt env fuel d2) := by
    conv_lhs => unfold intel_pt_walk_tnt
    simp only [hcall, hop, hbr]
    rw [if_neg (by decide), if_neg (by simp), if_neg (by decide), if_neg (by decide),
      if_pos trivial]
  rw [hwt]
  rcases hres : intel_pt_walk_tnt_cond (walker_answer env d 0).insn d1 with ⟨r, d2⟩
  rw [hres] at f5
  simp only at f5
  rcases f5 with h | ⟨h, hc, _⟩ | ⟨h, hc, _⟩
  · subst h; exact Or.inl rfl
  · subst h; exact Or.inr (Or.inl ⟨hc, rfl⟩)
  · subst h; exact Or.inr (Or.inr ⟨hc, rfl⟩)

/-- Bit 63 of a value through the mask `BIT63`. -/
theorem and_bit63_ne_zero (x : Nat) : x &&& BIT63 ≠ 0 ↔ x.testBit 63 = true := by
  unfold BIT63
  rw [Nat.and_two_pow]
  cases x.testBit 63 <;> simp

/-- Shifting left by one in 64 bits only depends on the low 64 bits. -/
theorem shl_mod_shl (x : Nat) : ((x % 2 ^ 64) <<< 1) % 2 ^ 64 = (x <<< 1) % 2 ^ 64 := by
  rw [Nat.shiftLeft_eq, Nat.shiftLeft_eq]
  omega

/-- Bit 63 after `i` shifts in 64 bits is bit `63 - i` of the original value. -/
theorem testBit_shl_mod (p i : Nat) (hi : i ≤ 63) :
    ((p <<< i) % 2 ^ 64).testBit 63 = p.testBit (63 - i) := by
  rw [Nat.testBit_mod_two_pow, Nat.testBit_shiftLeft]
  simp [hi]

/-- Bit 63 only depends on the low 64 bits. -/
theorem testBit_63_mod (x : Nat) : x.testBit 63 = (x % 2 ^ 64).testBit 63 := by
  rw [Nat.testBit_mod_two_pow]; simp

/-- The next decoder of `tnt_run` when the walker answers with a conditional branch. -/
theorem tnt_run_succ_eq (env : intel_pt_env) (g : Nat → intel_pt_decoder → intel_pt_decoder)
    (i : Nat) (d0 di d1 : intel_pt_decoder) (hrun : tnt_run env g i d0 = some di)
    (hw : walker_cond (walker_answer env (g i di) 0))
    (hcall : intel_pt_walk_insn env (g i di) 0 =
      some (0, (walker_answer env (g i di) 0).insn, d1)) :
    tnt_run env g (i + 1) d0 =
      some (intel_pt_walk_tnt_cond (walker_answer env (g i di) 0).insn d1).2 := by
  rw [tnt_run, hrun]
  simp only [hcall, hw.2.1, hw.2.2, and_self, if_true]

/-- After `i ≤ k` conditional branches decided from a TNT packet of `k` bits, `k - i` bits
are left, and while bits are left the payload is the original one shifted by `i`. -/
theorem tnt_run_inv (env : intel_pt_env) (g : Nat → intel_pt_decoder → intel_pt_decoder)
    (d0 : intel_pt_decoder) (k : Nat) (hg : ∀ i d, (g i d).tnt = d.tnt)
    (hc : d0.tnt.count = k)
    (hw : ∀ i, i < k → ∀ di, tnt_run env g i d0 = some di →
      walker_cond (walker_answer env (g i di) 0)) :
    ∀ i, i ≤ k → ∃ di, tnt_run env g i d0 = some di ∧ di.tnt.count = (k : Int) - i ∧
      (i < k → di.tnt.payload % 2 ^ 64 = (d0.tnt.payload <<< i) % 2 ^ 64) := by
  intro i
  induction i with
  | zero =>
    intro _
    exact ⟨d0, rfl, by rw [hc]; simp, fun _ => rfl⟩
  | succ i ih =>
    intro hi
    obtain ⟨di, hrun, hcnt, hpay⟩ := ih (by omega)
    have hwi := hw i (by omega) di hrun
    obtain ⟨d1, dn, hcall, hdn, f1, _, _, f4, _⟩ := walk_tnt_cond_step env (g i di) hwi
    rw [hg] at f1 f4
    refine ⟨dn, ?_, ?_, ?_⟩
    · rw [hdn]; exact tnt_run_succ_eq env g i d0 di d1 hrun hwi hcall
    · rw [f1, hcnt]; push_cast; ring
    · intro hlt
      rw [f4 (by rw [hcnt]; omega), Nat.mod_mod, ← shl_mod_shl, hpay (by omega), shl_mod_shl,
        ← Nat.shiftLeft_add]

/-- The function `intel_pt_walk_trace` starts by fetching a packet: when the fetch fails
it returns the failure, otherwise it handles the fetched packet. -/
theorem walk_trace_fetch_first (env : intel_pt_env) (fuel : Nat) (d : intel_pt_decoder) :
    intel_pt_walk_trace env (fuel + 1) d =
      (intel_pt_get_next_packet env fuel d).bind (fun r =>
        if r.1 ≠ 0 then some r else intel_pt_walk_trace_loop env (fuel + 1) false true r.2) := by
  unfold intel_pt_walk_trace
  rw [intel_pt_walk_trace_loop]
  cases h : intel_pt_get_next_packet env fuel d with
  | none => rfl
  | some r =>
    obtain ⟨err, d1⟩ := r
    simp only [Bool.false_eq_true, if_false, Option.bind]
    by_cases he : err ≠ 0
    · rw [if_pos he, if_pos he]
    · rw [if_neg he, if_neg he, intel_pt_walk_trace_loop]
      simp only [if_true, ne_eq, not_true_eq_false, if_false]

/-- The bits of a TNT packet (C20), with the target as the code computes it: for a TNT
packet with count `k` (`1 ≤ k ≤ 64`) and a walker that reports `k` conditional branches in
a row, `intel_pt_walk_tnt` consumes one bit per branch, most significant bit first: branch
`i + 1` is taken iff bit `63 - i` of the original payload is 1, to `ip` plus the `int` sum
`length + rel` (`add_int`, which wraps at 32 bits), and falls through to `ip + length`
otherwise, it leaves `tnt.count = k - (i + 1)`, and after the `k`-th branch
`pkt_state = IN_SYNC`. The call of
`intel_pt_walk_tnt` then returns 0 or, only after the last bit, `-EAGAIN`, or goes on with
the next branch while bits are left. From IN_SYNC, and after `-EAGAIN`, `intel_pt_decode`
goes to `intel_pt_walk_trace`, which fetches a packet before anything else. -/
theorem walk_tnt_bits_spec (env : intel_pt_env) (g : Nat → intel_pt_decoder → intel_pt_decoder)
    (d0 : intel_pt_decoder) (k : Nat) (hg : ∀ i d, (g i d).tnt = d.tnt)
    (hk : 1 ≤ k) (hk64 : k ≤ 64) (hc : d0.tnt.count = k)
    (hw : ∀ i, i < k → ∀ di, tnt_run env g i d0 = some di →
      walker_cond (walker_answer env (g i di) 0)) :
    (∀ i, i < k → ∃ di d1, tnt_run env g i d0 = some di ∧ tnt_run env g (i + 1) d0 = some d1 ∧
      di.tnt.count = (k : Int) - i ∧ d1.tnt.count = (k : Int) - (i + 1) ∧
      d1.ip =
        (if d0.tnt.payload.testBit (63 - i) = true then
          add_u64_int (walker_answer env (g i di) 0).ip
            (add_int (walker_answer env (g i di) 0).insn.length
              (walker_answer env (g i di) 0).insn.rel)
         else
          add_u64_int (walker_answer env (g i di) 0).ip
            (walker_answer env (g i di) 0).insn.length) ∧
      d1.pkt_state =
        (if i + 1 < k then intel_pt_pkt_state.INTEL_PT_STATE_TNT_CONT
         else intel_pt_pkt_state.INTEL_PT_STATE_IN_SYNC) ∧
      ∀ fuel, (intel_pt_walk_tnt env (fuel + 1) (g i di) = some (0, d1) ∨
        (i + 1 = k ∧ intel_pt_walk_tnt env (fuel + 1) (g i di) = some (-EAGAIN, d1)) ∨
        (i + 1 < k ∧
          intel_pt_walk_tnt env (fuel + 1) (g i di) = intel_pt_walk_tnt env fuel d1))) ∧
    (∀ fuel d, d.pkt_state = intel_pt_pkt_state.INTEL_PT_STATE_IN_SYNC →
      intel_pt_decode_step env fuel d =
        intel_pt_walk_trace env fuel
          { d with state := { d.state with type := INTEL_PT_BRANCH, flags := 0 } }) ∧
    (∀ fuel d d1,
      (d.pkt_state = intel_pt_pkt_state.INTEL_PT_STATE_TNT ∨
        d.pkt_state = intel_pt_pkt_state.INTEL_PT_STATE_TNT_CONT) →
      intel_pt_walk_tnt env fuel
        { d with state := { d.state with type := INTEL_PT_BRANCH, flags := 0 } } =
          some (-EAGAIN, d1) →
      intel_pt_decode_step env fuel d = intel_pt_walk_trace env fuel d1) ∧
    (∀ fuel d, intel_pt_walk_trace env (fuel + 1) d =
      (intel_pt_get_next_packet env fuel d).bind (fun r =>
        if r.1 ≠ 0 then some r
        else intel_pt_walk_trace_loop env (fuel + 1) false true r.2)) := by
  refine ⟨?_, ?_, ?_, fun fuel d => walk_trace_fetch_first env fuel d⟩
  · intro i hi
    obtain ⟨di, hrun, hcnt, hpay⟩ := tnt_run_inv env g d0 k hg hc hw i (by omega)
    have hwi := hw i hi di hrun
    obtain ⟨d1, dn, hcall, hdn, f1, f2, f3, _, f5⟩ := walk_tnt_cond_step env (g i di) hwi
    rw [hg] at f1 f2 f3 f5
    have hbit : (di.tnt.payload &&& BIT63 ≠ 0) ↔ d0.tnt.payload.testBit (63 - i) = true := by
      rw [and_bit63_ne_zero, testBit_63_mod, hpay hi, testBit_shl_mod _ _ (by omega)]
    have hcz : di.tnt.count - 1 ≠ 0 ↔ i + 1 < k := by rw [hcnt]; omega
    refine ⟨di, dn, hrun, ?_, hcnt, ?_, ?_, ?_, ?_⟩
    · rw [hdn]; exact tnt_run_succ_eq env g i d0 di d1 hrun hwi hcall
    · rw [f1, hcnt]; ring
    · rw [f2]
      by_cases hb : di.tnt.payload &&& BIT63 ≠ 0
      · rw [if_pos hb, if_pos (hbit.mp hb)]
      · rw [if_neg hb, if_neg (fun h => hb (hbit.mpr h))]
    · rw [f3]
      by_cases hz : di.tnt.count - 1 ≠ 0
      · rw [if_pos hz, if_pos (hcz.mp hz)]
      · rw [if_neg hz, if_neg (fun h => hz (hcz.mpr h))]
    · intro fuel
      rcases f5 fuel with h | ⟨hz, h⟩ | ⟨hz, h⟩
      · exact Or.inl h
      · exact Or.inr (Or.inl ⟨by rw [hcnt] at hz; omega, h⟩)
      · exact Or.inr (Or.inr ⟨hcz.mp hz, h⟩)
  · intro fuel d h
    unfold intel_pt_decode_step
    simp only [h]
  · intro fuel d d1 h hr
    unfold intel_pt_decode_step
    simp only []
    split
    all_goals first
      | (rw [hr]; simp only [if_true])
      | (rename_i hh; rcases h with h | h <;> rw [h] at hh <;> cases hh)

/-- The walker of `example_cond_env` always answers with a conditional branch. -/
theorem example_cond_walker (d : intel_pt_decoder) :
    walker_cond (walker_answer example_cond_env d 0) :=
  ⟨rfl, rfl, rfl⟩

/-- The bits of a TNT packet (C20) at a TNT packet `10` and a walker reporting conditional
branches of length 2 and displacement `0x10`, starting at `0x1000`: the first branch is
taken, to `0x1012`, the second falls through to `0x1014`, and then no bit is left and
`pkt_state = IN_SYNC`. -/
theorem walk_tnt_bits_spec_witness :
    ∃ d1 d2, tnt_run example_cond_env (fun _ d => d) 1 example_tnt_decoder = some d1 ∧
      tnt_run example_cond_env (fun _ d => d) 2 example_tnt_decoder = some d2 ∧
      d1.tnt.count = 1 ∧ d1.pkt_state = intel_pt_pkt_state.INTEL_PT_STATE_TNT_CONT ∧
      d2.tnt.count = 0 ∧ d2.pkt_state = intel_pt_pkt_state.INTEL_PT_STATE_IN_SYNC := by
  have h := (walk_tnt_bits_spec example_cond_env (fun _ d => d) example_tnt_decoder 2
    (fun _ _ => rfl) (by decide) (by decide) rfl (fun _ _ di _ => example_cond_walker di)).1
  obtain ⟨e0, e1, _, h1, _, c1, _, p1, _⟩ := h 0 (by decide)
  obtain ⟨f1, f2, g1, h2, _, c2, _, p2, _⟩ := h 1 (by decide)
  refine ⟨e1, f2, h1, h2, ?_, ?_, ?_, ?_⟩
  · rw [c1]; rfl
  · rw [p1]; rfl
  · rw [c2]; rfl
  · rw [p2]; rfl

/-- C17, amended, at a walker that fails with `-EINVAL` after three instructions: the
call returns `-EILSEQ`, `pkt_state` is NO_IP, `no_progress` is 0 and `tot_insn_cnt` has
advanced by 3. -/
theorem walk_insn_error_spec_witness :
    ∃ d1, intel_pt_walk_insn example_error_env {} 0 = some (-EILSEQ, {}, d1) ∧
      intel_pt_ext_err (-EILSEQ) = INTEL_PT_ERR_NOINSN ∧
      d1.pkt_state = intel_pt_pkt_state.INTEL_PT_STATE_NO_IP ∧ d1.no_progress = 0 ∧
      d1.tot_insn_cnt = 3 := by
  obtain ⟨d1, h, h2, h3, h4, h5, _⟩ := walk_insn_error_spec example_error_env {} 0 (by decide)
  refine ⟨d1, h, h2 (by decide), h3, h4, ?_⟩
  rw [h5]; decide

/-! ### Instruction walking: what it leaves alone -/

theorem walk_frame_refl (d : intel_pt_decoder) : walk_frame d d :=
  ⟨rfl, rfl, rfl, rfl, rfl, rfl, rfl, rfl, rfl, rfl, rfl, rfl, rfl, rfl, rfl, rfl⟩

/-- A decoder that agrees with `x` on the fields of `walk_frame` is in the frame of `d`
when `x` is. -/
theorem walk_frame_of (d x y : intel_pt_decoder) (h : walk_frame d x)
    (hy : walk_frame x y) : walk_frame d y := by
  obtain ⟨a1, a2, a3, a4, a5, a6, a7, a8, a9, a10, a11, a12, a13, a14, a15, a16⟩ := h
  obtain ⟨b1, b2, b3, b4, b5, b6, b7, b8, b9, b10, b11, b12, b13, b14, b15, b16⟩ := hy
  exact ⟨b1.trans a1, b2.trans a2, b3.trans a3, b4.trans a4, b5.trans a5, b6.trans a6,
    b7.trans a7, b8.trans a8, b9.trans a9, b10.trans a10, b11.trans a11, b12.trans a12,
    b13.trans a13, b14.trans a14, b15.trans a15, b16.trans a16⟩

theorem next_sample_frame_eq (d : intel_pt_decoder) :
    walk_frame d (intel_pt_next_sample d).2 := by
  rcases next_sample_frame d with hf | ⟨m, hf⟩ <;> rw [hf] <;> exact walk_frame_refl d

theorem sample_insn_frame_eq (d : intel_pt_decoder) :
    walk_frame d (intel_pt_sample_insn d) := by
  unfold intel_pt_sample_insn
  split <;> exact walk_frame_refl d

theorem walk_insn_out_frame_eq (reset : Bool) (insn : intel_pt_insn) (d : intel_pt_decoder) :
    walk_frame d (intel_pt_walk_insn_out reset insn d) := by
  unfold intel_pt_walk_insn_out
  cases reset <;> simp only [] <;> split_ifs <;> exact walk_frame_refl d

theorem walk_insn_uncond_frame_eq (insn : intel_pt_insn) (d : intel_pt_decoder) :
    walk_frame d (intel_pt_walk_insn_uncond insn d).2.2 := by
  unfold intel_pt_walk_insn_uncond
  simp only []
  split_ifs <;> exact walk_frame_refl d

/-- The function `intel_pt_walk_insn` writes none of the fields of `walk_frame`. -/
theorem walk_insn_frame_eq (env : intel_pt_env) (d : intel_pt_decoder) (ip : Nat)
    (r : Int × intel_pt_insn × intel_pt_decoder)
    (hr : intel_pt_walk_insn env d ip = some r) : walk_frame d r.2.2 := by
  unfold intel_pt_walk_insn at hr
  lift_lets at hr
  extract_lets d1 s max d2 res insn d3 at hr
  have h1 : walk_frame d d1 := by
    show walk_frame d (if d.mtc_insn = false then { d with mtc_insn := true } else d)
    split_ifs <;> exact walk_frame_refl d
  have h2 : walk_frame d d2 := walk_frame_of d d1 d2 h1 (next_sample_frame_eq d1)
  have h3 : walk_frame d d3 := h2
  extract_lets d4 src d5 stacked at hr
  have h4 : walk_frame d d4 := by
    show walk_frame d (if max ≠ 0 ∧ res.insn_cnt ≥ max then intel_pt_sample_insn d3 else d3)
    split_ifs
    · exact walk_frame_of d d3 _ h3 (sample_insn_frame_eq d3)
    · exact h3
  have h5 : walk_frame d d5 := h4
  have hst : ∀ e dd, stacked = some (e, dd) → walk_frame d dd := by
    intro e dd hs
    unfold stacked at hs
    split_ifs at hs
    · split at hs
      · exact absurd hs (by simp)
      · simp only [Option.some.injEq, Prod.mk.injEq] at hs
        rw [← hs.2]; exact h4
    · simp only [Option.some.injEq, Prod.mk.injEq] at hs
      rw [← hs.2]; exact h4
    · split at hs
      · exact absurd hs (by simp)
      · simp only [Option.some.injEq, Prod.mk.injEq] at hs
        rw [← hs.2]; exact h4
    · simp only [Option.some.injEq, Prod.mk.injEq] at hs
      rw [← hs.2]; exact h4
  clear_value stacked
  split_ifs at hr
  all_goals first
    | (simp only [Option.some.injEq] at hr
       subst hr
       first
         | exact h3
         | exact walk_frame_of d _ _ h3 (walk_insn_out_frame_eq _ _ _)
         | exact walk_frame_of d _ _ h5 (walk_insn_out_frame_eq _ _ _))
    | (split at hr
       · exact absurd hr (by simp)
       · rename_i st e dd
         have hdd := hst e dd rfl
         simp only [] at hr
         split_ifs at hr
         all_goals
           simp only [Option.some.injEq] at hr
           subst hr
           first
             | exact walk_frame_of d _ _ hdd (walk_insn_out_frame_eq _ _ _)
             | exact walk_frame_of d _ _
                 (walk_frame_of d _ _ hdd (walk_insn_uncond_frame_eq _ _))
                 (walk_insn_out_frame_eq _ _ _))

/-- A call of `intel_pt_walk_insn` that the walker answers, before the stop address, with
an indirect or conditional branch returns 0 at the address of the branch, in the same
`pkt_state`. -/
theorem walk_insn_branch_call (env : intel_pt_env) (d : intel_pt_decoder) (ip : Nat)
    (branch : intel_pt_insn_branch) (hw : walker_branch (walker_answer env d ip) branch)
    (hstop : ¬ (ip ≠ 0 ∧ (walker_answer env d ip).ip = ip)) :
    ∃ d1 : intel_pt_decoder,
      intel_pt_walk_insn env d ip = some (0, (walker_answer env d ip).insn, d1) ∧
      d1.ip = (walker_answer env d ip).ip ∧ d1.pkt_state = d.pkt_state ∧ walk_frame d d1 := by
  obtain ⟨s, hip, _, h3, _, _, _, _, _, _, _, _, _, hsm⟩ := walk_insn_sample d
  obtain ⟨he, hop, hbr, hb⟩ := hw
  have hb1 : ¬ branch = intel_pt_insn_branch.INTEL_PT_BR_NO_BRANCH := by
    rcases hb with hb | hb <;> rw [hb] <;> decide
  have hb2 : ¬ branch = intel_pt_insn_branch.INTEL_PT_BR_UNCONDITIONAL := by
    rcases hb with hb | hb <;> rw [hb] <;> decide
  have hcall : ∃ d1, intel_pt_walk_insn env d ip =
        some (0, (walker_answer env d ip).insn, d1) ∧
      d1.ip = (walker_answer env d ip).ip ∧ d1.pkt_state = d.pkt_state := by
    unfold walker_answer at he hop hbr hstop ⊢
    unfold intel_pt_walk_insn
    simp only [hsm, hip, he, hop, hbr, hb1, hb2, hstop, ne_eq, not_true_eq_false, if_false,
      if_true, false_and, reduceCtorEq, not_false_eq_true]
    split_ifs
    · refine ⟨_, rfl, ?_, ?_⟩
      · rw [(walk_insn_out_frame _ _ _).1]; exact (sample_insn_frame _).1
      · rw [(walk_insn_out_frame _ _ _).2.2.1]
        exact ((sample_insn_frame _).2.2.1).trans h3
    · refine ⟨_, rfl, ?_, ?_⟩
      · rw [(walk_insn_out_frame _ _ _).1]
      · rw [(walk_insn_out_frame _ _ _).2.2.1]; exact h3
  obtain ⟨d1, h1, h2, h4⟩ := hcall
  exact ⟨d1, h1, h2, h4, walk_insn_frame_eq env d ip _ h1⟩

/-- A call of `intel_pt_walk_insn` in which the walker arrives at the stop address returns
`-EAGAIN` there, in the same `pkt_state`. -/
theorem walk_insn_stop_call (env : intel_pt_env) (d : intel_pt_decoder) (ip : Nat)
    (he : (walker_answer env d ip).err = 0) (hip0 : ip ≠ 0)
    (hstop : (walker_answer env d ip).ip = ip) :
    ∃ d1 : intel_pt_decoder,
      intel_pt_walk_insn env d ip = some (-EAGAIN, (walker_answer env d ip).insn, d1) ∧
      d1.ip = ip ∧ d1.pkt_state = d.pkt_state ∧ walk_frame d d1 := by
  obtain ⟨s, hip, _, h3, _, _, _, _, _, _, _, _, _, hsm⟩ := walk_insn_sample d
  have hcall : ∃ d1, intel_pt_walk_insn env d ip =
        some (-EAGAIN, (walker_answer env d ip).insn, d1) ∧
      d1.ip = ip ∧ d1.pkt_state = d.pkt_state := by
    unfold walker_answer at he hstop ⊢
    unfold intel_pt_walk_insn
    simp only [hsm, hip, he, hstop, hip0, ne_eq, not_true_eq_false, if_false, if_true,
      not_false_eq_true, and_self]
    refine ⟨_, rfl, ?_, ?_⟩
    · rw [(walk_insn_out_frame _ _ _).1]
    · rw [(walk_insn_out_frame _ _ _).2.2.1]; exact h3
  obtain ⟨d1, h1, h2, h4⟩ := hcall
  exact ⟨d1, h1, h2, h4, walk_insn_frame_eq env d ip _ h1⟩

/-- A call of `intel_pt_walk_insn` that the walker answers, before the stop address, with
an instruction that is not a branch returns `INTEL_PT_RETURN`, in the same `pkt_state`,
with `ip` behind the instruction. -/
theorem walk_insn_no_branch_call (env : intel_pt_env) (d : intel_pt_decoder) (ip : Nat)
    (he : (walker_answer env d ip).err = 0)
    (hbr : (walker_answer env d ip).insn.branch = intel_pt_insn_branch.INTEL_PT_BR_NO_BRANCH)
    (hstop : ¬ (ip ≠ 0 ∧ (walker_answer env d ip).ip = ip)) :
    ∃ d1 : intel_pt_decoder,
      intel_pt_walk_insn env d ip =
        some (INTEL_PT_RETURN, (walker_answer env d ip).insn, d1) ∧
      d1.ip = add_u64_int (walker_answer env d ip).ip (walker_answer env d ip).insn.length ∧
      d1.pkt_state = d.pkt_state ∧ walk_frame d d1 := by
  obtain ⟨s, hip, _, h3, _, _, _, _, _, _, _, _, _, hsm⟩ := walk_insn_sample d
  have hcall : ∃ d1, intel_pt_walk_insn env d ip =
        some (INTEL_PT_RETURN, (walker_answer env d ip).insn, d1) ∧
      d1.ip = add_u64_int (walker_answer env d ip).ip (walker_answer env d ip).insn.length ∧
      d1.pkt_state = d.pkt_state := by
    unfold walker_answer at he hbr hstop ⊢
    unfold intel_pt_walk_insn
    simp only [hsm, hip, he, hbr, hstop, ne_eq, not_true_eq_false, if_false, if_true]
    split_ifs
    · refine ⟨_, rfl, ?_, ?_⟩
      · rw [(walk_insn_out_frame _ _ _).1]
        show add_u64_int (intel_pt_sample_insn _).ip _ = _
        rw [(sample_insn_frame _).1]
      · rw [(walk_insn_out_frame _ _ _).2.2.1]
        exact ((sample_insn_frame _).2.2.1).trans h3
    · refine ⟨_, rfl, ?_, ?_⟩
      · rw [(walk_insn_out_frame _ _ _).1]
      · rw [(walk_insn_out_frame _ _ _).2.2.1]; exact h3
  obtain ⟨d1, h1, h2, h4⟩ := hcall
  exact ⟨d1, h1, h2, h4, walk_insn_frame_eq env d ip _ h1⟩

/-- The first test of `intel_pt_walk_tip` fails when `intel_pt_walk_insn` returned 0. -/
theorem walk_tip_leaves_zero (env : intel_pt_env) (d : intel_pt_decoder) :
    (match env.pgd_ip with
      | none => false
      | some pgd_ip =>
        decide ((0 : Int) = INTEL_PT_RETURN ∧
          d.pkt_state = intel_pt_pkt_state.INTEL_PT_STATE_TIP_PGD ∧
          d.state.type &&& INTEL_PT_BRANCH ≠ 0) && pgd_ip d.state.to_ip) = false := by
  cases env.pgd_ip with
  | none => rfl
  | some f =>
    have h : ¬ ((0 : Int) = INTEL_PT_RETURN ∧
        d.pkt_state = intel_pt_pkt_state.INTEL_PT_STATE_TIP_PGD ∧
        d.state.type &&& INTEL_PT_BRANCH ≠ 0) := fun h => absurd h.1 (by decide)
    simp only [h, decide_False, Bool.false_and]

/-- What `intel_pt_walk_tip` does once `intel_pt_walk_insn` has returned 0. -/
theorem walk_tip_after_zero (env : intel_pt_env) (d d1 : intel_pt_decoder)
    (insn : intel_pt_insn) (hcall : intel_pt_walk_insn env d 0 = some (0, insn, d1)) :
    intel_pt_walk_tip env d =
      (if insn.branch = intel_pt_insn_branch.INTEL_PT_BR_INDIRECT then
        if d1.pkt_state = intel_pt_pkt_state.INTEL_PT_STATE_TIP_PGD then
          if d1.packet.count ≠ (0 : Int) then
            some (0, { d1 with
              pge := false
              continuous_period := false
              pkt_state := intel_pt_pkt_state.INTEL_PT_STATE_IN_SYNC
              state := { d1.state with from_ip := d1.ip, to_ip := 0 }
              ip := d1.last_ip })
          else
            some (0, { d1 with
              pge := false
              continuous_period := false
              pkt_state := intel_pt_pkt_state.INTEL_PT_STATE_IN_SYNC
              state := { d1.state with from_ip := d1.ip, to_ip := 0 } })
        else if d1.packet.count = (0 : Int) then
          some (0, { d1 with
            pkt_state := intel_pt_pkt_state.INTEL_PT_STATE_IN_SYNC
            state := { d1.state with from_ip := d1.ip, to_ip := 0 } })
        else
          some (0, { d1 with
            pkt_state := intel_pt_pkt_state.INTEL_PT_STATE_IN_SYNC
            state := { d1.state with from_ip := d1.ip, to_ip := d1.last_ip }
            ip := d1.last_ip })
      else if insn.branch = intel_pt_insn_branch.INTEL_PT_BR_CONDITIONAL then
        if (match env.pgd_ip with
            | none => false
            | some pgd_ip =>
              decide (d1.pkt_state = intel_pt_pkt_state.INTEL_PT_STATE_TIP_PGD) &&
                pgd_ip (add_u64_int d1.ip (insn.length + insn.rel))) = true then
          some (0, { d1 with
            pge := false
            continuous_period := false
            pkt_state := intel_pt_pkt_state.INTEL_PT_STATE_IN_SYNC
            ip := add_u64_int d1.ip (insn.length + insn.rel)
            state := { d1.state with
              from_ip := add_u64_int d1.ip (insn.length + insn.rel), to_ip := 0 } })
        else
          some (-ENOENT, { d1 with pkt_state := intel_pt_pkt_state.INTEL_PT_STATE_ERR_RESYNC })
      else some (intel_pt_bug d1)) := by
  unfold intel_pt_walk_tip
  rw [hcall]
  simp only [walk_tip_leaves_zero env d1, Bool.false_eq_true, if_false]
  rw [if_neg (by decide), if_neg (by simp)]

/-- C23: in `intel_pt_walk_tip`, when the walker stops at a conditional branch with the
target `t = ip + length + rel`, the step returns 0 exactly when a `pgd_ip` predicate is
configured, `pkt_state` is TIP_PGD and `pgd_ip t` holds; then `pge = false`,
`pkt_state = IN_SYNC`, `to_ip = 0` and both `ip` and `from_ip` are `t`; in every other case
the result is `-ENOENT`, which `intel_pt_ext_err` maps to MISMAT, with
`pkt_state = ERR_RESYNC`. -/
theorem walk_tip_conditional_spec (env : intel_pt_env) (d : intel_pt_decoder)
    (hw : walker_branch (walker_answer env d 0)
      intel_pt_insn_branch.INTEL_PT_BR_CONDITIONAL) :
    ∃ ret d2, intel_pt_walk_tip env d = some (ret, d2) ∧
      ((∃ pgd_ip, env.pgd_ip = some pgd_ip ∧
          d.pkt_state = intel_pt_pkt_state.INTEL_PT_STATE_TIP_PGD ∧
          pgd_ip (add_u64_int (walker_answer env d 0).ip
            ((walker_answer env d 0).insn.length + (walker_answer env d 0).insn.rel)) = true) →
        ret = 0 ∧ d2.pge = false ∧
        d2.pkt_state = intel_pt_pkt_state.INTEL_PT_STATE_IN_SYNC ∧ d2.state.to_ip = 0 ∧
        d2.ip = add_u64_int (walker_answer env d 0).ip
          ((walker_answer env d 0).insn.length + (walker_answer env d 0).insn.rel) ∧
        d2.state.from_ip = add_u64_int (walker_answer env d 0).ip
          ((walker_answer env d 0).insn.length + (walker_answer env d 0).insn.rel)) ∧
      (¬ (∃ pgd_ip, env.pgd_ip = some pgd_ip ∧
          d.pkt_state = intel_pt_pkt_state.INTEL_PT_STATE_TIP_PGD ∧
          pgd_ip (add_u64_int (walker_answer env d 0).ip
            ((walker_answer env d 0).insn.length + (walker_answer env d 0).insn.rel)) = true) →
        ret = -ENOENT ∧ intel_pt_ext_err ret = INTEL_PT_ERR_MISMAT ∧
        d2.pkt_state = intel_pt_pkt_state.INTEL_PT_STATE_ERR_RESYNC) := by
  obtain ⟨d1, hcall, hip, hps, hf⟩ := walk_insn_branch_call env d 0 _ hw (fun h => h.1 rfl)
  rw [walk_tip_after_zero env d d1 _ hcall, hw.2.2.1, if_neg (by decide), if_pos rfl, hps, hip]
  by_cases hl : (match env.pgd_ip with
      | none => false
      | some pgd_ip =>
        decide (d.pkt_state = intel_pt_pkt_state.INTEL_PT_STATE_TIP_PGD) &&
          pgd_ip (add_u64_int (walker_answer env d 0).ip
            ((walker_answer env d 0).insn.length + (walker_answer env d 0).insn.rel))) = true
  · rw [if_pos hl]
    refine ⟨_, _, rfl, fun _ => ⟨rfl, rfl, rfl, rfl, rfl, rfl⟩, fun hn => ?_⟩
    exfalso
    apply hn
    cases hp : env.pgd_ip with
    | none => rw [hp] at hl; exact absurd hl (by simp)
    | some f =>
      rw [hp] at hl
      simp only [Bool.and_eq_true, decide_eq_true_eq] at hl
      exact ⟨f, rfl, hl.1, hl.2⟩
  · rw [if_neg hl]
    refine ⟨_, _, rfl, fun hy => ?_, fun _ => ⟨rfl, by decide, rfl⟩⟩
    exfalso
    apply hl
    obtain ⟨f, hp, hs, hq⟩ := hy
    rw [hp]
    simp only [hs, hq, decide_True, Bool.and_self]

/-- C23 at a conditional branch at `0x1000` to `0x1012` in the state TIP_PGD with a
`pgd_ip` predicate that holds at the target: the step returns 0 with `ip = from_ip =
0x1012`, `to_ip = 0`, `pge = false` and `pkt_state = IN_SYNC`. -/
theorem walk_tip_conditional_spec_witness :
    ∃ ret d2, intel_pt_walk_tip example_filter_env example_tip_pgd_decoder = some (ret, d2) ∧
      ret = 0 ∧ d2.pge = false ∧
      d2.pkt_state = intel_pt_pkt_state.INTEL_PT_STATE_IN_SYNC ∧ d2.state.to_ip = 0 ∧
      d2.ip = 0x1012 ∧ d2.state.from_ip = 0x1012 := by
  obtain ⟨ret, d2, h, hok, _⟩ :=
    walk_tip_conditional_spec example_filter_env example_tip_pgd_decoder
      ⟨rfl, rfl, rfl, Or.inr rfl⟩
  obtain ⟨a1, a2, a3, a4, a5, a6⟩ := hok ⟨_, rfl, rfl, by decide⟩
  refine ⟨ret, d2, h, a1, a2, a3, a4, ?_, ?_⟩
  · rw [a5]; decide
  · rw [a6]; decide

/-! ### Walking to a FUP address -/

/-- C24, as stated, fails twice: when the walker reports an indirect branch before
`last_ip`, `intel_pt_walk_fup` does not stop successfully but returns `-ENOENT` with
`pkt_state = ERR_RESYNC`; and when it reports an instruction that is not a branch, the
result is 0, not a mismatch, and `pkt_state` stays as it was. -/
theorem walk_fup_counterexample :
    (intel_pt_walk_fup example_indirect_env 1 example_fup_decoder).map
        (fun r => (r.1, r.2.pkt_state)) =
      some (-ENOENT, intel_pt_pkt_state.INTEL_PT_STATE_ERR_RESYNC) ∧
    (intel_pt_walk_fup example_no_branch_env 1 example_fup_decoder).map
        (fun r => (r.1, r.2.pkt_state, r.2.ip)) =
      some (0, intel_pt_pkt_state.INTEL_PT_STATE_IN_SYNC, 0x3003) := by
  decide

/-- The function `intel_pt_walk_fup` after its first call of `intel_pt_walk_insn`. -/
theorem walk_fup_after_call (env : intel_pt_env) (fuel : Nat) (d d1 : intel_pt_decoder)
    (err : Int) (insn : intel_pt_insn)
    (hcall : intel_pt_walk_insn env d d.last_ip = some (err, insn, d1)) :
    intel_pt_walk_fup env (fuel + 1) d =
      (if err = INTEL_PT_RETURN then some (0, d1)
       else if err = -EAGAIN then
        if d1.set_fup_tx_flags = true then
          some (0,
            { d1 with
              set_fup_tx_flags := false
              tx_flags := d1.fup_tx_flags
              state := { d1.state with
                type := INTEL_PT_TRANSACTION
                from_ip := d1.ip
                to_ip := 0
                flags := d1.fup_tx_flags } })
        else some (err, d1)
       else if err ≠ 0 then some (err, { d1 with set_fup_tx_flags := false })
       else if insn.branch = intel_pt_insn_branch.INTEL_PT_BR_INDIRECT ∨
           insn.branch = intel_pt_insn_branch.INTEL_PT_BR_CONDITIONAL then
        some (-ENOENT,
          { d1 with
            set_fup_tx_flags := false
            pkt_state := intel_pt_pkt_state.INTEL_PT_STATE_ERR_RESYNC })
       else intel_pt_walk_fup env fuel (intel_pt_bug { d1 with set_fup_tx_flags := false }).2) := by
  rw [intel_pt_walk_fup, hcall]
  simp only []
  by_cases h1 : err = INTEL_PT_RETURN
  · rw [if_pos h1, if_pos h1]
  · rw [if_neg h1, if_neg h1]
    by_cases h2 : err = -EAGAIN
    · rw [if_pos h2, if_pos h2]
    · rw [if_neg h2, if_neg h2]
      by_cases h3 : err ≠ 0
      · rw [if_pos h3, if_pos h3]
      · rw [if_neg h3, if_neg h3]
        by_cases h4 : insn.branch = intel_pt_insn_branch.INTEL_PT_BR_INDIRECT
        · rw [if_pos h4, if_pos (Or.inl h4)]
        · rw [if_neg h4]
          by_cases h5 : insn.branch = intel_pt_insn_branch.INTEL_PT_BR_CONDITIONAL
          · rw [if_pos h5, if_pos (Or.inr h5)]
          · rw [if_neg h5, if_neg (fun h => h.elim h4 h5)]

/-! ### The invariant on `have_tma`: packet fetching -/

theorem set_last_ip_tma (c : Nat) (d : intel_pt_decoder) (h : tma_inv c d) :
    tma_inv c (intel_pt_set_last_ip d) := h

theorem set_ip_tma (c : Nat) (d : intel_pt_decoder) (h : tma_inv c d) :
    tma_inv c (intel_pt_set_ip d) := h

theorem bug_tma (c : Nat) (d : intel_pt_decoder) (h : tma_inv c d) : tma_inv c (intel_pt_bug d).2 := h

theorem clear_tx_flags_tma (c : Nat) (d : intel_pt_decoder) (h : tma_inv c d) :
    tma_inv c (intel_pt_clear_tx_flags d) := h

theorem update_in_tx_tma (c : Nat) (d : intel_pt_decoder) (h : tma_inv c d) :
    tma_inv c (intel_pt_update_in_tx d) := h

theorem bad_packet_tma (c : Nat) (d : intel_pt_decoder) (h : tma_inv c d) :
    tma_inv c (intel_pt_bad_packet d).2 := by
  unfold intel_pt_bad_packet
  simp only []
  split_ifs <;> exact ⟨h.1, fun _ => rfl⟩

theorem get_data_tma (c : Nat) (d : intel_pt_decoder) (h : tma_inv c d) :
    tma_inv c (intel_pt_get_data d).2 := by
  unfold intel_pt_get_data
  simp only []
  split_ifs <;> first | exact ⟨h.1, h.2⟩ | exact ⟨h.1, fun _ => rfl⟩

theorem get_next_data_tma (c : Nat) (d : intel_pt_decoder) (h : tma_inv c d) :
    tma_inv c (intel_pt_get_next_data d).2 := by
  unfold intel_pt_get_next_data
  split
  · exact get_data_tma c d h
  · exact h

theorem get_split_packet_tma (c : Nat) (env : intel_pt_env) (d : intel_pt_decoder)
    (h : tma_inv c d) :
    tma_inv c (intel_pt_get_split_packet env d).2 := by
  unfold intel_pt_get_split_packet
  simp only []
  split_ifs
  all_goals first
    | exact get_data_tma c d h
    | exact bad_packet_tma c _ ⟨(get_data_tma c d h).1, (get_data_tma c d h).2⟩

theorem get_next_packet_loop_tma (c : Nat) (env : intel_pt_env) :
    ∀ (fuel : Nat) (d : intel_pt_decoder) (r : Int × intel_pt_decoder), tma_inv c d →
      intel_pt_get_next_packet_loop env fuel d = some r → tma_inv c r.2 := by
  intro fuel
  induction fuel with
  | zero =>
    intro d r _ hr
    rw [intel_pt_get_next_packet_loop] at hr
    exact absurd hr (by simp)
  | succ fuel ih =>
    intro d r h hr
    rw [intel_pt_get_next_packet_loop] at hr
    split_ifs at hr with hc
    lift_lets at hr
    extract_lets d1 r1 d2 p d3 split r2 src d4 at hr
    have h1 : tma_inv c d1 := h
    have h2 : tma_inv c r1.2 := by
      show tma_inv c (if d1.buf.length = 0 then intel_pt_get_next_data d1 else (0, d1)).2
      split_ifs
      · exact get_next_data_tma c _ h1
      · exact h1
    have h3 : tma_inv c d3 := h2
    have h4 : tma_inv c r2.2 := by
      show tma_inv c (if split = true then intel_pt_get_split_packet env d3 else (p.1, d3)).2
      split_ifs
      · exact get_split_packet_tma c env _ h3
      · exact h3
    have h5 : tma_inv c d4 := h4
    split_ifs at hr
    · simp only [Option.some.injEq] at hr; subst hr; exact h2
    · simp only [Option.some.injEq] at hr; subst hr; exact h4
    · simp only [Option.some.injEq] at hr; subst hr; exact bad_packet_tma c _ h4
    · exact ih _ r h5 hr
    · simp only [Option.some.injEq] at hr; subst hr; exact h5

theorem get_next_packet_tma (c : Nat) (env : intel_pt_env) (fuel : Nat) (d : intel_pt_decoder)
    (r : Int × intel_pt_decoder) (h : tma_inv c d)
    (hr : intel_pt_get_next_packet env fuel d = some r) : tma_inv c r.2 := by
  unfold intel_pt_get_next_packet at hr
  refine get_next_packet_loop_tma c env fuel _ r ?_ hr
  exact h


/-! ### The invariant on `have_tma`: timing and instruction walking -/

theorem overflow_tma (c : Nat) (d : intel_pt_decoder) (h : tma_inv c d) :
    tma_inv c (intel_pt_overflow d).2 := h

theorem calc_cbr_tma (c : Nat) (env : intel_pt_env) (d : intel_pt_decoder) (h : tma_inv c d) :
    tma_inv c (intel_pt_calc_cbr env d) := by
  unfold intel_pt_calc_cbr
  simp only []
  split_ifs <;> exact ⟨h.1, h.2⟩

theorem calc_cyc_timestamp_tma (c : Nat) (env : intel_pt_env) (d : intel_pt_decoder) (h : tma_inv c d) :
    tma_inv c (intel_pt_calc_cyc_timestamp env d) := by
  unfold intel_pt_calc_cyc_timestamp
  simp only []
  split_ifs <;> exact ⟨h.1, h.2⟩

theorem calc_cyc_to_tsc_tma (c : Nat) (d : intel_pt_decoder) (la : Option Nat) (h : tma_inv c d) :
    tma_inv c (intel_pt_calc_cyc_to_tsc d la) := by
  unfold intel_pt_calc_cyc_to_tsc
  split <;> exact ⟨h.1, h.2⟩

/-- After `intel_pt_calc_tsc_timestamp`, `have_tma` is false. -/
theorem calc_tsc_timestamp_have_tma (d : intel_pt_decoder) (la : Option Nat) :
    (intel_pt_calc_tsc_timestamp d la).have_tma = false := by
  unfold intel_pt_calc_tsc_timestamp intel_pt_calc_cyc_to_tsc
  simp only []
  split_ifs <;> first | rfl | (split <;> rfl)

/-- The function `intel_pt_calc_tsc_timestamp` leaves `tsc_ctc_ratio_d` alone. -/
theorem calc_tsc_timestamp_ratio (d : intel_pt_decoder) (la : Option Nat) :
    (intel_pt_calc_tsc_timestamp d la).tsc_ctc_ratio_d = d.tsc_ctc_ratio_d := by
  unfold intel_pt_calc_tsc_timestamp intel_pt_calc_cyc_to_tsc
  simp only []
  split_ifs <;> first | rfl | (split <;> rfl)

theorem calc_tsc_timestamp_tma (c : Nat) (d : intel_pt_decoder) (la : Option Nat)
    (h : tma_inv c d) : tma_inv c (intel_pt_calc_tsc_timestamp d la) :=
  ⟨(calc_tsc_timestamp_ratio d la).trans h.1, fun _ => calc_tsc_timestamp_have_tma d la⟩

/-- With `have_tma = false`, `intel_pt_calc_mtc_timestamp` changes nothing. -/
theorem calc_mtc_timestamp_no_tma (d : intel_pt_decoder) (la : Option Nat)
    (h : d.have_tma = false) : intel_pt_calc_mtc_timestamp d la = d := by
  unfold intel_pt_calc_mtc_timestamp
  rw [if_pos h]

/-- With `tsc_ctc_ratio_d = 0`, `intel_pt_calc_tma` changes nothing. -/
theorem calc_tma_no_ratio (d : intel_pt_decoder) (h : d.tsc_ctc_ratio_d = 0) :
    intel_pt_calc_tma d = d := by
  unfold intel_pt_calc_tma
  simp only [h, if_true]

/-- The function `intel_pt_calc_mtc_timestamp` leaves `tsc_ctc_ratio_d` alone. -/
theorem calc_mtc_timestamp_ratio (d : intel_pt_decoder) (la : Option Nat) :
    (intel_pt_calc_mtc_timestamp d la).tsc_ctc_ratio_d = d.tsc_ctc_ratio_d := by
  unfold intel_pt_calc_mtc_timestamp intel_pt_calc_cyc_to_tsc
  simp only []
  split_ifs <;> first | rfl | (split <;> rfl)

theorem calc_mtc_timestamp_tma (c : Nat) (d : intel_pt_decoder) (la : Option Nat)
    (h : tma_inv c d) : tma_inv c (intel_pt_calc_mtc_timestamp d la) := by
  refine ⟨(calc_mtc_timestamp_ratio d la).trans h.1, fun h0 => ?_⟩
  rw [calc_mtc_timestamp_no_tma d la (h.2 h0)]
  exact h.2 h0

/-- The function `intel_pt_calc_tma` leaves `tsc_ctc_ratio_d` alone. -/
theorem calc_tma_ratio (d : intel_pt_decoder) :
    (intel_pt_calc_tma d).tsc_ctc_ratio_d = d.tsc_ctc_ratio_d := by
  unfold intel_pt_calc_tma
  simp only []
  split_ifs <;> rfl

theorem calc_tma_tma (c : Nat) (d : intel_pt_decoder) (h : tma_inv c d) :
    tma_inv c (intel_pt_calc_tma d) := by
  refine ⟨(calc_tma_ratio d).trans h.1, fun h0 => ?_⟩
  rw [calc_tma_no_ratio d (h.1.trans h0)]
  exact h.2 h0

theorem next_sample_tma (c : Nat) (d : intel_pt_decoder) (h : tma_inv c d) :
    tma_inv c (intel_pt_next_sample d).2 := by
  rcases next_sample_frame d with hf | ⟨m, hf⟩ <;> rw [hf] <;> exact ⟨h.1, h.2⟩

theorem sample_insn_tma (c : Nat) (d : intel_pt_decoder) (h : tma_inv c d) :
    tma_inv c (intel_pt_sample_insn d) := by
  unfold intel_pt_sample_insn
  split <;> exact ⟨h.1, h.2⟩

theorem walk_insn_out_tma (c : Nat) (reset : Bool) (insn : intel_pt_insn) (d : intel_pt_decoder)
    (h : tma_inv c d) : tma_inv c (intel_pt_walk_insn_out reset insn d) := by
  unfold intel_pt_walk_insn_out
  cases reset <;> simp only [] <;> split_ifs <;> exact ⟨h.1, h.2⟩

theorem walk_insn_uncond_tma (c : Nat) (insn : intel_pt_insn) (d : intel_pt_decoder) (h : tma_inv c d) :
    tma_inv c (intel_pt_walk_insn_uncond insn d).2.2 := by
  unfold intel_pt_walk_insn_uncond
  simp only []
  split_ifs <;> exact ⟨h.1, h.2⟩

theorem walk_insn_tma (c : Nat) (env : intel_pt_env) (d : intel_pt_decoder) (ip : Nat)
    (r : Int × intel_pt_insn × intel_pt_decoder) (h : tma_inv c d)
    (hr : intel_pt_walk_insn env d ip = some r) : tma_inv c r.2.2 := by
  unfold intel_pt_walk_insn at hr
  lift_lets at hr
  extract_lets d1 s max d2 res insn d3 at hr
  have h1 : tma_inv c d1 := by
    show tma_inv c (if d.mtc_insn = false then { d with mtc_insn := true } else d)
    split_ifs <;> exact ⟨h.1, h.2⟩
  have h2 : tma_inv c d2 := next_sample_tma c d1 h1
  have h3 : tma_inv c d3 := h2
  extract_lets d4 src d5 stacked at hr
  have h4 : tma_inv c d4 := by
    show tma_inv c (if max ≠ 0 ∧ res.insn_cnt ≥ max then intel_pt_sample_insn d3 else d3)
    split_ifs
    · exact sample_insn_tma c d3 h3
    · exact h3
  have h5 : tma_inv c d5 := h4
  have hst : ∀ e dd, stacked = some (e, dd) → tma_inv c dd := by
    intro e dd hs
    unfold stacked at hs
    split_ifs at hs
    · split at hs
      · exact absurd hs (by simp)
      · simp only [Option.some.injEq, Prod.mk.injEq] at hs
        rw [← hs.2]; exact h4
    · simp only [Option.some.injEq, Prod.mk.injEq] at hs
      rw [← hs.2]; exact h4
    · split at hs
      · exact absurd hs (by simp)
      · simp only [Option.some.injEq, Prod.mk.injEq] at hs
        rw [← hs.2]; exact h4
    · simp only [Option.some.injEq, Prod.mk.injEq] at hs
      rw [← hs.2]; exact h4
  clear_value stacked
  split_ifs at hr
  all_goals first
    | (simp only [Option.some.injEq] at hr
       subst hr
       first
         | exact h3
         | exact walk_insn_out_tma c _ _ _ h3
         | exact walk_insn_out_tma c _ _ _ h5)
    | (split at hr
       · exact absurd hr (by simp)
       · rename_i st e dd
         have hdd := hst e dd rfl
         simp only [] at hr
         split_ifs at hr
         all_goals
           simp only [Option.some.injEq] at hr
           subst hr
           first
             | exact walk_insn_out_tma c _ _ _ hdd
             | exact walk_insn_out_tma c _ _ _ (walk_insn_uncond_tma c _ _ hdd))

theorem exec_mode_tma (c : Nat) (d : intel_pt_decoder) (e : Int) (h : tma_inv c d) :
    tma_inv c { d with exec_mode := e } := ⟨h.1, h.2⟩

theorem walk_fup_tma (c : Nat) (env : intel_pt_env) :
    ∀ (fuel : Nat) (d : intel_pt_decoder) (r : Int × intel_pt_decoder), tma_inv c d →
      intel_pt_walk_fup env fuel d = some r → tma_inv c r.2 := by
  intro fuel
  induction fuel with
  | zero =>
    intro d r _ hr
    rw [intel_pt_walk_fup] at hr
    exact absurd hr (by simp)
  | succ fuel ih =>
    intro d r h hr
    rw [intel_pt_walk_fup] at hr
    split at hr
    · exact absurd hr (by simp)
    · rename_i err insn d1 hcall
      have h1 : tma_inv c d1 := walk_insn_tma c env d _ _ h hcall
      simp only [] at hr
      split_ifs at hr
      all_goals first
        | (simp only [Option.some.injEq] at hr; subst hr; exact h1)
        | (refine ih _ r ?_ hr; exact h1)

theorem walk_tip_tma (c : Nat) (env : intel_pt_env) (d : intel_pt_decoder) (r : Int × intel_pt_decoder)
    (h : tma_inv c d) (hr : intel_pt_walk_tip env d = some r) : tma_inv c r.2 := by
  unfold intel_pt_walk_tip at hr
  split at hr
  · exact absurd hr (by simp)
  · rename_i err insn d1 hcall
    have h1 : tma_inv c d1 := walk_insn_tma c env d _ _ h hcall
    simp only [] at hr
    split_ifs at hr
    all_goals first
      | (simp only [Option.some.injEq] at hr; subst hr; exact h1)

theorem walk_tnt_ret_tma (c : Nat) (d : intel_pt_decoder) (h : tma_inv c d) :
    tma_inv c (intel_pt_walk_tnt_ret d).2 := by
  unfold intel_pt_walk_tnt_ret
  simp only []
  split_ifs <;> exact ⟨h.1, h.2⟩

theorem walk_tnt_cond_tma (c : Nat) (insn : intel_pt_insn) (d : intel_pt_decoder) (h : tma_inv c d) :
    tma_inv c (intel_pt_walk_tnt_cond insn d).2 := by
  unfold intel_pt_walk_tnt_cond
  simp only []
  split_ifs <;> exact ⟨h.1, h.2⟩

theorem walk_tnt_tma (c : Nat) (env : intel_pt_env) :
    ∀ (fuel : Nat) (d : intel_pt_decoder) (r : Int × intel_pt_decoder), tma_inv c d →
      intel_pt_walk_tnt env fuel d = some r → tma_inv c r.2 := by
  intro fuel
  induction fuel with
  | zero =>
    intro d r _ hr
    rw [intel_pt_walk_tnt] at hr
    exact absurd hr (by simp)
  | succ fuel ih =>
    intro d r h hr
    rw [intel_pt_walk_tnt] at hr
    split at hr
    · exact absurd hr (by simp)
    · rename_i err insn d1 hcall
      have h1 : tma_inv c d1 := walk_insn_tma c env d _ _ h hcall
      split_ifs at hr
      · simp only [Option.some.injEq] at hr; subst hr; exact h1
      · simp only [Option.some.injEq] at hr; subst hr; exact h1
      · simp only [Option.some.injEq] at hr; subst hr; exact walk_tnt_ret_tma c d1 h1
      · split at hr
        · exact absurd hr (by simp)
        · rename_i e2 d2 hp
          have h2 : tma_inv c d2 := get_next_packet_tma c env fuel d1 _ h1 hp
          simp only [] at hr
          split_ifs at hr
          all_goals
            simp only [Option.some.injEq] at hr
            subst hr
            exact h2
      · have h2 := walk_tnt_cond_tma c insn d1 h1
        split at hr
        · rename_i e2 d2 hc
          rw [hc] at h2
          simp only [Option.some.injEq] at hr; subst hr; exact h2
        · rename_i d2 hc
          rw [hc] at h2
          exact ih _ r h2 hr
      · simp only [Option.some.injEq] at hr; subst hr; exact h1

/-! ### The invariant on `have_tma`: packet walking -/

theorem mode_tsx_tma (c : Nat) (env : intel_pt_env) (fuel : Nat) (no_tip : Bool) (d : intel_pt_decoder)
    (r : Int × Bool × intel_pt_decoder) (h : tma_inv c d)
    (hr : intel_pt_mode_tsx env fuel no_tip d = some r) : tma_inv c r.2.2 := by
  unfold intel_pt_mode_tsx at hr
  lift_lets at hr
  extract_lets fx at hr
  clear_value fx
  split at hr
  · exact absurd hr (by simp)
  · rename_i e1 d1 hp
    have h1 : tma_inv c d1 := get_next_packet_tma c env fuel d _ h hp
    split_ifs at hr
    all_goals
      simp only [Option.some.injEq] at hr
      subst hr
      exact ⟨h1.1, h1.2⟩

theorem walk_psbend_packet_tma (c : Nat) (env : intel_pt_env) (d : intel_pt_decoder)
    (h : tma_inv c d) : tma_inv c (intel_pt_walk_psbend_packet env d).2 := by
  unfold intel_pt_walk_psbend_packet
  split
  · exact ⟨h.1, h.2⟩
  · exact ⟨h.1, fun _ => rfl⟩
  · exact ⟨h.1, fun _ => rfl⟩
  · exact ⟨h.1, fun _ => rfl⟩
  · exact ⟨h.1, fun _ => rfl⟩
  · exact ⟨h.1, fun _ => rfl⟩
  · exact ⟨h.1, fun _ => rfl⟩
  · exact ⟨h.1, fun _ => rfl⟩
  · exact ⟨h.1, h.2⟩
  · exact calc_tsc_timestamp_tma c d _ h
  · exact calc_tma_tma c d h
  · exact calc_cbr_tma c env d h
  · exact exec_mode_tma c d _ h
  · exact ⟨h.1, h.2⟩
  · simp only []
    split_ifs <;> exact ⟨h.1, h.2⟩
  · exact ⟨h.1, h.2⟩
  · have hm := calc_mtc_timestamp_tma c d (env.lookahead d true) h
    simp only []
    split_ifs <;> exact ⟨hm.1, hm.2⟩
  · exact ⟨h.1, h.2⟩
  · exact ⟨h.1, h.2⟩
  · exact ⟨h.1, h.2⟩
  · exact ⟨h.1, h.2⟩

theorem walk_psbend_tma (c : Nat) (env : intel_pt_env) :
    ∀ (fuel : Nat) (d : intel_pt_decoder) (r : Int × intel_pt_decoder), tma_inv c d →
      intel_pt_walk_psbend env fuel d = some r → tma_inv c r.2 := by
  intro fuel
  induction fuel with
  | zero =>
    intro d r _ hr
    rw [intel_pt_walk_psbend] at hr
    exact absurd hr (by simp)
  | succ fuel ih =>
    intro d r h hr
    rw [intel_pt_walk_psbend] at hr
    split at hr
    · exact absurd hr (by simp)
    · rename_i e1 d1 hp
      have h1 : tma_inv c d1 := get_next_packet_tma c env fuel d _ h hp
      split_ifs at hr
      · simp only [Option.some.injEq] at hr; subst hr; exact h1
      · have h2 := walk_psbend_packet_tma c env d1 h1
        split at hr
        · rename_i e2 d2 hc
          rw [hc] at h2
          simp only [Option.some.injEq] at hr; subst hr; exact h2
        · rename_i d2 hc
          rw [hc] at h2
          exact ih _ r h2 hr

theorem walk_fup_tip_flags_tma (c : Nat) (d : intel_pt_decoder) (h : tma_inv c d) :
    tma_inv c (intel_pt_walk_fup_tip_flags d) := by
  unfold intel_pt_walk_fup_tip_flags
  split_ifs <;> exact ⟨h.1, h.2⟩

theorem walk_fup_tip_packet_tma (c : Nat) (env : intel_pt_env) (d : intel_pt_decoder)
    (h : tma_inv c d) : tma_inv c (intel_pt_walk_fup_tip_packet env d).2 := by
  unfold intel_pt_walk_fup_tip_packet
  split
  · exact ⟨h.1, h.2⟩
  · exact ⟨h.1, h.2⟩
  · exact ⟨h.1, h.2⟩
  · exact ⟨h.1, h.2⟩
  · exact ⟨h.1, h.2⟩
  · exact ⟨h.1, h.2⟩
  · exact ⟨h.1, h.2⟩
  · exact ⟨h.1, h.2⟩
  · exact ⟨h.1, h.2⟩
  · exact ⟨h.1, h.2⟩
  · exact ⟨h.1, h.2⟩
  · simp only []
    split_ifs <;> exact ⟨h.1, h.2⟩
  · simp only []
    split_ifs <;> exact ⟨h.1, h.2⟩
  · simp only []
    split_ifs <;> exact ⟨h.1, h.2⟩
  · exact ⟨h.1, h.2⟩
  · have hm := calc_mtc_timestamp_tma c d (env.lookahead d true) h
    simp only []
    split_ifs <;> exact ⟨hm.1, hm.2⟩
  · exact calc_cyc_timestamp_tma c env d h
  · exact exec_mode_tma c d _ h
  · exact ⟨h.1, h.2⟩
  · exact ⟨h.1, h.2⟩
  · exact ⟨h.1, h.2⟩

theorem walk_fup_tip_loop_tma (c : Nat) (env : intel_pt_env) :
    ∀ (fuel : Nat) (d : intel_pt_decoder) (r : Int × intel_pt_decoder), tma_inv c d →
      intel_pt_walk_fup_tip_loop env fuel d = some r → tma_inv c r.2 := by
  intro fuel
  induction fuel with
  | zero =>
    intro d r _ hr
    rw [intel_pt_walk_fup_tip_loop] at hr
    exact absurd hr (by simp)
  | succ fuel ih =>
    intro d r h hr
    rw [intel_pt_walk_fup_tip_loop] at hr
    split at hr
    · exact absurd hr (by simp)
    · rename_i e1 d1 hp
      have h1 : tma_inv c d1 := get_next_packet_tma c env fuel d _ h hp
      split_ifs at hr
      · simp only [Option.some.injEq] at hr; subst hr; exact h1
      · have h2 := walk_fup_tip_packet_tma c env d1 h1
        split at hr
        · rename_i e2 d2 hc
          rw [hc] at h2
          simp only [Option.some.injEq] at hr; subst hr; exact h2
        · rename_i d2 hc
          rw [hc] at h2
          exact ih _ r h2 hr

theorem walk_fup_tip_tma (c : Nat) (env : intel_pt_env) (fuel : Nat) (d : intel_pt_decoder)
    (r : Int × intel_pt_decoder) (h : tma_inv c d)
    (hr : intel_pt_walk_fup_tip env fuel d = some r) : tma_inv c r.2 :=
  walk_fup_tip_loop_tma c env fuel _ r (walk_fup_tip_flags_tma c d h) hr

theorem walk_trace_fup_tma (c : Nat) (env : intel_pt_env) (fuel : Nat) (no_tip : Bool)
    (d : intel_pt_decoder) (s : walk_trace_step) (h : tma_inv c d)
    (hr : intel_pt_walk_trace_fup env fuel no_tip d = some s) : tma_inv c (step_decoder s) := by
  unfold intel_pt_walk_trace_fup at hr
  by_cases hc : d.packet.count = (0 : Int)
  · rw [if_pos hc] at hr
    simp only [Option.some.injEq] at hr
    subst hr
    exact h
  · rw [if_neg hc] at hr
    cases hf : intel_pt_walk_fup env fuel (intel_pt_set_last_ip d) with
    | none =>
      rw [hf] at hr
      exact absurd hr (by simp)
    | some r1 =>
      obtain ⟨e1, d1⟩ := r1
      rw [hf] at hr
      have h1 : tma_inv c d1 := walk_fup_tma c env fuel _ _ (set_last_ip_tma c d h) hf
      simp only [] at hr
      split_ifs at hr
      · simp only [Option.some.injEq] at hr
        subst hr
        exact ⟨h1.1, h1.2⟩
      · simp only [Option.some.injEq] at hr
        subst hr
        exact ⟨h1.1, h1.2⟩
      · simp only [Option.some.injEq] at hr
        subst hr
        exact ⟨h1.1, h1.2⟩
      · simp only [Option.some.injEq] at hr
        subst hr
        exact ⟨h1.1, h1.2⟩
      · cases hft : intel_pt_walk_fup_tip env fuel d1 with
        | none =>
          rw [hft] at hr
          exact absurd hr (by simp)
        | some r2 =>
          rw [hft] at hr
          simp only [Option.some.injEq] at hr
          subst hr
          exact walk_fup_tip_tma c env fuel d1 r2 h1 hft

theorem walk_trace_mtc_tma (c : Nat) (env : intel_pt_env) (no_tip : Bool) (d : intel_pt_decoder)
    (h : tma_inv c d) : tma_inv c (step_decoder (intel_pt_walk_trace_mtc env no_tip d)) := by
  have h1 := calc_mtc_timestamp_tma c d (env.lookahead d true) h
  unfold intel_pt_walk_trace_mtc
  simp only []
  split_ifs <;> exact ⟨h1.1, h1.2⟩

theorem walk_trace_packet_tma (c : Nat) (env : intel_pt_env) (fuel : Nat) (no_tip : Bool)
    (d : intel_pt_decoder) (s : walk_trace_step) (h : tma_inv c d)
    (hr : intel_pt_walk_trace_packet env fuel no_tip d = some s) : tma_inv c (step_decoder s) := by
  unfold intel_pt_walk_trace_packet at hr
  split at hr
  · -- TNT
    by_cases hc : d.packet.count = (0 : Int)
    · rw [if_pos hc] at hr
      simp only [Option.some.injEq] at hr
      subst hr
      exact h
    · rw [if_neg hc] at hr
      have hd : tma_inv c
          { d with tnt := d.packet, pkt_state := intel_pt_pkt_state.INTEL_PT_STATE_TNT } :=
        ⟨h.1, h.2⟩
      split at hr
      · exact absurd hr (by simp)
      · rename_i e1 d1 ht
        have h1 : tma_inv c d1 := walk_tnt_tma c env fuel _ _ hd ht
        split_ifs at hr
        all_goals (simp only [Option.some.injEq] at hr; subst hr; exact ⟨h1.1, h1.2⟩)
  · -- TIP_PGD
    lift_lets at hr
    extract_lets d1 at hr
    have hd1 : tma_inv c d1 := by
      show tma_inv c (if d.packet.count ≠ (0 : Int) then intel_pt_set_last_ip d else d)
      split_ifs
      · exact set_last_ip_tma c d h
      · exact h
    clear_value d1
    have hd : tma_inv c
        { d1 with pkt_state := intel_pt_pkt_state.INTEL_PT_STATE_TIP_PGD } := ⟨hd1.1, hd1.2⟩
    split at hr
    · exact absurd hr (by simp)
    · rename_i e1 d2 ht
      have h1 : tma_inv c d2 := walk_tip_tma c env _ _ hd ht
      simp only [Option.some.injEq] at hr
      subst hr
      exact ⟨h1.1, h1.2⟩
  · -- TIP_PGE
    split_ifs at hr
    all_goals (simp only [Option.some.injEq] at hr; subst hr; exact ⟨h.1, h.2⟩)
  · -- OVF
    simp only [Option.some.injEq] at hr
    subst hr
    exact overflow_tma c d h
  · -- TIP
    lift_lets at hr
    extract_lets d1 at hr
    have hd1 : tma_inv c d1 := by
      show tma_inv c (if d.packet.count ≠ (0 : Int) then intel_pt_set_last_ip d else d)
      split_ifs
      · exact set_last_ip_tma c d h
      · exact h
    clear_value d1
    have hd : tma_inv c
        { d1 with pkt_state := intel_pt_pkt_state.INTEL_PT_STATE_TIP } := ⟨hd1.1, hd1.2⟩
    split at hr
    · exact absurd hr (by simp)
    · rename_i e1 d2 ht
      have h1 : tma_inv c d2 := walk_tip_tma c env _ _ hd ht
      simp only [Option.some.injEq] at hr
      subst hr
      exact ⟨h1.1, h1.2⟩
  · -- FUP
    exact walk_trace_fup_tma c env fuel no_tip d s h hr
  · -- TRACESTOP
    simp only [Option.some.injEq] at hr
    subst hr
    exact ⟨h.1, fun _ => rfl⟩
  · -- PSB
    split at hr
    · exact absurd hr (by simp)
    · rename_i stack hcs
      have hd : tma_inv c { d with last_ip := 0, have_last_ip := true, stack := stack } :=
        ⟨h.1, h.2⟩
      split at hr
      · exact absurd hr (by simp)
      · rename_i e1 d1 hp
        have h1 : tma_inv c d1 := walk_psbend_tma c env fuel _ _ hd hp
        split_ifs at hr
        all_goals (simp only [Option.some.injEq] at hr; subst hr; exact ⟨h1.1, h1.2⟩)
  · -- PIP
    simp only [Option.some.injEq] at hr
    subst hr
    exact ⟨h.1, h.2⟩
  · -- MTC
    simp only [Option.some.injEq] at hr
    subst hr
    exact walk_trace_mtc_tma c env no_tip d h
  · -- TSC
    simp only [Option.some.injEq] at hr
    subst hr
    exact calc_tsc_timestamp_tma c d _ h
  · -- TMA
    simp only [Option.some.injEq] at hr
    subst hr
    exact calc_tma_tma c d h
  · -- CYC
    simp only [Option.some.injEq] at hr
    subst hr
    exact calc_cyc_timestamp_tma c env d h
  · -- CBR
    simp only [Option.some.injEq] at hr
    subst hr
    exact calc_cbr_tma c env d h
  · -- MODE_EXEC
    simp only [Option.some.injEq] at hr
    subst hr
    exact exec_mode_tma c d _ h
  · -- MODE_TSX
    by_cases hp : d.pge = false
    · rw [if_pos hp] at hr
      simp only [Option.some.injEq] at hr
      subst hr
      exact update_in_tx_tma c d h
    · rw [if_neg hp] at hr
      split at hr
      · exact absurd hr (by simp)
      · rename_i e1 nt d1 hm
        have h1 : tma_inv c d1 := mode_tsx_tma c env fuel no_tip d _ h hm
        split_ifs at hr
        all_goals (simp only [Option.some.injEq] at hr; subst hr; exact ⟨h1.1, h1.2⟩)
  · -- BAD
    simp only [Option.some.injEq] at hr
    subst hr
    exact bug_tma c d h
  · simp only [Option.some.injEq] at hr; subst hr; exact h
  · simp only [Option.some.injEq] at hr; subst hr; exact h
  · simp only [Option.some.injEq] at hr; subst hr; exact h
  · simp only [Option.some.injEq] at hr; subst hr; exact h

theorem walk_trace_loop_tma (c : Nat) (env : intel_pt_env) :
    ∀ (fuel : Nat) (no_tip at_next : Bool) (d : intel_pt_decoder) (r : Int × intel_pt_decoder),
      tma_inv c d → intel_pt_walk_trace_loop env fuel no_tip at_next d = some r → tma_inv c r.2 := by
  intro fuel
  induction fuel with
  | zero =>
    intro no_tip at_next d r _ hr
    rw [intel_pt_walk_trace_loop] at hr
    exact absurd hr (by simp)
  | succ fuel ih =>
    intro no_tip at_next d r h hr
    rw [intel_pt_walk_trace_loop] at hr
    split at hr
    · exact absurd hr (by simp)
    · rename_i e1 d1 hp
      have h1 : tma_inv c d1 := by
        cases at_next
        · simp only [Bool.false_eq_true, if_false] at hp
          exact get_next_packet_tma c env fuel d _ h hp
        · simp only [if_true, Option.some.injEq, Prod.mk.injEq] at hp
          rw [← hp.2]; exact h
      split_ifs at hr
      · simp only [Option.some.injEq] at hr; subst hr; exact h1
      · split at hr
        · exact absurd hr (by simp)
        · rename_i e2 d2 hs
          have h2 := walk_trace_packet_tma c env fuel no_tip d1 _ h1 hs
          simp only [Option.some.injEq] at hr; subst hr; exact h2
        · rename_i nt d2 hs
          have h2 := walk_trace_packet_tma c env fuel no_tip d1 _ h1 hs
          exact ih _ _ _ r h2 hr
        · rename_i nt d2 hs
          have h2 := walk_trace_packet_tma c env fuel no_tip d1 _ h1 hs
          exact ih _ _ _ r h2 hr

theorem walk_trace_tma (c : Nat) (env : intel_pt_env) (fuel : Nat) (d : intel_pt_decoder)
    (r : Int × intel_pt_decoder) (h : tma_inv c d)
    (hr : intel_pt_walk_trace env fuel d = some r) : tma_inv c r.2 :=
  walk_trace_loop_tma c env fuel false false d r h hr

/-! ### The invariant on `have_tma`: synchronisation and `intel_pt_decode` -/

theorem walk_sync_timing_tma (c : Nat) (env : intel_pt_env) (d d1 : intel_pt_decoder)
    (h : tma_inv c d) (hr : intel_pt_walk_sync_timing env d = some d1) : tma_inv c d1 := by
  unfold intel_pt_walk_sync_timing at hr
  split at hr
  · simp only [Option.some.injEq] at hr
    subst hr
    exact calc_mtc_timestamp_tma c d _ h
  · simp only [Option.some.injEq] at hr
    subst hr
    exact calc_tsc_timestamp_tma c d _ h
  · simp only [Option.some.injEq] at hr
    subst hr
    exact calc_tma_tma c d h
  · simp only [Option.some.injEq] at hr
    subst hr
    exact calc_cyc_timestamp_tma c env d h
  · simp only [Option.some.injEq] at hr
    subst hr
    exact calc_cbr_tma c env d h
  · simp only [Option.some.injEq] at hr
    subst hr
    exact ⟨h.1, h.2⟩
  · simp only [Option.some.injEq] at hr
    subst hr
    exact exec_mode_tma c d _ h
  · simp only [Option.some.injEq] at hr
    subst hr
    exact update_in_tx_tma c d h
  · exact absurd hr (by simp)

theorem walk_psb_packet_tma (c : Nat) (env : intel_pt_env) (d : intel_pt_decoder)
    (h : tma_inv c d) : tma_inv c (intel_pt_walk_psb_packet env d).2 := by
  unfold intel_pt_walk_psb_packet
  split
  · rename_i d1 hs
    exact walk_sync_timing_tma c env d d1 h hs
  · split
    · exact ⟨h.1, h.2⟩
    · exact h
    · exact h
    · simp only []
      split_ifs
      · exact ⟨h.1, h.2⟩
      · exact ⟨h.1, h.2⟩
    · exact ⟨h.1, fun _ => rfl⟩
    · exact ⟨h.1, fun _ => rfl⟩
    · exact bug_tma c d h
    · exact overflow_tma c d h
    · exact h
    · exact h

theorem walk_psb_tma (c : Nat) (env : intel_pt_env) :
    ∀ (fuel : Nat) (d : intel_pt_decoder) (r : Int × intel_pt_decoder), tma_inv c d →
      intel_pt_walk_psb env fuel d = some r → tma_inv c r.2 := by
  intro fuel
  induction fuel with
  | zero =>
    intro d r _ hr
    rw [intel_pt_walk_psb] at hr
    exact absurd hr (by simp)
  | succ fuel ih =>
    intro d r h hr
    rw [intel_pt_walk_psb] at hr
    split at hr
    · exact absurd hr (by simp)
    · rename_i e1 d1 hp
      have h1 : tma_inv c d1 := get_next_packet_tma c env fuel d _ h hp
      split_ifs at hr
      · simp only [Option.some.injEq] at hr; subst hr; exact h1
      · have h2 := walk_psb_packet_tma c env d1 h1
        split at hr
        · rename_i e2 d2 hc
          rw [hc] at h2
          simp only [Option.some.injEq] at hr; subst hr; exact h2
        · rename_i d2 hc
          rw [hc] at h2
          exact ih _ r h2 hr

theorem walk_to_ip_packet_tma (c : Nat) (env : intel_pt_env) (fuel : Nat)
    (d : intel_pt_decoder) (r : Option Int × intel_pt_decoder) (h : tma_inv c d)
    (hr : intel_pt_walk_to_ip_packet env fuel d = some r) : tma_inv c r.2 := by
  unfold intel_pt_walk_to_ip_packet at hr
  split at hr
  · rename_i d1 hs
    simp only [Option.some.injEq] at hr
    subst hr
    exact walk_sync_timing_tma c env d d1 h hs
  · split at hr
    · simp only [Option.some.injEq] at hr
      subst hr
      simp only []
      split_ifs <;> exact ⟨h.1, h.2⟩
    · simp only [Option.some.injEq] at hr
      subst hr
      simp only []
      split_ifs <;> exact ⟨h.1, h.2⟩
    · simp only [Option.some.injEq] at hr
      subst hr
      simp only []
      split_ifs <;> exact ⟨h.1, h.2⟩
    · simp only [Option.some.injEq] at hr
      subst hr
      simp only []
      split_ifs <;> exact ⟨h.1, h.2⟩
    · simp only [Option.some.injEq] at hr
      subst hr
      exact overflow_tma c d h
    · simp only [Option.some.injEq] at hr
      subst hr
      exact bug_tma c d h
    · simp only [Option.some.injEq] at hr
      subst hr
      exact ⟨h.1, fun _ => rfl⟩
    · split at hr
      · exact absurd hr (by simp)
      · rename_i stack hcs
        have hd : tma_inv c { d with last_ip := 0, have_last_ip := true, stack := stack } :=
          ⟨h.1, h.2⟩
        split at hr
        · exact absurd hr (by simp)
        · rename_i e1 d1 hp
          have h1 : tma_inv c d1 := walk_psb_tma c env fuel _ _ hd hp
          split_ifs at hr
          all_goals (simp only [Option.some.injEq] at hr; subst hr; exact ⟨h1.1, h1.2⟩)
    · simp only [Option.some.injEq] at hr
      subst hr
      exact h

theorem walk_to_ip_tma (c : Nat) (env : intel_pt_env) :
    ∀ (fuel : Nat) (d : intel_pt_decoder) (r : Int × intel_pt_decoder), tma_inv c d →
      intel_pt_walk_to_ip env fuel d = some r → tma_inv c r.2 := by
  intro fuel
  induction fuel with
  | zero =>
    intro d r _ hr
    rw [intel_pt_walk_to_ip] at hr
    exact absurd hr (by simp)
  | succ fuel ih =>
    intro d r h hr
    rw [intel_pt_walk_to_ip] at hr
    split at hr
    · exact absurd hr (by simp)
    · rename_i e1 d1 hp
      have h1 : tma_inv c d1 := get_next_packet_tma c env fuel d _ h hp
      split_ifs at hr
      · simp only [Option.some.injEq] at hr; subst hr; exact h1
      · split at hr
        · exact absurd hr (by simp)
        · rename_i e2 d2 hc
          have h2 := walk_to_ip_packet_tma c env fuel d1 _ h1 hc
          simp only [Option.some.injEq] at hr; subst hr; exact h2
        · rename_i d2 hc
          have h2 := walk_to_ip_packet_tma c env fuel d1 _ h1 hc
          exact ih _ r h2 hr

theorem sync_ip_tma (c : Nat) (env : intel_pt_env) (fuel : Nat) (d : intel_pt_decoder)
    (r : Int × intel_pt_decoder) (h : tma_inv c d)
    (hr : intel_pt_sync_ip env fuel d = some r) : tma_inv c r.2 := by
  unfold intel_pt_sync_ip at hr
  split at hr
  · exact absurd hr (by simp)
  · rename_i e1 d1 hw
    have h1 : tma_inv c d1 := by
      refine walk_to_ip_tma c env fuel _ _ ?_ hw
      exact ⟨h.1, h.2⟩
    split_ifs at hr
    all_goals (simp only [Option.some.injEq] at hr; subst hr; exact ⟨h1.1, h1.2⟩)

theorem get_split_psb_tma (c : Nat) (env : intel_pt_env) (d : intel_pt_decoder) (part_psb : Nat)
    (h : tma_inv c d) : tma_inv c (intel_pt_get_split_psb env d part_psb).2 := by
  have h1 := get_next_data_tma c
    { d with pos := (d.pos + d.buf.length) % 2 ^ 64, buf := [] } ⟨h.1, h.2⟩
  unfold intel_pt_get_split_psb
  simp only []
  split_ifs <;> exact ⟨h1.1, h1.2⟩

theorem scan_for_psb_tma (c : Nat) (env : intel_pt_env) :
    ∀ (fuel : Nat) (d : intel_pt_decoder) (r : Int × intel_pt_decoder), tma_inv c d →
      intel_pt_scan_for_psb env fuel d = some r → tma_inv c r.2 := by
  intro fuel
  induction fuel with
  | zero =>
    intro d r _ hr
    rw [intel_pt_scan_for_psb] at hr
    exact absurd hr (by simp)
  | succ fuel ih =>
    intro d r h hr
    rw [intel_pt_scan_for_psb] at hr
    have h1 : tma_inv c (if d.buf.length = 0 then intel_pt_get_next_data d else (0, d)).2 := by
      split_ifs
      · exact get_next_data_tma c d h
      · exact h
    generalize (if d.buf.length = 0 then intel_pt_get_next_data d else (0, d)) = q at hr h1
    by_cases hq : q.1 ≠ 0
    · rw [if_pos hq] at hr
      simp only [Option.some.injEq] at hr
      subst hr
      exact h1
    · rw [if_neg hq] at hr
      cases hm : memmem env.INTEL_PT_PSB_STR q.2.buf with
      | none =>
        rw [hm] at hr
        simp only [] at hr
        by_cases hp : intel_pt_part_psb env q.2 ≠ 0
        · rw [if_pos hp] at hr
          have h2 : tma_inv c (intel_pt_get_split_psb env q.2 (intel_pt_part_psb env q.2)).2 :=
            get_split_psb_tma c env q.2 _ h1
          generalize intel_pt_get_split_psb env q.2 (intel_pt_part_psb env q.2) = q2 at hr h2
          by_cases hq2 : q2.1 ≠ 0
          · rw [if_pos hq2] at hr
            simp only [Option.some.injEq] at hr
            subst hr
            exact h2
          · rw [if_neg hq2] at hr
            exact ih _ r h2 hr
        · rw [if_neg hp] at hr
          refine ih _ r ?_ hr
          exact ⟨h1.1, h1.2⟩
      | some next =>
        rw [hm] at hr
        simp only [] at hr
        refine get_next_packet_tma c env fuel _ r ?_ hr
        exact ⟨h1.1, h1.2⟩

theorem sync_tma (c : Nat) (env : intel_pt_env) (fuel : Nat) (d : intel_pt_decoder)
    (r : Int × intel_pt_decoder) (h : tma_inv c d)
    (hr : intel_pt_sync env fuel d = some r) : tma_inv c r.2 := by
  unfold intel_pt_sync at hr
  split at hr
  · exact absurd hr (by simp)
  · split at hr
    · exact absurd hr (by simp)
    · rename_i e1 d1 hs
      have h1 : tma_inv c d1 := by
        refine scan_for_psb_tma c env fuel _ _ ?_ hs
        exact ⟨h.1, h.2⟩
      split_ifs at hr
      · simp only [Option.some.injEq] at hr; subst hr; exact ⟨h1.1, h1.2⟩
      · split at hr
        · exact absurd hr (by simp)
        · rename_i e2 d2 hw
          have h2 : tma_inv c d2 := by
            refine walk_psb_tma c env fuel _ _ ?_ hw
            exact ⟨h1.1, h1.2⟩
          split_ifs at hr
          · simp only [Option.some.injEq] at hr; subst hr; exact ⟨h2.1, h2.2⟩
          · simp only [Option.some.injEq] at hr; subst hr; exact ⟨h2.1, h2.2⟩
          · exact sync_ip_tma c env fuel d2 r h2 hr

theorem decode_step_tma (c : Nat) (env : intel_pt_env) (fuel : Nat) (d : intel_pt_decoder)
    (r : Int × intel_pt_decoder) (h : tma_inv c d)
    (hr : intel_pt_decode_step env fuel d = some r) : tma_inv c r.2 := by
  unfold intel_pt_decode_step at hr
  simp only [] at hr
  split at hr
  · refine sync_tma c env fuel _ r ?_ hr
    exact ⟨h.1, h.2⟩
  · refine sync_ip_tma c env fuel _ r ?_ hr
    exact ⟨h.1, h.2⟩
  · refine sync_ip_tma c env fuel _ r ?_ hr
    exact ⟨h.1, h.2⟩
  · refine walk_trace_tma c env fuel _ r ?_ hr
    exact ⟨h.1, h.2⟩
  · split at hr
    · exact absurd hr (by simp)
    · rename_i e1 d1 ht
      have h1 : tma_inv c d1 := by
        refine walk_tnt_tma c env fuel _ _ ?_ ht
        exact ⟨h.1, h.2⟩
      split_ifs at hr
      · exact walk_trace_tma c env fuel _ r h1 hr
      · simp only [Option.some.injEq] at hr; subst hr; exact ⟨h1.1, h1.2⟩
  · split at hr
    · exact absurd hr (by simp)
    · rename_i e1 d1 ht
      have h1 : tma_inv c d1 := by
        refine walk_tnt_tma c env fuel _ _ ?_ ht
        exact ⟨h.1, h.2⟩
      split_ifs at hr
      · exact walk_trace_tma c env fuel _ r h1 hr
      · simp only [Option.some.injEq] at hr; subst hr; exact ⟨h1.1, h1.2⟩
  · refine walk_tip_tma c env _ r ?_ hr
    exact ⟨h.1, h.2⟩
  · refine walk_tip_tma c env _ r ?_ hr
    exact ⟨h.1, h.2⟩
  · split at hr
    · exact absurd hr (by simp)
    · rename_i e1 d1 ht
      have h1 : tma_inv c d1 := by
        refine walk_fup_tma c env fuel _ _ ?_ ht
        exact ⟨h.1, h.2⟩
      split_ifs at hr
      · exact walk_fup_tip_tma c env fuel _ r h1 hr
      · simp only [Option.some.injEq] at hr; subst hr; exact ⟨h1.1, h1.2⟩
      · simp only [Option.some.injEq] at hr; subst hr; exact ⟨h1.1, h1.2⟩
  · split at hr
    · exact absurd hr (by simp)
    · rename_i e1 d1 ht
      have h1 : tma_inv c d1 := by
        refine walk_fup_tma c env fuel _ _ ?_ ht
        exact ⟨h.1, h.2⟩
      split_ifs at hr
      · exact walk_trace_tma c env fuel _ r h1 hr
      · simp only [Option.some.injEq] at hr; subst hr; exact ⟨h1.1, h1.2⟩

theorem decode_loop_tma (c : Nat) (env : intel_pt_env) :
    ∀ (fuel : Nat) (d : intel_pt_decoder) (r : Int × intel_pt_decoder), tma_inv c d →
      intel_pt_decode_loop env fuel d = some r → tma_inv c r.2 := by
  intro fuel
  induction fuel with
  | zero =>
    intro d r _ hr
    rw [intel_pt_decode_loop] at hr
    exact absurd hr (by simp)
  | succ fuel ih =>
    intro d r h hr
    rw [intel_pt_decode_loop] at hr
    split at hr
    · exact absurd hr (by simp)
    · rename_i e1 d1 hs
      have h1 : tma_inv c d1 := decode_step_tma c env fuel d _ h hs
      split_ifs at hr
      · exact ih _ r h1 hr
      · simp only [Option.some.injEq] at hr; subst hr; exact ⟨h1.1, h1.2⟩

theorem decode_publish_tma (c : Nat) (err : Int) (d : intel_pt_decoder) (h : tma_inv c d) :
    tma_inv c (intel_pt_decode_publish err d) := by
  unfold intel_pt_decode_publish
  simp only []
  split_ifs <;> exact ⟨h.1, h.2⟩

theorem decode_tma (c : Nat) (env : intel_pt_env) (fuel : Nat) (d d1 : intel_pt_decoder)
    (h : tma_inv c d) (hr : intel_pt_decode env fuel d = some d1) : tma_inv c d1 := by
  unfold intel_pt_decode at hr
  split at hr
  · exact absurd hr (by simp)
  · rename_i e1 d2 hl
    simp only [Option.some.injEq] at hr; subst hr
    exact decode_publish_tma c e1 d2 (decode_loop_tma c env fuel d _ h hl)

/-- A decoder built by `intel_pt_decoder_new` has `have_tma = false`, and
`tsc_ctc_ratio_d = 0` when the parameter `tsc_ctc_ratio_n` is 0. -/
theorem decoder_new_tma (fuel : Nat) (to_double : Nat → Nat) (zalloc_ok : Bool)
    (params : intel_pt_params) (d0 : intel_pt_decoder)
    (hnew : intel_pt_decoder_new fuel to_double zalloc_ok params = some (some d0)) :
    d0.have_tma = false ∧ (params.tsc_ctc_ratio_n = 0 → d0.tsc_ctc_ratio_d = 0) := by
  unfold intel_pt_decoder_new at hnew
  by_cases hcb : params.get_trace = false ∨ params.walk_insn = false
  · rw [if_pos hcb] at hnew
    exact absurd hnew (by simp)
  · rw [if_neg hcb] at hnew
    by_cases hz : zalloc_ok = false
    · rw [if_pos hz] at hnew
      exact absurd hnew (by simp)
    · rw [if_neg hz] at hnew
      split at hnew
      · exact absurd hnew (by simp)
      · rename_i d1 hs
        simp only [Option.some.injEq] at hnew
        subst hnew
        have h1 : d1.have_tma = false := by
          unfold intel_pt_setup_period at hs
          split_ifs at hs
          · split at hs
            · exact absurd hs (by simp)
            · simp only [Option.some.injEq] at hs
              subst hs
              rfl
          · simp only [Option.some.injEq] at hs
            subst hs
            rfl
        refine ⟨h1, fun hn => ?_⟩
        unfold intel_pt_decoder_new_timing
        simp only [hn, if_true]

/-- Every state in `reachable` satisfies the invariant. -/
theorem reachable_tma (env : intel_pt_env) (d0 d : intel_pt_decoder)
    (h0 : d0.have_tma = false) (hr : reachable env d0 d) :
    tma_inv d0.tsc_ctc_ratio_d d := by
  induction hr with
  | init => exact ⟨rfl, fun _ => h0⟩
  | decode fuel d d1 _ hd ih => exact decode_tma _ env fuel d d1 ih hd
  | step fuel d r _ hd ih => exact decode_step_tma _ env fuel d r ih hd
  | fetch fuel d r _ hd ih => exact get_next_packet_tma _ env fuel d r ih hd
  | walk d ip r _ hd ih => exact walk_insn_tma _ env d ip r ih hd
  | tsc d la _ ih => exact calc_tsc_timestamp_tma _ d la ih
  | mtc d la _ ih => exact calc_mtc_timestamp_tma _ d la ih
  | tma d _ ih => exact calc_tma_tma _ d ih
  | update d d1 _ h1 h2 ih => exact ⟨h2.trans ih.1, fun hc => h1.trans (ih.2 hc)⟩
  | clear d d1 _ h1 h2 ih => exact ⟨h2.trans ih.1, fun _ => h1⟩

/-- C13: for a decoder `d0` built by `intel_pt_decoder_new`, `have_tma` starts false,
`tsc_ctc_ratio_d` is 0 when the parameter `tsc_ctc_ratio_n` is 0, and in every reachable
state `tsc_ctc_ratio_d` is the one of `d0` and `tsc_ctc_ratio_d = 0` implies
`have_tma = false`; hence in a reachable state with `tsc_ctc_ratio_d = 0` the handlers of
the MTC and of the TMA packet change nothing, in particular not `timestamp`,
`ctc_timestamp`, `ctc_delta` and `last_mtc`. -/
theorem ratio_zero_disables_mtc (env : intel_pt_env) (fuel : Nat) (to_double : Nat → Nat)
    (zalloc_ok : Bool) (params : intel_pt_params) (d0 : intel_pt_decoder)
    (hnew : intel_pt_decoder_new fuel to_double zalloc_ok params = some (some d0)) :
    d0.have_tma = false ∧
    (params.tsc_ctc_ratio_n = 0 → d0.tsc_ctc_ratio_d = 0) ∧
    (∀ d, reachable env d0 d →
      d.tsc_ctc_ratio_d = d0.tsc_ctc_ratio_d ∧ (d.tsc_ctc_ratio_d = 0 → d.have_tma = false)) ∧
    (∀ d, reachable env d0 d → d.tsc_ctc_ratio_d = 0 → ∀ la : Option Nat,
      intel_pt_calc_mtc_timestamp d la = d ∧ intel_pt_calc_tma d = d ∧
      (intel_pt_calc_mtc_timestamp d la).timestamp = d.timestamp ∧
      (intel_pt_calc_mtc_timestamp d la).ctc_timestamp = d.ctc_timestamp ∧
      (intel_pt_calc_mtc_timestamp d la).ctc_delta = d.ctc_delta ∧
      (intel_pt_calc_mtc_timestamp d la).last_mtc = d.last_mtc ∧
      (intel_pt_calc_tma d).timestamp = d.timestamp ∧
      (intel_pt_calc_tma d).ctc_timestamp = d.ctc_timestamp ∧
      (intel_pt_calc_tma d).ctc_delta = d.ctc_delta ∧
      (intel_pt_calc_tma d).last_mtc = d.last_mtc) := by
  obtain ⟨h0, hn⟩ := decoder_new_tma fuel to_double zalloc_ok params d0 hnew
  refine ⟨h0, hn, ?_, ?_⟩
  · intro d hr
    have h := reachable_tma env d0 d h0 hr
    exact ⟨h.1, fun hz => h.2 (h.1.symm.trans hz)⟩
  · intro d hr hz la
    have h := reachable_tma env d0 d h0 hr
    have hm := calc_mtc_timestamp_no_tma d la (h.2 (h.1.symm.trans hz))
    have ht := calc_tma_no_ratio d hz
    refine ⟨hm, ht, ?_, ?_, ?_, ?_, ?_, ?_, ?_, ?_⟩
    all_goals first | rw [hm] | rw [ht]

/-- C13 at the decoder built from parameters with `tsc_ctc_ratio_n = 0` and
`tsc_ctc_ratio_d = 3`: the decoder has `tsc_ctc_ratio_d = 0`, and a TMA packet followed by
an MTC packet leaves it without `have_tma` and with its `timestamp`. -/
theorem ratio_zero_disables_mtc_witness :
    example_new_decoder.have_tma = false ∧ example_new_decoder.tsc_ctc_ratio_d = 0 ∧
    (intel_pt_calc_tma example_new_decoder).have_tma = false ∧
    intel_pt_calc_mtc_timestamp (intel_pt_calc_tma example_new_decoder) none =
      intel_pt_calc_tma example_new_decoder := by
  have h := ratio_zero_disables_mtc {} 0 (fun x => x) true example_params example_new_decoder rfl
  have hr : reachable {} example_new_decoder (intel_pt_calc_tma example_new_decoder) :=
    reachable.tma _ reachable.init
  have hz : (intel_pt_calc_tma example_new_decoder).tsc_ctc_ratio_d = 0 :=
    ((h.2.2.1 _ hr).1).trans (h.2.1 rfl)
  exact ⟨h.1, h.2.1 rfl, (h.2.2.1 _ hr).2 hz, (h.2.2.2 _ hr hz none).1⟩

/-! ### Where `have_tma` is cleared -/

/-- C12, as stated, fails for PSB and for OVF: `intel_pt_walk_trace` run on a PSB packet
directly followed by PSBEND (and then no more data), and run on an OVF packet, both
starting with `have_tma = true`, end with `have_tma = true`; so does a direct call of
`intel_pt_overflow`. -/
theorem have_tma_kept_counterexample :
    (intel_pt_walk_trace example_packet_env 5 example_psb_decoder).map
        (fun r => (r.1, r.2.have_tma, r.2.packet.type)) =
      some (-ENODATA, true, intel_pt_pkt_type.INTEL_PT_PSBEND) ∧
    (intel_pt_walk_trace example_packet_env 5 example_ovf_decoder).map
        (fun r => (r.1, r.2.have_tma)) = some (-EOVERFLOW, true) ∧
    (intel_pt_overflow { have_tma := true }).2.have_tma = true := by
  decide

/-- C12, amended: `have_tma` is false after `intel_pt_walk_trace` handles a TRACESTOP
packet, after `intel_pt_get_data` receives a non-empty, non-consecutive buffer (it then
returns `-ENOLINK`), after a TSC packet (`intel_pt_calc_tsc_timestamp`) and after a
TRACESTOP or PSB packet met by `intel_pt_walk_psbend` inside PSB+; but
`intel_pt_overflow` leaves `have_tma` as it was, and so does a PSBEND packet met by
`intel_pt_walk_psbend`, so a PSB packet by itself does not clear it. -/
theorem have_tma_cleared_spec :
    (∀ (env : intel_pt_env) (fuel : Nat) (no_tip : Bool) (d : intel_pt_decoder),
      d.packet.type = intel_pt_pkt_type.INTEL_PT_TRACESTOP →
      ∃ d1, intel_pt_walk_trace_packet env fuel no_tip d = some (walk_trace_step.brk no_tip d1) ∧
        d1.have_tma = false) ∧
    (∀ d : intel_pt_decoder, (d.data.headD {}).ret = 0 → (d.data.headD {}).buffer.buf ≠ [] →
      (d.data.headD {}).buffer.consecutive = false →
      (intel_pt_get_data d).1 = -ENOLINK ∧ (intel_pt_get_data d).2.have_tma = false ∧
        (intel_pt_get_data d).2.pkt_state = intel_pt_pkt_state.INTEL_PT_STATE_NO_PSB) ∧
    (∀ (d : intel_pt_decoder) (la : Option Nat),
      (intel_pt_calc_tsc_timestamp d la).have_tma = false) ∧
    (∀ (env : intel_pt_env) (d : intel_pt_decoder),
      (d.packet.type = intel_pt_pkt_type.INTEL_PT_TRACESTOP ∨
        d.packet.type = intel_pt_pkt_type.INTEL_PT_PSB) →
      (intel_pt_walk_psbend_packet env d).1 = some (-EAGAIN) ∧
        (intel_pt_walk_psbend_packet env d).2.have_tma = false) ∧
    (∀ d : intel_pt_decoder, (intel_pt_overflow d).1 = -EOVERFLOW ∧
      (intel_pt_overflow d).2.have_tma = d.have_tma) ∧
    (∀ (env : intel_pt_env) (d : intel_pt_decoder),
      d.packet.type = intel_pt_pkt_type.INTEL_PT_PSBEND →
      intel_pt_walk_psbend_packet env d = (some 0, d)) := by
  refine ⟨?_, ?_, ?_, ?_, ?_, ?_⟩
  · intro env fuel no_tip d h
    unfold intel_pt_walk_trace_packet
    rw [h]
    exact ⟨_, rfl, rfl⟩
  · intro d h1 h2 h3
    unfold intel_pt_get_data
    have hlen : ¬ (d.data.headD {}).buffer.buf.length = 0 := by
      intro h; exact h2 (List.length_eq_zero.mp h)
    simp only [h1, ne_eq, not_true_eq_false, if_false, hlen, h3, if_true]
    refine ⟨?_, ?_, ?_⟩ <;> trivial
  · intro d la
    exact calc_tsc_timestamp_have_tma d la
  · intro env d h
    unfold intel_pt_walk_psbend_packet
    rcases h with h | h <;> rw [h] <;> exact ⟨rfl, rfl⟩
  · intro d
    exact ⟨rfl, rfl⟩
  · intro env d h
    unfold intel_pt_walk_psbend_packet
    rw [h]

/-- C12, amended, at examples: a TRACESTOP packet handled by `intel_pt_walk_trace` and a
non-consecutive buffer of one byte both clear `have_tma`. -/
theorem have_tma_cleared_spec_witness :
    (∃ d1, intel_pt_walk_trace_packet {} 0 false
        { have_tma := true, packet := { type := intel_pt_pkt_type.INTEL_PT_TRACESTOP } } =
        some (walk_trace_step.brk false d1) ∧ d1.have_tma = false) ∧
    ((intel_pt_get_data example_gap_decoder).1 = -ENOLINK ∧
      (intel_pt_get_data example_gap_decoder).2.have_tma = false ∧
      (intel_pt_get_data example_gap_decoder).2.pkt_state =
        intel_pt_pkt_state.INTEL_PT_STATE_NO_PSB) :=
  ⟨have_tma_cleared_spec.1 {} 0 false
      { have_tma := true, packet := { type := intel_pt_pkt_type.INTEL_PT_TRACESTOP } } rfl,
    have_tma_cleared_spec.2.1 example_gap_decoder rfl (by decide) rfl⟩

/-! ### The multiplier shortcut of the TSC/CTC ratio -/

/-- When `d` divides `n`, with `n` and `d` 32-bit values, `multdiv t n d` is the 64-bit
product `t * (n / d)`. -/
theorem multdiv_of_dvd (t n d : Nat) (hn : n < 2 ^ 32) (hd0 : d ≠ 0) (hdvd : n % d = 0) :
    multdiv t n d = t * (n / d) % 2 ^ 64 := by
  unfold multdiv
  rw [if_neg hd0]
  have hdpos : 0 < d := Nat.pos_of_ne_zero hd0
  obtain ⟨m, hm⟩ : ∃ m, n = d * m := ⟨n / d, (Nat.mul_div_cancel' (Nat.dvd_of_mod_eq_zero hdvd)).symm⟩
  have hnd : n / d = m := by rw [hm, Nat.mul_div_cancel_left m hdpos]
  rw [hnd]
  have hlt : t % d * n < 2 ^ 64 := by
    have h1 : t % d < d := Nat.mod_lt t hdpos
    have h2 : d ≤ n ∨ n = 0 := by
      rcases Nat.eq_zero_or_pos m with h0 | h0
      · right; rw [hm, h0, Nat.mul_zero]
      · left; rw [hm]; exact Nat.le_mul_of_pos_right d h0
    rcases h2 with h2 | h2
    · calc t % d * n ≤ n * n := Nat.mul_le_mul_right n (le_of_lt (lt_of_lt_of_le h1 h2))
        _ < 2 ^ 32 * 2 ^ 32 := Nat.mul_lt_mul'' hn hn
        _ = 2 ^ 64 := by norm_num
    · rw [h2, Nat.mul_zero]; norm_num
  rw [Nat.mod_eq_of_lt hlt]
  have h3 : t % d * n / d = t % d * m := by
    rw [hm, ← Nat.mul_assoc, Nat.mul_comm (t % d) d, Nat.mul_assoc, Nat.mul_div_cancel_left _ hdpos]
  rw [h3, Nat.mod_add_mod]
  have h4 : t / d * n + t % d * m = t * m := by
    rw [hm]
    have := Nat.div_add_mod t d
    calc t / d * (d * m) + t % d * m = (d * (t / d) + t % d) * m := by ring
      _ = t * m := by rw [this]
  rw [h4]

/-- C35: when `tsc_ctc_mult` is nonzero in a decoder built by `intel_pt_decoder_new` from
32-bit ratio parameters, then `tsc_ctc_ratio_d` is nonzero and divides `tsc_ctc_ratio_n`,
`tsc_ctc_mult` is their quotient, and for every 64-bit `t` the shortcut
`t * tsc_ctc_mult` and `multdiv t tsc_ctc_ratio_n tsc_ctc_ratio_d` agree modulo `2 ^ 64`;
so the two ways in which `intel_pt_calc_mtc_timestamp` computes the timestamp from
`ctc_timestamp` and `ctc_delta` give the same value. -/
theorem mult_shortcut_spec (fuel : Nat) (to_double : Nat → Nat) (zalloc_ok : Bool)
    (params : intel_pt_params) (d0 : intel_pt_decoder)
    (hnew : intel_pt_decoder_new fuel to_double zalloc_ok params = some (some d0))
    (hn : params.tsc_ctc_ratio_n < 2 ^ 32)
    (hmult : d0.tsc_ctc_mult ≠ 0) :
    d0.tsc_ctc_ratio_d ≠ 0 ∧ d0.tsc_ctc_ratio_d ∣ d0.tsc_ctc_ratio_n ∧
    d0.tsc_ctc_mult = d0.tsc_ctc_ratio_n / d0.tsc_ctc_ratio_d ∧
    (∀ t : Nat, t < 2 ^ 64 →
      t * d0.tsc_ctc_mult % 2 ^ 64 = multdiv t d0.tsc_ctc_ratio_n d0.tsc_ctc_ratio_d) ∧
    (∀ ctc_timestamp ctc_delta : Nat,
      (ctc_timestamp + ctc_delta * d0.tsc_ctc_mult % 2 ^ 64) % 2 ^ 64 =
        (ctc_timestamp + multdiv ctc_delta d0.tsc_ctc_ratio_n d0.tsc_ctc_ratio_d) % 2 ^ 64) := by
  unfold intel_pt_decoder_new at hnew
  by_cases hcb : params.get_trace = false ∨ params.walk_insn = false
  · rw [if_pos hcb] at hnew
    exact absurd hnew (by simp)
  · rw [if_neg hcb] at hnew
    by_cases hz : zalloc_ok = false
    · rw [if_pos hz] at hnew
      exact absurd hnew (by simp)
    · rw [if_neg hz] at hnew
      split at hnew
      · exact absurd hnew (by simp)
      · rename_i d1 hs
        simp only [Option.some.injEq] at hnew
        subst hnew
        have h1 : d1.tsc_ctc_mult = 0 := by
          unfold intel_pt_setup_period at hs
          split_ifs at hs
          · split at hs
            · exact absurd hs (by simp)
            · simp only [Option.some.injEq] at hs
              subst hs
              rfl
          · simp only [Option.some.injEq] at hs
            subst hs
            rfl
        generalize hD : (if params.tsc_ctc_ratio_n = 0 then 0 else params.tsc_ctc_ratio_d) = D
        have hmd : (intel_pt_decoder_new_timing d1 params).tsc_ctc_mult =
            if D ≠ 0 then
              if params.tsc_ctc_ratio_n % D = 0 then params.tsc_ctc_ratio_n / D
              else d1.tsc_ctc_mult
            else d1.tsc_ctc_mult := by
          rw [← hD]; rfl
        have hrd : (intel_pt_decoder_new_timing d1 params).tsc_ctc_ratio_d = D := by
          rw [← hD]; rfl
        have hrn : (intel_pt_decoder_new_timing d1 params).tsc_ctc_ratio_n =
            params.tsc_ctc_ratio_n := rfl
        rw [hmd, h1] at hmult
        rw [hmd, hrd, hrn, h1]
        by_cases hD0 : D ≠ 0
        · rw [if_pos hD0] at hmult ⊢
          by_cases hdv : params.tsc_ctc_ratio_n % D = 0
          · rw [if_pos hdv] at hmult ⊢
            have hmd := fun t => multdiv_of_dvd t params.tsc_ctc_ratio_n D hn hD0 hdv
            refine ⟨hD0, Nat.dvd_of_mod_eq_zero hdv, rfl, fun t _ => (hmd t).symm, ?_⟩
            intro a b
            rw [hmd b]
          · rw [if_neg hdv] at hmult
            exact absurd rfl hmult
        · rw [if_neg hD0] at hmult
          exact absurd rfl hmult

/-- C35 at the decoder built from the ratio 6 / 2: the multiplier is 3 and both formulas
give `3 * t`. -/
theorem mult_shortcut_spec_witness :
    (intel_pt_decoder_new_timing zalloc_decoder
      { tsc_ctc_ratio_n := 6, tsc_ctc_ratio_d := 2 }).tsc_ctc_mult = 3 ∧
    ∀ t : Nat, t < 2 ^ 64 → t * 3 % 2 ^ 64 = multdiv t 6 2 :=
  ⟨rfl,
    (mult_shortcut_spec 0 (fun x => x) true { tsc_ctc_ratio_n := 6, tsc_ctc_ratio_d := 2 }
      (intel_pt_decoder_new_timing zalloc_decoder { tsc_ctc_ratio_n := 6, tsc_ctc_ratio_d := 2 })
      rfl (by decide) (by decide)).2.2.2.1⟩

/-! ### The IP of a packet -/

/-- Keeping the bits of `x` from bit `k` on and taking the low `k` bits from `p`. -/
theorem keep_high_or (x p k m : Nat) (hx : x < 2 ^ (k + m)) (hp : p < 2 ^ k) :
    (x &&& ((2 ^ m - 1) * 2 ^ k)) ||| p = x / 2 ^ k * 2 ^ k + p := by
  rw [and_high_mask x k m hx, Nat.or_comm, or_low_add _ _ _ hp]

/-- The two halves of a value put together from a high and a low part. -/
theorem high_low_parts (q p k : Nat) (hp : p < 2 ^ k) :
    (q * 2 ^ k + p) / 2 ^ k = q ∧ (q * 2 ^ k + p) % 2 ^ k = p := by
  have hpos : 0 < 2 ^ k := Nat.two_pow_pos k
  constructor
  · rw [Nat.mul_comm, Nat.mul_add_div hpos, Nat.div_eq_of_lt hp, Nat.add_zero]
  · rw [Nat.mul_comm, Nat.mul_add_mod, Nat.mod_eq_of_lt hp]

/-- The three cases of `intel_pt_calc_ip` that keep the upper bits of `last_ip`: the
result has the upper `64 - k` bits of `last_ip` and the payload as its low `k` bits, it
is a 64-bit value, and computing it again from the result gives the same. -/
theorem keep_high_spec (x p k m : Nat) (hkm : k + m = 64) (hx : x < 2 ^ 64) (hp : p < 2 ^ k) :
    ((x &&& ((2 ^ m - 1) * 2 ^ k)) ||| p) / 2 ^ k = x / 2 ^ k ∧
    ((x &&& ((2 ^ m - 1) * 2 ^ k)) ||| p) % 2 ^ k = p ∧
    ((x &&& ((2 ^ m - 1) * 2 ^ k)) ||| p) < 2 ^ 64 ∧
    ((((x &&& ((2 ^ m - 1) * 2 ^ k)) ||| p) &&& ((2 ^ m - 1) * 2 ^ k)) ||| p) =
      ((x &&& ((2 ^ m - 1) * 2 ^ k)) ||| p) := by
  have hx1 : x < 2 ^ (k + m) := by rw [hkm]; exact hx
  have h1 := keep_high_or x p k m hx1 hp
  have h2 := high_low_parts (x / 2 ^ k) p k hp
  have hlt : x / 2 ^ k * 2 ^ k + p < 2 ^ 64 := by
    have hq : x / 2 ^ k < 2 ^ m := by
      rw [Nat.div_lt_iff_lt_mul (Nat.two_pow_pos k), ← Nat.pow_add, Nat.add_comm, hkm]
      exact hx
    have hsplit : 2 ^ m * 2 ^ k = 2 ^ 64 := by rw [← Nat.pow_add, Nat.add_comm, hkm]
    have : (x / 2 ^ k + 1) * 2 ^ k ≤ 2 ^ m * 2 ^ k := Nat.mul_le_mul_right _ hq
    rw [Nat.add_mul, Nat.one_mul, hsplit] at this
    omega
  rw [h1]
  refine ⟨h2.1, h2.2, hlt, ?_⟩
  have hlt1 : x / 2 ^ k * 2 ^ k + p < 2 ^ (k + m) := by rw [hkm]; exact hlt
  rw [keep_high_or _ p k m hlt1 hp, h2.1]

/-- The sign extension of a 48-bit payload: the low 48 bits are the payload and the bits
48 to 63 all equal bit 47. -/
theorem sign_extend_spec (p : Nat) (hp : p < 2 ^ 48) :
    (if p &&& 0x800000000000 ≠ 0 then p ||| 0xffff000000000000 else p) % 2 ^ 48 = p ∧
    (∀ i, 48 ≤ i → i < 64 →
      (if p &&& 0x800000000000 ≠ 0 then p ||| 0xffff000000000000 else p).testBit i
        = p.testBit 47) ∧
    (if p &&& 0x800000000000 ≠ 0 then p ||| 0xffff000000000000 else p) < 2 ^ 64 := by
  have e47 : (0x800000000000 : Nat) = 2 ^ 47 := by norm_num
  have e48 : (0xffff000000000000 : Nat) = 0xffff * 2 ^ 48 := by norm_num
  have hbit : p &&& 0x800000000000 ≠ 0 ↔ p.testBit 47 = true := by
    rw [e47, Nat.and_two_pow]
    cases p.testBit 47 <;> simp
  have hhigh : ∀ i, 48 ≤ i → p.testBit i = false := fun i hi =>
    Nat.testBit_lt_two_pow (lt_of_lt_of_le hp (Nat.pow_le_pow_right (by norm_num) hi))
  by_cases hb : p &&& 0x800000000000 ≠ 0
  · rw [if_pos hb]
    have hor : p ||| 0xffff000000000000 = 0xffff * 2 ^ 48 + p := by
      rw [e48]
      exact or_low_add _ _ _ hp
    have hparts := high_low_parts 0xffff p 48 hp
    refine ⟨by rw [hor]; exact hparts.2, ?_, by rw [hor]; omega⟩
    intro i h1 h2
    rw [hbit.mp hb, Nat.testBit_or, hhigh i h1, Bool.false_or, e48, Nat.mul_comm,
      Nat.testBit_mul_pow_two]
    have e16 : (0xffff : Nat) = 2 ^ 16 - 1 := by norm_num
    rw [e16, Nat.testBit_two_pow_sub_one]
    simp only [ge_iff_le, h1, decide_True, Bool.true_and, decide_eq_true_eq]
    omega
  · rw [if_neg hb]
    have hf : p.testBit 47 = false := by
      cases h : p.testBit 47
      · rfl
      · exact absurd (hbit.mpr h) hb
    refine ⟨Nat.mod_eq_of_lt hp, ?_, by omega⟩
    intro i h1 _
    rw [hf, hhigh i h1]

/-- C39: `intel_pt_calc_ip` on a 64-bit `last_ip`: for count 1, 2 and 4 (payload below
`2 ^ 16`, `2 ^ 32`, `2 ^ 48`) the result keeps the upper 48, 32 and 16 bits of `last_ip`
and has the payload as its low bits; for count 3 (payload below `2 ^ 48`) it is the
payload sign-extended from bit 47, whatever `last_ip` is; for count 6 it is the payload;
for every other count it is 0; and in all these cases computing the IP again from the
result gives the result. -/
theorem calc_ip_spec (packet : intel_pt_pkt) (last_ip : Nat) (hlast : last_ip < 2 ^ 64) :
    (packet.count = 1 → packet.payload < 2 ^ 16 →
      intel_pt_calc_ip packet last_ip / 2 ^ 16 = last_ip / 2 ^ 16 ∧
      intel_pt_calc_ip packet last_ip % 2 ^ 16 = packet.payload) ∧
    (packet.count = 2 → packet.payload < 2 ^ 32 →
      intel_pt_calc_ip packet last_ip / 2 ^ 32 = last_ip / 2 ^ 32 ∧
      intel_pt_calc_ip packet last_ip % 2 ^ 32 = packet.payload) ∧
    (packet.count = 4 → packet.payload < 2 ^ 48 →
      intel_pt_calc_ip packet last_ip / 2 ^ 48 = last_ip / 2 ^ 48 ∧
      intel_pt_calc_ip packet last_ip % 2 ^ 48 = packet.payload) ∧
    (packet.count = 3 → packet.payload < 2 ^ 48 →
      intel_pt_calc_ip packet last_ip % 2 ^ 48 = packet.payload ∧
      (∀ i, 48 ≤ i → i < 64 →
        (intel_pt_calc_ip packet last_ip).testBit i = packet.payload.testBit 47) ∧
      ∀ other_ip : Nat, intel_pt_calc_ip packet other_ip = intel_pt_calc_ip packet last_ip) ∧
    (packet.count = 6 → intel_pt_calc_ip packet last_ip = packet.payload) ∧
    (packet.count ≠ 1 → packet.count ≠ 2 → packet.count ≠ 3 → packet.count ≠ 4 →
      packet.count ≠ 6 → intel_pt_calc_ip packet last_ip = 0) ∧
    ((packet.count = 1 → packet.payload < 2 ^ 16) →
      (packet.count = 2 → packet.payload < 2 ^ 32) →
      (packet.count = 4 → packet.payload < 2 ^ 48) →
      intel_pt_calc_ip packet (intel_pt_calc_ip packet last_ip) =
        intel_pt_calc_ip packet last_ip) := by
  have m16 : (0xffffffffffff0000 : Nat) = (2 ^ 48 - 1) * 2 ^ 16 := by norm_num
  have m32 : (0xffffffff00000000 : Nat) = (2 ^ 32 - 1) * 2 ^ 32 := by norm_num
  have m48 : (0xffff000000000000 : Nat) = (2 ^ 16 - 1) * 2 ^ 48 := by norm_num
  have c1 : ∀ x, packet.count = 1 →
      intel_pt_calc_ip packet x = (x &&& ((2 ^ 48 - 1) * 2 ^ 16)) ||| packet.payload := by
    intro x h
    unfold intel_pt_calc_ip
    rw [if_pos h, m16]
  have c2 : ∀ x, packet.count = 2 →
      intel_pt_calc_ip packet x = (x &&& ((2 ^ 32 - 1) * 2 ^ 32)) ||| packet.payload := by
    intro x h
    unfold intel_pt_calc_ip
    rw [if_neg (by rw [h]; decide), if_pos h, m32]
  have c4 : ∀ x, packet.count = 4 →
      intel_pt_calc_ip packet x = (x &&& ((2 ^ 16 - 1) * 2 ^ 48)) ||| packet.payload := by
    intro x h
    unfold intel_pt_calc_ip
    rw [if_neg (by rw [h]; decide), if_neg (by rw [h]; decide), if_neg (by rw [h]; decide),
      if_pos h, m48]
  have c3 : ∀ x, packet.count = 3 →
      intel_pt_calc_ip packet x =
        if packet.payload &&& 0x800000000000 ≠ 0 then packet.payload ||| 0xffff000000000000
        else packet.payload := by
    intro x h
    unfold intel_pt_calc_ip
    rw [if_neg (by rw [h]; decide), if_neg (by rw [h]; decide), if_pos h]
  have c6 : ∀ x, packet.count = 6 → intel_pt_calc_ip packet x = packet.payload := by
    intro x h
    unfold intel_pt_calc_ip
    rw [if_neg (by rw [h]; decide), if_neg (by rw [h]; decide), if_neg (by rw [h]; decide),
      if_neg (by rw [h]; decide), if_pos h]
  have c0 : ∀ x, packet.count ≠ 1 → packet.count ≠ 2 → packet.count ≠ 3 → packet.count ≠ 4 →
      packet.count ≠ 6 → intel_pt_calc_ip packet x = 0 := by
    intro x h1 h2 h3 h4 h6
    unfold intel_pt_calc_ip
    rw [if_neg h1, if_neg h2, if_neg h3, if_neg h4, if_neg h6]
  refine ⟨?_, ?_, ?_, ?_, ?_, ?_, ?_⟩
  · intro h hp
    rw [c1 _ h]
    have := keep_high_spec last_ip packet.payload 16 48 rfl hlast hp
    exact ⟨this.1, this.2.1⟩
  · intro h hp
    rw [c2 _ h]
    have := keep_high_spec last_ip packet.payload 32 32 rfl hlast hp
    exact ⟨this.1, this.2.1⟩
  · intro h hp
    rw [c4 _ h]
    have := keep_high_spec last_ip packet.payload 48 16 rfl hlast hp
    exact ⟨this.1, this.2.1⟩
  · intro h hp
    have := sign_extend_spec packet.payload hp
    refine ⟨?_, ?_, ?_⟩
    · rw [c3 _ h]; exact this.1
    · rw [c3 _ h]; exact this.2.1
    · intro y
      rw [c3 _ h, c3 _ h]
  · intro h
    exact c6 _ h
  · intro h1 h2 h3 h4 h6
    exact c0 _ h1 h2 h3 h4 h6
  · intro r1 r2 r4
    by_cases h1 : packet.count = 1
    · rw [c1 _ h1, c1 _ h1]
      exact (keep_high_spec last_ip packet.payload 16 48 rfl hlast (r1 h1)).2.2.2
    · by_cases h2 : packet.count = 2
      · rw [c2 _ h2, c2 _ h2]
        exact (keep_high_spec last_ip packet.payload 32 32 rfl hlast (r2 h2)).2.2.2
      · by_cases h3 : packet.count = 3
        · rw [c3 _ h3, c3 _ h3]
        · by_cases h4 : packet.count = 4
          · rw [c4 _ h4, c4 _ h4]
            exact (keep_high_spec last_ip packet.payload 48 16 rfl hlast (r4 h4)).2.2.2
          · by_cases h6 : packet.count = 6
            · rw [c6 _ h6, c6 _ h6]
            · rw [c0 _ h1 h2 h3 h4 h6, c0 _ h1 h2 h3 h4 h6]

/-- C39 at examples: a 2-byte payload `0x1234` after `last_ip = 0xffffffff81005678` gives
`0xffffffff81001234`, and the 6-byte payload `0x800000001000` is sign-extended. -/
theorem calc_ip_spec_witness :
    intel_pt_calc_ip { count := 1, payload := 0x1234 } 0xffffffff81005678
      = 0xffffffff81001234 ∧
    intel_pt_calc_ip { count := 3, payload := 0x800000001000 } 0 = 0xffff800000001000 ∧
    (intel_pt_calc_ip { count := 1, payload := 0x1234 } 0xffffffff81005678 / 2 ^ 16
        = 0xffffffff81005678 / 2 ^ 16 ∧
      intel_pt_calc_ip { count := 1, payload := 0x1234 } 0xffffffff81005678 % 2 ^ 16
        = 0x1234) :=
  ⟨by decide, by decide,
    (calc_ip_spec { count := 1, payload := 0x1234 } 0xffffffff81005678 (by decide)).1 rfl
      (by decide)⟩

/-! ### The sampling period in ticks -/

/-- The mask `~(2 ^ k - 1)` of 64 bits, as `intel_pt_setup_period` computes it. -/
theorem period_mask_eq (k : Nat) (hk : k < 64) :
    2 ^ 64 - 1 - (2 ^ k + 2 ^ 64 - 1) % 2 ^ 64 = (2 ^ (64 - k) - 1) * 2 ^ k := by
  have hp1 : 1 ≤ 2 ^ k := Nat.one_le_two_pow
  have hp2 : 2 ^ k < 2 ^ 64 := Nat.pow_lt_pow_right (by norm_num) hk
  have hsplit : 2 ^ (64 - k) * 2 ^ k = 2 ^ 64 := by
    rw [← Nat.pow_add]
    congr 1
    omega
  have hmod : (2 ^ k + 2 ^ 64 - 1) % 2 ^ 64 = 2 ^ k - 1 := by
    have e : 2 ^ k + 2 ^ 64 - 1 = (2 ^ k - 1) + 2 ^ 64 := by omega
    rw [e, Nat.add_mod_right, Nat.mod_eq_of_lt (by omega)]
  rw [hmod, Nat.sub_mul, hsplit, Nat.one_mul]
  omega

/-- What `intel_pt_next_period` subtracts from `period_ticks`: the timestamp modulo the
period. -/
theorem sub_and_period_mask (t k : Nat) (hk : k < 64) (ht : t < 2 ^ 64) :
    t - (t &&& (2 ^ 64 - 1 - (2 ^ k + 2 ^ 64 - 1) % 2 ^ 64)) = t % 2 ^ k := by
  rw [period_mask_eq k hk, and_high_mask t k (64 - k) (by rw [show k + (64 - k) = 64 by omega]; exact ht)]
  have := Nat.div_add_mod t (2 ^ k)
  have hm : t / 2 ^ k * 2 ^ k = 2 ^ k * (t / 2 ^ k) := Nat.mul_comm _ _
  omega

/-- The value `period_ticks - (timestamp - masked_timestamp)` lies in `[1, period_ticks]`. -/
theorem period_rest_range (t k : Nat) (hk : k < 64) (ht : t < 2 ^ 64) :
    1 ≤ (2 ^ k + 2 ^ 64 - (t - (t &&& (2 ^ 64 - 1 - (2 ^ k + 2 ^ 64 - 1) % 2 ^ 64)))) % 2 ^ 64 ∧
    (2 ^ k + 2 ^ 64 - (t - (t &&& (2 ^ 64 - 1 - (2 ^ k + 2 ^ 64 - 1) % 2 ^ 64)))) % 2 ^ 64
      ≤ 2 ^ k := by
  rw [sub_and_period_mask t k hk ht]
  have hlt : t % 2 ^ k < 2 ^ k := Nat.mod_lt t (Nat.two_pow_pos k)
  have hp2 : 2 ^ k < 2 ^ 64 := Nat.pow_lt_pow_right (by norm_num) hk
  have e : 2 ^ k + 2 ^ 64 - t % 2 ^ k = (2 ^ k - t % 2 ^ k) + 2 ^ 64 := by omega
  rw [e, Nat.add_mod_right, Nat.mod_eq_of_lt (by omega)]
  omega

/-- C40: with `period_ticks` a power of two (as a 64-bit value) and
`period_mask = ~(period_ticks - 1)`, `intel_pt_next_period` returns a value in
`[1, period_ticks]` whatever `timestamp`, `timestamp_insn_cnt`, `last_masked_timestamp`
and `continuous_period` are, so in TICKS mode `intel_pt_next_sample`, the budget handed to
the walker, is never 0. -/
theorem next_period_range (d : intel_pt_decoder) (k : Nat) (hk : k < 64)
    (hticks : d.period_ticks = 2 ^ k)
    (hmask : d.period_mask = 2 ^ 64 - 1 - (d.period_ticks + 2 ^ 64 - 1) % 2 ^ 64) :
    1 ≤ (intel_pt_next_period d).1 ∧ (intel_pt_next_period d).1 ≤ d.period_ticks ∧
    (d.period_type = intel_pt_period_type.INTEL_PT_PERIOD_TICKS →
      (intel_pt_next_sample d).1 ≠ 0) := by
  have hrange : 1 ≤ (intel_pt_next_period d).1 ∧ (intel_pt_next_period d).1 ≤ d.period_ticks := by
    rw [hticks] at hmask
    have h1 := period_rest_range ((d.timestamp + d.timestamp_insn_cnt) % 2 ^ 64) k hk
      (Nat.mod_lt _ (by norm_num))
    have h2 := period_rest_range (((d.timestamp + d.timestamp_insn_cnt) % 2 ^ 64 + 1) % 2 ^ 64) k hk
      (Nat.mod_lt _ (by norm_num))
    unfold intel_pt_next_period
    simp only [hticks, hmask]
    split_ifs
    · exact ⟨le_refl 1, Nat.one_le_two_pow⟩
    · exact h1
    · exact h2
    · rw [hticks]
      exact h2
  refine ⟨hrange.1, hrange.2, fun ht => ?_⟩
  unfold intel_pt_next_sample
  rw [ht]
  exact Nat.ne_of_gt hrange.1

/-- C40 at a decoder with a period of 8 ticks at timestamp 13: three ticks remain. -/
theorem next_period_range_witness :
    (intel_pt_next_period
      { period_ticks := 8, period_mask := 2 ^ 64 - 8, timestamp := 13,
        continuous_period := true, last_masked_timestamp := 8 }).1 = 3 ∧
    1 ≤ (intel_pt_next_period
      { period_ticks := 8, period_mask := 2 ^ 64 - 8, timestamp := 13,
        continuous_period := true, last_masked_timestamp := 8 }).1 ∧
    (intel_pt_next_period
      { period_ticks := 8, period_mask := 2 ^ 64 - 8, timestamp := 13,
        continuous_period := true, last_masked_timestamp := 8 }).1 ≤ 8 :=
  ⟨by decide,
    (next_period_range
      { period_ticks := 8, period_mask := 2 ^ 64 - 8, timestamp := 13,
        continuous_period := true, last_masked_timestamp := 8 } 3 (by decide) rfl rfl).1,
    (next_period_range
      { period_ticks := 8, period_mask := 2 ^ 64 - 8, timestamp := 13,
        continuous_period := true, last_masked_timestamp := 8 } 3 (by decide) rfl rfl).2.1⟩


/-! ### Overlap of two trace buffers: buffers without a PSB -/

/-- What `memmem` finds is an occurrence of the needle, it lies within the bytes, and
there is no occurrence before it. -/
theorem memmem_some (needle : List Nat) :
    ∀ (hay : List Nat) (i : Nat), memmem needle hay = some i →
      needle <+: hay.drop i ∧ i + needle.length ≤ hay.length ∧
      ∀ j, j < i → ¬ needle <+: hay.drop j := by
  intro hay
  induction hay with
  | nil =>
    intro i h
    rw [memmem] at h
    split_ifs at h with he
    simp only [Option.some.injEq] at h
    subst h
    have hn : needle = [] := List.isEmpty_iff.mp he
    subst hn
    exact ⟨List.prefix_refl _, le_refl _, fun j hj => absurd hj (Nat.not_lt_zero j)⟩
  | cons x rest ih =>
    intro i h
    rw [memmem] at h
    by_cases hp : needle.isPrefixOf (x :: rest) = true
    · rw [if_pos hp] at h
      simp only [Option.some.injEq] at h
      subst h
      have hpre : needle <+: x :: rest := List.isPrefixOf_iff_prefix.mp hp
      exact ⟨hpre, by simpa using hpre.length_le, fun j hj => absurd hj (Nat.not_lt_zero j)⟩
    · rw [if_neg hp] at h
      cases hm : memmem needle rest with
      | none =>
        rw [hm] at h
        exact absurd h (by simp)
      | some k =>
        rw [hm] at h
        simp only [Option.some.injEq] at h
        subst h
        obtain ⟨h1, h2, h3⟩ := ih k hm
        refine ⟨by simpa using h1, by simp only [List.length_cons]; omega, ?_⟩
        intro j hj
        cases j with
        | zero =>
          intro hpre
          exact hp (List.isPrefixOf_iff_prefix.mpr (by simpa using hpre))
        | succ j =>
          have := h3 j (by omega)
          simpa using this

/-- When `memmem` finds nothing, the needle occurs nowhere. -/
theorem memmem_none (needle : List Nat) :
    ∀ (hay : List Nat), memmem needle hay = none → ∀ j, ¬ needle <+: hay.drop j := by
  intro hay
  induction hay with
  | nil =>
    intro h j hpre
    rw [memmem] at h
    split_ifs at h with he
    have hn : needle = [] := by
      have : needle <+: [] := by simpa using hpre
      exact List.prefix_nil.mp this
    exact he (List.isEmpty_iff.mpr hn)
  | cons x rest ih =>
    intro h j
    rw [memmem] at h
    by_cases hp : needle.isPrefixOf (x :: rest) = true
    · rw [if_pos hp] at h
      exact absurd h (by simp)
    · rw [if_neg hp] at h
      cases hm : memmem needle rest with
      | none =>
        cases j with
        | zero =>
          intro hpre
          exact hp (List.isPrefixOf_iff_prefix.mpr (by simpa using hpre))
        | succ j =>
          have := ih hm j
          simpa using this
      | some k =>
        rw [hm] at h
        exact absurd h (by simp)

/-- The function `memmem` finds nothing exactly when the needle occurs nowhere. -/
theorem memmem_eq_none_iff (needle hay : List Nat) :
    memmem needle hay = none ↔ ∀ j, ¬ needle <+: hay.drop j := by
  constructor
  · exact memmem_none needle hay
  · intro h
    cases hm : memmem needle hay with
    | none => rfl
    | some i => exact absurd (memmem_some needle hay i hm).1 (h i)

/-- The function `memmem` finds the first occurrence of the needle. -/
theorem memmem_eq_some_iff (needle hay : List Nat) (i : Nat) :
    memmem needle hay = some i ↔
      needle <+: hay.drop i ∧ ∀ j, j < i → ¬ needle <+: hay.drop j := by
  constructor
  · intro h
    exact ⟨(memmem_some needle hay i h).1, (memmem_some needle hay i h).2.2⟩
  · intro ⟨h1, h2⟩
    cases hm : memmem needle hay with
    | none => exact absurd h1 (memmem_none needle hay hm i)
    | some k =>
      obtain ⟨h3, _, h4⟩ := memmem_some needle hay k hm
      rcases Nat.lt_trichotomy k i with hlt | heq | hgt
      · exact absurd h3 (h2 k hlt)
      · rw [heq]
      · exact absurd h1 (h4 i hgt)

/-- C32: `intel_pt_find_overlap` on a buffer B without a PSB returns the end of B,
`buf_b + len_b`, for every buffer A; on a buffer B whose first PSB is at offset `ib` and a
buffer A without a PSB it returns the address `buf_b + ib` of that first PSB; in both
cases `*consecutive` is as before, and no loop is entered, so any bound `fuel` does. -/
theorem find_overlap_no_psb (env : intel_pt_env) (fuel : Nat) (a : List Nat) (buf_b : Nat)
    (b : List Nat) (have_tsc consecutive : Bool) :
    ((∀ j, ¬ env.INTEL_PT_PSB_STR <+: b.drop j) →
      intel_pt_find_overlap env fuel a buf_b b have_tsc consecutive =
        some (buf_b + b.length, consecutive)) ∧
    (∀ ib : Nat, env.INTEL_PT_PSB_STR <+: b.drop ib →
      (∀ j, j < ib → ¬ env.INTEL_PT_PSB_STR <+: b.drop j) →
      (∀ j, ¬ env.INTEL_PT_PSB_STR <+: a.drop j) →
      intel_pt_find_overlap env fuel a buf_b b have_tsc consecutive =
        some (buf_b + ib, consecutive)) := by
  constructor
  · intro hb
    have h1 : intel_pt_next_psb env b = none := (memmem_eq_none_iff _ _).mpr hb
    unfold intel_pt_find_overlap
    rw [h1]
  · intro ib hb1 hb2 ha
    have h1 : intel_pt_next_psb env b = some ib := (memmem_eq_some_iff _ _ _).mpr ⟨hb1, hb2⟩
    have h2 : intel_pt_next_psb env a = none := (memmem_eq_none_iff _ _).mpr ha
    unfold intel_pt_find_overlap
    rw [h1, h2]

/-- C32 at examples: a buffer B of three PAD bytes gives the end of B, and a buffer B with
two PAD bytes before its PSB, against a buffer A of PAD bytes, gives the address of that
PSB. -/
theorem find_overlap_no_psb_witness :
    intel_pt_find_overlap example_overlap_env 0 example_buf_a 1000 [0, 0, 0] true false
      = some (1003, false) ∧
    intel_pt_find_overlap example_overlap_env 0 [0, 0, 0, 0] 1000 ([0, 0] ++ psb_bytes) true false
      = some (1002, false) :=
  ⟨(find_overlap_no_psb example_overlap_env 0 example_buf_a 1000 [0, 0, 0] true false).1
      ((memmem_eq_none_iff _ _).mp (by decide)),
    (find_overlap_no_psb example_overlap_env 0 [0, 0, 0, 0] 1000 ([0, 0] ++ psb_bytes) true
      false).2 2 (by decide)
      (((memmem_eq_some_iff psb_bytes ([0, 0] ++ psb_bytes) 2).mp (by decide)).2)
      ((memmem_eq_none_iff _ _).mp (by decide))⟩

/-! ### Overlap of two trace buffers: the pointer stays inside buffer B -/

/-- The function `intel_pt_step_psb` advances by at least one byte and stays within the
bytes. -/
theorem step_psb_some (env : intel_pt_env) (buf : List Nat) (i : Nat)
    (h : intel_pt_step_psb env buf = some i) : 1 ≤ i ∧ i ≤ buf.length := by
  unfold intel_pt_step_psb at h
  by_cases h0 : buf.length = 0
  · rw [if_pos h0] at h
    exact absurd h (by simp)
  · rw [if_neg h0] at h
    cases hm : memmem env.INTEL_PT_PSB_STR (buf.drop 1) with
    | none =>
      rw [hm] at h
      exact absurd h (by simp)
    | some k =>
      rw [hm] at h
      simp only [Option.some.injEq] at h
      subst h
      have := (memmem_some _ _ _ hm).2.1
      rw [List.length_drop] at this
      omega

/-- The function `intel_pt_next_psb` stays within the bytes. -/
theorem next_psb_some (env : intel_pt_env) (buf : List Nat) (i : Nat)
    (h : intel_pt_next_psb env buf = some i) : i ≤ buf.length := by
  have := (memmem_some _ _ _ h).2.1
  omega

/-- The remaining size that `intel_pt_next_tsc` reports is positive and at most the size it
was given. -/
theorem next_tsc_rem (env : intel_pt_env) :
    ∀ (fuel : Nat) (buf : List Nat) (tsc rem : Nat),
      intel_pt_next_tsc env fuel buf = some (some (tsc, rem)) → 1 ≤ rem ∧ rem ≤ buf.length := by
  intro fuel
  induction fuel with
  | zero =>
    intro buf tsc rem h
    rw [intel_pt_next_tsc] at h
    exact absurd h (by simp)
  | succ fuel ih =>
    intro buf tsc rem h
    rw [intel_pt_next_tsc] at h
    by_cases h0 : buf.length = 0
    · rw [if_pos h0] at h
      exact absurd h (by simp)
    · rw [if_neg h0] at h
      by_cases h1 : (env.get_packet buf).1 ≤ 0
      · rw [if_pos h1] at h
        exact absurd h (by simp)
      · rw [if_neg h1] at h
        by_cases h2 : (env.get_packet buf).2.type = intel_pt_pkt_type.INTEL_PT_TSC
        · rw [if_pos h2] at h
          simp only [Option.some.injEq, Prod.mk.injEq] at h
          omega
        · rw [if_neg h2] at h
          by_cases h3 : (env.get_packet buf).2.type = intel_pt_pkt_type.INTEL_PT_PSBEND
          · rw [if_pos h3] at h
            exact absurd h (by simp)
          · rw [if_neg h3] at h
            by_cases h4 : (env.get_packet buf).1.toNat > buf.length
            · rw [if_pos h4] at h
              exact absurd h (by simp)
            · rw [if_neg h4] at h
              have := ih _ _ _ h
              rw [List.length_drop] at this
              omega

/-- With a unit decoder that never reports more bytes than it was given,
`intel_pt_next_tsc` returns when the bound is above the size. -/
theorem next_tsc_total (env : intel_pt_env)
    (hgp : ∀ s : List Nat, (env.get_packet s).1 ≤ (s.length : Int)) :
    ∀ (fuel : Nat) (buf : List Nat), buf.length < fuel →
      ∃ r, intel_pt_next_tsc env fuel buf = some r := by
  intro fuel
  induction fuel with
  | zero =>
    intro buf h
    exact absurd h (Nat.not_lt_zero _)
  | succ fuel ih =>
    intro buf h
    rw [intel_pt_next_tsc]
    split_ifs with h0 h1 h2 h3 h4
    · exact ⟨_, rfl⟩
    · exact ⟨_, rfl⟩
    · exact ⟨_, rfl⟩
    · exact ⟨_, rfl⟩
    · have := hgp buf
      omega
    · apply ih
      rw [List.length_drop]
      omega

/-- What `memrchr` finds lies among the first `n` bytes. -/
theorem memrchr_lt (s : List Nat) (c : Nat) :
    ∀ (n p : Nat), memrchr s c n = some p → p < n := by
  intro n
  induction n with
  | zero =>
    intro p h
    rw [memrchr] at h
    exact absurd h (by simp)
  | succ n ih =>
    intro p h
    rw [memrchr] at h
    split_ifs at h
    · simp only [Option.some.injEq] at h
      omega
    · have := ih p h
      omega

/-- The loop of `intel_pt_last_psb` ends when the bound is above the number of bytes it
searches. -/
theorem last_psb_loop_total (env : intel_pt_env) (buf : List Nat) :
    ∀ (fuel k : Nat), k < fuel → ∃ r, intel_pt_last_psb_loop env buf fuel k = some r := by
  intro fuel
  induction fuel with
  | zero =>
    intro k h
    exact absurd h (Nat.not_lt_zero _)
  | succ fuel ih =>
    intro k h
    rw [intel_pt_last_psb_loop]
    cases hm : memrchr buf (env.INTEL_PT_PSB_STR.headD 0) k with
    | none => exact ⟨_, rfl⟩
    | some p =>
      simp only []
      have hp := memrchr_lt _ _ _ _ hm
      split_ifs
      · exact ⟨_, rfl⟩
      · exact ⟨_, rfl⟩
      · exact ih p (by omega)

/-- The function `intel_pt_last_psb` returns when the bound is above the size plus one. -/
theorem last_psb_total (env : intel_pt_env) (buf : List Nat) (fuel : Nat)
    (h : buf.length + 1 < fuel) : ∃ r, intel_pt_last_psb env fuel buf = some r := by
  unfold intel_pt_last_psb
  split_ifs
  · exact ⟨_, rfl⟩
  · exact last_psb_loop_total env buf fuel _ (by omega)

/-- The pointer that the loop of `intel_pt_find_overlap_tsc` returns lies in buffer B or
at its end, and `*consecutive` is kept or set. -/
theorem find_overlap_tsc_loop_range (env : intel_pt_env) (tsc_a rem_a : Nat) :
    ∀ (fuel buf_b : Nat) (b : List Nat) (consecutive : Bool) (r : Nat × Bool),
      intel_pt_find_overlap_tsc_loop env tsc_a rem_a fuel buf_b b consecutive = some r →
      buf_b ≤ r.1 ∧ r.1 ≤ buf_b + b.length ∧ (r.2 = consecutive ∨ r.2 = true) := by
  intro fuel
  induction fuel with
  | zero =>
    intro buf_b b consecutive r h
    rw [intel_pt_find_overlap_tsc_loop] at h
    exact absurd h (by simp)
  | succ fuel ih =>
    intro buf_b b consecutive r h
    rw [intel_pt_find_overlap_tsc_loop] at h
    cases ht : intel_pt_next_tsc env fuel b with
    | none =>
      rw [ht] at h
      exact absurd h (by simp)
    | some t =>
      rw [ht] at h
      simp only [] at h
      have hstep : (match intel_pt_step_psb env b with
          | none => some (buf_b + b.length, consecutive)
          | some i => intel_pt_find_overlap_tsc_loop env tsc_a rem_a fuel (buf_b + i) (b.drop i)
              consecutive) = some r →
          buf_b ≤ r.1 ∧ r.1 ≤ buf_b + b.length ∧ (r.2 = consecutive ∨ r.2 = true) := by
        intro hs
        cases hi : intel_pt_step_psb env b with
        | none =>
          rw [hi] at hs
          simp only [Option.some.injEq] at hs
          subst hs
          exact ⟨Nat.le_add_right _ _, le_refl _, Or.inl rfl⟩
        | some i =>
          rw [hi] at hs
          have hb := step_psb_some env b i hi
          have := ih _ _ _ _ hs
          rw [List.length_drop] at this
          exact ⟨by omega, by omega, this.2.2⟩
      cases t with
      | none => exact hstep h
      | some tr =>
        obtain ⟨tsc_b, rem_b⟩ := tr
        have hrem := next_tsc_rem env fuel b tsc_b rem_b ht
        simp only [] at h
        by_cases hc : intel_pt_tsc_cmp tsc_a tsc_b = 0 ∧ rem_b ≥ rem_a
        · rw [if_pos hc] at h
          simp only [Option.some.injEq] at h
          subst h
          exact ⟨by simp only []; omega, by simp only []; omega, Or.inr rfl⟩
        · rw [if_neg hc] at h
          by_cases hl : intel_pt_tsc_cmp tsc_a tsc_b < 0
          · rw [if_pos hl] at h
            simp only [Option.some.injEq] at h
            subst h
            exact ⟨le_refl _, Nat.le_add_right _ _, Or.inl rfl⟩
          · rw [if_neg hl] at h
            exact hstep h

/-- The loop of `intel_pt_find_overlap_tsc` ends when the bound is above the size of
buffer B plus one. -/
theorem find_overlap_tsc_loop_total (env : intel_pt_env)
    (hgp : ∀ s : List Nat, (env.get_packet s).1 ≤ (s.length : Int)) (tsc_a rem_a : Nat) :
    ∀ (fuel buf_b : Nat) (b : List Nat) (consecutive : Bool), b.length + 1 < fuel →
      ∃ r, intel_pt_find_overlap_tsc_loop env tsc_a rem_a fuel buf_b b consecutive = some r := by
  intro fuel
  induction fuel with
  | zero =>
    intro buf_b b consecutive h
    exact absurd h (Nat.not_lt_zero _)
  | succ fuel ih =>
    intro buf_b b consecutive h
    rw [intel_pt_find_overlap_tsc_loop]
    obtain ⟨t, ht⟩ := next_tsc_total env hgp fuel b (by omega)
    rw [ht]
    simp only []
    have hstep : ∃ r, (match intel_pt_step_psb env b with
          | none => some (buf_b + b.length, consecutive)
          | some i => intel_pt_find_overlap_tsc_loop env tsc_a rem_a fuel (buf_b + i) (b.drop i)
              consecutive) = some r := by
      cases hi : intel_pt_step_psb env b with
      | none => exact ⟨_, rfl⟩
      | some i =>
        have hb := step_psb_some env b i hi
        simp only []
        apply ih
        rw [List.length_drop]
        omega
    cases t with
    | none => exact hstep
    | some tr =>
      obtain ⟨tsc_b, rem_b⟩ := tr
      simp only []
      by_cases hc : intel_pt_tsc_cmp tsc_a tsc_b = 0 ∧ rem_b ≥ rem_a
      · rw [if_pos hc]
        exact ⟨_, rfl⟩
      · rw [if_neg hc]
        by_cases hl : intel_pt_tsc_cmp tsc_a tsc_b < 0
        · rw [if_pos hl]
          exact ⟨_, rfl⟩
        · rw [if_neg hl]
          exact hstep

/-- The pointer that `intel_pt_find_overlap_tsc` returns lies in buffer B or at its end,
and `*consecutive` is kept or set. -/
theorem find_overlap_tsc_range (env : intel_pt_env) (fuel : Nat) (a : List Nat) (buf_b : Nat)
    (b : List Nat) (consecutive : Bool) (r : Nat × Bool)
    (h : intel_pt_find_overlap_tsc env fuel a buf_b b consecutive = some r) :
    buf_b ≤ r.1 ∧ r.1 ≤ buf_b + b.length ∧ (r.2 = consecutive ∨ r.2 = true) := by
  have hsame : some (buf_b, consecutive) = some r →
      buf_b ≤ r.1 ∧ r.1 ≤ buf_b + b.length ∧ (r.2 = consecutive ∨ r.2 = true) := by
    intro hs
    simp only [Option.some.injEq] at hs
    subst hs
    exact ⟨le_refl _, Nat.le_add_right _ _, Or.inl rfl⟩
  unfold intel_pt_find_overlap_tsc at h
  split at h
  · exact absurd h (by simp)
  · exact hsame h
  · split at h
    · exact absurd h (by simp)
    · exact find_overlap_tsc_loop_range env _ _ fuel buf_b b consecutive r h
    · split at h
      · exact absurd h (by simp)
      · exact hsame h
      · split at h
        · exact absurd h (by simp)
        · exact hsame h
        · exact find_overlap_tsc_loop_range env _ _ fuel buf_b b consecutive r h

/-- The function `intel_pt_find_overlap_tsc` returns when the bound is above the sizes of
both buffers plus one. -/
theorem find_overlap_tsc_total (env : intel_pt_env)
    (hgp : ∀ s : List Nat, (env.get_packet s).1 ≤ (s.length : Int))
    (fuel : Nat) (a : List Nat) (buf_b : Nat) (b : List Nat) (consecutive : Bool)
    (ha : a.length + 1 < fuel) (hb : b.length + 1 < fuel) :
    ∃ r, intel_pt_find_overlap_tsc env fuel a buf_b b consecutive = some r := by
  unfold intel_pt_find_overlap_tsc
  obtain ⟨l1, hl1⟩ := last_psb_total env a fuel ha
  rw [hl1]
  cases l1 with
  | none => exact ⟨_, rfl⟩
  | some p =>
    simp only []
    obtain ⟨t1, ht1⟩ := next_tsc_total env hgp fuel (a.drop p)
      (by rw [List.length_drop]; omega)
    rw [ht1]
    cases t1 with
    | some tr =>
      obtain ⟨tsc_a, rem_a⟩ := tr
      exact find_overlap_tsc_loop_total env hgp tsc_a rem_a fuel buf_b b consecutive hb
    | none =>
      simp only []
      obtain ⟨l2, hl2⟩ := last_psb_total env (a.take p) fuel
        (by rw [List.length_take]; omega)
      rw [hl2]
      cases l2 with
      | none => exact ⟨_, rfl⟩
      | some p1 =>
        simp only []
        obtain ⟨t2, ht2⟩ := next_tsc_total env hgp fuel ((a.take p).drop p1)
          (by rw [List.length_drop, List.length_take]; omega)
        rw [ht2]
        cases t2 with
        | none => exact ⟨_, rfl⟩
        | some tr =>
          obtain ⟨tsc_a, rem_a⟩ := tr
          exact find_overlap_tsc_loop_total env hgp tsc_a rem_a fuel buf_b b consecutive hb

/-- The first loop of `intel_pt_find_overlap` leaves a part of buffer A that is not longer
than buffer B. -/
theorem find_overlap_skip_some (env : intel_pt_env) (len_b : Nat) :
    ∀ (fuel : Nat) (a a1 : List Nat),
      intel_pt_find_overlap_skip env len_b fuel a = some (some a1) → a1.length ≤ len_b := by
  intro fuel
  induction fuel with
  | zero =>
    intro a a1 h
    rw [intel_pt_find_overlap_skip] at h
    exact absurd h (by simp)
  | succ fuel ih =>
    intro a a1 h
    rw [intel_pt_find_overlap_skip] at h
    by_cases hl : len_b < a.length
    · rw [if_pos hl] at h
      cases hi : intel_pt_step_psb env a with
      | none =>
        rw [hi] at h
        exact absurd h (by simp)
      | some i =>
        rw [hi] at h
        exact ih _ _ h
    · rw [if_neg hl] at h
      simp only [Option.some.injEq] at h
      subst h
      omega

/-- The first loop of `intel_pt_find_overlap` ends when the bound is above the size of
buffer A. -/
theorem find_overlap_skip_total (env : intel_pt_env) (len_b : Nat) :
    ∀ (fuel : Nat) (a : List Nat), a.length < fuel →
      ∃ r, intel_pt_find_overlap_skip env len_b fuel a = some r := by
  intro fuel
  induction fuel with
  | zero =>
    intro a h
    exact absurd h (Nat.not_lt_zero _)
  | succ fuel ih =>
    intro a h
    rw [intel_pt_find_overlap_skip]
    by_cases hl : len_b < a.length
    · rw [if_pos hl]
      cases hi : intel_pt_step_psb env a with
      | none => exact ⟨_, rfl⟩
      | some i =>
        have hs := step_psb_some env a i hi
        simp only []
        apply ih
        rw [List.length_drop]
        omega
    · rw [if_neg hl]
      exact ⟨_, rfl⟩

/-- The pointer that the last loop of `intel_pt_find_overlap` returns is at most the size
of the rest of buffer A away from `buf_b`, and `*consecutive` is kept or set. -/
theorem find_overlap_cmp_range (env : intel_pt_env) (buf_b : Nat) (b : List Nat) :
    ∀ (fuel : Nat) (a : List Nat) (consecutive : Bool) (r : Nat × Bool),
      intel_pt_find_overlap_cmp env buf_b b fuel a consecutive = some r →
      buf_b ≤ r.1 ∧ r.1 ≤ buf_b + a.length ∧ (r.2 = consecutive ∨ r.2 = true) := by
  intro fuel
  induction fuel with
  | zero =>
    intro a consecutive r h
    rw [intel_pt_find_overlap_cmp] at h
    exact absurd h (by simp)
  | succ fuel ih =>
    intro a consecutive r h
    rw [intel_pt_find_overlap_cmp] at h
    cases hm : memmem (b.take a.length) a with
    | some k =>
      rw [hm] at h
      simp only [Option.some.injEq] at h
      subst h
      exact ⟨Nat.le_add_right _ _, le_refl _, Or.inr rfl⟩
    | none =>
      rw [hm] at h
      simp only [] at h
      cases hi : intel_pt_step_psb env a with
      | none =>
        rw [hi] at h
        simp only [Option.some.injEq] at h
        subst h
        exact ⟨le_refl _, Nat.le_add_right _ _, Or.inl rfl⟩
      | some i =>
        rw [hi] at h
        have := ih _ _ _ h
        rw [List.length_drop] at this
        exact ⟨this.1, by omega, this.2.2⟩

/-- The last loop of `intel_pt_find_overlap` ends when the bound is above the size of the
rest of buffer A. -/
theorem find_overlap_cmp_total (env : intel_pt_env) (buf_b : Nat) (b : List Nat) :
    ∀ (fuel : Nat) (a : List Nat) (consecutive : Bool), a.length < fuel →
      ∃ r, intel_pt_find_overlap_cmp env buf_b b fuel a consecutive = some r := by
  intro fuel
  induction fuel with
  | zero =>
    intro a consecutive h
    exact absurd h (Nat.not_lt_zero _)
  | succ fuel ih =>
    intro a consecutive h
    rw [intel_pt_find_overlap_cmp]
    cases hm : memmem (b.take a.length) a with
    | some k => exact ⟨_, rfl⟩
    | none =>
      simp only []
      cases hi : intel_pt_step_psb env a with
      | none => exact ⟨_, rfl⟩
      | some i =>
        have hs := step_psb_some env a i hi
        simp only []
        apply ih
        rw [List.length_drop]
        omega

/-- The first loop of `intel_pt_find_overlap` leaves a part of buffer A. -/
theorem find_overlap_skip_length (env : intel_pt_env) (len_b : Nat) :
    ∀ (fuel : Nat) (a a1 : List Nat),
      intel_pt_find_overlap_skip env len_b fuel a = some (some a1) → a1.length ≤ a.length := by
  intro fuel
  induction fuel with
  | zero =>
    intro a a1 h
    rw [intel_pt_find_overlap_skip] at h
    exact absurd h (by simp)
  | succ fuel ih =>
    intro a a1 h
    rw [intel_pt_find_overlap_skip] at h
    by_cases hl : len_b < a.length
    · rw [if_pos hl] at h
      cases hi : intel_pt_step_psb env a with
      | none =>
        rw [hi] at h
        exact absurd h (by simp)
      | some i =>
        rw [hi] at h
        have := ih _ _ h
        rw [List.length_drop] at this
        omega
    · rw [if_neg hl] at h
      simp only [Option.some.injEq] at h
      subst h
      exact le_refl _

/-- The range part of C36, for any bound `fuel`. -/
theorem find_overlap_range (env : intel_pt_env) (fuel : Nat) (a : List Nat) (buf_b : Nat)
    (b : List Nat) (have_tsc consecutive : Bool) (r : Nat × Bool)
    (h : intel_pt_find_overlap env fuel a buf_b b have_tsc consecutive = some r) :
    buf_b ≤ r.1 ∧ r.1 ≤ buf_b + b.length ∧ (r.2 = consecutive ∨ r.2 = true) := by
  unfold intel_pt_find_overlap at h
  cases hb : intel_pt_next_psb env b with
  | none =>
    rw [hb] at h
    simp only [Option.some.injEq] at h
    subst h
    exact ⟨Nat.le_add_right _ _, le_refl _, Or.inl rfl⟩
  | some ib =>
    rw [hb] at h
    simp only [] at h
    have hib := next_psb_some env b ib hb
    cases ha : intel_pt_next_psb env a with
    | none =>
      rw [ha] at h
      simp only [Option.some.injEq] at h
      subst h
      exact ⟨Nat.le_add_right _ _, by simp only []; omega, Or.inl rfl⟩
    | some ia =>
      rw [ha] at h
      simp only [] at h
      have hlen : (b.drop ib).length = b.length - ib := List.length_drop ib b
      have hfirst : ∀ q : Nat × Bool,
          (if have_tsc = true then
            intel_pt_find_overlap_tsc env fuel (a.drop ia) (buf_b + ib) (b.drop ib) consecutive
          else some (0, consecutive)) = some q →
          (q.2 = consecutive ∨ q.2 = true) ∧
          (have_tsc = true → buf_b + ib ≤ q.1 ∧ q.1 ≤ buf_b + ib + (b.drop ib).length) := by
        intro q hq
        by_cases ht : have_tsc = true
        · rw [if_pos ht] at hq
          have := find_overlap_tsc_range env fuel _ _ _ _ q hq
          exact ⟨this.2.2, fun _ => ⟨this.1, this.2.1⟩⟩
        · rw [if_neg ht] at hq
          simp only [Option.some.injEq] at hq
          subst hq
          exact ⟨Or.inl rfl, fun h1 => absurd h1 ht⟩
      generalize (if have_tsc = true then
            intel_pt_find_overlap_tsc env fuel (a.drop ia) (buf_b + ib) (b.drop ib) consecutive
          else some (0, consecutive)) = first at h hfirst
      cases first with
      | none => exact absurd h (by simp)
      | some q =>
        obtain ⟨found, consecutive1⟩ := q
        have hq := hfirst _ rfl
        simp only [] at h hq
        have hcons : ∀ x : Bool, (x = consecutive1 ∨ x = true) → (x = consecutive ∨ x = true) := by
          intro x hx
          rcases hx with hx | hx
          · rcases hq.1 with h1 | h1
            · exact Or.inl (hx.trans h1)
            · exact Or.inr (hx.trans h1)
          · exact Or.inr hx
        by_cases hf : have_tsc = true ∧ found ≠ 0
        · rw [if_pos hf] at h
          simp only [Option.some.injEq] at h
          subst h
          have := hq.2 hf.1
          exact ⟨by simp only []; omega, by simp only []; omega, hq.1⟩
        · rw [if_neg hf] at h
          cases hs : intel_pt_find_overlap_skip env (b.drop ib).length fuel (a.drop ia) with
          | none =>
            rw [hs] at h
            exact absurd h (by simp)
          | some s =>
            rw [hs] at h
            cases s with
            | none =>
              simp only [Option.some.injEq] at h
              subst h
              exact ⟨Nat.le_add_right _ _, by simp only []; omega, hcons _ (Or.inl rfl)⟩
            | some a1 =>
              simp only [] at h
              have h1 := find_overlap_skip_some env _ fuel _ _ hs
              have h2 := find_overlap_cmp_range env _ _ fuel _ _ r h
              exact ⟨by omega, by omega, hcons _ h2.2.2⟩

/-- C36: for every pair of buffers, every `have_tsc`, and a unit decoder that never
reports more bytes than it was given, `intel_pt_find_overlap` returns (the bound `fuel`
suffices when it is above the sizes of both buffers plus one), the pointer it returns lies
in `[buf_b, buf_b + len_b]` of the original buffer B, and `*consecutive` is either left as
it was or set to true. -/
theorem find_overlap_safe (env : intel_pt_env)
    (hgp : ∀ s : List Nat, (env.get_packet s).1 ≤ (s.length : Int))
    (fuel : Nat) (a : List Nat) (buf_b : Nat) (b : List Nat) (have_tsc consecutive : Bool)
    (hfuel : a.length + b.length + 1 < fuel) :
    ∃ r, intel_pt_find_overlap env fuel a buf_b b have_tsc consecutive = some r ∧
      buf_b ≤ r.1 ∧ r.1 ≤ buf_b + b.length ∧ (r.2 = consecutive ∨ r.2 = true) := by
  have htotal : ∃ r, intel_pt_find_overlap env fuel a buf_b b have_tsc consecutive = some r := by
    unfold intel_pt_find_overlap
    cases hb : intel_pt_next_psb env b with
    | none => exact ⟨_, rfl⟩
    | some ib =>
      simp only []
      cases ha : intel_pt_next_psb env a with
      | none => exact ⟨_, rfl⟩
      | some ia =>
        simp only []
        have hla : (a.drop ia).length ≤ a.length := by rw [List.length_drop]; omega
        have hlb : (b.drop ib).length ≤ b.length := by rw [List.length_drop]; omega
        have hfirst : ∃ q, (if have_tsc = true then
            intel_pt_find_overlap_tsc env fuel (a.drop ia) (buf_b + ib) (b.drop ib) consecutive
          else some (0, consecutive)) = some q := by
          by_cases ht : have_tsc = true
          · rw [if_pos ht]
            exact find_overlap_tsc_total env hgp fuel _ _ _ _ (by omega) (by omega)
          · rw [if_neg ht]
            exact ⟨_, rfl⟩
        obtain ⟨q, hq⟩ := hfirst
        rw [hq]
        obtain ⟨found, consecutive1⟩ := q
        simp only []
        by_cases hf : have_tsc = true ∧ found ≠ 0
        · rw [if_pos hf]
          exact ⟨_, rfl⟩
        · rw [if_neg hf]
          obtain ⟨s, hs⟩ := find_overlap_skip_total env (b.drop ib).length fuel (a.drop ia)
            (by omega)
          rw [hs]
          cases s with
          | none => exact ⟨_, rfl⟩
          | some a1 =>
            simp only []
            have h1 := find_overlap_skip_length env _ fuel _ _ hs
            exact find_overlap_cmp_total env _ _ fuel a1 consecutive1 (by omega)
  obtain ⟨r, hr⟩ := htotal
  exact ⟨r, hr, find_overlap_range env fuel a buf_b b have_tsc consecutive r hr⟩

/-- The unit decoder of the examples never reports more bytes than it was given. -/
theorem example_tsc_get_packet_le (s : List Nat) :
    (example_tsc_get_packet s).1 ≤ (s.length : Int) := by
  unfold example_tsc_get_packet
  split_ifs with h1 h2 h3 h4
  · have := congrArg List.length h1
    rw [List.length_take] at this
    have h16 : psb_bytes.length = 16 := rfl
    rw [h16] at this
    simp only [Nat.cast_ofNat]
    omega
  · have := congrArg List.length h2
    rw [List.length_take] at this
    simp only [List.length_cons, List.length_nil] at this
    simp only [Nat.cast_ofNat]
    omega
  · simp only [Nat.cast_ofNat]
    omega
  · have := congrArg List.length h4
    rw [List.length_take] at this
    simp only [List.length_cons, List.length_nil] at this
    simp only [Nat.cast_one]
    omega
  · simp only []
    omega

/-- C36 at the two captures of the examples, with and without TSC: the function returns a
pointer into buffer B. -/
theorem find_overlap_safe_witness :
    (∃ r, intel_pt_find_overlap example_overlap_env 101 example_buf_a 1000 example_buf_b true
        false = some r ∧
      1000 ≤ r.1 ∧ r.1 ≤ 1000 + example_buf_b.length ∧ (r.2 = false ∨ r.2 = true)) ∧
    intel_pt_find_overlap example_overlap_env 101 example_buf_a 1000 example_buf_b false false
      = some (1026, true) :=
  ⟨find_overlap_safe example_overlap_env example_tsc_get_packet_le 101 example_buf_a 1000
      example_buf_b true false (by decide),
    by decide⟩

/-! ### Overlap of two trace buffers: matching TSC -/

/-- A larger bound does not change what `intel_pt_next_tsc` returns. -/
theorem next_tsc_mono (env : intel_pt_env) :
    ∀ (fuel : Nat) (buf : List Nat) (r : Option (Nat × Nat)),
      intel_pt_next_tsc env fuel buf = some r →
      ∀ fuel1, fuel ≤ fuel1 → intel_pt_next_tsc env fuel1 buf = some r := by
  intro fuel
  induction fuel with
  | zero =>
    intro buf r h
    rw [intel_pt_next_tsc] at h
    exact absurd h (by simp)
  | succ fuel ih =>
    intro buf r h fuel1 hle
    obtain ⟨f, rfl⟩ : ∃ f, fuel1 = f + 1 := ⟨fuel1 - 1, by omega⟩
    rw [intel_pt_next_tsc] at h ⊢
    by_cases h0 : buf.length = 0
    · rw [if_pos h0] at h ⊢
      exact h
    · rw [if_neg h0] at h ⊢
      by_cases h1 : (env.get_packet buf).1 ≤ 0
      · rw [if_pos h1] at h ⊢
        exact h
      · rw [if_neg h1] at h ⊢
        by_cases h2 : (env.get_packet buf).2.type = intel_pt_pkt_type.INTEL_PT_TSC
        · rw [if_pos h2] at h ⊢
          exact h
        · rw [if_neg h2] at h ⊢
          by_cases h3 : (env.get_packet buf).2.type = intel_pt_pkt_type.INTEL_PT_PSBEND
          · rw [if_pos h3] at h ⊢
            exact h
          · rw [if_neg h3] at h ⊢
            by_cases h4 : (env.get_packet buf).1.toNat > buf.length
            · rw [if_pos h4] at h
              exact absurd h (by simp)
            · rw [if_neg h4] at h ⊢
              exact ih _ _ h f (by omega)

/-- When the byte `c` is at a position `p` below `n`, `memrchr` finds a position from `p`
on, below `n`, that holds `c`. -/
theorem memrchr_ge (s : List Nat) (c p : Nat) (hp : s.get? p = some c) :
    ∀ n, p < n → ∃ q, memrchr s c n = some q ∧ p ≤ q ∧ q < n ∧ s.get? q = some c := by
  intro n
  induction n with
  | zero =>
    intro h
    exact absurd h (Nat.not_lt_zero _)
  | succ n ih =>
    intro h
    rw [memrchr]
    by_cases hn : s.get? n = some c
    · rw [if_pos hn]
      exact ⟨n, rfl, by omega, by omega, hn⟩
    · rw [if_neg hn]
      have hpn : p < n := by
        rcases Nat.lt_or_ge p n with h1 | h1
        · exact h1
        · have : p = n := by omega
          rw [this] at hp
          exact absurd hp hn
      obtain ⟨q, h1, h2, h3, h4⟩ := ih hpn
      exact ⟨q, h1, h2, by omega, h4⟩

/-- A nonempty needle occurs at an offset exactly when its first byte is there and the
bytes after it are the rest of the needle. -/
theorem prefix_drop_iff (needle buf : List Nat) (hne : needle ≠ []) (p : Nat) :
    needle <+: buf.drop p ↔
      buf.get? p = some (needle.headD 0) ∧
      (buf.drop (p + 1)).take (needle.length - 1) = needle.drop 1 := by
  cases needle with
  | nil => exact absurd rfl hne
  | cons c rest =>
    simp only [List.headD_cons, List.length_cons, Nat.add_sub_cancel, List.drop_succ_cons,
      List.drop_zero]
    constructor
    · intro h
      obtain ⟨t, ht⟩ := h
      have h1 : buf.get? p = some c := by
        have e : (buf.drop p)[0]? = buf[p]? := by
          rw [List.getElem?_drop, Nat.add_zero]
        rw [← ht] at e
        rw [List.get?_eq_getElem?, ← e]
        simp only [List.cons_append, List.getElem?_cons_zero]
      refine ⟨h1, ?_⟩
      have h2 : buf.drop (p + 1) = rest ++ t := by
        have := congrArg (fun l => l.drop 1) ht
        simp only [List.cons_append, List.drop_succ_cons, List.drop_zero, List.drop_drop] at this
        rw [← this]
      rw [h2, List.take_left']
      rfl
    · intro ⟨h1, h2⟩
      have hlt : p < buf.length := by
        rcases Nat.lt_or_ge p buf.length with h | h
        · exact h
        · rw [List.get?_eq_none.mpr h] at h1
          exact absurd h1 (by simp)
      have h3 : buf.drop p = c :: buf.drop (p + 1) := by
        rw [List.drop_eq_getElem_cons hlt]
        congr 1
        rw [List.get?_eq_getElem?, List.getElem?_eq_getElem hlt] at h1
        exact Option.some.inj h1
      rw [h3]
      refine ⟨(buf.drop (p + 1)).drop rest.length, ?_⟩
      rw [List.cons_append]
      congr 1
      conv_rhs => rw [← List.take_append_drop rest.length (buf.drop (p + 1))]
      rw [h2]

/-- The loop of `intel_pt_last_psb` finds the last PSB. -/
theorem last_psb_loop_spec (env : intel_pt_env) (hpsb : env.INTEL_PT_PSB_STR ≠ [])
    (buf : List Nat) (p : Nat) (hlast : last_psb_at env buf p) :
    ∀ (fuel k : Nat), k < fuel → p < k →
      intel_pt_last_psb_loop env buf fuel k = some (some p) := by
  intro fuel
  induction fuel with
  | zero =>
    intro k h
    exact absurd h (Nat.not_lt_zero _)
  | succ fuel ih =>
    intro k hk hpk
    have hp := (prefix_drop_iff _ buf hpsb p).mp hlast.1
    obtain ⟨q, hq1, hq2, hq3, hq4⟩ := memrchr_ge buf _ p hp.1 k hpk
    rw [intel_pt_last_psb_loop, hq1]
    simp only []
    by_cases hqp : q = p
    · rw [hqp, if_pos hp.2]
    · have hlt : p < q := by omega
      have hno : ¬ ((buf.drop (q + 1)).take (env.INTEL_PT_PSB_STR.length - 1)
          = env.INTEL_PT_PSB_STR.drop 1) := by
        intro hm
        exact hlast.2 q hlt ((prefix_drop_iff _ buf hpsb q).mpr ⟨hq4, hm⟩)
      rw [if_neg hno, if_neg (by omega)]
      exact ih q (by omega) hlt

/-- The function `intel_pt_last_psb` finds the last PSB. -/
theorem last_psb_spec (env : intel_pt_env) (hpsb : env.INTEL_PT_PSB_STR ≠ [])
    (buf : List Nat) (p : Nat) (hlast : last_psb_at env buf p) (fuel : Nat)
    (hfuel : buf.length + 1 < fuel) :
    intel_pt_last_psb env fuel buf = some (some p) := by
  have hlen : p + env.INTEL_PT_PSB_STR.length ≤ buf.length := by
    have := hlast.1.length_le
    rw [List.length_drop] at this
    have hpos : 0 < env.INTEL_PT_PSB_STR.length := List.length_pos.mpr hpsb
    omega
  have hpos : 0 < env.INTEL_PT_PSB_STR.length := List.length_pos.mpr hpsb
  unfold intel_pt_last_psb
  rw [if_neg (by omega)]
  exact last_psb_loop_spec env hpsb buf p hlast fuel _ (by omega) (by omega)

/-- Equal TSC values compare as equal. -/
theorem tsc_cmp_self (t : Nat) : intel_pt_tsc_cmp t t = 0 := by
  unfold intel_pt_tsc_cmp
  simp only [if_true]

/-- The loop of `intel_pt_find_overlap_tsc` when the first PSB+ of B with a TSC carries the
TSC of A. -/
theorem find_overlap_tsc_loop_match (env : intel_pt_env) (tsc rem_a : Nat)
    (b : List Nat) (off rem_b : Nat) (hfirst : first_tsc_psb env b off tsc rem_b)
    (hrem : rem_a ≤ rem_b) :
    ∀ (fuel buf_b : Nat) (consecutive : Bool), b.length + 1 < fuel →
      intel_pt_find_overlap_tsc_loop env tsc rem_a fuel buf_b b consecutive =
        some (buf_b + b.length - (rem_b - rem_a), true) := by
  induction hfirst with
  | here b tsc rem ht =>
    intro fuel buf_b consecutive hfuel
    obtain ⟨f, rfl⟩ : ∃ f, fuel = f + 1 := ⟨fuel - 1, by omega⟩
    rw [intel_pt_find_overlap_tsc_loop, next_tsc_mono env _ _ _ ht f (by omega)]
    simp only []
    rw [if_pos ⟨tsc_cmp_self tsc, hrem⟩]
  | skip b i off tsc rem ht hs _ ih =>
    intro fuel buf_b consecutive hfuel
    obtain ⟨f, rfl⟩ : ∃ f, fuel = f + 1 := ⟨fuel - 1, by omega⟩
    have hi := step_psb_some env b i hs
    rw [intel_pt_find_overlap_tsc_loop, next_tsc_mono env _ _ _ ht f (by omega)]
    simp only []
    rw [hs]
    simp only []
    rw [ih hrem f (buf_b + i) consecutive (by rw [List.length_drop]; omega), List.length_drop]
    congr 2
    omega

/-- The number of bytes that remain from the TSC packet of the first PSB+ with a TSC is
positive and within the bytes. -/
theorem first_tsc_psb_rem (env : intel_pt_env) (b : List Nat) (off tsc rem : Nat)
    (h : first_tsc_psb env b off tsc rem) : 1 ≤ rem ∧ rem ≤ b.length := by
  induction h with
  | here b tsc rem ht => exact next_tsc_rem env _ b tsc rem ht
  | skip b i off tsc rem _ hs _ ih =>
    rw [List.length_drop] at ih
    omega

/-- C33: `intel_pt_find_overlap` with `have_tsc = true`, on a buffer A whose last PSB+
carries the TSC value `tsc` with `rem_a` bytes of A remaining from that TSC packet, and a
buffer B whose first PSB+ that carries a TSC carries the same `tsc` with
`rem_b >= rem_a` bytes remaining: the function returns (the bound `fuel` suffices when it
is above the sizes of both buffers plus one), `*consecutive` is set to true, and the
pointer is `buf_b + len_b - (rem_b - rem_a)`, which is `rem_a` bytes after the start
`buf_b + len_b - rem_b` of the TSC packet of B. -/
theorem find_overlap_tsc_spec (env : intel_pt_env) (hpsb : env.INTEL_PT_PSB_STR ≠ [])
    (fuel : Nat) (a : List Nat) (buf_b : Nat) (b : List Nat) (consecutive : Bool)
    (ia ib p tsc rem_a off rem_b : Nat)
    (hia : first_psb_at env a ia) (hib : first_psb_at env b ib)
    (hlast : last_psb_at env (a.drop ia) p)
    (htsc_a : intel_pt_next_tsc env (((a.drop ia).drop p).length + 1) ((a.drop ia).drop p)
      = some (some (tsc, rem_a)))
    (htsc_b : first_tsc_psb env (b.drop ib) off tsc rem_b)
    (hrem : rem_a ≤ rem_b)
    (hfuel : a.length + b.length + 1 < fuel) :
    intel_pt_find_overlap env fuel a buf_b b true consecutive =
      some (buf_b + b.length - (rem_b - rem_a), true) ∧
    buf_b + b.length - (rem_b - rem_a) = buf_b + b.length - rem_b + rem_a ∧
    rem_b ≤ b.length := by
  have h1 : intel_pt_next_psb env b = some ib := (memmem_eq_some_iff _ _ _).mpr hib
  have h2 : intel_pt_next_psb env a = some ia := (memmem_eq_some_iff _ _ _).mpr hia
  have hib1 := next_psb_some env b ib h1
  have hla : (a.drop ia).length ≤ a.length := by rw [List.length_drop]; omega
  have hlb : (b.drop ib).length = b.length - ib := List.length_drop ib b
  have hra := next_tsc_rem env _ _ _ _ htsc_a
  have hrb := first_tsc_psb_rem env _ _ _ _ htsc_b
  have hlp : ((a.drop ia).drop p).length ≤ a.length := by
    rw [List.length_drop, List.length_drop]; omega
  have h3 : intel_pt_find_overlap_tsc env fuel (a.drop ia) (buf_b + ib) (b.drop ib) consecutive
      = some (buf_b + b.length - (rem_b - rem_a), true) := by
    unfold intel_pt_find_overlap_tsc
    rw [last_psb_spec env hpsb _ p hlast fuel (by omega)]
    simp only []
    rw [next_tsc_mono env _ _ _ htsc_a fuel (by omega)]
    simp only []
    rw [find_overlap_tsc_loop_match env tsc rem_a _ off rem_b htsc_b hrem fuel _ _ (by omega),
      hlb]
    congr 2
    omega
  refine ⟨?_, by omega, by omega⟩
  unfold intel_pt_find_overlap
  rw [h1, h2]
  simp only [if_true]
  rw [h3]
  simp only []
  rw [if_pos ⟨trivial, by omega⟩]

/-- C33 at the two captures of the examples: A ends with PSB, TSC = 0x200, PSBEND (10
bytes remain from its TSC packet) and B starts with the same PSB+ (28 bytes remain);
the result is the address of byte 26 of B, just past the PSB+ that A already has. -/
theorem find_overlap_tsc_spec_witness :
    intel_pt_find_overlap example_overlap_env 101 example_buf_a 1000 example_buf_b true false
      = some (1000 + example_buf_b.length - (28 - 10), true) ∧
    1000 + example_buf_b.length - (28 - 10) = 1026 :=
  ⟨(find_overlap_tsc_spec example_overlap_env (by decide) 101 example_buf_a 1000 example_buf_b
      false 0 0 29 0x200 10 0 28
      ((memmem_eq_some_iff _ _ _).mp (by decide))
      ((memmem_eq_some_iff _ _ _).mp (by decide))
      ⟨by decide, fun j hj hpre => by
        have h1 := hpre.length_le
        have h2 : (List.drop j (List.drop 0 example_buf_a)).length = 55 - j := by
          rw [List.length_drop, List.length_drop]; rfl
        have h3 : example_overlap_env.INTEL_PT_PSB_STR.length = 16 := rfl
        rw [h2, h3] at h1
        have hj2 : j < 40 := by omega
        interval_cases j <;> exact absurd hpre (by decide)⟩
      (by decide)
      (first_tsc_psb.here _ _ _ (by decide))
      (by decide) (by decide)).1,
    by decide⟩

/-! ### Errors of the byte cursor: trace data and bad packets -/

/-- C29: `intel_pt_get_data`, where `get_trace` hands out the head of `data`: if it returns
nonzero, that value is returned and the cursor (`buf`, `pos`) is untouched; if it succeeds
with `len = 0` the result is `-ENODATA`, whatever the flag `consecutive` says; if it
succeeds with `len > 0` and `consecutive = false`, then `ip = 0`, `timestamp = 0`,
`have_tma = false`, `ref_timestamp` and `state.trace_nr` are those of the buffer,
`pkt_state = NO_PSB` and the result is `-ENOLINK`; otherwise the result is 0 and only the
cursor and `pkt_step` change. In every case `pkt_step` is 0 afterwards. -/
theorem get_data_spec (d : intel_pt_decoder) :
    ((d.data.headD {}).ret ≠ 0 →
      intel_pt_get_data d =
        ((d.data.headD {}).ret, { d with pkt_step := 0, data := d.data.tail })) ∧
    ((d.data.headD {}).ret = 0 → (d.data.headD {}).buffer.buf = [] →
      intel_pt_get_data d =
        (-ENODATA, { d with pkt_step := 0, data := d.data.tail, buf := [] })) ∧
    ((d.data.headD {}).ret = 0 → (d.data.headD {}).buffer.buf ≠ [] →
      (d.data.headD {}).buffer.consecutive = false →
      intel_pt_get_data d =
        (-ENOLINK,
          { d with
            pkt_step := 0
            data := d.data.tail
            buf := (d.data.headD {}).buffer.buf
            ip := 0
            pkt_state := intel_pt_pkt_state.INTEL_PT_STATE_NO_PSB
            ref_timestamp := (d.data.headD {}).buffer.ref_timestamp
            timestamp := 0
            have_tma := false
            state := { d.state with trace_nr := (d.data.headD {}).buffer.trace_nr } })) ∧
    ((d.data.headD {}).ret = 0 → (d.data.headD {}).buffer.buf ≠ [] →
      (d.data.headD {}).buffer.consecutive = true →
      intel_pt_get_data d =
        (0, { d with pkt_step := 0, data := d.data.tail, buf := (d.data.headD {}).buffer.buf })) ∧
    (intel_pt_get_data d).2.pkt_step = 0 := by
  refine ⟨?_, ?_, ?_, ?_, ?_⟩
  · intro h
    unfold intel_pt_get_data
    simp only []
    rw [if_pos h]
  · intro h hb
    unfold intel_pt_get_data
    simp only []
    rw [if_neg (not_not.mpr h), if_pos (by rw [hb]; rfl), hb]
  · intro h hb hc
    have hlen : ¬ (d.data.headD {}).buffer.buf.length = 0 := fun h0 =>
      hb (List.length_eq_zero.mp h0)
    unfold intel_pt_get_data
    simp only []
    rw [if_neg (not_not.mpr h), if_neg hlen, if_pos hc]
  · intro h hb hc
    have hlen : ¬ (d.data.headD {}).buffer.buf.length = 0 := fun h0 =>
      hb (List.length_eq_zero.mp h0)
    unfold intel_pt_get_data
    simp only []
    rw [if_neg (not_not.mpr h), if_neg hlen, if_neg (by rw [hc]; decide)]
  · unfold intel_pt_get_data
    simp only []
    split_ifs <;> rfl

/-- C29 at examples: a non-consecutive buffer of one byte, a failing `get_trace`, and an
empty buffer flagged non-consecutive. -/
theorem get_data_spec_witness :
    intel_pt_get_data example_gap_decoder =
      (-ENOLINK,
        { have_tma := false, pkt_state := intel_pt_pkt_state.INTEL_PT_STATE_NO_PSB,
          buf := [0], ref_timestamp := 7 }) ∧
    (intel_pt_get_data { buf := [1, 2], data := [{ ret := -5 }] }).1 = -5 ∧
    (intel_pt_get_data { buf := [1, 2], data := [{ ret := -5 }] }).2.buf = [1, 2] ∧
    (intel_pt_get_data { data := [{ ret := 0, buffer := { consecutive := false } }] }).1
      = -ENODATA :=
  ⟨(get_data_spec example_gap_decoder).2.2.1 rfl (by decide) rfl,
    by decide, by decide, by decide⟩

/-- The first round of the loop of `intel_pt_get_next_packet` on a cursor that holds more
than `pkt_step` bytes, when the unit decoder finds a packet that is not a PAD at the new
position: the cursor moves on by `pkt_step` bytes and the packet is returned. -/
theorem get_next_packet_step (env : intel_pt_env) (fuel : Nat) (d : intel_pt_decoder)
    (step : Nat) (hstep : d.pkt_step = (step : Int)) (hlen : step < d.buf.length)
    (hpkt : 0 < (env.get_packet (d.buf.drop step)).1)
    (hpad : (env.get_packet (d.buf.drop step)).2.type ≠ intel_pt_pkt_type.INTEL_PT_PAD)
    (hmore : (env.get_packet (d.buf.drop step)).1 ≠ env.INTEL_PT_NEED_MORE_BYTES) :
    intel_pt_get_next_packet_loop env (fuel + 1) d =
      some (0,
        { d with
          pos := (d.pos + step) % 2 ^ 64
          buf := d.buf.drop step
          packet := (env.get_packet (d.buf.drop step)).2
          pkt_len := (env.get_packet (d.buf.drop step)).1
          pkt_step := (env.get_packet (d.buf.drop step)).1 }) := by
  have h1 : ¬ (d.pkt_step < 0 ∨ (d.buf.length : Int) < d.pkt_step) := by
    rw [hstep]
    omega
  have h2 : ¬ (d.buf.drop step).length = 0 := by
    rw [List.length_drop]
    omega
  have h3 : d.pkt_step.toNat = step := by
    rw [hstep]
    exact Int.toNat_natCast step
  rw [intel_pt_get_next_packet_loop, if_neg h1]
  simp only [h3, if_neg h2, ne_eq, not_true_eq_false, if_false, hmore, false_and,
    decide_False, Bool.false_eq_true, not_le.mpr hpkt, hpad]

/-- C30: `intel_pt_bad_packet` always returns `-EBADMSG`, which `intel_pt_ext_err` maps to
BADPKT; it sets `pkt_len = pkt_step = 1`, clears `tx_flags` and `have_tma`, and sets
`pkt_state` to ERR1 unless the state is NO_PSB, in which case it stays NO_PSB; as ERR1
stands for the current `pkt_state`, `pkt_state` is as before in both cases, and nothing
else changes. With `pkt_step = 1` the next fetch moves the cursor on by exactly one byte
before it decodes: when at least two bytes are left and the unit decoder finds a packet
that is not a PAD after the first of them, `intel_pt_get_next_packet` returns it with
`pos` one more and `buf` one byte shorter. -/
theorem bad_packet_spec (d : intel_pt_decoder) :
    (intel_pt_bad_packet d).1 = -EBADMSG ∧
    intel_pt_ext_err (intel_pt_bad_packet d).1 = INTEL_PT_ERR_BADPKT ∧
    (d.pkt_state ≠ intel_pt_pkt_state.INTEL_PT_STATE_NO_PSB →
      (intel_pt_bad_packet d).2.pkt_state = INTEL_PT_STATE_ERR1 d) ∧
    (d.pkt_state = intel_pt_pkt_state.INTEL_PT_STATE_NO_PSB →
      (intel_pt_bad_packet d).2.pkt_state = intel_pt_pkt_state.INTEL_PT_STATE_NO_PSB) ∧
    (intel_pt_bad_packet d).2 =
      { d with tx_flags := 0, have_tma := false, pkt_len := 1, pkt_step := 1 } ∧
    (∀ (env : intel_pt_env) (fuel : Nat), 2 ≤ d.buf.length →
      0 < (env.get_packet (d.buf.drop 1)).1 →
      (env.get_packet (d.buf.drop 1)).2.type ≠ intel_pt_pkt_type.INTEL_PT_PAD →
      (env.get_packet (d.buf.drop 1)).1 ≠ env.INTEL_PT_NEED_MORE_BYTES →
      ∃ d1, intel_pt_get_next_packet env (fuel + 1) (intel_pt_bad_packet d).2 = some (0, d1) ∧
        d1.pos = (d.pos + 1) % 2 ^ 64 ∧ d1.buf = d.buf.drop 1 ∧
        d1.packet = (env.get_packet (d.buf.drop 1)).2) := by
  have heq : (intel_pt_bad_packet d).2 =
      { d with tx_flags := 0, have_tma := false, pkt_len := 1, pkt_step := 1 } := by
    unfold intel_pt_bad_packet
    simp only []
    split_ifs <;> rfl
  have hext : intel_pt_ext_err (-EBADMSG) = INTEL_PT_ERR_BADPKT := by decide
  refine ⟨rfl, hext, ?_, ?_, heq, ?_⟩
  · intro _
    rw [heq]
    rfl
  · intro h
    rw [heq]
    exact h
  · intro env fuel hlen hpkt hpad hmore
    rw [heq]
    unfold intel_pt_get_next_packet
    refine ⟨_, get_next_packet_step env fuel _ 1 rfl (by simp only []; omega) hpkt hpad hmore,
      rfl, rfl, rfl⟩

/-- C30 at an example: after a bad packet in front of the bytes `ff 02 23`, the next fetch
skips the byte `ff` and returns the PSBEND packet behind it. -/
theorem bad_packet_spec_witness :
    (intel_pt_bad_packet { buf := [0xff, 2, 0x23], tx_flags := 1, have_tma := true }).2 =
      { buf := [0xff, 2, 0x23], pkt_len := 1, pkt_step := 1 } ∧
    ∃ d1, intel_pt_get_next_packet example_packet_env 1
        (intel_pt_bad_packet { buf := [0xff, 2, 0x23], tx_flags := 1, have_tma := true }).2
        = some (0, d1) ∧
      d1.pos = (0 + 1) % 2 ^ 64 ∧ d1.buf = [2, 0x23] ∧
      d1.packet = { type := intel_pt_pkt_type.INTEL_PT_PSBEND } :=
  ⟨(bad_packet_spec { buf := [0xff, 2, 0x23], tx_flags := 1, have_tma := true }).2.2.2.2.1,
    (bad_packet_spec { buf := [0xff, 2, 0x23], tx_flags := 1, have_tma := true }).2.2.2.2.2
      example_packet_env 0 (by decide) (by decide) (by decide) (by decide)⟩

/-! ### Walking PSB+ during synchronisation, and waiting for the TIP after a FUP -/

/-- One round of the loop of `intel_pt_walk_psb` after a successful fetch. -/
theorem walk_psb_round (env : intel_pt_env) (fuel : Nat) (d d1 : intel_pt_decoder)
    (hfetch : intel_pt_get_next_packet env fuel d = some (0, d1)) :
    intel_pt_walk_psb env (fuel + 1) d =
      match intel_pt_walk_psb_packet env d1 with
      | (some r, d2) => some (r, d2)
      | (none, d2) => intel_pt_walk_psb env fuel d2 := by
  rw [intel_pt_walk_psb, hfetch]
  simp only [ne_eq, not_true_eq_false, if_false]

/-- C26, as stated, fails for the timing packets TSC, TMA and CBR: when one of them is the
packet met by `intel_pt_walk_fup_tip`, it is not processed; the function returns
`-ENOENT` with `pkt_state = ERR3` (ERR_RESYNC), as for an event packet. -/
theorem walk_fup_tip_timing_counterexample :
    intel_pt_walk_fup_tip
        { get_packet := fun _ => (8, { type := intel_pt_pkt_type.INTEL_PT_TSC, payload := 0x200 }) }
        2 { buf := [0x19, 0, 2, 0, 0, 0, 0, 0] } =
      some (-ENOENT,
        { buf := [0x19, 0, 2, 0, 0, 0, 0, 0], pkt_len := 8, pkt_step := 8,
          packet := { type := intel_pt_pkt_type.INTEL_PT_TSC, payload := 0x200 },
          state := { flags := INTEL_PT_ASYNC },
          pkt_state := intel_pt_pkt_state.INTEL_PT_STATE_ERR_RESYNC }) ∧
    intel_pt_walk_fup_tip_packet {} { packet := { type := intel_pt_pkt_type.INTEL_PT_TMA } } =
      (some (-ENOENT), { packet := { type := intel_pt_pkt_type.INTEL_PT_TMA },
                         pkt_state := intel_pt_pkt_state.INTEL_PT_STATE_ERR_RESYNC }) ∧
    intel_pt_walk_fup_tip_packet {} { packet := { type := intel_pt_pkt_type.INTEL_PT_CBR } } =
      (some (-ENOENT), { packet := { type := intel_pt_pkt_type.INTEL_PT_CBR },
                         pkt_state := intel_pt_pkt_state.INTEL_PT_STATE_ERR_RESYNC }) :=
  ⟨rfl, rfl, rfl⟩

/-- One round of the loop of `intel_pt_walk_fup_tip` after a successful fetch. -/
theorem walk_fup_tip_round (env : intel_pt_env) (fuel : Nat) (d d1 : intel_pt_decoder)
    (hfetch : intel_pt_get_next_packet env fuel d = some (0, d1)) :
    intel_pt_walk_fup_tip_loop env (fuel + 1) d =
      match intel_pt_walk_fup_tip_packet env d1 with
      | (some r, d2) => some (r, d2)
      | (none, d2) => intel_pt_walk_fup_tip_loop env fuel d2 := by
  rw [intel_pt_walk_fup_tip_loop, hfetch]
  simp only [ne_eq, not_true_eq_false, if_false]

/-- The return value of the `switch` of `intel_pt_walk_fup_tip`, by packet kind. -/
theorem walk_fup_tip_packet_ret (env : intel_pt_env) (d1 : intel_pt_decoder) :
    (intel_pt_walk_fup_tip_packet env d1).1 =
      match d1.packet.type with
      | intel_pt_pkt_type.INTEL_PT_TIP => some 0
      | intel_pt_pkt_type.INTEL_PT_TIP_PGD => some 0
      | intel_pt_pkt_type.INTEL_PT_TIP_PGE => some 0
      | intel_pt_pkt_type.INTEL_PT_OVF => some (-EOVERFLOW)
      | intel_pt_pkt_type.INTEL_PT_PIP => none
      | intel_pt_pkt_type.INTEL_PT_MTC => none
      | intel_pt_pkt_type.INTEL_PT_CYC => none
      | intel_pt_pkt_type.INTEL_PT_MODE_EXEC => none
      | intel_pt_pkt_type.INTEL_PT_VMCS => none
      | intel_pt_pkt_type.INTEL_PT_MNT => none
      | intel_pt_pkt_type.INTEL_PT_PAD => none
      | _ => some (-ENOENT) := by
  unfold intel_pt_walk_fup_tip_packet
  cases d1.packet.type
  all_goals first
    | rfl
    | (simp only []
       split_ifs <;> rfl)

/-- C26, amended: one round of the loop of `intel_pt_walk_fup_tip`, on the packet
`d1.packet` it has fetched. The only packets on which the round returns 0 are TIP,
TIP.PGD and TIP.PGE; the packets TNT, FUP, TRACESTOP, PSB, PSBEND and MODE.TSX, and also
the timing packets TSC, TMA and CBR (and a BAD packet), give `-ENOENT` (MISMAT) with
`pkt_state = ERR3`; OVF gives what `intel_pt_overflow` gives; of the timing packets only
MTC and CYC are processed, and after them, and after PIP, MODE.EXEC, VMCS, MNT and PAD,
the wait goes on with the next packet. -/
theorem walk_fup_tip_spec (env : intel_pt_env) (fuel : Nat) (d d1 : intel_pt_decoder)
    (hfetch : intel_pt_get_next_packet env fuel d = some (0, d1)) :
    ((intel_pt_walk_fup_tip_packet env d1).1 = some 0 ↔
      d1.packet.type = intel_pt_pkt_type.INTEL_PT_TIP ∨
      d1.packet.type = intel_pt_pkt_type.INTEL_PT_TIP_PGD ∨
      d1.packet.type = intel_pt_pkt_type.INTEL_PT_TIP_PGE) ∧
    (d1.packet.type = intel_pt_pkt_type.INTEL_PT_TIP ∨
      d1.packet.type = intel_pt_pkt_type.INTEL_PT_TIP_PGD ∨
      d1.packet.type = intel_pt_pkt_type.INTEL_PT_TIP_PGE →
      intel_pt_walk_fup_tip_loop env (fuel + 1) d =
        some (0, (intel_pt_walk_fup_tip_packet env d1).2)) ∧
    (d1.packet.type = intel_pt_pkt_type.INTEL_PT_TNT ∨
      d1.packet.type = intel_pt_pkt_type.INTEL_PT_FUP ∨
      d1.packet.type = intel_pt_pkt_type.INTEL_PT_TRACESTOP ∨
      d1.packet.type = intel_pt_pkt_type.INTEL_PT_PSB ∨
      d1.packet.type = intel_pt_pkt_type.INTEL_PT_PSBEND ∨
      d1.packet.type = intel_pt_pkt_type.INTEL_PT_MODE_TSX ∨
      d1.packet.type = intel_pt_pkt_type.INTEL_PT_TSC ∨
      d1.packet.type = intel_pt_pkt_type.INTEL_PT_TMA ∨
      d1.packet.type = intel_pt_pkt_type.INTEL_PT_CBR ∨
      d1.packet.type = intel_pt_pkt_type.INTEL_PT_BAD →
      intel_pt_walk_fup_tip_loop env (fuel + 1) d =
        some (-ENOENT, { d1 with pkt_state := INTEL_PT_STATE_ERR3 }) ∧
      intel_pt_ext_err (-ENOENT) = INTEL_PT_ERR_MISMAT) ∧
    (d1.packet.type = intel_pt_pkt_type.INTEL_PT_OVF →
      intel_pt_walk_fup_tip_loop env (fuel + 1) d =
        some ((intel_pt_overflow d1).1, (intel_pt_overflow d1).2)) ∧
    (d1.packet.type = intel_pt_pkt_type.INTEL_PT_MTC →
      intel_pt_walk_fup_tip_loop env (fuel + 1) d =
        intel_pt_walk_fup_tip_loop env fuel
          (if (intel_pt_calc_mtc_timestamp d1 (env.lookahead d1 true)).period_type
              = intel_pt_period_type.INTEL_PT_PERIOD_MTC then
            { intel_pt_calc_mtc_timestamp d1 (env.lookahead d1 true) with
              state :=
                { (intel_pt_calc_mtc_timestamp d1 (env.lookahead d1 true)).state with
                  type := (intel_pt_calc_mtc_timestamp d1 (env.lookahead d1 true)).state.type
                    ||| INTEL_PT_INSTRUCTION } }
          else intel_pt_calc_mtc_timestamp d1 (env.lookahead d1 true))) ∧
    (d1.packet.type = intel_pt_pkt_type.INTEL_PT_CYC →
      intel_pt_walk_fup_tip_loop env (fuel + 1) d =
        intel_pt_walk_fup_tip_loop env fuel (intel_pt_calc_cyc_timestamp env d1)) ∧
    (d1.packet.type = intel_pt_pkt_type.INTEL_PT_PIP →
      intel_pt_walk_fup_tip_loop env (fuel + 1) d =
        intel_pt_walk_fup_tip_loop env fuel
          { d1 with cr3 := d1.packet.payload &&& (BIT63 - 1) }) ∧
    (d1.packet.type = intel_pt_pkt_type.INTEL_PT_MODE_EXEC →
      intel_pt_walk_fup_tip_loop env (fuel + 1) d =
        intel_pt_walk_fup_tip_loop env fuel
          { d1 with exec_mode := ((d1.packet.payload : Int) + 2 ^ 31) % 2 ^ 32 - 2 ^ 31 }) ∧
    (d1.packet.type = intel_pt_pkt_type.INTEL_PT_VMCS ∨
      d1.packet.type = intel_pt_pkt_type.INTEL_PT_MNT ∨
      d1.packet.type = intel_pt_pkt_type.INTEL_PT_PAD →
      intel_pt_walk_fup_tip_loop env (fuel + 1) d = intel_pt_walk_fup_tip_loop env fuel d1) := by
  have hround := walk_fup_tip_round env fuel d d1 hfetch
  have hext : intel_pt_ext_err (-ENOENT) = INTEL_PT_ERR_MISMAT := by decide
  refine ⟨?_, ?_, ?_, ?_, ?_, ?_, ?_, ?_, ?_⟩
  · rw [walk_fup_tip_packet_ret]
    cases d1.packet.type <;> decide
  · intro h
    rw [hround]
    unfold intel_pt_walk_fup_tip_packet
    rcases h with h | h | h <;> rw [h]
    all_goals first
      | rfl
      | (simp only []
         split_ifs <;> rfl)
  · intro h
    refine ⟨?_, hext⟩
    rw [hround]
    unfold intel_pt_walk_fup_tip_packet
    rcases h with h | h | h | h | h | h | h | h | h | h <;> rw [h]
  · intro h
    rw [hround]
    unfold intel_pt_walk_fup_tip_packet
    rw [h]
  · intro h
    rw [hround]
    unfold intel_pt_walk_fup_tip_packet
    rw [h]
  · intro h
    rw [hround]
    unfold intel_pt_walk_fup_tip_packet
    rw [h]
  · intro h
    rw [hround]
    unfold intel_pt_walk_fup_tip_packet
    rw [h]
  · intro h
    rw [hround]
    unfold intel_pt_walk_fup_tip_packet
    rw [h]
  · intro h
    rw [hround]
    unfold intel_pt_walk_fup_tip_packet
    rcases h with h | h | h <;> rw [h]

/-- C26, amended, at an example: a CBR packet met while waiting for the TIP gives
`-ENOENT` and ERR_RESYNC. -/
theorem walk_fup_tip_spec_witness :
    intel_pt_walk_fup_tip_loop
        { get_packet := fun _ => (4, { type := intel_pt_pkt_type.INTEL_PT_CBR, payload := 8 }) }
        2 { buf := [2, 3, 8, 0] } =
      some (-ENOENT,
        { buf := [2, 3, 8, 0], pkt_len := 4, pkt_step := 4,
          packet := { type := intel_pt_pkt_type.INTEL_PT_CBR, payload := 8 },
          pkt_state := intel_pt_pkt_state.INTEL_PT_STATE_ERR_RESYNC }) :=
  ((walk_fup_tip_spec
    { get_packet := fun _ => (4, { type := intel_pt_pkt_type.INTEL_PT_CBR, payload := 8 }) } 1
    { buf := [2, 3, 8, 0] }
    { buf := [2, 3, 8, 0], pkt_len := 4, pkt_step := 4,
      packet := { type := intel_pt_pkt_type.INTEL_PT_CBR, payload := 8 } }
    rfl).2.2.1 (Or.inr (Or.inr (Or.inr (Or.inr (Or.inr (Or.inr (Or.inr (Or.inr (Or.inl rfl)))))))))).1

/-! ### The instruction period -/

/-- C38, as stated, fails: the walker `example_budget_env` never reports more than
`max_insn_cnt` instructions when `max_insn_cnt != 0`, yet with `period = 2` a first call of
`intel_pt_walk_insn`, in which the walker arrives at the stop address exactly when its
budget of 2 is used up, leaves `period_insn_cnt = 2` without a sample (the check for the
stop address comes first); the second call then has the budget 0, which means unlimited,
the walker reports 5 instructions, and `period_insn_cnt = 7 > period`, after which
`intel_pt_next_sample` wraps around to `2 ^ 64 - 5`. -/
theorem walk_insn_period_counterexample :
    (∀ ip to_ip max_insn_cnt : Nat, max_insn_cnt ≠ 0 →
      (example_budget_env.walk_insn ip to_ip max_insn_cnt).insn_cnt ≤ max_insn_cnt) ∧
    (intel_pt_walk_insn example_budget_env example_period_decoder 0x100).map
        (fun r => (r.1, r.2.2.period_insn_cnt, (intel_pt_next_sample r.2.2).1)) =
      some (-EAGAIN, 2, 0) ∧
    ((intel_pt_walk_insn example_budget_env example_period_decoder 0x100).bind
        (fun r => intel_pt_walk_insn example_budget_env r.2.2 0x200)).map
        (fun r => (r.1, r.2.2.period_insn_cnt, r.2.2.period, (intel_pt_next_sample r.2.2).1)) =
      some (-EAGAIN, 7, 2, 2 ^ 64 - 5) := by
  refine ⟨?_, by decide, by decide⟩
  intro ip to_ip m hm
  show (if m = 0 then 5 else m) ≤ m
  rw [if_neg hm]

/-- What `intel_pt_next_sample` returns in INSTRUCTIONS mode. -/
theorem next_sample_instructions (d : intel_pt_decoder)
    (htype : d.period_type = intel_pt_period_type.INTEL_PT_PERIOD_INSTRUCTIONS) :
    intel_pt_next_sample d = ((d.period + 2 ^ 64 - d.period_insn_cnt) % 2 ^ 64, d) := by
  unfold intel_pt_next_sample
  rw [htype]

/-- In INSTRUCTIONS mode `intel_pt_sample_insn` resets `period_insn_cnt`. -/
theorem sample_insn_instructions (d : intel_pt_decoder)
    (htype : d.period_type = intel_pt_period_type.INTEL_PT_PERIOD_INSTRUCTIONS) :
    (intel_pt_sample_insn d).period_type = d.period_type ∧
    (intel_pt_sample_insn d).period = d.period ∧
    (intel_pt_sample_insn d).period_insn_cnt = 0 := by
  unfold intel_pt_sample_insn
  rw [htype]
  exact ⟨rfl, rfl, rfl⟩

/-- The end of `intel_pt_walk_insn` leaves the period fields alone. -/
theorem walk_insn_out_period (reset : Bool) (insn : intel_pt_insn) (d : intel_pt_decoder) :
    (intel_pt_walk_insn_out reset insn d).period_type = d.period_type ∧
    (intel_pt_walk_insn_out reset insn d).period = d.period ∧
    (intel_pt_walk_insn_out reset insn d).period_insn_cnt = d.period_insn_cnt := by
  unfold intel_pt_walk_insn_out
  cases reset <;> simp only [] <;> split_ifs <;> exact ⟨rfl, rfl, rfl⟩

/-- The loop guard of `intel_pt_walk_insn` leaves the period fields alone. -/
theorem walk_insn_uncond_period (insn : intel_pt_insn) (d : intel_pt_decoder) :
    (intel_pt_walk_insn_uncond insn d).2.2.period_type = d.period_type ∧
    (intel_pt_walk_insn_uncond insn d).2.2.period = d.period ∧
    (intel_pt_walk_insn_uncond insn d).2.2.period_insn_cnt = d.period_insn_cnt := by
  unfold intel_pt_walk_insn_uncond
  simp only []
  split_ifs <;> exact ⟨rfl, rfl, rfl⟩

/-- The period fields after a call of `intel_pt_walk_insn` in INSTRUCTIONS mode:
`period_insn_cnt` is 0 when the call has taken a sample, which it does when the walker
succeeds short of the stop address with its budget used up, and has advanced by the
reported count otherwise. -/
theorem walk_insn_period_fields (env : intel_pt_env) (d : intel_pt_decoder) (ip : Nat)
    (r : Int × intel_pt_insn × intel_pt_decoder)
    (htype : d.period_type = intel_pt_period_type.INTEL_PT_PERIOD_INSTRUCTIONS)
    (hr : intel_pt_walk_insn env d ip = some r) :
    r.2.2.period_type = d.period_type ∧ r.2.2.period = d.period ∧
    r.2.2.period_insn_cnt =
      if (walker_answer env d ip).err = 0 ∧ ¬ (ip ≠ 0 ∧ (walker_answer env d ip).ip = ip) ∧
          (intel_pt_next_sample d).1 ≠ 0 ∧
          (walker_answer env d ip).insn_cnt ≥ (intel_pt_next_sample d).1 then 0
      else (d.period_insn_cnt + (walker_answer env d ip).insn_cnt) % 2 ^ 64 := by
  unfold intel_pt_walk_insn at hr
  lift_lets at hr
  extract_lets d1 s max d2 res insn d3 at hr
  have hd1 : d1.period_type = d.period_type ∧ d1.period = d.period ∧
      d1.period_insn_cnt = d.period_insn_cnt ∧ d1.ip = d.ip := by
    have hx : (if d.mtc_insn = false then { d with mtc_insn := true } else d).period_type
          = d.period_type ∧
        (if d.mtc_insn = false then { d with mtc_insn := true } else d).period = d.period ∧
        (if d.mtc_insn = false then { d with mtc_insn := true } else d).period_insn_cnt
          = d.period_insn_cnt ∧
        (if d.mtc_insn = false then { d with mtc_insn := true } else d).ip = d.ip := by
      split_ifs <;> exact ⟨rfl, rfl, rfl, rfl⟩
    exact hx
  have hs : s = ((d.period + 2 ^ 64 - d.period_insn_cnt) % 2 ^ 64, d1) := by
    show intel_pt_next_sample d1 = _
    rw [next_sample_instructions d1 (hd1.1.trans htype), hd1.2.1, hd1.2.2.1]
  have hmax : max = (intel_pt_next_sample d).1 := by
    show s.1 = _
    rw [hs, next_sample_instructions d htype]
  have hd2 : d2 = d1 := by
    show s.2 = _
    rw [hs]
  have hres : res = walker_answer env d ip := by
    show env.walk_insn d2.ip ip max = _
    rw [hd2, hd1.2.2.2, hmax]
    rfl
  have hd3 : d3.period_type = d.period_type ∧ d3.period = d.period ∧
      d3.period_insn_cnt = (d.period_insn_cnt + res.insn_cnt) % 2 ^ 64 ∧ d3.ip = res.ip := by
    refine ⟨?_, ?_, ?_, rfl⟩
    · show d2.period_type = _
      rw [hd2]; exact hd1.1
    · show d2.period = _
      rw [hd2]; exact hd1.2.1
    · show (d2.period_insn_cnt + res.insn_cnt) % 2 ^ 64 = _
      rw [hd2, hd1.2.2.1]
  extract_lets d4 src d5 stacked at hr
  have hd4 : d4.period_type = d.period_type ∧ d4.period = d.period ∧
      d4.period_insn_cnt =
        if max ≠ 0 ∧ res.insn_cnt ≥ max then 0
        else (d.period_insn_cnt + res.insn_cnt) % 2 ^ 64 := by
    show (if max ≠ 0 ∧ res.insn_cnt ≥ max then intel_pt_sample_insn d3 else d3).period_type = _ ∧
      (if max ≠ 0 ∧ res.insn_cnt ≥ max then intel_pt_sample_insn d3 else d3).period = _ ∧
      (if max ≠ 0 ∧ res.insn_cnt ≥ max then intel_pt_sample_insn d3 else d3).period_insn_cnt = _
    have hsi := sample_insn_instructions d3 (hd3.1.trans htype)
    by_cases hc : max ≠ 0 ∧ res.insn_cnt ≥ max
    · rw [if_pos hc, if_pos hc]
      exact ⟨hsi.1.trans hd3.1, hsi.2.1.trans hd3.2.1, hsi.2.2⟩
    · rw [if_neg hc, if_neg hc]
      exact ⟨hd3.1, hd3.2.1, hd3.2.2.1⟩
  have hd5 : d5.period_type = d4.period_type ∧ d5.period = d4.period ∧
      d5.period_insn_cnt = d4.period_insn_cnt := ⟨rfl, rfl, rfl⟩
  have hst : ∀ e dd, stacked = some (e, dd) →
      dd.period_type = d4.period_type ∧ dd.period = d4.period ∧
      dd.period_insn_cnt = d4.period_insn_cnt := by
    intro e dd hs
    unfold stacked at hs
    split_ifs at hs
    · split at hs
      · exact absurd hs (by simp)
      · simp only [Option.some.injEq, Prod.mk.injEq] at hs
        rw [← hs.2]
        exact ⟨rfl, rfl, rfl⟩
    · simp only [Option.some.injEq, Prod.mk.injEq] at hs
      rw [← hs.2]
      exact ⟨rfl, rfl, rfl⟩
    · split at hs
      · exact absurd hs (by simp)
      · simp only [Option.some.injEq, Prod.mk.injEq] at hs
        rw [← hs.2]
        exact ⟨rfl, rfl, rfl⟩
    · simp only [Option.some.injEq, Prod.mk.injEq] at hs
      rw [← hs.2]
      exact ⟨rfl, rfl, rfl⟩
  clear_value stacked
  rw [← hres, ← hmax]
  have hip : d3.ip = res.ip := hd3.2.2.2
  have hgoal3 : ∀ x : intel_pt_decoder,
      (x.period_type = d3.period_type ∧ x.period = d3.period ∧
        x.period_insn_cnt = d3.period_insn_cnt) →
      (res.err ≠ 0 ∨ (ip ≠ 0 ∧ res.ip = ip)) →
      x.period_type = d.period_type ∧ x.period = d.period ∧
      x.period_insn_cnt =
        if res.err = 0 ∧ ¬ (ip ≠ 0 ∧ res.ip = ip) ∧ max ≠ 0 ∧ res.insn_cnt ≥ max then 0
        else (d.period_insn_cnt + res.insn_cnt) % 2 ^ 64 := by
    intro x hx hstop
    refine ⟨hx.1.trans hd3.1, hx.2.1.trans hd3.2.1, ?_⟩
    rw [hx.2.2, hd3.2.2.1, if_neg]
    intro hc
    rcases hstop with h | h
    · exact h hc.1
    · exact hc.2.1 h
  by_cases herr : res.err ≠ 0
  · rw [if_pos herr] at hr
    simp only [Option.some.injEq] at hr
    subst hr
    exact hgoal3 _ ⟨rfl, rfl, rfl⟩ (Or.inl herr)
  · rw [if_neg herr] at hr
    have herr0 : res.err = 0 := not_not.mp herr
    by_cases harr : ip ≠ 0 ∧ d3.ip = ip
    · rw [if_pos harr] at hr
      simp only [Option.some.injEq] at hr
      subst hr
      exact hgoal3 _ (walk_insn_out_period true insn d3) (Or.inr ⟨harr.1, hip ▸ harr.2⟩)
    · rw [if_neg harr] at hr
      have harr1 : ¬ (ip ≠ 0 ∧ res.ip = ip) := fun h => harr ⟨h.1, hip.trans h.2⟩
      have hgoal : ∀ x : intel_pt_decoder,
          (x.period_type = d4.period_type ∧ x.period = d4.period ∧
            x.period_insn_cnt = d4.period_insn_cnt) →
          x.period_type = d.period_type ∧ x.period = d.period ∧
          x.period_insn_cnt =
            if res.err = 0 ∧ ¬ (ip ≠ 0 ∧ res.ip = ip) ∧ max ≠ 0 ∧ res.insn_cnt ≥ max then 0
            else (d.period_insn_cnt + res.insn_cnt) % 2 ^ 64 := by
        intro x hx
        refine ⟨hx.1.trans hd4.1, hx.2.1.trans hd4.2.1, ?_⟩
        rw [hx.2.2, hd4.2.2]
        by_cases hc : max ≠ 0 ∧ res.insn_cnt ≥ max
        · rw [if_pos hc, if_pos ⟨herr0, harr1, hc.1, hc.2⟩]
        · rw [if_neg hc, if_neg (fun h => hc ⟨h.2.2.1, h.2.2.2⟩)]
      by_cases hnb : insn.branch = intel_pt_insn_branch.INTEL_PT_BR_NO_BRANCH
      · rw [if_pos hnb] at hr
        simp only [Option.some.injEq] at hr
        subst hr
        have ho := walk_insn_out_period true insn d5
        exact hgoal _ ⟨ho.1.trans hd5.1, ho.2.1.trans hd5.2.1, ho.2.2.trans hd5.2.2⟩
      · rw [if_neg hnb] at hr
        split at hr
        · exact absurd hr (by simp)
        · rename_i st e dd
          have hdd := hst e dd rfl
          simp only [] at hr
          split_ifs at hr
          · simp only [Option.some.injEq] at hr
            subst hr
            have ho := walk_insn_out_period true insn dd
            exact hgoal _ ⟨ho.1.trans hdd.1, ho.2.1.trans hdd.2.1, ho.2.2.trans hdd.2.2⟩
          · simp only [Option.some.injEq] at hr
            subst hr
            have hu := walk_insn_uncond_period insn dd
            have ho := walk_insn_out_period (intel_pt_walk_insn_uncond insn dd).2.1 insn
              (intel_pt_walk_insn_uncond insn dd).2.2
            exact hgoal _ ⟨ho.1.trans (hu.1.trans hdd.1), ho.2.1.trans (hu.2.1.trans hdd.2.1),
              ho.2.2.trans (hu.2.2.trans hdd.2.2)⟩
          · simp only [Option.some.injEq] at hr
            subst hr
            have ho := walk_insn_out_period true insn dd
            exact hgoal _ ⟨ho.1.trans hdd.1, ho.2.1.trans hdd.2.1, ho.2.2.trans hdd.2.2⟩

/-- C38, amended: in INSTRUCTIONS mode, with `period_insn_cnt < period` before a call of
`intel_pt_walk_insn` (so that the budget `max_insn_cnt = period - period_insn_cnt` is not
0), and a walker that reports at most `max_insn_cnt` instructions, and fewer than
`max_insn_cnt` when it fails or stops at the address it was given: after the call
`period_insn_cnt < period` again, so `period_insn_cnt <= period` always holds and
`intel_pt_next_sample` is `period - period_insn_cnt` without wrapping, and never 0. -/
theorem walk_insn_period_spec (env : intel_pt_env) (d : intel_pt_decoder) (ip : Nat)
    (r : Int × intel_pt_insn × intel_pt_decoder)
    (htype : d.period_type = intel_pt_period_type.INTEL_PT_PERIOD_INSTRUCTIONS)
    (hperiod : d.period < 2 ^ 64) (hcnt : d.period_insn_cnt < d.period)
    (hmax : (walker_answer env d ip).insn_cnt ≤ (intel_pt_next_sample d).1)
    (hstop : ((walker_answer env d ip).err ≠ 0 ∨
        (ip ≠ 0 ∧ (walker_answer env d ip).ip = ip)) →
      (walker_answer env d ip).insn_cnt < (intel_pt_next_sample d).1)
    (hr : intel_pt_walk_insn env d ip = some r) :
    (intel_pt_next_sample d).1 = d.period - d.period_insn_cnt ∧
    r.2.2.period_type = intel_pt_period_type.INTEL_PT_PERIOD_INSTRUCTIONS ∧
    r.2.2.period = d.period ∧
    r.2.2.period_insn_cnt < r.2.2.period ∧
    (intel_pt_next_sample r.2.2).1 = r.2.2.period - r.2.2.period_insn_cnt ∧
    (intel_pt_next_sample r.2.2).1 ≠ 0 := by
  have hns : (intel_pt_next_sample d).1 = d.period - d.period_insn_cnt := by
    rw [next_sample_instructions d htype]
    show (d.period + 2 ^ 64 - d.period_insn_cnt) % 2 ^ 64 = _
    have e : d.period + 2 ^ 64 - d.period_insn_cnt = (d.period - d.period_insn_cnt) + 2 ^ 64 := by
      omega
    rw [e, Nat.add_mod_right, Nat.mod_eq_of_lt (by omega)]
  obtain ⟨h1, h2, h3⟩ := walk_insn_period_fields env d ip r htype hr
  rw [hns] at hmax hstop h3
  have hlt : r.2.2.period_insn_cnt < r.2.2.period := by
    rw [h2, h3]
    split_ifs with hc
    · omega
    · have hn : (walker_answer env d ip).insn_cnt < d.period - d.period_insn_cnt := by
        by_cases he : (walker_answer env d ip).err ≠ 0
        · exact hstop (Or.inl he)
        · by_cases ha : ip ≠ 0 ∧ (walker_answer env d ip).ip = ip
          · exact hstop (Or.inr ha)
          · have hge : ¬ ((walker_answer env d ip).insn_cnt ≥ d.period - d.period_insn_cnt) :=
              fun hg => hc ⟨not_not.mp he, ha, by omega, hg⟩
            omega
      rw [Nat.mod_eq_of_lt (by omega)]
      omega
  have hns2 : (intel_pt_next_sample r.2.2).1 = r.2.2.period - r.2.2.period_insn_cnt := by
    rw [next_sample_instructions r.2.2 (h1.trans htype)]
    show (r.2.2.period + 2 ^ 64 - r.2.2.period_insn_cnt) % 2 ^ 64 = _
    have e : r.2.2.period + 2 ^ 64 - r.2.2.period_insn_cnt
        = (r.2.2.period - r.2.2.period_insn_cnt) + 2 ^ 64 := by omega
    rw [e, Nat.add_mod_right, Nat.mod_eq_of_lt (by rw [h2]; omega)]
  refine ⟨hns, h1.trans htype, h2, hlt, hns2, ?_⟩
  rw [hns2]
  omega

/-- C38, amended, at a walker that stops after one instruction, short of the stop
address: `period_insn_cnt` goes from 0 to 1, below the period 2. -/
theorem walk_insn_period_spec_witness :
    (intel_pt_walk_insn { walk_insn := fun ip _ _ => { insn_cnt := 1, ip := ip } }
        example_period_decoder 0x100).map (fun r => r.2.2.period_insn_cnt) = some 1 ∧
    ∀ r, intel_pt_walk_insn { walk_insn := fun ip _ _ => { insn_cnt := 1, ip := ip } }
        example_period_decoder 0x100 = some r →
      r.2.2.period_insn_cnt < r.2.2.period :=
  ⟨by decide, fun r hr =>
    (walk_insn_period_spec { walk_insn := fun ip _ _ => { insn_cnt := 1, ip := ip } }
      example_period_decoder 0x100 r rfl (by decide) (by decide) (by decide)
      (fun h => by
        rcases h with h | h
        · exact absurd rfl h
        · exact absurd h.2 (by decide))
      hr).2.2.2.1⟩

/-! ### A PSB split across two chunks of trace data -/

/-- The loop of `intel_pt_part_psb` returns the greatest length up to `n` at which the end
of the bytes is a start of the PSB, or 0 when there is none. -/
theorem part_psb_loop_spec (psb buf : List Nat) :
    ∀ n : Nat,
      intel_pt_part_psb_loop psb buf n ≤ n ∧
      (intel_pt_part_psb_loop psb buf n ≠ 0 →
        intel_pt_part_psb_loop psb buf n ≤ buf.length ∧
        buf.drop (buf.length - intel_pt_part_psb_loop psb buf n)
          = psb.take (intel_pt_part_psb_loop psb buf n)) ∧
      (∀ j, 1 ≤ j → j ≤ n → j ≤ buf.length → buf.drop (buf.length - j) = psb.take j →
        j ≤ intel_pt_part_psb_loop psb buf n) := by
  intro n
  induction n with
  | zero =>
    rw [intel_pt_part_psb_loop]
    exact ⟨le_refl 0, fun h => absurd rfl h, fun j h1 h2 _ _ => by omega⟩
  | succ i ih =>
    rw [intel_pt_part_psb_loop]
    by_cases h1 : i + 1 > buf.length
    · rw [if_pos h1]
      refine ⟨by omega, ih.2.1, ?_⟩
      intro j hj1 hj2 hj3 hj4
      exact ih.2.2 j hj1 (by omega) hj3 hj4
    · rw [if_neg h1]
      by_cases h2 : buf.drop (buf.length - (i + 1)) = psb.take (i + 1)
      · rw [if_pos h2]
        exact ⟨le_refl _, fun _ => ⟨by omega, h2⟩, fun j _ hj2 _ _ => hj2⟩
      · rw [if_neg h2]
        refine ⟨by omega, ih.2.1, ?_⟩
        intro j hj1 hj2 hj3 hj4
        rcases Nat.lt_or_ge j (i + 1) with h | h
        · exact ih.2.2 j hj1 (by omega) hj3 hj4
        · have : j = i + 1 := by omega
          rw [this] at hj4
          exact absurd hj4 h2

/-- For the PSB bytes: when a start of length `p` of the PSB ends with a start of length
`k`, the bytes that follow the shorter start begin with the bytes that follow the longer
one. -/
theorem psb_bytes_overlap :
    ∀ k, k < 16 → ∀ p, p < 16 → 1 ≤ k → k ≤ p →
      (psb_bytes.take p).drop (p - k) = psb_bytes.take k →
      (psb_bytes.drop k).take (16 - p) = psb_bytes.drop p := by
  intro k hk p hp h1 h2
  interval_cases k <;> interval_cases p <;> first | omega | decide

/-- The functions `intel_pt_get_data` and `intel_pt_get_next_data` leave `pos` alone. -/
theorem get_next_data_pos (d : intel_pt_decoder) : (intel_pt_get_next_data d).2.pos = d.pos := by
  unfold intel_pt_get_next_data
  split
  · unfold intel_pt_get_data
    simp only []
    split_ifs <;> rfl
  · rfl

/-- C34: the PSB bytes split across two chunks, with `k` of them (`1 <= k < 16`) at the
end of the current chunk `d.buf` and the others at the start of the next chunk `d1.buf`,
which `intel_pt_get_next_data` delivers: `intel_pt_part_psb` returns a `p` with
`k <= p < 16`, `intel_pt_rest_psb` accepts the next chunk for that `p` (it returns
`16 - p`, which is not 0), and `intel_pt_get_split_psb` returns 0 and leaves `buf` holding
the 16 bytes of a complete PSB, `pos` at the stream offset of the chunk boundary minus `p`,
and `next_buf` at the next chunk without its first `16 - p` bytes. -/
theorem split_psb_spec (env : intel_pt_env) (d d1 : intel_pt_decoder) (pre post : List Nat)
    (k : Nat) (hpsb : env.INTEL_PT_PSB_STR = psb_bytes) (hk1 : 1 ≤ k) (hk2 : k < 16)
    (hbuf : d.buf = pre ++ psb_bytes.take k)
    (hnext : intel_pt_get_next_data { d with pos := (d.pos + d.buf.length) % 2 ^ 64, buf := [] }
      = (0, d1))
    (hd1 : d1.buf = psb_bytes.drop k ++ post) :
    k ≤ intel_pt_part_psb env d ∧ intel_pt_part_psb env d < 16 ∧
    intel_pt_rest_psb env d1 (intel_pt_part_psb env d) = 16 - intel_pt_part_psb env d ∧
    intel_pt_rest_psb env d1 (intel_pt_part_psb env d) ≠ 0 ∧
    intel_pt_get_split_psb env d (intel_pt_part_psb env d) =
      (0,
        { d1 with
          pos := (d1.pos + 2 ^ 64 - intel_pt_part_psb env d) % 2 ^ 64
          next_buf := some (d1.buf.drop (16 - intel_pt_part_psb env d))
          buf := psb_bytes }) ∧
    d1.pos = (d.pos + d.buf.length) % 2 ^ 64 ∧ psb_bytes.length = 16 := by
  have hlen16 : psb_bytes.length = 16 := rfl
  have hspec := part_psb_loop_spec psb_bytes d.buf 15
  have hp : intel_pt_part_psb env d = intel_pt_part_psb_loop psb_bytes d.buf 15 := by
    unfold intel_pt_part_psb
    rw [hpsb]
    rfl
  have htk : (psb_bytes.take k).length = k := by
    rw [List.length_take, hlen16]
    omega
  have hblen : d.buf.length = pre.length + k := by
    rw [hbuf, List.length_append, htk]
  have hdropk : d.buf.drop (d.buf.length - k) = psb_bytes.take k := by
    rw [hblen, hbuf, Nat.add_sub_cancel, List.drop_left]
  have hkp : k ≤ intel_pt_part_psb_loop psb_bytes d.buf 15 :=
    hspec.2.2 k hk1 (by omega) (by omega) hdropk
  generalize intel_pt_part_psb_loop psb_bytes d.buf 15 = p at hspec hp hkp
  rw [hp]
  have hp15 : p ≤ 15 := hspec.1
  obtain ⟨hple, hdropp⟩ := hspec.2.1 (by omega)
  have hover : (psb_bytes.take p).drop (p - k) = psb_bytes.take k := by
    rw [← hdropp, List.drop_drop, ← hdropk]
    congr 1
    omega
  have hrest := psb_bytes_overlap k hk2 p (by omega) hk1 hkp hover
  have hdk : (psb_bytes.drop k).length = 16 - k := by
    rw [List.length_drop, hlen16]
  have hr : intel_pt_rest_psb env d1 p = 16 - p := by
    unfold intel_pt_rest_psb
    simp only [hpsb, hlen16]
    rw [if_neg]
    intro h
    rcases h with h | h
    · rw [hd1, List.length_append, hdk] at h
      omega
    · apply h
      rw [hd1, List.take_append_of_le_length (by rw [hdk]; omega)]
      exact hrest
  refine ⟨hkp, by omega, hr, by rw [hr]; omega, ?_, ?_, hlen16⟩
  · unfold intel_pt_get_split_psb
    simp only [hnext, ne_eq, not_true_eq_false, if_false, hr, hpsb]
    rw [if_neg (by omega)]
  · have := get_next_data_pos { d with pos := (d.pos + d.buf.length) % 2 ^ 64, buf := [] }
    rw [hnext] at this
    exact this

/-- C34 at an example: a chunk that ends with the first five bytes of a PSB, at stream
offset 100, and a next chunk that starts with the other eleven bytes and a PSBEND. -/
theorem split_psb_spec_witness :
    intel_pt_part_psb example_overlap_env
        { buf := [0, 0, 2, 0x82, 2, 0x82, 2], pos := 100,
          data := [{ buffer := { buf := psb_bytes.drop 5 ++ [2, 0x23], consecutive := true } }] }
      = 5 ∧
    intel_pt_get_split_psb example_overlap_env
        { buf := [0, 0, 2, 0x82, 2, 0x82, 2], pos := 100,
          data := [{ buffer := { buf := psb_bytes.drop 5 ++ [2, 0x23], consecutive := true } }] }
        5 =
      (0, { buf := psb_bytes, pos := 102, next_buf := some [2, 0x23] }) :=
  ⟨by decide,
    (split_psb_spec example_overlap_env
      { buf := [0, 0, 2, 0x82, 2, 0x82, 2], pos := 100,
        data := [{ buffer := { buf := psb_bytes.drop 5 ++ [2, 0x23], consecutive := true } }] }
      { buf := psb_bytes.drop 5 ++ [2, 0x23], pos := 107 }
      [0, 0] [2, 0x23] 5 rfl (by decide) (by decide) rfl rfl rfl).2.2.2.2.1⟩

/-! ### The loop guard on periodic branch targets -/

theorem stuck_sample_succ (j : Nat) : stuck_sample (j + 1) = stuck_sample j + j := by
  unfold stuck_sample
  have h : (j + 1) * (j + 1 - 1) = j * (j - 1) + j * 2 := by
    cases j with
    | zero => rfl
    | succ k =>
      simp only [Nat.add_sub_cancel]
      ring
  rw [h, Nat.add_mul_div_right _ _ (by decide : 0 < 2)]
  omega

theorem stuck_sample_mono (a b : Nat) (h : a ≤ b) : stuck_sample a ≤ stuck_sample b := by
  induction b with
  | zero =>
    have : a = 0 := by omega
    subst this
    exact le_refl _
  | succ b ih =>
    rw [stuck_sample_succ]
    by_cases hab : a = b + 1
    · subst hab
      rw [stuck_sample_succ]
    · have := ih (by omega)
      omega

theorem stuck_sample_lt (a b : Nat) (ha : 1 ≤ a) (h : a < b) :
    stuck_sample a < stuck_sample b := by
  have h1 := stuck_sample_mono (a + 1) b (by omega)
  rw [stuck_sample_succ] at h1
  omega

/-- The first steps of `intel_pt_walk_insn` leave `stuck_ip_prd` and `stuck_ip_cnt`
alone. -/
theorem walk_insn_sample_stuck (d : intel_pt_decoder) :
    (intel_pt_next_sample
      (if d.mtc_insn = false then { d with mtc_insn := true } else d)).2.stuck_ip_prd =
        d.stuck_ip_prd ∧
    (intel_pt_next_sample
      (if d.mtc_insn = false then { d with mtc_insn := true } else d)).2.stuck_ip_cnt =
        d.stuck_ip_cnt := by
  have hf := next_sample_frame (if d.mtc_insn = false then { d with mtc_insn := true } else d)
  constructor <;> (rcases hf with hf | ⟨m, hf⟩ <;> rw [hf] <;> split_ifs <;> rfl)

theorem sample_insn_stuck (d : intel_pt_decoder) :
    (intel_pt_sample_insn d).stuck_ip_prd = d.stuck_ip_prd ∧
    (intel_pt_sample_insn d).stuck_ip_cnt = d.stuck_ip_cnt := by
  unfold intel_pt_sample_insn
  constructor <;> (split <;> rfl)

theorem walk_insn_out_stuck (reset : Bool) (insn : intel_pt_insn) (d : intel_pt_decoder) :
    (intel_pt_walk_insn_out reset insn d).stuck_ip_prd = d.stuck_ip_prd ∧
    (intel_pt_walk_insn_out reset insn d).stuck_ip_cnt = d.stuck_ip_cnt := by
  unfold intel_pt_walk_insn_out
  constructor <;> cases reset <;> simp only [] <;> split_ifs <;> rfl

/-- What the loop guard `intel_pt_walk_insn_uncond` does to `stuck_ip`, `stuck_ip_prd` and
`stuck_ip_cnt`, by the value of `no_progress` before the call. -/
theorem walk_insn_uncond_stuck (insn : intel_pt_insn) (d : intel_pt_decoder) :
    (d.no_progress = 1 →
      (intel_pt_walk_insn_uncond insn d).2.1 = false ∧
      (intel_pt_walk_insn_uncond insn d).2.2.stuck_ip =
        add_u64_int d.ip (add_int insn.length insn.rel) ∧
      (intel_pt_walk_insn_uncond insn d).2.2.stuck_ip_prd = 1 ∧
      (intel_pt_walk_insn_uncond insn d).2.2.stuck_ip_cnt = 1) ∧
    (2 ≤ d.no_progress →
      (10000 < d.no_progress ∨ add_u64_int d.ip (add_int insn.length insn.rel) = d.stuck_ip) →
      (intel_pt_walk_insn_uncond insn d).1 = -ELOOP) ∧
    (2 ≤ d.no_progress →
      ¬ (10000 < d.no_progress ∨ add_u64_int d.ip (add_int insn.length insn.rel) = d.stuck_ip) →
      d.stuck_ip_cnt = 1 →
      (intel_pt_walk_insn_uncond insn d).2.1 = false ∧
      (intel_pt_walk_insn_uncond insn d).2.2.stuck_ip =
        add_u64_int d.ip (add_int insn.length insn.rel) ∧
      (intel_pt_walk_insn_uncond insn d).2.2.stuck_ip_prd = d.stuck_ip_prd + 1 ∧
      (intel_pt_walk_insn_uncond insn d).2.2.stuck_ip_cnt = d.stuck_ip_prd + 1) ∧
    (2 ≤ d.no_progress →
      ¬ (10000 < d.no_progress ∨ add_u64_int d.ip (add_int insn.length insn.rel) = d.stuck_ip) →
      d.stuck_ip_cnt ≠ 1 →
      (intel_pt_walk_insn_uncond insn d).2.1 = false ∧
      (intel_pt_walk_insn_uncond insn d).2.2.stuck_ip = d.stuck_ip ∧
      (intel_pt_walk_insn_uncond insn d).2.2.stuck_ip_prd = d.stuck_ip_prd ∧
      (intel_pt_walk_insn_uncond insn d).2.2.stuck_ip_cnt = d.stuck_ip_cnt - 1) := by
  unfold intel_pt_walk_insn_uncond INTEL_PT_MAX_LOOPS
  simp only []
  refine ⟨?_, ?_, ?_, ?_⟩
  · intro h
    rw [if_pos (by omega), if_pos h]
    exact ⟨rfl, rfl, rfl, rfl⟩
  · intro h hc
    rw [if_pos (by omega), if_neg (by omega), if_pos (by omega)]
  · intro h hc he
    rw [if_pos (by omega), if_neg (by omega), if_neg (by omega), if_pos (by omega)]
    exact ⟨rfl, rfl, rfl, rfl⟩
  · intro h hc he
    rw [if_pos (by omega), if_neg (by omega), if_neg (by omega), if_neg (by omega)]
    exact ⟨rfl, rfl, rfl, rfl⟩

/-- A run of calls of `intel_pt_walk_insn` contains its shorter runs. -/
theorem walk_insn_run_le (env : intel_pt_env) (ip : Nat) (d0 : intel_pt_decoder) (n : Nat) :
    ∀ dn, walk_insn_run env ip n d0 = some dn →
      ∀ m, m ≤ n → ∃ dm, walk_insn_run env ip m d0 = some dm := by
  induction n with
  | zero =>
    intro dn h m hm
    have : m = 0 := by omega
    subst this
    exact ⟨dn, h⟩
  | succ n ih =>
    intro dn h m hm
    by_cases hmn : m = n + 1
    · subst hmn
      exact ⟨dn, h⟩
    · obtain ⟨d1, _, h1, _⟩ := walk_insn_run_succ env ip n d0 dn h
      exact ih d1 h1 m (by omega)

/-! ### The type of the record during synchronisation -/

theorem bad_packet_type (d : intel_pt_decoder) :
    (intel_pt_bad_packet d).2.state.type = d.state.type := by
  unfold intel_pt_bad_packet
  simp only []
  split_ifs <;> rfl

theorem get_data_type (d : intel_pt_decoder) :
    (intel_pt_get_data d).2.state.type = d.state.type := by
  unfold intel_pt_get_data
  simp only []
  split_ifs <;> rfl

theorem get_next_data_type (d : intel_pt_decoder) :
    (intel_pt_get_next_data d).2.state.type = d.state.type := by
  unfold intel_pt_get_next_data
  split
  · exact get_data_type d
  · rfl

theorem get_split_packet_type (env : intel_pt_env) (d : intel_pt_decoder) :
    (intel_pt_get_split_packet env d).2.state.type = d.state.type := by
  unfold intel_pt_get_split_packet
  simp only []
  split_ifs
  all_goals first
    | exact get_data_type d
    | exact (bad_packet_type _).trans (get_data_type d)

theorem get_next_packet_loop_type (env : intel_pt_env) :
    ∀ (fuel : Nat) (d : intel_pt_decoder) (r : Int × intel_pt_decoder),
      intel_pt_get_next_packet_loop env fuel d = some r → r.2.state.type = d.state.type := by
  intro fuel
  induction fuel with
  | zero =>
    intro d r hr
    rw [intel_pt_get_next_packet_loop] at hr
    exact absurd hr (by simp)
  | succ fuel ih =>
    intro d r hr
    rw [intel_pt_get_next_packet_loop] at hr
    split_ifs at hr with hc
    lift_lets at hr
    extract_lets d1 r1 d2 p d3 split r2 src d4 at hr
    have h1 : d1.state.type = d.state.type := rfl
    have h2 : r1.2.state.type = d.state.type := by
      show (if d1.buf.length = 0 then intel_pt_get_next_data d1 else (0, d1)).2.state.type = _
      split_ifs
      · exact (get_next_data_type d1).trans h1
      · exact h1
    have h3 : d3.state.type = d.state.type := h2
    have h4 : r2.2.state.type = d.state.type := by
      show (if split = true then intel_pt_get_split_packet env d3 else (p.1, d3)).2.state.type = _
      split_ifs
      · exact (get_split_packet_type env d3).trans h3
      · exact h3
    have h5 : d4.state.type = d.state.type := h4
    split_ifs at hr
    · simp only [Option.some.injEq] at hr; subst hr; exact h2
    · simp only [Option.some.injEq] at hr; subst hr; exact h4
    · simp only [Option.some.injEq] at hr; subst hr; exact (bad_packet_type _).trans h4
    · exact (ih _ r hr).trans h5
    · simp only [Option.some.injEq] at hr; subst hr; exact h5

theorem get_next_packet_type (env : intel_pt_env) (fuel : Nat) (d : intel_pt_decoder)
    (r : Int × intel_pt_decoder)
    (hr : intel_pt_get_next_packet env fuel d = some r) : r.2.state.type = d.state.type := by
  unfold intel_pt_get_next_packet at hr
  have h := get_next_packet_loop_type env fuel _ r hr
  exact h

theorem calc_cbr_type (env : intel_pt_env) (d : intel_pt_decoder) :
    (intel_pt_calc_cbr env d).state.type = d.state.type := by
  unfold intel_pt_calc_cbr
  simp only []
  split_ifs <;> rfl

theorem calc_cyc_timestamp_type (env : intel_pt_env) (d : intel_pt_decoder) :
    (intel_pt_calc_cyc_timestamp env d).state.type = d.state.type := by
  unfold intel_pt_calc_cyc_timestamp
  simp only []
  split_ifs <;> rfl

theorem calc_tsc_timestamp_type (d : intel_pt_decoder) (la : Option Nat) :
    (intel_pt_calc_tsc_timestamp d la).state.type = d.state.type := by
  unfold intel_pt_calc_tsc_timestamp intel_pt_calc_cyc_to_tsc
  simp only []
  split_ifs <;> first | rfl | (split <;> rfl)

theorem calc_mtc_timestamp_type (d : intel_pt_decoder) (la : Option Nat) :
    (intel_pt_calc_mtc_timestamp d la).state.type = d.state.type := by
  unfold intel_pt_calc_mtc_timestamp intel_pt_calc_cyc_to_tsc
  simp only []
  split_ifs <;> first | rfl | (split <;> rfl)

theorem calc_tma_type (d : intel_pt_decoder) :
    (intel_pt_calc_tma d).state.type = d.state.type := by
  unfold intel_pt_calc_tma
  simp only []
  split_ifs <;> rfl

theorem exec_mode_type (d : intel_pt_decoder) (e : Int) :
    ({ d with exec_mode := e } : intel_pt_decoder).state.type = d.state.type := rfl

theorem exec_mode_packet (d : intel_pt_decoder) (e : Int) :
    ({ d with exec_mode := e } : intel_pt_decoder).packet = d.packet := rfl

theorem walk_sync_timing_type (env : intel_pt_env) (d d1 : intel_pt_decoder)
    (hr : intel_pt_walk_sync_timing env d = some d1) : d1.state.type = d.state.type := by
  unfold intel_pt_walk_sync_timing at hr
  split at hr
  · simp only [Option.some.injEq] at hr
    subst hr
    exact calc_mtc_timestamp_type d _
  · simp only [Option.some.injEq] at hr
    subst hr
    exact calc_tsc_timestamp_type d _
  · simp only [Option.some.injEq] at hr
    subst hr
    exact calc_tma_type d
  · simp only [Option.some.injEq] at hr
    subst hr
    exact calc_cyc_timestamp_type env d
  · simp only [Option.some.injEq] at hr
    subst hr
    exact calc_cbr_type env d
  · simp only [Option.some.injEq] at hr
    subst hr
    rfl
  · simp only [Option.some.injEq] at hr
    subst hr
    exact exec_mode_type d _
  · simp only [Option.some.injEq] at hr
    subst hr
    rfl
  · exact absurd hr (by simp)

/-- The `switch` of `intel_pt_walk_psb` leaves the type of the record alone, and returns 0
only for a PSBEND packet, which it leaves in place. -/
theorem walk_psb_packet_type (env : intel_pt_env) (d : intel_pt_decoder) :
    (intel_pt_walk_psb_packet env d).2.state.type = d.state.type ∧
    ((intel_pt_walk_psb_packet env d).1 = some 0 →
      (intel_pt_walk_psb_packet env d).2.packet.type = intel_pt_pkt_type.INTEL_PT_PSBEND) := by
  unfold intel_pt_walk_psb_packet
  split
  · rename_i d1 hs
    exact ⟨walk_sync_timing_type env d d1 hs, fun h => absurd h (by simp)⟩
  · have hno : ¬ ((-ENOENT : Int) = 0) := by decide
    have hsys : ¬ ((-ENOSYS : Int) = 0) := by decide
    have hovf : ¬ ((-EOVERFLOW : Int) = 0) := by decide
    split
    · exact ⟨rfl, fun h => absurd (Option.some.inj h) hno⟩
    · exact ⟨rfl, fun h => absurd (Option.some.inj h) hno⟩
    · exact ⟨rfl, fun h => absurd (Option.some.inj h) hno⟩
    · refine ⟨?_, fun h => absurd h (by simp)⟩
      simp only []
      split_ifs <;> rfl
    · exact ⟨rfl, fun h => absurd (Option.some.inj h) hno⟩
    · exact ⟨rfl, fun h => absurd (Option.some.inj h) hno⟩
    · exact ⟨rfl, fun h => absurd (Option.some.inj h) hsys⟩
    · exact ⟨rfl, fun h => absurd (Option.some.inj h) hovf⟩
    · rename_i hp
      exact ⟨rfl, fun _ => hp⟩
    · exact ⟨rfl, fun h => absurd h (by simp)⟩

theorem walk_psb_type (env : intel_pt_env) :
    ∀ (fuel : Nat) (d : intel_pt_decoder) (r : Int × intel_pt_decoder),
      intel_pt_walk_psb env fuel d = some r →
      r.2.state.type = d.state.type ∧
      (r.1 = 0 → r.2.packet.type = intel_pt_pkt_type.INTEL_PT_PSBEND) := by
  intro fuel
  induction fuel with
  | zero =>
    intro d r hr
    rw [intel_pt_walk_psb] at hr
    exact absurd hr (by simp)
  | succ fuel ih =>
    intro d r hr
    rw [intel_pt_walk_psb] at hr
    split at hr
    · exact absurd hr (by simp)
    · rename_i e1 d1 hp
      have h1 : d1.state.type = d.state.type := get_next_packet_type env fuel d _ hp
      split_ifs at hr with he
      · simp only [Option.some.injEq] at hr
        subst hr
        exact ⟨h1, fun h => absurd h he⟩
      · have h2 := walk_psb_packet_type env d1
        split at hr
        · rename_i e2 d2 hc
          rw [hc] at h2
          simp only [Option.some.injEq] at hr
          subst hr
          exact ⟨h2.1.trans h1, fun h => h2.2 (by rw [show e2 = 0 from h])⟩
        · rename_i d2 hc
          rw [hc] at h2
          obtain ⟨a, b⟩ := ih _ r hr
          exact ⟨a.trans (h2.1.trans h1), b⟩

theorem ite_some_zero (p : Prop) [Decidable p]
    (h : (if p then some (0 : Int) else none) = some 0) : p := by
  by_contra hn
  rw [if_neg hn] at h
  exact absurd h (by simp)

/-- Taking the address from the packet leaves the type of the record and the packet
alone. -/
theorem walk_to_ip_set_ip (d : intel_pt_decoder) :
    (if intel_pt_have_ip d then intel_pt_set_ip d else d).state.type = d.state.type ∧
    (if intel_pt_have_ip d then intel_pt_set_ip d else d).packet = d.packet := by
  split_ifs <;> exact ⟨rfl, rfl⟩

/-- The `switch` of `intel_pt_walk_to_ip`: when the loop goes on, the type of the record is
as before; when it returns 0, `ip` is not 0, and either the packet is a TIP, TIP.PGE,
TIP.PGD or FUP and the type of the record is as before, or the last packet fetched is the
PSBEND of a PSB+ and the type of the record is 0. -/
theorem walk_to_ip_packet_type (env : intel_pt_env) (fuel : Nat) (d : intel_pt_decoder)
    (r : Option Int × intel_pt_decoder)
    (hr : intel_pt_walk_to_ip_packet env fuel d = some r) :
    (r.1 = none → r.2.state.type = d.state.type) ∧
    (r.1 = some 0 → r.2.ip ≠ 0 ∧
      (((r.2.packet.type = intel_pt_pkt_type.INTEL_PT_TIP ∨
          r.2.packet.type = intel_pt_pkt_type.INTEL_PT_TIP_PGE ∨
          r.2.packet.type = intel_pt_pkt_type.INTEL_PT_TIP_PGD ∨
          r.2.packet.type = intel_pt_pkt_type.INTEL_PT_FUP) ∧
          r.2.state.type = d.state.type) ∨
        (r.2.packet.type = intel_pt_pkt_type.INTEL_PT_PSBEND ∧ r.2.state.type = 0))) := by
  have hsys : ¬ ((-ENOSYS : Int) = 0) := by decide
  have hovf : ¬ ((-EOVERFLOW : Int) = 0) := by decide
  unfold intel_pt_walk_to_ip_packet at hr
  split at hr
  · rename_i d1 hs
    simp only [Option.some.injEq] at hr
    subst hr
    exact ⟨fun _ => walk_sync_timing_type env d d1 hs, fun h => absurd h (by simp)⟩
  · split at hr
    · rename_i hp
      simp only [Option.some.injEq] at hr
      subst hr
      simp only []
      refine ⟨fun _ => (walk_to_ip_set_ip _).1, fun h0 => ⟨ite_some_zero _ h0,
        Or.inl ⟨Or.inr (Or.inr (Or.inl ?_)), (walk_to_ip_set_ip _).1⟩⟩⟩
      rw [(walk_to_ip_set_ip _).2]
      exact hp
    · rename_i hp
      simp only [Option.some.injEq] at hr
      subst hr
      simp only []
      refine ⟨fun _ => (walk_to_ip_set_ip _).1, fun h0 => ⟨ite_some_zero _ h0,
        Or.inl ⟨Or.inr (Or.inl ?_), (walk_to_ip_set_ip _).1⟩⟩⟩
      rw [(walk_to_ip_set_ip _).2]
      exact hp
    · rename_i hp
      simp only [Option.some.injEq] at hr
      subst hr
      simp only []
      refine ⟨fun _ => (walk_to_ip_set_ip _).1, fun h0 => ⟨ite_some_zero _ h0,
        Or.inl ⟨Or.inl ?_, (walk_to_ip_set_ip _).1⟩⟩⟩
      rw [(walk_to_ip_set_ip _).2]
      exact hp
    · rename_i hp
      simp only [Option.some.injEq] at hr
      subst hr
      simp only []
      refine ⟨fun _ => (walk_to_ip_set_ip _).1, fun h0 => ⟨ite_some_zero _ h0,
        Or.inl ⟨Or.inr (Or.inr (Or.inr ?_)), (walk_to_ip_set_ip _).1⟩⟩⟩
      rw [(walk_to_ip_set_ip _).2]
      exact hp
    · simp only [Option.some.injEq] at hr
      subst hr
      exact ⟨fun h => absurd h (by simp), fun h => absurd (Option.some.inj h) hovf⟩
    · simp only [Option.some.injEq] at hr
      subst hr
      exact ⟨fun h => absurd h (by simp), fun h => absurd (Option.some.inj h) hsys⟩
    · simp only [Option.some.injEq] at hr
      subst hr
      exact ⟨fun _ => rfl, fun h => absurd h (by simp)⟩
    · split at hr
      · exact absurd hr (by simp)
      · rename_i stack hcs
        split at hr
        · exact absurd hr (by simp)
        · rename_i e1 d1 hp
          have ht : d1.state.type = d.state.type := (walk_psb_type env fuel _ (e1, d1) hp).1
          have hend : e1 = 0 → d1.packet.type = intel_pt_pkt_type.INTEL_PT_PSBEND :=
            (walk_psb_type env fuel _ (e1, d1) hp).2
          by_cases he : e1 ≠ 0
          · rw [if_pos he] at hr
            simp only [Option.some.injEq] at hr
            subst hr
            exact ⟨fun h => absurd h (by simp), fun h => absurd (Option.some.inj h) he⟩
          · rw [if_neg he] at hr
            by_cases hip : d1.ip ≠ 0
            · rw [if_pos hip] at hr
              simp only [Option.some.injEq] at hr
              subst hr
              exact ⟨fun h => absurd h (by simp),
                fun _ => ⟨hip, Or.inr ⟨hend (not_not.mp he), rfl⟩⟩⟩
            · rw [if_neg hip] at hr
              simp only [Option.some.injEq] at hr
              subst hr
              exact ⟨fun _ => ht, fun h => absurd h (by simp)⟩
    · simp only [Option.some.injEq] at hr
      subst hr
      exact ⟨fun _ => rfl, fun h => absurd h (by simp)⟩

/-- When `intel_pt_walk_to_ip` returns 0, `ip` is not 0, and either the last packet is a
TIP, TIP.PGE, TIP.PGD or FUP and the type of the record is as before the call, or the last
packet is the PSBEND of a PSB+ and the type of the record is 0. -/
theorem walk_to_ip_type (env : intel_pt_env) :
    ∀ (fuel : Nat) (d d1 : intel_pt_decoder),
      intel_pt_walk_to_ip env fuel d = some (0, d1) →
      d1.ip ≠ 0 ∧
      (((d1.packet.type = intel_pt_pkt_type.INTEL_PT_TIP ∨
          d1.packet.type = intel_pt_pkt_type.INTEL_PT_TIP_PGE ∨
          d1.packet.type = intel_pt_pkt_type.INTEL_PT_TIP_PGD ∨
          d1.packet.type = intel_pt_pkt_type.INTEL_PT_FUP) ∧
          d1.state.type = d.state.type) ∨
        (d1.packet.type = intel_pt_pkt_type.INTEL_PT_PSBEND ∧ d1.state.type = 0)) := by
  intro fuel
  induction fuel with
  | zero =>
    intro d d1 hr
    rw [intel_pt_walk_to_ip] at hr
    exact absurd hr (by simp)
  | succ fuel ih =>
    intro d d1 hr
    rw [intel_pt_walk_to_ip] at hr
    split at hr
    · exact absurd hr (by simp)
    · rename_i e1 dA hp
      have h1 : dA.state.type = d.state.type := get_next_packet_type env fuel d (e1, dA) hp
      by_cases he : e1 ≠ 0
      · rw [if_pos he] at hr
        simp only [Option.some.injEq, Prod.mk.injEq] at hr
        exact absurd hr.1 he
      · rw [if_neg he] at hr
        split at hr
        · exact absurd hr (by simp)
        · rename_i e2 dB hc
          simp only [Option.some.injEq, Prod.mk.injEq] at hr
          obtain ⟨h0, hd⟩ := hr
          subst hd
          subst h0
          obtain ⟨hip, hcl⟩ := (walk_to_ip_packet_type env fuel dA _ hc).2 rfl
          refine ⟨hip, ?_⟩
          rcases hcl with ⟨a, b⟩ | ⟨a, b⟩
          · exact Or.inl ⟨a, b.trans h1⟩
          · exact Or.inr ⟨a, b⟩
        · rename_i dB hc
          have h2 : dB.state.type = dA.state.type :=
            (walk_to_ip_packet_type env fuel dA _ hc).1 rfl
          obtain ⟨hip, hcl⟩ := ih dB d1 hr
          refine ⟨hip, ?_⟩
          rcases hcl with ⟨a, b⟩ | ⟨a, b⟩
          · exact Or.inl ⟨a, b.trans (h2.trans h1)⟩
          · exact Or.inr ⟨a, b⟩

/-- A successful `intel_pt_sync_ip`: the record has `from_ip = 0` and `to_ip` the address
found, which is not 0, the state is IN_SYNC, and the type of the record is as before the
call when a TIP, TIP.PGE, TIP.PGD or FUP packet supplied the address, and 0 when a PSB+
did. -/
theorem sync_ip_type (env : intel_pt_env) (fuel : Nat) (d d1 : intel_pt_decoder)
    (hr : intel_pt_sync_ip env fuel d = some (0, d1)) :
    d1.state.from_ip = 0 ∧ d1.state.to_ip = d1.ip ∧ d1.ip ≠ 0 ∧
    d1.pkt_state = intel_pt_pkt_state.INTEL_PT_STATE_IN_SYNC ∧ d1.overflow = false ∧
    (((d1.packet.type = intel_pt_pkt_type.INTEL_PT_TIP ∨
        d1.packet.type = intel_pt_pkt_type.INTEL_PT_TIP_PGE ∨
        d1.packet.type = intel_pt_pkt_type.INTEL_PT_TIP_PGD ∨
        d1.packet.type = intel_pt_pkt_type.INTEL_PT_FUP) ∧
        d1.state.type = d.state.type) ∨
      (d1.packet.type = intel_pt_pkt_type.INTEL_PT_PSBEND ∧ d1.state.type = 0)) := by
  unfold intel_pt_sync_ip at hr
  split at hr
  · exact absurd hr (by simp)
  · rename_i e1 dA hw
    by_cases he : e1 ≠ 0
    · rw [if_pos he] at hr
      simp only [Option.some.injEq, Prod.mk.injEq] at hr
      exact absurd hr.1 he
    · rw [if_neg he] at hr
      have he0 : e1 = 0 := not_not.mp he
      subst he0
      obtain ⟨hip, hcl⟩ := walk_to_ip_type env fuel _ dA hw
      simp only [Option.some.injEq, Prod.mk.injEq, true_and] at hr
      subst hr
      exact ⟨rfl, rfl, hip, rfl, rfl, hcl⟩

theorem get_split_psb_type (env : intel_pt_env) (d : intel_pt_decoder) (part_psb : Nat) :
    (intel_pt_get_split_psb env d part_psb).2.state.type = d.state.type := by
  have h1 := get_next_data_type
    { d with pos := (d.pos + d.buf.length) % 2 ^ 64, buf := [] }
  unfold intel_pt_get_split_psb
  simp only []
  split_ifs <;> exact h1

theorem scan_for_psb_type (env : intel_pt_env) :
    ∀ (fuel : Nat) (d : intel_pt_decoder) (r : Int × intel_pt_decoder),
      intel_pt_scan_for_psb env fuel d = some r → r.2.state.type = d.state.type := by
  intro fuel
  induction fuel with
  | zero =>
    intro d r hr
    rw [intel_pt_scan_for_psb] at hr
    exact absurd hr (by simp)
  | succ fuel ih =>
    intro d r hr
    rw [intel_pt_scan_for_psb] at hr
    have h1 : (if d.buf.length = 0 then intel_pt_get_next_data d else (0, d)).2.state.type =
        d.state.type := by
      split_ifs
      · exact get_next_data_type d
      · rfl
    generalize (if d.buf.length = 0 then intel_pt_get_next_data d else (0, d)) = q at hr h1
    by_cases hq : q.1 ≠ 0
    · rw [if_pos hq] at hr
      simp only [Option.some.injEq] at hr
      subst hr
      exact h1
    · rw [if_neg hq] at hr
      cases hm : memmem env.INTEL_PT_PSB_STR q.2.buf with
      | none =>
        rw [hm] at hr
        simp only [] at hr
        by_cases hp : intel_pt_part_psb env q.2 ≠ 0
        · rw [if_pos hp] at hr
          have h2 : (intel_pt_get_split_psb env q.2 (intel_pt_part_psb env q.2)).2.state.type =
              q.2.state.type := get_split_psb_type env q.2 _
          generalize intel_pt_get_split_psb env q.2 (intel_pt_part_psb env q.2) = q2 at hr h2
          by_cases hq2 : q2.1 ≠ 0
          · rw [if_pos hq2] at hr
            simp only [Option.some.injEq] at hr
            subst hr
            exact h2.trans h1
          · rw [if_neg hq2] at hr
            exact (ih _ r hr).trans (h2.trans h1)
        · rw [if_neg hp] at hr
          have h3 := ih _ r hr
          exact h3.trans h1
      | some next =>
        rw [hm] at hr
        simp only [] at hr
        have h3 := get_next_packet_type env fuel _ r hr
        exact h3.trans h1

/-- When `intel_pt_sync` finds a PSB and no address in the PSB+ that follows, it goes on
as `intel_pt_sync_ip`, with the type of the record as before. -/
theorem sync_falls_to_sync_ip (env : intel_pt_env) (fuel : Nat)
    (d da db : intel_pt_decoder) (stack : intel_pt_stack)
    (hcs : intel_pt_clear_stack d.stack = some stack)
    (hscan : intel_pt_scan_for_psb env fuel
      { d with
        pge := false
        continuous_period := false
        have_last_ip := false
        last_ip := 0
        ip := 0
        stack := stack } = some (0, da))
    (hpsb : intel_pt_walk_psb env fuel
      { da with
        have_last_ip := true
        pkt_state := intel_pt_pkt_state.INTEL_PT_STATE_NO_IP } = some (0, db))
    (hip : db.ip = 0) :
    intel_pt_sync env fuel d = intel_pt_sync_ip env fuel db ∧
    db.state.type = d.state.type := by
  have h1a := scan_for_psb_type env fuel _ (0, da) hscan
  have h1 : da.state.type = d.state.type := h1a
  have h2a := (walk_psb_type env fuel _ (0, db) hpsb).1
  have h2 : db.state.type = da.state.type := h2a
  refine ⟨?_, h2.trans h1⟩
  unfold intel_pt_sync
  rw [hcs]
  simp only [hscan, hpsb, ne_eq, not_true_eq_false, if_false, hip]

/-- The end of `intel_pt_decode` after a result 0: the record keeps its type and its
addresses, and its `err` is 0. -/
theorem decode_publish_ok (d : intel_pt_decoder) :
    (intel_pt_decode_publish 0 d).state.type = d.state.type ∧
    (intel_pt_decode_publish 0 d).state.from_ip = d.state.from_ip ∧
    (intel_pt_decode_publish 0 d).state.to_ip = d.state.to_ip ∧
    (intel_pt_decode_publish 0 d).state.flags = d.state.flags ∧
    (intel_pt_decode_publish 0 d).state.err = 0 ∧
    (intel_pt_decode_publish 0 d).pkt_state = d.pkt_state ∧
    (intel_pt_decode_publish 0 d).ip = d.ip := by
  unfold intel_pt_decode_publish
  simp only [ne_eq, not_true_eq_false, if_false]
  split_ifs <;> exact ⟨rfl, rfl, rfl, rfl, rfl, rfl, rfl⟩

/-- A body of the loop of `intel_pt_decode` that gives 0 ends the loop. -/
theorem decode_of_step_ok (env : intel_pt_env) (fuel : Nat) (d d1 : intel_pt_decoder)
    (h : intel_pt_decode_step env fuel d = some (0, d1)) :
    intel_pt_decode env (fuel + 1) d = some (intel_pt_decode_publish 0 d1) := by
  unfold intel_pt_decode
  rw [intel_pt_decode_loop, h]
  have hne : ¬ ((0 : Int) = -ENOLINK) := by decide
  simp only [if_neg hne]

/-- C31, as stated, fails: a decoder in state NO_IP in front of a TIP packet with the
address 0x600. `intel_pt_decode` runs `intel_pt_sync_ip`, which succeeds on the TIP, and
the record has `from_ip = 0` and `to_ip = 0x600`, but its type is `INTEL_PT_BRANCH`, as
`intel_pt_decode` has set it, and not 0. -/
theorem sync_ip_type_counterexample :
    (intel_pt_decode example_tip_env 3 example_no_ip_decoder).map
        (fun x => (x.state.type, x.state.from_ip, x.state.to_ip, x.state.err, x.pkt_state)) =
      some (INTEL_PT_BRANCH, 0, 0x600, 0, intel_pt_pkt_state.INTEL_PT_STATE_IN_SYNC) ∧
    INTEL_PT_BRANCH ≠ 0 := by
  decide

/-- C31, amended: `intel_pt_decode` runs `intel_pt_sync_ip` when it is entered in state
NO_IP (after resetting `have_last_ip`, `last_ip` and `ip`) or ERR_RESYNC, and in state
NO_PSB when `intel_pt_sync` finds a PSB and no address in the PSB+ that follows; in each
case the type of the record is `INTEL_PT_BRANCH` when `intel_pt_sync_ip` starts. When
`intel_pt_sync_ip` succeeds, `intel_pt_decode` publishes a record with `err = 0`,
`from_ip = 0` and `to_ip` the address found, which is not 0, in state IN_SYNC; the type
of the record is 0 when a PSB+ supplied the address, and `INTEL_PT_BRANCH` when a TIP,
TIP.PGE, TIP.PGD or FUP packet did. -/
theorem sync_ip_record_spec (env : intel_pt_env) (fuel : Nat) (d : intel_pt_decoder) :
    (d.pkt_state = intel_pt_pkt_state.INTEL_PT_STATE_NO_IP →
      intel_pt_decode_step env fuel d =
        intel_pt_sync_ip env fuel
          { d with
            state := { d.state with type := INTEL_PT_BRANCH, flags := 0 }
            have_last_ip := false
            last_ip := 0
            ip := 0 }) ∧
    (d.pkt_state = intel_pt_pkt_state.INTEL_PT_STATE_ERR_RESYNC →
      intel_pt_decode_step env fuel d =
        intel_pt_sync_ip env fuel
          { d with state := { d.state with type := INTEL_PT_BRANCH, flags := 0 } }) ∧
    (d.pkt_state = intel_pt_pkt_state.INTEL_PT_STATE_NO_PSB →
      ∀ (stack : intel_pt_stack) (da db : intel_pt_decoder),
        intel_pt_clear_stack d.stack = some stack →
        intel_pt_scan_for_psb env fuel
          { d with
            state := { d.state with type := INTEL_PT_BRANCH, flags := 0 }
            pge := false
            continuous_period := false
            have_last_ip := false
            last_ip := 0
            ip := 0
            stack := stack } = some (0, da) →
        intel_pt_walk_psb env fuel
          { da with
            have_last_ip := true
            pkt_state := intel_pt_pkt_state.INTEL_PT_STATE_NO_IP } = some (0, db) →
        db.ip = 0 →
        intel_pt_decode_step env fuel d = intel_pt_sync_ip env fuel db ∧
        db.state.type = INTEL_PT_BRANCH) ∧
    (∀ d0 d1 : intel_pt_decoder, d0.state.type = INTEL_PT_BRANCH →
      intel_pt_decode_step env fuel d = intel_pt_sync_ip env fuel d0 →
      intel_pt_sync_ip env fuel d0 = some (0, d1) →
      intel_pt_decode env (fuel + 1) d = some (intel_pt_decode_publish 0 d1) ∧
      (intel_pt_decode_publish 0 d1).state.err = 0 ∧
      (intel_pt_decode_publish 0 d1).state.from_ip = 0 ∧
      (intel_pt_decode_publish 0 d1).state.to_ip = (intel_pt_decode_publish 0 d1).ip ∧
      (intel_pt_decode_publish 0 d1).ip ≠ 0 ∧
      (intel_pt_decode_publish 0 d1).pkt_state = intel_pt_pkt_state.INTEL_PT_STATE_IN_SYNC ∧
      (((d1.packet.type = intel_pt_pkt_type.INTEL_PT_TIP ∨
          d1.packet.type = intel_pt_pkt_type.INTEL_PT_TIP_PGE ∨
          d1.packet.type = intel_pt_pkt_type.INTEL_PT_TIP_PGD ∨
          d1.packet.type = intel_pt_pkt_type.INTEL_PT_FUP) ∧
          (intel_pt_decode_publish 0 d1).state.type = INTEL_PT_BRANCH) ∨
        (d1.packet.type = intel_pt_pkt_type.INTEL_PT_PSBEND ∧
          (intel_pt_decode_publish 0 d1).state.type = 0))) := by
  refine ⟨?_, ?_, ?_, ?_⟩
  · intro h
    unfold intel_pt_decode_step
    simp only [h]
  · intro h
    unfold intel_pt_decode_step
    simp only [h]
  · intro h stack da db hcs hscan hpsb hip
    have hs := sync_falls_to_sync_ip env fuel
      { d with state := { d.state with type := INTEL_PT_BRANCH, flags := 0 } } da db stack
      hcs hscan hpsb hip
    refine ⟨?_, hs.2⟩
    rw [← hs.1]
    unfold intel_pt_decode_step
    simp only [h]
  · intro d0 d1 ht hstep hsync
    obtain ⟨a, b, c, e, _, hcl⟩ := sync_ip_type env fuel d0 d1 hsync
    obtain ⟨p1, p2, p3, _, p5, p6, p7⟩ := decode_publish_ok d1
    refine ⟨decode_of_step_ok env fuel d d1 (hstep.trans hsync), p5, p2.trans a,
      by rw [p3, p7, b], by rw [p7]; exact c, p6.trans e, ?_⟩
    rcases hcl with ⟨x, y⟩ | ⟨x, y⟩
    · exact Or.inl ⟨x, p1.trans (y.trans ht)⟩
    · exact Or.inr ⟨x, p1.trans y⟩

/-- C31 at `example_no_ip_decoder`: the TIP packet supplies the address 0x600, and the
record published has `from_ip = 0`, `to_ip = 0x600` and the type `INTEL_PT_BRANCH`. -/
theorem sync_ip_record_spec_witness :
    ∃ d1 : intel_pt_decoder,
      intel_pt_decode example_tip_env 3 example_no_ip_decoder =
        some (intel_pt_decode_publish 0 d1) ∧
      d1.packet.type = intel_pt_pkt_type.INTEL_PT_TIP ∧
      (intel_pt_decode_publish 0 d1).state.from_ip = 0 ∧
      (intel_pt_decode_publish 0 d1).state.to_ip = (intel_pt_decode_publish 0 d1).ip ∧
      (intel_pt_decode_publish 0 d1).state.type = INTEL_PT_BRANCH := by
  have hev : (intel_pt_sync_ip example_tip_env 2
      { example_no_ip_decoder with
        state := { example_no_ip_decoder.state with type := INTEL_PT_BRANCH, flags := 0 }
        have_last_ip := false
        last_ip := 0
        ip := 0 }).map (fun r => (r.1, r.2.packet.type)) =
      some (0, intel_pt_pkt_type.INTEL_PT_TIP) := by decide
  cases hs : intel_pt_sync_ip example_tip_env 2
      { example_no_ip_decoder with
        state := { example_no_ip_decoder.state with type := INTEL_PT_BRANCH, flags := 0 }
        have_last_ip := false
        last_ip := 0
        ip := 0 } with
  | none => rw [hs] at hev; exact absurd hev (by simp)
  | some r =>
    rw [hs] at hev
    simp only [Option.map, Option.some.injEq, Prod.mk.injEq] at hev
    obtain ⟨e, d1⟩ := r
    obtain ⟨he, hp⟩ := hev
    simp only [] at he hp
    subst he
    obtain ⟨h1, _, h3, h4, _, _, h7⟩ :=
      (sync_ip_record_spec example_tip_env 2 example_no_ip_decoder).2.2.2 _ d1 rfl
        ((sync_ip_record_spec example_tip_env 2 example_no_ip_decoder).1 rfl) hs
    refine ⟨d1, h1, hp, h3, h4, ?_⟩
    rcases h7 with ⟨_, y⟩ | ⟨x, _⟩
    · exact y
    · rw [hp] at x
      exact absurd x (by decide)

/-! ### Overflow -/

/-- One round of the loop of `intel_pt_walk_psbend` after a successful fetch. -/
theorem walk_psbend_round (env : intel_pt_env) (fuel : Nat) (d d1 : intel_pt_decoder)
    (hfetch : intel_pt_get_next_packet env fuel d = some (0, d1)) :
    intel_pt_walk_psbend env (fuel + 1) d =
      match intel_pt_walk_psbend_packet env d1 with
      | (some r, d2) => some (r, d2)
      | (none, d2) => intel_pt_walk_psbend env fuel d2 := by
  rw [intel_pt_walk_psbend, hfetch]
  simp only [ne_eq, not_true_eq_false, if_false]

/-- One round of the loop of `intel_pt_walk_to_ip` after a successful fetch. -/
theorem walk_to_ip_round (env : intel_pt_env) (fuel : Nat) (d d1 : intel_pt_decoder)
    (hfetch : intel_pt_get_next_packet env fuel d = some (0, d1)) :
    intel_pt_walk_to_ip env (fuel + 1) d =
      match intel_pt_walk_to_ip_packet env fuel d1 with
      | none => none
      | some (some r, d2) => some (r, d2)
      | some (none, d2) => intel_pt_walk_to_ip env fuel d2 := by
  rw [intel_pt_walk_to_ip, hfetch]
  simp only [ne_eq, not_true_eq_false, if_false]

/-- One round of the loop of `intel_pt_walk_trace` that fetches a packet. -/
theorem walk_trace_round (env : intel_pt_env) (fuel : Nat) (no_tip : Bool)
    (d d1 : intel_pt_decoder)
    (hfetch : intel_pt_get_next_packet env fuel d = some (0, d1)) :
    intel_pt_walk_trace_loop env (fuel + 1) no_tip false d =
      match intel_pt_walk_trace_packet env fuel no_tip d1 with
      | none => none
      | some (walk_trace_step.ret r d2) => some (r, d2)
      | some (walk_trace_step.brk no_tip1 d2) =>
        intel_pt_walk_trace_loop env fuel no_tip1 false d2
      | some (walk_trace_step.next no_tip1 d2) =>
        intel_pt_walk_trace_loop env fuel no_tip1 true d2 := by
  rw [intel_pt_walk_trace_loop]
  simp only [Bool.false_eq_true, if_false, hfetch, ne_eq, not_true_eq_false]

/-- The function `intel_pt_overflow` as an update of the decoder. -/
theorem overflow_eq (d : intel_pt_decoder) :
    intel_pt_overflow d =
      (-EOVERFLOW,
        { d with
          tx_flags := 0
          timestamp_insn_cnt := 0
          pkt_state := intel_pt_pkt_state.INTEL_PT_STATE_ERR_RESYNC
          overflow := true }) := rfl

/-- The end of `intel_pt_decode` after a nonzero result: `err` is its code, `from_ip` is
`ip`, and the fields below are as the loop left them. -/
theorem decode_publish_err (err : Int) (d : intel_pt_decoder) (h : err ≠ 0) :
    (intel_pt_decode_publish err d).state.err = intel_pt_ext_err err ∧
    (intel_pt_decode_publish err d).state.from_ip = d.ip ∧
    (intel_pt_decode_publish err d).ip = d.ip ∧
    (intel_pt_decode_publish err d).last_ip = d.last_ip ∧
    (intel_pt_decode_publish err d).have_last_ip = d.have_last_ip ∧
    (intel_pt_decode_publish err d).pkt_state = d.pkt_state ∧
    (intel_pt_decode_publish err d).overflow = d.overflow ∧
    (intel_pt_decode_publish err d).tx_flags = d.tx_flags ∧
    (intel_pt_decode_publish err d).timestamp_insn_cnt = d.timestamp_insn_cnt := by
  unfold intel_pt_decode_publish
  rw [if_pos h]
  exact ⟨rfl, rfl, rfl, rfl, rfl, rfl, rfl, rfl, rfl⟩

/-- A body of the loop of `intel_pt_decode` that gives a value other than `-ENOLINK` ends
the loop. -/
theorem decode_of_step (env : intel_pt_env) (fuel : Nat) (d d1 : intel_pt_decoder) (err : Int)
    (he : err ≠ -ENOLINK)
    (h : intel_pt_decode_step env fuel d = some (err, d1)) :
    intel_pt_decode env (fuel + 1) d = some (intel_pt_decode_publish err d1) := by
  unfold intel_pt_decode
  rw [intel_pt_decode_loop, h]
  simp only [if_neg he]

/-! ### MODE.TSX followed by FUP -/

/-- The `switch` of `intel_pt_walk_trace` on a MODE.TSX packet with InTX set and TXAbort
clear, met with tracing enabled and followed by a FUP packet: `fup_tx_flags` is set to
IN_TX, and the FUP packet is dispatched at the label `next` with `no_tip = true`. -/
theorem walk_trace_packet_tsx (env : intel_pt_env) (fuel : Nat) (no_tip : Bool)
    (d1 d2 : intel_pt_decoder)
    (ht1 : d1.packet.type = intel_pt_pkt_type.INTEL_PT_MODE_TSX)
    (hpay : (d1.packet.payload &&& (INTEL_PT_IN_TX ||| INTEL_PT_ABORT_TX)) % 2 ^ 32 =
      INTEL_PT_IN_TX)
    (hpge : d1.pge = true)
    (h2 : intel_pt_get_next_packet env fuel d1 = some (0, d2))
    (ht2 : d2.packet.type = intel_pt_pkt_type.INTEL_PT_FUP) :
    intel_pt_walk_trace_packet env fuel no_tip d1 =
      some (walk_trace_step.next true
        { d2 with fup_tx_flags := INTEL_PT_IN_TX, set_fup_tx_flags := true }) := by
  have hm : intel_pt_mode_tsx env fuel no_tip d1 =
      some (0, true, { d2 with fup_tx_flags := INTEL_PT_IN_TX, set_fup_tx_flags := true }) := by
    unfold intel_pt_mode_tsx
    simp only [h2, hpay, ht2, ne_eq, not_true_eq_false, if_false, if_true]
    rfl
  unfold intel_pt_walk_trace_packet
  simp only [ht1, hpge, hm, Bool.true_eq_false, if_false, ne_eq, not_true_eq_false]

/-- The call of `intel_pt_walk_fup` for a FUP packet that follows MODE.TSX: when the walker
arrives at `last_ip`, the result is 0 with a record of the type `INTEL_PT_TRANSACTION`
whose flags are `fup_tx_flags`, from `last_ip` to 0; the byte cursor and `last_ip` stay as
they are. -/
theorem walk_fup_transaction (env : intel_pt_env) (fuel : Nat) (d : intel_pt_decoder)
    (he : (walker_answer env d d.last_ip).err = 0) (h0 : d.last_ip ≠ 0)
    (hs : (walker_answer env d d.last_ip).ip = d.last_ip)
    (hset : d.set_fup_tx_flags = true) :
    ∃ x : intel_pt_decoder, intel_pt_walk_fup env (fuel + 1) d = some (0, x) ∧
      x.pkt_state = d.pkt_state ∧ x.state.type = INTEL_PT_TRANSACTION ∧
      x.state.flags = d.fup_tx_flags ∧ x.state.from_ip = d.last_ip ∧ x.state.to_ip = 0 ∧
      x.ip = d.last_ip ∧ x.tx_flags = d.fup_tx_flags ∧ x.set_fup_tx_flags = false ∧
      x.last_ip = d.last_ip ∧ x.pge = d.pge ∧ x.packet = d.packet ∧ x.pos = d.pos ∧
      x.buf = d.buf ∧ x.next_buf = d.next_buf ∧ x.data = d.data ∧ x.pkt_step = d.pkt_step := by
  obtain ⟨d1, hcall, hip, hps, hf⟩ := walk_insn_stop_call env d d.last_ip he h0 hs
  obtain ⟨f1, _, f3, _, f5, _, f7, f8, _, _, f11, f12, f13, f14, f15, _⟩ := hf
  rw [walk_fup_after_call env fuel d d1 _ _ hcall, if_neg (by decide), if_pos rfl, f8,
    if_pos hset]
  exact ⟨_, rfl, hps, rfl, f7, hip, rfl, hip, f7, rfl, f3, f5, f1, f11, f12, f13, f14, f15⟩

/-- The case FUP of the `switch` of `intel_pt_walk_trace` with `no_tip = true`, after
MODE.TSX: when `intel_pt_walk_fup` gives 0, the function returns 0 in state
FUP_NO_TIP. -/
theorem walk_trace_fup_no_tip (env : intel_pt_env) (fuel : Nat) (d x : intel_pt_decoder)
    (ht : d.packet.type = intel_pt_pkt_type.INTEL_PT_FUP) (hcnt : d.packet.count ≠ 0)
    (hfup : intel_pt_walk_fup env fuel (intel_pt_set_last_ip d) = some (0, x)) :
    intel_pt_walk_trace_loop env (fuel + 1) true true d =
      some (0, { x with pkt_state := intel_pt_pkt_state.INTEL_PT_STATE_FUP_NO_TIP }) := by
  have hne : ¬ ((0 : Int) = -EAGAIN) := by decide
  have hp : intel_pt_walk_trace_packet env fuel true d =
      some (walk_trace_step.ret 0
        { x with pkt_state := intel_pt_pkt_state.INTEL_PT_STATE_FUP_NO_TIP }) := by
    unfold intel_pt_walk_trace_packet intel_pt_walk_trace_fup
    simp only [ht, hcnt, hfup, if_false, ne_eq, hne, not_false_eq_true, if_true,
      not_true_eq_false]
  rw [intel_pt_walk_trace_loop]
  simp only [if_true, ne_eq, not_true_eq_false, if_false, hp]

/-- The end of `intel_pt_walk_insn` leaves the type and the addresses of the record alone,
and sets the flag IN_TX in it when `tx_flags` has it. -/
theorem walk_insn_out_record (reset : Bool) (insn : intel_pt_insn) (d : intel_pt_decoder) :
    (intel_pt_walk_insn_out reset insn d).state.type = d.state.type ∧
    (intel_pt_walk_insn_out reset insn d).state.flags =
      (if d.tx_flags &&& INTEL_PT_IN_TX ≠ 0 then d.state.flags ||| INTEL_PT_IN_TX
       else d.state.flags) ∧
    (intel_pt_walk_insn_out reset insn d).state.from_ip = d.state.from_ip ∧
    (intel_pt_walk_insn_out reset insn d).state.to_ip = d.state.to_ip := by
  unfold intel_pt_walk_insn_out
  cases reset
  · simp only [Bool.false_eq_true, if_false]
    by_cases h : d.tx_flags &&& INTEL_PT_IN_TX ≠ 0
    · rw [if_pos h, if_pos h]
      exact ⟨rfl, rfl, rfl, rfl⟩
    · rw [if_neg h, if_neg h]
      exact ⟨rfl, rfl, rfl, rfl⟩
  · simp only [if_true]
    by_cases h : d.tx_flags &&& INTEL_PT_IN_TX ≠ 0
    · rw [if_pos h, if_pos h]
      exact ⟨rfl, rfl, rfl, rfl⟩
    · rw [if_neg h, if_neg h]
      exact ⟨rfl, rfl, rfl, rfl⟩

/-- The first steps of `intel_pt_walk_insn` leave the record and `tx_flags` alone. -/
theorem walk_insn_sample_state (d : intel_pt_decoder) :
    (intel_pt_next_sample
      (if d.mtc_insn = false then { d with mtc_insn := true } else d)).2.state = d.state ∧
    (intel_pt_next_sample
      (if d.mtc_insn = false then { d with mtc_insn := true } else d)).2.tx_flags =
        d.tx_flags := by
  have hf := next_sample_frame (if d.mtc_insn = false then { d with mtc_insn := true } else d)
  constructor <;> (rcases hf with hf | ⟨m, hf⟩ <;> rw [hf] <;> split_ifs <;> rfl)

/-- The function `intel_pt_sample_insn` sets the bit `INTEL_PT_INSTRUCTION` in the type of
the record and leaves its flags, its addresses and `tx_flags` alone. -/
theorem sample_insn_record (d : intel_pt_decoder) :
    (intel_pt_sample_insn d).state.type = d.state.type ||| INTEL_PT_INSTRUCTION ∧
    (intel_pt_sample_insn d).state.flags = d.state.flags ∧
    (intel_pt_sample_insn d).tx_flags = d.tx_flags := by
  unfold intel_pt_sample_insn
  refine ⟨?_, ?_, ?_⟩ <;> (split <;> rfl)

/-- The record after a call of `intel_pt_walk_insn` in which the walker arrives at the stop
address: its type is as before, and it has the flag IN_TX when `tx_flags` has it. -/
theorem walk_insn_stop_record (env : intel_pt_env) (d d1 : intel_pt_decoder) (ip : Nat)
    (insn : intel_pt_insn) (he : (walker_answer env d ip).err = 0) (hip0 : ip ≠ 0)
    (hstop : (walker_answer env d ip).ip = ip)
    (hcall : intel_pt_walk_insn env d ip = some (-EAGAIN, insn, d1)) :
    d1.state.type = d.state.type ∧
    d1.state.flags =
      (if d.tx_flags &&& INTEL_PT_IN_TX ≠ 0 then d.state.flags ||| INTEL_PT_IN_TX
       else d.state.flags) := by
  obtain ⟨s, hip, _, _, _, _, _, _, _, _, _, _, _, hsm⟩ := walk_insn_sample d
  obtain ⟨hst, htx⟩ := walk_insn_sample_state d
  rw [hsm] at hst htx
  simp only [] at hst htx
  unfold walker_answer at he hstop
  unfold intel_pt_walk_insn at hcall
  simp only [hsm, hip, he, hstop, hip0, ne_eq, not_true_eq_false, if_false, if_true,
    not_false_eq_true, and_self, Option.some.injEq, Prod.mk.injEq, true_and] at hcall
  obtain ⟨_, hd⟩ := hcall
  subst hd
  obtain ⟨o1, o2, _, _⟩ := walk_insn_out_record true (env.walk_insn d.ip ip (intel_pt_next_sample d).1).insn
    { s with
      ip := ip
      tot_insn_cnt := (s.tot_insn_cnt +
        (env.walk_insn d.ip ip (intel_pt_next_sample d).1).insn_cnt) % 2 ^ 64
      timestamp_insn_cnt := (s.timestamp_insn_cnt +
        (env.walk_insn d.ip ip (intel_pt_next_sample d).1).insn_cnt) % 2 ^ 64
      sample_insn_cnt := (s.sample_insn_cnt +
        (env.walk_insn d.ip ip (intel_pt_next_sample d).1).insn_cnt) % 2 ^ 64
      period_insn_cnt := (s.period_insn_cnt +
        (env.walk_insn d.ip ip (intel_pt_next_sample d).1).insn_cnt) % 2 ^ 64 }
  refine ⟨o1.trans (congrArg (fun st => st.type) hst), o2.trans ?_⟩
  show (if s.tx_flags &&& INTEL_PT_IN_TX ≠ 0 then s.state.flags ||| INTEL_PT_IN_TX
    else s.state.flags) = _
  rw [htx, hst]

theorem bad_packet_flags (d : intel_pt_decoder) :
    (intel_pt_bad_packet d).2.state.flags = d.state.flags ∧
    (intel_pt_bad_packet d).1 = -EBADMSG := by
  refine ⟨?_, rfl⟩
  unfold intel_pt_bad_packet
  simp only []
  split_ifs <;> rfl

theorem get_data_flags (d : intel_pt_decoder) :
    (intel_pt_get_data d).2.state.flags = d.state.flags ∧
    (intel_pt_get_data d).2.tx_flags = d.tx_flags := by
  unfold intel_pt_get_data
  simp only []
  split_ifs <;> exact ⟨rfl, rfl⟩

theorem get_next_data_flags (d : intel_pt_decoder) :
    (intel_pt_get_next_data d).2.state.flags = d.state.flags ∧
    (intel_pt_get_next_data d).2.tx_flags = d.tx_flags := by
  unfold intel_pt_get_next_data
  split
  · exact get_data_flags d
  · exact ⟨rfl, rfl⟩

theorem get_split_packet_flags (env : intel_pt_env) (d : intel_pt_decoder) :
    (intel_pt_get_split_packet env d).2.state.flags = d.state.flags ∧
    (0 < (intel_pt_get_split_packet env d).1 →
      (intel_pt_get_split_packet env d).2.tx_flags = d.tx_flags) := by
  have hneg : ¬ (0 < (-EBADMSG : Int)) := by decide
  have hinv : ¬ (0 < (-EINVAL : Int)) := by decide
  obtain ⟨g1, g2⟩ := get_data_flags d
  unfold intel_pt_get_split_packet
  simp only []
  split_ifs with h1 h2 h3
  · exact ⟨g1, fun h => absurd h (by simp only []; omega)⟩
  · exact ⟨g1, fun h => absurd h hinv⟩
  · refine ⟨(bad_packet_flags _).1.trans g1, fun h => ?_⟩
    rw [(bad_packet_flags _).2] at h
    exact absurd h hneg
  · exact ⟨g1, fun _ => g2⟩

/-- A fetch leaves the flags of the record alone, and when it succeeds also `tx_flags`. -/
theorem get_next_packet_loop_flags (env : intel_pt_env) :
    ∀ (fuel : Nat) (d : intel_pt_decoder) (r : Int × intel_pt_decoder),
      intel_pt_get_next_packet_loop env fuel d = some r →
      r.2.state.flags = d.state.flags ∧ (r.1 = 0 → r.2.tx_flags = d.tx_flags) := by
  intro fuel
  induction fuel with
  | zero =>
    intro d r hr
    rw [intel_pt_get_next_packet_loop] at hr
    exact absurd hr (by simp)
  | succ fuel ih =>
    intro d r hr
    have hneg : ¬ ((-EBADMSG : Int) = 0) := by decide
    rw [intel_pt_get_next_packet_loop] at hr
    split_ifs at hr with hc
    lift_lets at hr
    extract_lets d1 r1 d2 p d3 split r2 src d4 at hr
    have h1 : d1.state.flags = d.state.flags ∧ d1.tx_flags = d.tx_flags := ⟨rfl, rfl⟩
    have h2 : r1.2.state.flags = d.state.flags ∧ r1.2.tx_flags = d.tx_flags := by
      show (if d1.buf.length = 0 then intel_pt_get_next_data d1 else (0, d1)).2.state.flags = _ ∧
        (if d1.buf.length = 0 then intel_pt_get_next_data d1 else (0, d1)).2.tx_flags = _
      split_ifs
      · exact ⟨(get_next_data_flags d1).1.trans h1.1, (get_next_data_flags d1).2.trans h1.2⟩
      · exact h1
    have h3 : d3.state.flags = d.state.flags ∧ d3.tx_flags = d.tx_flags := h2
    have h4 : r2.2.state.flags = d.state.flags ∧ (0 < r2.1 → r2.2.tx_flags = d.tx_flags) := by
      show (if split = true then intel_pt_get_split_packet env d3 else (p.1, d3)).2.state.flags
          = _ ∧
        (0 < (if split = true then intel_pt_get_split_packet env d3 else (p.1, d3)).1 →
          (if split = true then intel_pt_get_split_packet env d3 else (p.1, d3)).2.tx_flags = _)
      split_ifs
      · exact ⟨(get_split_packet_flags env d3).1.trans h3.1,
          fun h => ((get_split_packet_flags env d3).2 h).trans h3.2⟩
      · exact ⟨h3.1, fun _ => h3.2⟩
    split_ifs at hr with c1 c2 c3 c4
    · simp only [Option.some.injEq] at hr
      subst hr
      exact ⟨h2.1, fun h => absurd h c1⟩
    · simp only [Option.some.injEq] at hr
      subst hr
      exact ⟨h4.1, fun h => absurd h (by omega)⟩
    · simp only [Option.some.injEq] at hr
      subst hr
      refine ⟨(bad_packet_flags _).1.trans h4.1, fun h => ?_⟩
      rw [(bad_packet_flags _).2] at h
      exact absurd h hneg
    · have h5 : d4.state.flags = d.state.flags ∧ d4.tx_flags = d.tx_flags :=
        ⟨h4.1, h4.2 (by omega)⟩
      obtain ⟨a, b⟩ := ih _ r hr
      exact ⟨a.trans h5.1, fun h => (b h).trans h5.2⟩
    · simp only [Option.some.injEq] at hr
      subst hr
      exact ⟨h4.1, fun _ => h4.2 (by omega)⟩

theorem get_next_packet_flags (env : intel_pt_env) (fuel : Nat) (d d1 : intel_pt_decoder)
    (hr : intel_pt_get_next_packet env fuel d = some (0, d1)) :
    d1.state.flags = d.state.flags ∧ d1.tx_flags = d.tx_flags := by
  unfold intel_pt_get_next_packet at hr
  have h := get_next_packet_loop_flags env fuel _ (0, d1) hr
  exact ⟨h.1, h.2 rfl⟩

/-- The end of `intel_pt_decode` writes the record, `sample_timestamp` and
`sample_insn_cnt` only. -/
theorem decode_publish_frame (err : Int) (d : intel_pt_decoder) :
    ∃ (st : intel_pt_state) (ts ic : Nat),
      intel_pt_decode_publish err d =
        { d with state := st, sample_timestamp := ts, sample_insn_cnt := ic } := by
  unfold intel_pt_decode_publish
  simp only []
  split_ifs
  · exact ⟨_, _, _, rfl⟩
  · exact ⟨_, _, _, rfl⟩
  · exact ⟨_, d.sample_timestamp, d.sample_insn_cnt, rfl⟩

/-- The first call of `intel_pt_decode` for MODE.TSX and FUP: a transaction record, in
state FUP_NO_TIP. -/
theorem decode_tsx_fup (env : intel_pt_env) (g : Nat) (d0 d1 d2 : intel_pt_decoder)
    (hsync : d0.pkt_state = intel_pt_pkt_state.INTEL_PT_STATE_IN_SYNC)
    (h1 : intel_pt_get_next_packet env (g + 2)
      { d0 with state := { d0.state with type := INTEL_PT_BRANCH, flags := 0 } } = some (0, d1))
    (ht1 : d1.packet.type = intel_pt_pkt_type.INTEL_PT_MODE_TSX)
    (hpay : (d1.packet.payload &&& (INTEL_PT_IN_TX ||| INTEL_PT_ABORT_TX)) % 2 ^ 32 =
      INTEL_PT_IN_TX)
    (hpge : d1.pge = true)
    (h2 : intel_pt_get_next_packet env (g + 2) d1 = some (0, d2))
    (ht2 : d2.packet.type = intel_pt_pkt_type.INTEL_PT_FUP) (hcnt : d2.packet.count ≠ 0)
    (hne : (tsx_fup_decoder d2).last_ip ≠ 0)
    (hwe : (walker_answer env (tsx_fup_decoder d2) (tsx_fup_decoder d2).last_ip).err = 0)
    (hwip : (walker_answer env (tsx_fup_decoder d2) (tsx_fup_decoder d2).last_ip).ip =
      (tsx_fup_decoder d2).last_ip) :
    ∃ x : intel_pt_decoder, intel_pt_decode env (g + 4) d0 = some x ∧
      x.pkt_state = intel_pt_pkt_state.INTEL_PT_STATE_FUP_NO_TIP ∧
      x.state.type = INTEL_PT_TRANSACTION ∧ x.state.flags = INTEL_PT_IN_TX ∧
      x.state.from_ip = (tsx_fup_decoder d2).last_ip ∧ x.state.to_ip = 0 ∧ x.state.err = 0 ∧
      x.ip = (tsx_fup_decoder d2).last_ip ∧ x.last_ip = (tsx_fup_decoder d2).last_ip ∧
      x.tx_flags = INTEL_PT_IN_TX ∧ x.set_fup_tx_flags = false ∧
      x.pos = d2.pos ∧ x.buf = d2.buf ∧ x.next_buf = d2.next_buf ∧ x.data = d2.data ∧
      x.pkt_step = d2.pkt_step := by
  obtain ⟨xf, hfup, f1, f2, f3, f4, f5, f6, f7, f8, f9, _, _, f13, f14, f15, f16, f17⟩ :=
    walk_fup_transaction env g (tsx_fup_decoder d2) hwe hne hwip rfl
  have hloop : intel_pt_walk_trace_loop env (g + 1 + 1) true true
      { d2 with fup_tx_flags := INTEL_PT_IN_TX, set_fup_tx_flags := true } =
      some (0, { xf with pkt_state := intel_pt_pkt_state.INTEL_PT_STATE_FUP_NO_TIP }) :=
    walk_trace_fup_no_tip env (g + 1) _ xf ht2 hcnt hfup
  have htrace : intel_pt_walk_trace env (g + 3)
      { d0 with state := { d0.state with type := INTEL_PT_BRANCH, flags := 0 } } =
      some (0, { xf with pkt_state := intel_pt_pkt_state.INTEL_PT_STATE_FUP_NO_TIP }) := by
    unfold intel_pt_walk_trace
    rw [walk_trace_round env (g + 2) false _ d1 h1,
      walk_trace_packet_tsx env (g + 2) false d1 d2 ht1 hpay hpge h2 ht2]
    exact hloop
  have hstep : intel_pt_decode_step env (g + 3) d0 =
      some (0, { xf with pkt_state := intel_pt_pkt_state.INTEL_PT_STATE_FUP_NO_TIP }) := by
    rw [← htrace]
    unfold intel_pt_decode_step
    simp only [hsync]
  obtain ⟨p1, p2, p3, p4, p5, p6, p7⟩ :=
    decode_publish_ok { xf with pkt_state := intel_pt_pkt_state.INTEL_PT_STATE_FUP_NO_TIP }
  obtain ⟨st, ts, ic, hpub⟩ :=
    decode_publish_frame 0 { xf with pkt_state := intel_pt_pkt_state.INTEL_PT_STATE_FUP_NO_TIP }
  refine ⟨_, decode_of_step_ok env (g + 3) d0 _ hstep, p6, p1.trans f2, p4.trans f3,
    p2.trans f4, p3.trans f5, p5, p7.trans f6, ?_, ?_, ?_, ?_, ?_, ?_, ?_, ?_⟩
  all_goals rw [hpub]
  · exact f9
  · exact f7
  · exact f8
  · exact f13
  · exact f14
  · exact f15
  · exact f16
  · exact f17

/-- C25, as stated, fails: `example_tsx_decoder` is in sync with tracing enabled, in front
of MODE.TSX (InTX set, TXAbort clear), FUP with the address 0x500 and TIP with the address
0x600, and the walker reaches 0x500 without meeting a branch. The call of
`intel_pt_decode` publishes a record of the type `INTEL_PT_TRANSACTION`, without
`INTEL_PT_BRANCH`, with the flag IN_TX, from 0x500 to 0, and stops in state FUP_NO_TIP
before the TIP packet; the next call publishes the branch from 0x500 to 0x600 as a record
of the type `INTEL_PT_BRANCH` with the flag IN_TX. No record has the type
`INTEL_PT_BRANCH | INTEL_PT_TRANSACTION`. -/
theorem mode_tsx_fup_tip_counterexample :
    (intel_pt_decode example_tsx_env 6 example_tsx_decoder).map
        (fun x => (x.state.type, x.state.flags, x.state.from_ip, x.state.to_ip, x.state.err,
          x.pkt_state)) =
      some (INTEL_PT_TRANSACTION, INTEL_PT_IN_TX, 0x500, 0, 0,
        intel_pt_pkt_state.INTEL_PT_STATE_FUP_NO_TIP) ∧
    ((intel_pt_decode example_tsx_env 6 example_tsx_decoder).bind
        (intel_pt_decode example_tsx_env 6)).map
        (fun x => (x.state.type, x.state.flags, x.state.from_ip, x.state.to_ip, x.state.err,
          x.pkt_state)) =
      some (INTEL_PT_BRANCH, INTEL_PT_IN_TX, 0x500, 0x600, 0,
        intel_pt_pkt_state.INTEL_PT_STATE_IN_SYNC) ∧
    INTEL_PT_TRANSACTION ≠ INTEL_PT_BRANCH ||| INTEL_PT_TRANSACTION ∧
    INTEL_PT_BRANCH ≠ INTEL_PT_BRANCH ||| INTEL_PT_TRANSACTION :=
  ⟨by decide, by decide, by decide, by decide⟩

/-! ### The invariant of the TNT states: packet fetching -/

theorem set_last_ip_tnt (d : intel_pt_decoder) (h : tnt_inv d) :
    tnt_inv (intel_pt_set_last_ip d) := h

theorem set_ip_tnt (d : intel_pt_decoder) (h : tnt_inv d) :
    tnt_inv (intel_pt_set_ip d) := h

theorem bug_tnt (d : intel_pt_decoder) (h : tnt_inv d) : tnt_inv (intel_pt_bug d).2 :=
  ⟨fun hs => (by rcases hs with hs | hs <;> cases hs), h.2⟩

theorem clear_tx_flags_tnt (d : intel_pt_decoder) (h : tnt_inv d) :
    tnt_inv (intel_pt_clear_tx_flags d) := h

theorem update_in_tx_tnt (d : intel_pt_decoder) (h : tnt_inv d) :
    tnt_inv (intel_pt_update_in_tx d) := h

theorem bad_packet_tnt (d : intel_pt_decoder) (h : tnt_inv d) :
    tnt_inv (intel_pt_bad_packet d).2 := by
  unfold intel_pt_bad_packet
  simp only []
  split_ifs <;> exact ⟨h.1, h.2⟩

theorem get_data_tnt (d : intel_pt_decoder) (h : tnt_inv d) :
    tnt_inv (intel_pt_get_data d).2 := by
  unfold intel_pt_get_data
  simp only []
  split_ifs <;> first
    | exact ⟨h.1, h.2⟩
    | exact ⟨fun hs => (by rcases hs with hs | hs <;> cases hs), h.2⟩

theorem get_next_data_tnt (d : intel_pt_decoder) (h : tnt_inv d) :
    tnt_inv (intel_pt_get_next_data d).2 := by
  unfold intel_pt_get_next_data
  split
  · exact get_data_tnt d h
  · exact h

theorem get_split_packet_tnt (env : intel_pt_env) (hpk : tnt_counts env) (d : intel_pt_decoder)
    (h : tnt_inv d) :
    tnt_inv (intel_pt_get_split_packet env d).2 := by
  have hg := get_data_tnt d h
  unfold intel_pt_get_split_packet
  simp only []
  split_ifs
  · exact ⟨hg.1, hg.2⟩
  · exact ⟨hg.1, hg.2⟩
  · refine bad_packet_tnt _ ?_
    exact ⟨hg.1, hpk _⟩
  · exact ⟨hg.1, hpk _⟩

theorem get_next_packet_loop_tnt (env : intel_pt_env) (hpk : tnt_counts env) :
    ∀ (fuel : Nat) (d : intel_pt_decoder) (r : Int × intel_pt_decoder), tnt_inv d →
      intel_pt_get_next_packet_loop env fuel d = some r → tnt_inv r.2 := by
  intro fuel
  induction fuel with
  | zero =>
    intro d r _ hr
    rw [intel_pt_get_next_packet_loop] at hr
    exact absurd hr (by simp)
  | succ fuel ih =>
    intro d r h hr
    rw [intel_pt_get_next_packet_loop] at hr
    split_ifs at hr with hc
    lift_lets at hr
    extract_lets d1 r1 d2 p d3 split r2 src d4 at hr
    have h1 : tnt_inv d1 := h
    have h2 : tnt_inv r1.2 := by
      show tnt_inv (if d1.buf.length = 0 then intel_pt_get_next_data d1 else (0, d1)).2
      split_ifs
      · exact get_next_data_tnt _ h1
      · exact h1
    have h3 : tnt_inv d3 := ⟨h2.1, hpk _⟩
    have h4 : tnt_inv r2.2 := by
      show tnt_inv (if split = true then intel_pt_get_split_packet env d3 else (p.1, d3)).2
      split_ifs
      · exact get_split_packet_tnt env hpk _ h3
      · exact h3
    have h5 : tnt_inv d4 := h4
    split_ifs at hr
    · simp only [Option.some.injEq] at hr; subst hr; exact h2
    · simp only [Option.some.injEq] at hr; subst hr; exact h4
    · simp only [Option.some.injEq] at hr; subst hr; exact bad_packet_tnt _ h4
    · exact ih _ r h5 hr
    · simp only [Option.some.injEq] at hr; subst hr; exact h5

theorem get_next_packet_tnt (env : intel_pt_env) (hpk : tnt_counts env) (fuel : Nat)
    (d : intel_pt_decoder) (r : Int × intel_pt_decoder) (h : tnt_inv d)
    (hr : intel_pt_get_next_packet env fuel d = some r) : tnt_inv r.2 := by
  unfold intel_pt_get_next_packet at hr
  refine get_next_packet_loop_tnt env hpk fuel _ r ?_ hr
  exact h

/-! ### The invariant of the TNT states: timing and instruction walking -/

/-- A decoder that agrees with `d` on `pkt_state`, `tnt` and `packet` has the invariant
that `d` has. -/
theorem tnt_inv_keep (d x : intel_pt_decoder) (h : tnt_inv d)
    (hs : x.pkt_state = d.pkt_state) (ht : x.tnt = d.tnt) (hp : x.packet = d.packet) :
    tnt_inv x := by
  unfold tnt_inv
  rw [hs, ht, hp]
  exact h

theorem overflow_tnt (d : intel_pt_decoder) (h : tnt_inv d) :
    tnt_inv (intel_pt_overflow d).2 :=
  ⟨fun hs => (by rcases hs with hs | hs <;> cases hs), h.2⟩

theorem calc_cbr_tnt (env : intel_pt_env) (d : intel_pt_decoder) (h : tnt_inv d) :
    tnt_inv (intel_pt_calc_cbr env d) := by
  unfold intel_pt_calc_cbr
  simp only []
  split_ifs <;> exact ⟨h.1, h.2⟩

theorem calc_cyc_timestamp_tnt (env : intel_pt_env) (d : intel_pt_decoder) (h : tnt_inv d) :
    tnt_inv (intel_pt_calc_cyc_timestamp env d) := by
  unfold intel_pt_calc_cyc_timestamp
  simp only []
  split_ifs <;> exact ⟨h.1, h.2⟩

theorem calc_tsc_timestamp_tnt (d : intel_pt_decoder) (la : Option Nat) (h : tnt_inv d) :
    tnt_inv (intel_pt_calc_tsc_timestamp d la) := by
  unfold intel_pt_calc_tsc_timestamp intel_pt_calc_cyc_to_tsc
  simp only []
  split_ifs <;> first | exact ⟨h.1, h.2⟩ | (split <;> exact ⟨h.1, h.2⟩)

theorem calc_mtc_timestamp_tnt (d : intel_pt_decoder) (la : Option Nat) (h : tnt_inv d) :
    tnt_inv (intel_pt_calc_mtc_timestamp d la) := by
  unfold intel_pt_calc_mtc_timestamp intel_pt_calc_cyc_to_tsc
  simp only []
  split_ifs <;> first | exact ⟨h.1, h.2⟩ | (split <;> exact ⟨h.1, h.2⟩)

theorem calc_tma_tnt (d : intel_pt_decoder) (h : tnt_inv d) :
    tnt_inv (intel_pt_calc_tma d) := by
  refine tnt_inv_keep d _ h ?_ ?_ ?_
  all_goals
    unfold intel_pt_calc_tma
    simp only []
    split_ifs <;> rfl

theorem exec_mode_tnt (d : intel_pt_decoder) (e : Int) (h : tnt_inv d) :
    tnt_inv { d with exec_mode := e } := ⟨h.1, h.2⟩

theorem next_sample_tnt (d : intel_pt_decoder) (h : tnt_inv d) :
    tnt_inv (intel_pt_next_sample d).2 := by
  rcases next_sample_frame d with hf | ⟨m, hf⟩ <;> rw [hf] <;> exact ⟨h.1, h.2⟩

theorem sample_insn_tnt (d : intel_pt_decoder) (h : tnt_inv d) :
    tnt_inv (intel_pt_sample_insn d) := by
  unfold intel_pt_sample_insn
  split <;> exact ⟨h.1, h.2⟩

theorem walk_insn_out_tnt (reset : Bool) (insn : intel_pt_insn) (d : intel_pt_decoder)
    (h : tnt_inv d) : tnt_inv (intel_pt_walk_insn_out reset insn d) := by
  unfold intel_pt_walk_insn_out
  cases reset <;> simp only [] <;> split_ifs <;> exact ⟨h.1, h.2⟩

theorem walk_insn_uncond_tnt (insn : intel_pt_insn) (d : intel_pt_decoder) (h : tnt_inv d) :
    tnt_inv (intel_pt_walk_insn_uncond insn d).2.2 := by
  unfold intel_pt_walk_insn_uncond
  simp only []
  split_ifs <;> first
    | exact ⟨h.1, h.2⟩
    | exact ⟨fun hs => (by rcases hs with hs | hs <;> cases hs), h.2⟩

/-- The function `intel_pt_walk_insn` keeps the invariant of the TNT states, and leaves
`tnt` alone. -/
theorem walk_insn_tnt (env : intel_pt_env) (d : intel_pt_decoder) (ip : Nat)
    (r : Int × intel_pt_insn × intel_pt_decoder) (h : tnt_inv d)
    (hr : intel_pt_walk_insn env d ip = some r) : tnt_inv r.2.2 := by
  unfold intel_pt_walk_insn at hr
  lift_lets at hr
  extract_lets d1 s max d2 res insn d3 at hr
  have h1 : tnt_inv d1 := by
    show tnt_inv (if d.mtc_insn = false then { d with mtc_insn := true } else d)
    split_ifs <;> exact ⟨h.1, h.2⟩
  have h2 : tnt_inv d2 := next_sample_tnt d1 h1
  have h3 : tnt_inv d3 := h2
  extract_lets d4 src d5 stacked at hr
  have h4 : tnt_inv d4 := by
    show tnt_inv (if max ≠ 0 ∧ res.insn_cnt ≥ max then intel_pt_sample_insn d3 else d3)
    split_ifs
    · exact sample_insn_tnt d3 h3
    · exact h3
  have h5 : tnt_inv d5 := h4
  have hst : ∀ e dd, stacked = some (e, dd) → tnt_inv dd := by
    intro e dd hs
    unfold stacked at hs
    split_ifs at hs
    · split at hs
      · exact absurd hs (by simp)
      · simp only [Option.some.injEq, Prod.mk.injEq] at hs
        rw [← hs.2]; exact h4
    · simp only [Option.some.injEq, Prod.mk.injEq] at hs
      rw [← hs.2]; exact h4
    · split at hs
      · exact absurd hs (by simp)
      · simp only [Option.some.injEq, Prod.mk.injEq] at hs
        rw [← hs.2]; exact h4
    · simp only [Option.some.injEq, Prod.mk.injEq] at hs
      rw [← hs.2]; exact h4
  clear_value stacked
  split_ifs at hr
  all_goals first
    | (simp only [Option.some.injEq] at hr
       subst hr
       first
         | exact ⟨fun hs => (by rcases hs with hs | hs <;> cases hs), h3.2⟩
         | exact walk_insn_out_tnt _ _ _ h3
         | exact walk_insn_out_tnt _ _ _ h5)
    | (split at hr
       · exact absurd hr (by simp)
       · rename_i st e dd
         have hdd := hst e dd rfl
         simp only [] at hr
         split_ifs at hr
         all_goals
           simp only [Option.some.injEq] at hr
           subst hr
           first
             | exact walk_insn_out_tnt _ _ _ hdd
             | exact walk_insn_out_tnt _ _ _ (walk_insn_uncond_tnt _ _ hdd))

/-! ### The invariant of the TNT states: the walks after FUP, TIP and TNT -/

theorem walk_fup_tnt (env : intel_pt_env) :
    ∀ (fuel : Nat) (d : intel_pt_decoder) (r : Int × intel_pt_decoder), tnt_inv d →
      intel_pt_walk_fup env fuel d = some r → tnt_inv r.2 := by
  intro fuel
  induction fuel with
  | zero =>
    intro d r _ hr
    rw [intel_pt_walk_fup] at hr
    exact absurd hr (by simp)
  | succ fuel ih =>
    intro d r h hr
    rw [intel_pt_walk_fup] at hr
    split at hr
    · exact absurd hr (by simp)
    · rename_i err insn d1 hcall
      have h1 : tnt_inv d1 := walk_insn_tnt env d _ _ h hcall
      simp only [] at hr
      split_ifs at hr
      all_goals first
        | (simp only [Option.some.injEq] at hr
           subst hr
           first
             | exact h1
             | exact ⟨h1.1, h1.2⟩
             | exact ⟨fun hs => (by rcases hs with hs | hs <;> cases hs), h1.2⟩)
        | (refine ih _ r ?_ hr
           exact ⟨fun hs => (by rcases hs with hs | hs <;> cases hs), h1.2⟩)

theorem walk_tip_tnt (env : intel_pt_env) (d : intel_pt_decoder) (r : Int × intel_pt_decoder)
    (h : tnt_inv d) (hr : intel_pt_walk_tip env d = some r) : tnt_inv r.2 := by
  unfold intel_pt_walk_tip at hr
  split at hr
  · exact absurd hr (by simp)
  · rename_i err insn d1 hcall
    have h1 : tnt_inv d1 := walk_insn_tnt env d _ _ h hcall
    simp only [] at hr
    split_ifs at hr
    all_goals
      simp only [Option.some.injEq] at hr
      subst hr
      first
        | exact h1
        | exact ⟨h1.1, h1.2⟩
        | exact ⟨fun hs => (by rcases hs with hs | hs <;> cases hs), h1.2⟩

/-- The RET case of `intel_pt_walk_tnt`, entered with `tnt.count > 0`: when the count
reaches 0 the state is IN_SYNC, otherwise it is TNT_CONT with a count that is still
positive. -/
theorem walk_tnt_ret_tnt (d : intel_pt_decoder) (h : tnt_inv d) (hc : 0 < d.tnt.count) :
    tnt_inv (intel_pt_walk_tnt_ret d).2 := by
  unfold intel_pt_walk_tnt_ret
  simp only []
  by_cases h1 : d.return_compression = false
  · rw [if_pos h1]
    exact ⟨fun hs => (by rcases hs with hs | hs <;> cases hs), h.2⟩
  · rw [if_neg h1]
    by_cases h2 : d.ret_addr = 0
    · rw [if_pos h2]
      exact ⟨fun hs => (by rcases hs with hs | hs <;> cases hs), h.2⟩
    · rw [if_neg h2]
      by_cases h3 : d.tnt.payload &&& BIT63 = 0
      · rw [if_pos h3]
        exact ⟨fun hs => (by rcases hs with hs | hs <;> cases hs), h.2⟩
      · rw [if_neg h3]
        refine ⟨fun hs => ?_, h.2⟩
        show 0 < d.tnt.count - 1
        by_cases h4 : d.tnt.count - 1 ≠ 0
        · omega
        · exfalso
          have hst : (if d.tnt.count - 1 ≠ 0 then intel_pt_pkt_state.INTEL_PT_STATE_TNT_CONT
              else intel_pt_pkt_state.INTEL_PT_STATE_IN_SYNC) =
                intel_pt_pkt_state.INTEL_PT_STATE_TNT ∨
              (if d.tnt.count - 1 ≠ 0 then intel_pt_pkt_state.INTEL_PT_STATE_TNT_CONT
              else intel_pt_pkt_state.INTEL_PT_STATE_IN_SYNC) =
                intel_pt_pkt_state.INTEL_PT_STATE_TNT_CONT := hs
          rw [if_neg h4] at hst
          rcases hst with hst | hst <;> cases hst

/-- The case of a conditional branch in `intel_pt_walk_tnt`, entered with
`tnt.count > 0`: when the count reaches 0 the state is IN_SYNC, otherwise it is TNT_CONT
with a count that is still positive; and the loop goes on only with a positive count. -/
theorem walk_tnt_cond_tnt (insn : intel_pt_insn) (d : intel_pt_decoder) (h : tnt_inv d)
    (hc : 0 < d.tnt.count) :
    tnt_inv (intel_pt_walk_tnt_cond insn d).2 ∧
    ((intel_pt_walk_tnt_cond insn d).1 = none → 0 < (intel_pt_walk_tnt_cond insn d).2.tnt.count) := by
  have hinv : ∀ x : intel_pt_decoder,
      x.pkt_state = (if d.tnt.count - 1 ≠ 0 then intel_pt_pkt_state.INTEL_PT_STATE_TNT_CONT
        else intel_pt_pkt_state.INTEL_PT_STATE_IN_SYNC) →
      x.tnt.count = d.tnt.count - 1 → x.packet = d.packet → tnt_inv x := by
    intro x hs ht hp
    refine ⟨fun hx => ?_, by rw [hp]; exact h.2⟩
    rw [ht]
    by_cases h4 : d.tnt.count - 1 ≠ 0
    · omega
    · exfalso
      rw [hs, if_neg h4] at hx
      rcases hx with hx | hx <;> cases hx
  unfold intel_pt_walk_tnt_cond
  simp only []
  by_cases h1 : d.tnt.payload &&& BIT63 ≠ 0
  · rw [if_pos h1]
    exact ⟨hinv _ rfl rfl rfl, fun hn => absurd hn (by simp)⟩
  · rw [if_neg h1]
    by_cases h2 : d.state.type &&& INTEL_PT_INSTRUCTION ≠ 0
    · rw [if_pos h2]
      exact ⟨hinv _ rfl rfl rfl, fun hn => absurd hn (by simp)⟩
    · rw [if_neg h2]
      by_cases h3 : d.tnt.count - 1 = 0
      · rw [if_pos h3]
        exact ⟨hinv _ rfl rfl rfl, fun hn => absurd hn (by simp)⟩
      · rw [if_neg h3]
        refine ⟨hinv _ rfl rfl rfl, fun _ => ?_⟩
        show 0 < d.tnt.count - 1
        omega

/-- The function `intel_pt_walk_tnt`, entered with `tnt.count > 0`, ends with the
invariant of the TNT states. -/
theorem walk_tnt_tnt (env : intel_pt_env) (hpk : tnt_counts env) :
    ∀ (fuel : Nat) (d : intel_pt_decoder) (r : Int × intel_pt_decoder), tnt_inv d →
      0 < d.tnt.count → intel_pt_walk_tnt env fuel d = some r → tnt_inv r.2 := by
  intro fuel
  induction fuel with
  | zero =>
    intro d r _ _ hr
    rw [intel_pt_walk_tnt] at hr
    exact absurd hr (by simp)
  | succ fuel ih =>
    intro d r h hc hr
    rw [intel_pt_walk_tnt] at hr
    split at hr
    · exact absurd hr (by simp)
    · rename_i err insn d1 hcall
      have h1 : tnt_inv d1 := walk_insn_tnt env d _ _ h hcall
      have hf := walk_insn_frame_eq env d 0 _ hcall
      have hc1 : 0 < d1.tnt.count := by
        have ht : d1.tnt = d.tnt := hf.2.1
        rw [ht]
        exact hc
      split_ifs at hr
      · simp only [Option.some.injEq] at hr; subst hr; exact h1
      · simp only [Option.some.injEq] at hr; subst hr; exact h1
      · simp only [Option.some.injEq] at hr; subst hr; exact walk_tnt_ret_tnt d1 h1 hc1
      · split at hr
        · exact absurd hr (by simp)
        · rename_i e2 d2 hp
          have h2 : tnt_inv d2 := get_next_packet_tnt env hpk fuel d1 _ h1 hp
          simp only [] at hr
          split_ifs at hr
          · simp only [Option.some.injEq] at hr
            subst hr
            exact h2
          · simp only [Option.some.injEq] at hr
            subst hr
            exact ⟨fun hs => (by rcases hs with hs | hs <;> cases hs), h2.2⟩
          · simp only [Option.some.injEq] at hr
            subst hr
            exact ⟨h2.1, h2.2⟩
      · have h2 := walk_tnt_cond_tnt insn d1 h1 hc1
        split at hr
        · rename_i e2 d2 hcnd
          rw [hcnd] at h2
          simp only [Option.some.injEq] at hr; subst hr; exact h2.1
        · rename_i d2 hcnd
          rw [hcnd] at h2
          exact ih _ r h2.1 (h2.2 rfl) hr
      · simp only [Option.some.injEq] at hr; subst hr; exact bug_tnt d1 h1
/-! ### The invariant on `have_tnt`: packet walking -/

theorem mode_tsx_tnt (env : intel_pt_env) (hpk : tnt_counts env) (fuel : Nat) (no_tip : Bool) (d : intel_pt_decoder)
    (r : Int × Bool × intel_pt_decoder) (h : tnt_inv d)
    (hr : intel_pt_mode_tsx env fuel no_tip d = some r) : tnt_inv r.2.2 := by
  unfold intel_pt_mode_tsx at hr
  lift_lets at hr
  extract_lets fx at hr
  clear_value fx
  split at hr
  · exact absurd hr (by simp)
  · rename_i e1 d1 hp
    have h1 : tnt_inv d1 := get_next_packet_tnt env hpk fuel d _ h hp
    split_ifs at hr
    all_goals
      simp only [Option.some.injEq] at hr
      subst hr
      exact ⟨h1.1, h1.2⟩

theorem walk_psbend_packet_tnt (env : intel_pt_env) (d : intel_pt_decoder)
    (h : tnt_inv d) : tnt_inv (intel_pt_walk_psbend_packet env d).2 := by
  unfold intel_pt_walk_psbend_packet
  split
  · exact ⟨h.1, h.2⟩
  · exact ⟨h.1, h.2⟩
  · exact ⟨h.1, h.2⟩
  · exact ⟨h.1, h.2⟩
  · exact ⟨h.1, h.2⟩
  · exact ⟨h.1, h.2⟩
  · exact ⟨h.1, h.2⟩
  · exact ⟨h.1, h.2⟩
  · exact ⟨fun hs => (by rcases hs with hs | hs <;> cases hs), h.2⟩
  · exact calc_tsc_timestamp_tnt d _ h
  · exact calc_tma_tnt d h
  · exact calc_cbr_tnt env d h
  · exact exec_mode_tnt d _ h
  · exact ⟨h.1, h.2⟩
  · simp only []
    split_ifs <;> exact ⟨h.1, h.2⟩
  · exact ⟨h.1, h.2⟩
  · have hm := calc_mtc_timestamp_tnt d (env.lookahead d true) h
    simp only []
    split_ifs <;> exact ⟨hm.1, hm.2⟩
  · exact ⟨h.1, h.2⟩
  · exact ⟨h.1, h.2⟩
  · exact ⟨h.1, h.2⟩
  · exact ⟨h.1, h.2⟩

theorem walk_psbend_tnt (env : intel_pt_env) (hpk : tnt_counts env) :
    ∀ (fuel : Nat) (d : intel_pt_decoder) (r : Int × intel_pt_decoder), tnt_inv d →
      intel_pt_walk_psbend env fuel d = some r → tnt_inv r.2 := by
  intro fuel
  induction fuel with
  | zero =>
    intro d r _ hr
    rw [intel_pt_walk_psbend] at hr
    exact absurd hr (by simp)
  | succ fuel ih =>
    intro d r h hr
    rw [intel_pt_walk_psbend] at hr
    split at hr
    · exact absurd hr (by simp)
    · rename_i e1 d1 hp
      have h1 : tnt_inv d1 := get_next_packet_tnt env hpk fuel d _ h hp
      split_ifs at hr
      · simp only [Option.some.injEq] at hr; subst hr; exact h1
      · have h2 := walk_psbend_packet_tnt env d1 h1
        split at hr
        · rename_i e2 d2 hc
          rw [hc] at h2
          simp only [Option.some.injEq] at hr; subst hr; exact h2
        · rename_i d2 hc
          rw [hc] at h2
          exact ih _ r h2 hr

theorem walk_fup_tip_flags_tnt (d : intel_pt_decoder) (h : tnt_inv d) :
    tnt_inv (intel_pt_walk_fup_tip_flags d) := by
  unfold intel_pt_walk_fup_tip_flags
  split_ifs <;> exact ⟨h.1, h.2⟩

theorem walk_fup_tip_packet_tnt (env : intel_pt_env) (d : intel_pt_decoder)
    (h : tnt_inv d) : tnt_inv (intel_pt_walk_fup_tip_packet env d).2 := by
  unfold intel_pt_walk_fup_tip_packet
  split
  · exact ⟨fun hs => (by rcases hs with hs | hs <;> cases hs), h.2⟩
  · exact ⟨fun hs => (by rcases hs with hs | hs <;> cases hs), h.2⟩
  · exact ⟨fun hs => (by rcases hs with hs | hs <;> cases hs), h.2⟩
  · exact ⟨fun hs => (by rcases hs with hs | hs <;> cases hs), h.2⟩
  · exact ⟨fun hs => (by rcases hs with hs | hs <;> cases hs), h.2⟩
  · exact ⟨fun hs => (by rcases hs with hs | hs <;> cases hs), h.2⟩
  · exact ⟨fun hs => (by rcases hs with hs | hs <;> cases hs), h.2⟩
  · exact ⟨fun hs => (by rcases hs with hs | hs <;> cases hs), h.2⟩
  · exact ⟨fun hs => (by rcases hs with hs | hs <;> cases hs), h.2⟩
  · exact ⟨fun hs => (by rcases hs with hs | hs <;> cases hs), h.2⟩
  · exact ⟨fun hs => (by rcases hs with hs | hs <;> cases hs), h.2⟩
  · simp only []
    split_ifs <;> exact ⟨h.1, h.2⟩
  · simp only []
    split_ifs <;> exact ⟨h.1, h.2⟩
  · simp only []
    split_ifs <;> exact ⟨h.1, h.2⟩
  · exact ⟨h.1, h.2⟩
  · have hm := calc_mtc_timestamp_tnt d (env.lookahead d true) h
    simp only []
    split_ifs <;> exact ⟨hm.1, hm.2⟩
  · exact calc_cyc_timestamp_tnt env d h
  · exact exec_mode_tnt d _ h
  · exact ⟨h.1, h.2⟩
  · exact ⟨h.1, h.2⟩
  · exact ⟨h.1, h.2⟩

theorem walk_fup_tip_loop_tnt (env : intel_pt_env) (hpk : tnt_counts env) :
    ∀ (fuel : Nat) (d : intel_pt_decoder) (r : Int × intel_pt_decoder), tnt_inv d →
      intel_pt_walk_fup_tip_loop env fuel d = some r → tnt_inv r.2 := by
  intro fuel
  induction fuel with
  | zero =>
    intro d r _ hr
    rw [intel_pt_walk_fup_tip_loop] at hr
    exact absurd hr (by simp)
  | succ fuel ih =>
    intro d r h hr
    rw [intel_pt_walk_fup_tip_loop] at hr
    split at hr
    · exact absurd hr (by simp)
    · rename_i e1 d1 hp
      have h1 : tnt_inv d1 := get_next_packet_tnt env hpk fuel d _ h hp
      split_ifs at hr
      · simp only [Option.some.injEq] at hr; subst hr; exact h1
      · have h2 := walk_fup_tip_packet_tnt env d1 h1
        split at hr
        · rename_i e2 d2 hc
          rw [hc] at h2
          simp only [Option.some.injEq] at hr; subst hr; exact h2
        · rename_i d2 hc
          rw [hc] at h2
          exact ih _ r h2 hr

theorem walk_fup_tip_tnt (env : intel_pt_env) (hpk : tnt_counts env) (fuel : Nat) (d : intel_pt_decoder)
    (r : Int × intel_pt_decoder) (h : tnt_inv d)
    (hr : intel_pt_walk_fup_tip env fuel d = some r) : tnt_inv r.2 :=
  walk_fup_tip_loop_tnt env hpk fuel _ r (walk_fup_tip_flags_tnt d h) hr

theorem walk_trace_fup_tnt (env : intel_pt_env) (hpk : tnt_counts env) (fuel : Nat) (no_tip : Bool)
    (d : intel_pt_decoder) (s : walk_trace_step) (h : tnt_inv d)
    (hr : intel_pt_walk_trace_fup env fuel no_tip d = some s) : tnt_inv (step_decoder s) := by
  unfold intel_pt_walk_trace_fup at hr
  by_cases hc : d.packet.count = (0 : Int)
  · rw [if_pos hc] at hr
    simp only [Option.some.injEq] at hr
    subst hr
    exact h
  · rw [if_neg hc] at hr
    cases hf : intel_pt_walk_fup env fuel (intel_pt_set_last_ip d) with
    | none =>
      rw [hf] at hr
      exact absurd hr (by simp)
    | some r1 =>
      obtain ⟨e1, d1⟩ := r1
      rw [hf] at hr
      have h1 : tnt_inv d1 := walk_fup_tnt env fuel _ _ (set_last_ip_tnt d h) hf
      simp only [] at hr
      split_ifs at hr
      · simp only [Option.some.injEq] at hr
        subst hr
        exact ⟨h1.1, h1.2⟩
      · simp only [Option.some.injEq] at hr
        subst hr
        (first | exact ⟨h1.1, h1.2⟩ | exact ⟨fun hs => (by rcases hs with hs | hs <;> cases hs), h1.2⟩)
      · simp only [Option.some.injEq] at hr
        subst hr
        (first | exact ⟨h1.1, h1.2⟩ | exact ⟨fun hs => (by rcases hs with hs | hs <;> cases hs), h1.2⟩)
      · simp only [Option.some.injEq] at hr
        subst hr
        exact ⟨h1.1, h1.2⟩
      · cases hft : intel_pt_walk_fup_tip env fuel d1 with
        | none =>
          rw [hft] at hr
          exact absurd hr (by simp)
        | some r2 =>
          rw [hft] at hr
          simp only [Option.some.injEq] at hr
          subst hr
          exact walk_fup_tip_tnt env hpk fuel d1 r2 h1 hft

theorem walk_trace_mtc_tnt (env : intel_pt_env) (no_tip : Bool) (d : intel_pt_decoder)
    (h : tnt_inv d) : tnt_inv (step_decoder (intel_pt_walk_trace_mtc env no_tip d)) := by
  have h1 := calc_mtc_timestamp_tnt d (env.lookahead d true) h
  unfold intel_pt_walk_trace_mtc
  simp only []
  split_ifs <;> exact ⟨h1.1, h1.2⟩

theorem walk_trace_packet_tnt (env : intel_pt_env) (hpk : tnt_counts env) (fuel : Nat) (no_tip : Bool)
    (d : intel_pt_decoder) (s : walk_trace_step) (h : tnt_inv d)
    (hr : intel_pt_walk_trace_packet env fuel no_tip d = some s) : tnt_inv (step_decoder s) := by
  unfold intel_pt_walk_trace_packet at hr
  split at hr
  · -- TNT: the state TNT is entered with the count of the packet, which is not 0
    rename_i hpt
    by_cases hc : d.packet.count = (0 : Int)
    · rw [if_pos hc] at hr
      simp only [Option.some.injEq] at hr
      subst hr
      exact h
    · rw [if_neg hc] at hr
      have hpos : 0 < d.packet.count := by
        have := h.2 hpt
        omega
      have hd : tnt_inv
          { d with tnt := d.packet, pkt_state := intel_pt_pkt_state.INTEL_PT_STATE_TNT } :=
        ⟨fun _ => hpos, h.2⟩
      split at hr
      · exact absurd hr (by simp)
      · rename_i e1 d1 ht
        have h1 : tnt_inv d1 := walk_tnt_tnt env hpk fuel _ _ hd hpos ht
        split_ifs at hr
        all_goals (simp only [Option.some.injEq] at hr; subst hr; exact ⟨h1.1, h1.2⟩)
  · -- TIP_PGD
    lift_lets at hr
    extract_lets d1 at hr
    have hd1 : tnt_inv d1 := by
      show tnt_inv (if d.packet.count ≠ (0 : Int) then intel_pt_set_last_ip d else d)
      split_ifs
      · exact set_last_ip_tnt d h
      · exact h
    clear_value d1
    have hd : tnt_inv
        { d1 with pkt_state := intel_pt_pkt_state.INTEL_PT_STATE_TIP_PGD } := by (first | exact ⟨hd1.1, hd1.2⟩ | exact ⟨fun hs => (by rcases hs with hs | hs <;> cases hs), hd1.2⟩)
    split at hr
    · exact absurd hr (by simp)
    · rename_i e1 d2 ht
      have h1 : tnt_inv d2 := walk_tip_tnt env _ _ hd ht
      simp only [Option.some.injEq] at hr
      subst hr
      exact ⟨h1.1, h1.2⟩
  · -- TIP_PGE
    split_ifs at hr
    all_goals (simp only [Option.some.injEq] at hr; subst hr; exact ⟨h.1, h.2⟩)
  · -- OVF
    simp only [Option.some.injEq] at hr
    subst hr
    exact overflow_tnt d h
  · -- TIP
    lift_lets at hr
    extract_lets d1 at hr
    have hd1 : tnt_inv d1 := by
      show tnt_inv (if d.packet.count ≠ (0 : Int) then intel_pt_set_last_ip d else d)
      split_ifs
      · exact set_last_ip_tnt d h
      · exact h
    clear_value d1
    have hd : tnt_inv
        { d1 with pkt_state := intel_pt_pkt_state.INTEL_PT_STATE_TIP } := by (first | exact ⟨hd1.1, hd1.2⟩ | exact ⟨fun hs => (by rcases hs with hs | hs <;> cases hs), hd1.2⟩)
    split at hr
    · exact absurd hr (by simp)
    · rename_i e1 d2 ht
      have h1 : tnt_inv d2 := walk_tip_tnt env _ _ hd ht
      simp only [Option.some.injEq] at hr
      subst hr
      exact ⟨h1.1, h1.2⟩
  · -- FUP
    exact walk_trace_fup_tnt env hpk fuel no_tip d s h hr
  · -- TRACESTOP
    simp only [Option.some.injEq] at hr
    subst hr
    exact ⟨h.1, h.2⟩
  · -- PSB
    split at hr
    · exact absurd hr (by simp)
    · rename_i stack hcs
      have hd : tnt_inv { d with last_ip := 0, have_last_ip := true, stack := stack } :=
        by exact ⟨h.1, h.2⟩
      split at hr
      · exact absurd hr (by simp)
      · rename_i e1 d1 hp
        have h1 : tnt_inv d1 := walk_psbend_tnt env hpk fuel _ _ hd hp
        split_ifs at hr
        all_goals (simp only [Option.some.injEq] at hr; subst hr; exact ⟨h1.1, h1.2⟩)
  · -- PIP
    simp only [Option.some.injEq] at hr
    subst hr
    exact ⟨h.1, h.2⟩
  · -- MTC
    simp only [Option.some.injEq] at hr
    subst hr
    exact walk_trace_mtc_tnt env no_tip d h
  · -- TSC
    simp only [Option.some.injEq] at hr
    subst hr
    exact calc_tsc_timestamp_tnt d _ h
  · -- TMA
    simp only [Option.some.injEq] at hr
    subst hr
    exact calc_tma_tnt d h
  · -- CYC
    simp only [Option.some.injEq] at hr
    subst hr
    exact calc_cyc_timestamp_tnt env d h
  · -- CBR
    simp only [Option.some.injEq] at hr
    subst hr
    exact calc_cbr_tnt env d h
  · -- MODE_EXEC
    simp only [Option.some.injEq] at hr
    subst hr
    exact exec_mode_tnt d _ h
  · -- MODE_TSX
    by_cases hp : d.pge = false
    · rw [if_pos hp] at hr
      simp only [Option.some.injEq] at hr
      subst hr
      exact update_in_tx_tnt d h
    · rw [if_neg hp] at hr
      split at hr
      · exact absurd hr (by simp)
      · rename_i e1 nt d1 hm
        have h1 : tnt_inv d1 := mode_tsx_tnt env hpk fuel no_tip d _ h hm
        split_ifs at hr
        all_goals (simp only [Option.some.injEq] at hr; subst hr; exact ⟨h1.1, h1.2⟩)
  · -- BAD
    simp only [Option.some.injEq] at hr
    subst hr
    exact bug_tnt d h
  · simp only [Option.some.injEq] at hr; subst hr; exact h
  · simp only [Option.some.injEq] at hr; subst hr; exact h
  · simp only [Option.some.injEq] at hr; subst hr; exact h
  · simp only [Option.some.injEq] at hr; subst hr; exact h

theorem walk_trace_loop_tnt (env : intel_pt_env) (hpk : tnt_counts env) :
    ∀ (fuel : Nat) (no_tip at_next : Bool) (d : intel_pt_decoder) (r : Int × intel_pt_decoder),
      tnt_inv d → intel_pt_walk_trace_loop env fuel no_tip at_next d = some r → tnt_inv r.2 := by
  intro fuel
  induction fuel with
  | zero =>
    intro no_tip at_next d r _ hr
    rw [intel_pt_walk_trace_loop] at hr
    exact absurd hr (by simp)
  | succ fuel ih =>
    intro no_tip at_next d r h hr
    rw [intel_pt_walk_trace_loop] at hr
    split at hr
    · exact absurd hr (by simp)
    · rename_i e1 d1 hp
      have h1 : tnt_inv d1 := by
        cases at_next
        · simp only [Bool.false_eq_true, if_false] at hp
          exact get_next_packet_tnt env hpk fuel d _ h hp
        · simp only [if_true, Option.some.injEq, Prod.mk.injEq] at hp
          rw [← hp.2]; exact h
      split_ifs at hr
      · simp only [Option.some.injEq] at hr; subst hr; exact h1
      · split at hr
        · exact absurd hr (by simp)
        · rename_i e2 d2 hs
          have h2 := walk_trace_packet_tnt env hpk fuel no_tip d1 _ h1 hs
          simp only [Option.some.injEq] at hr; subst hr; exact h2
        · rename_i nt d2 hs
          have h2 := walk_trace_packet_tnt env hpk fuel no_tip d1 _ h1 hs
          exact ih _ _ _ r h2 hr
        · rename_i nt d2 hs
          have h2 := walk_trace_packet_tnt env hpk fuel no_tip d1 _ h1 hs
          exact ih _ _ _ r h2 hr

theorem walk_trace_tnt (env : intel_pt_env) (hpk : tnt_counts env) (fuel : Nat) (d : intel_pt_decoder)
    (r : Int × intel_pt_decoder) (h : tnt_inv d)
    (hr : intel_pt_walk_trace env fuel d = some r) : tnt_inv r.2 :=
  walk_trace_loop_tnt env hpk fuel false false d r h hr

/-! ### The invariant on `have_tnt`: synchronisation and `intel_pt_decode` -/

theorem walk_sync_timing_tnt (env : intel_pt_env) (d d1 : intel_pt_decoder)
    (h : tnt_inv d) (hr : intel_pt_walk_sync_timing env d = some d1) : tnt_inv d1 := by
  unfold intel_pt_walk_sync_timing at hr
  split at hr
  · simp only [Option.some.injEq] at hr
    subst hr
    exact calc_mtc_timestamp_tnt d _ h
  · simp only [Option.some.injEq] at hr
    subst hr
    exact calc_tsc_timestamp_tnt d _ h
  · simp only [Option.some.injEq] at hr
    subst hr
    exact calc_tma_tnt d h
  · simp only [Option.some.injEq] at hr
    subst hr
    exact calc_cyc_timestamp_tnt env d h
  · simp only [Option.some.injEq] at hr
    subst hr
    exact calc_cbr_tnt env d h
  · simp only [Option.some.injEq] at hr
    subst hr
    exact ⟨h.1, h.2⟩
  · simp only [Option.some.injEq] at hr
    subst hr
    exact exec_mode_tnt d _ h
  · simp only [Option.some.injEq] at hr
    subst hr
    exact update_in_tx_tnt d h
  · exact absurd hr (by simp)

theorem walk_psb_packet_tnt (env : intel_pt_env) (d : intel_pt_decoder)
    (h : tnt_inv d) : tnt_inv (intel_pt_walk_psb_packet env d).2 := by
  unfold intel_pt_walk_psb_packet
  split
  · rename_i d1 hs
    exact walk_sync_timing_tnt env d d1 h hs
  · split
    · exact ⟨h.1, h.2⟩
    · exact h
    · exact h
    · simp only []
      split_ifs
      · exact ⟨h.1, h.2⟩
      · exact ⟨h.1, h.2⟩
    · refine ⟨fun hs => ?_, h.2⟩
      have hx : (if d.ip ≠ 0 then INTEL_PT_STATE_ERR4 else INTEL_PT_STATE_ERR3) =
            intel_pt_pkt_state.INTEL_PT_STATE_TNT ∨
          (if d.ip ≠ 0 then INTEL_PT_STATE_ERR4 else INTEL_PT_STATE_ERR3) =
            intel_pt_pkt_state.INTEL_PT_STATE_TNT_CONT := hs
      split_ifs at hx <;> rcases hx with hx | hx <;> cases hx
    · refine ⟨fun hs => ?_, h.2⟩
      have hx : (if d.ip ≠ 0 then INTEL_PT_STATE_ERR4 else INTEL_PT_STATE_ERR3) =
            intel_pt_pkt_state.INTEL_PT_STATE_TNT ∨
          (if d.ip ≠ 0 then INTEL_PT_STATE_ERR4 else INTEL_PT_STATE_ERR3) =
            intel_pt_pkt_state.INTEL_PT_STATE_TNT_CONT := hs
      split_ifs at hx <;> rcases hx with hx | hx <;> cases hx
    · exact bug_tnt d h
    · exact overflow_tnt d h
    · exact h
    · exact h

theorem walk_psb_tnt (env : intel_pt_env) (hpk : tnt_counts env) :
    ∀ (fuel : Nat) (d : intel_pt_decoder) (r : Int × intel_pt_decoder), tnt_inv d →
      intel_pt_walk_psb env fuel d = some r → tnt_inv r.2 := by
  intro fuel
  induction fuel with
  | zero =>
    intro d r _ hr
    rw [intel_pt_walk_psb] at hr
    exact absurd hr (by simp)
  | succ fuel ih =>
    intro d r h hr
    rw [intel_pt_walk_psb] at hr
    split at hr
    · exact absurd hr (by simp)
    · rename_i e1 d1 hp
      have h1 : tnt_inv d1 := get_next_packet_tnt env hpk fuel d _ h hp
      split_ifs at hr
      · simp only [Option.some.injEq] at hr; subst hr; exact h1
      · have h2 := walk_psb_packet_tnt env d1 h1
        split at hr
        · rename_i e2 d2 hc
          rw [hc] at h2
          simp only [Option.some.injEq] at hr; subst hr; exact h2
        · rename_i d2 hc
          rw [hc] at h2
          exact ih _ r h2 hr

theorem walk_to_ip_packet_tnt (env : intel_pt_env) (hpk : tnt_counts env) (fuel : Nat)
    (d : intel_pt_decoder) (r : Option Int × intel_pt_decoder) (h : tnt_inv d)
    (hr : intel_pt_walk_to_ip_packet env fuel d = some r) : tnt_inv r.2 := by
  unfold intel_pt_walk_to_ip_packet at hr
  split at hr
  · rename_i d1 hs
    simp only [Option.some.injEq] at hr
    subst hr
    exact walk_sync_timing_tnt env d d1 h hs
  · split at hr
    · simp only [Option.some.injEq] at hr
      subst hr
      simp only []
      split_ifs <;> exact ⟨h.1, h.2⟩
    · simp only [Option.some.injEq] at hr
      subst hr
      simp only []
      split_ifs <;> exact ⟨h.1, h.2⟩
    · simp only [Option.some.injEq] at hr
      subst hr
      simp only []
      split_ifs <;> exact ⟨h.1, h.2⟩
    · simp only [Option.some.injEq] at hr
      subst hr
      simp only []
      split_ifs <;> exact ⟨h.1, h.2⟩
    · simp only [Option.some.injEq] at hr
      subst hr
      exact overflow_tnt d h
    · simp only [Option.some.injEq] at hr
      subst hr
      exact bug_tnt d h
    · simp only [Option.some.injEq] at hr
      subst hr
      exact ⟨h.1, h.2⟩
    · split at hr
      · exact absurd hr (by simp)
      · rename_i stack hcs
        have hd : tnt_inv { d with last_ip := 0, have_last_ip := true, stack := stack } :=
          by exact ⟨h.1, h.2⟩
        split at hr
        · exact absurd hr (by simp)
        · rename_i e1 d1 hp
          have h1 : tnt_inv d1 := walk_psb_tnt env hpk fuel _ _ hd hp
          split_ifs at hr
          all_goals (simp only [Option.some.injEq] at hr; subst hr; exact ⟨h1.1, h1.2⟩)
    · simp only [Option.some.injEq] at hr
      subst hr
      exact h

theorem walk_to_ip_tnt (env : intel_pt_env) (hpk : tnt_counts env) :
    ∀ (fuel : Nat) (d : intel_pt_decoder) (r : Int × intel_pt_decoder), tnt_inv d →
      intel_pt_walk_to_ip env fuel d = some r → tnt_inv r.2 := by
  intro fuel
  induction fuel with
  | zero =>
    intro d r _ hr
    rw [intel_pt_walk_to_ip] at hr
    exact absurd hr (by simp)
  | succ fuel ih =>
    intro d r h hr
    rw [intel_pt_walk_to_ip] at hr
    split at hr
    · exact absurd hr (by simp)
    · rename_i e1 d1 hp
      have h1 : tnt_inv d1 := get_next_packet_tnt env hpk fuel d _ h hp
      split_ifs at hr
      · simp only [Option.some.injEq] at hr; subst hr; exact h1
      · split at hr
        · exact absurd hr (by simp)
        · rename_i e2 d2 hc
          have h2 := walk_to_ip_packet_tnt env hpk fuel d1 _ h1 hc
          simp only [Option.some.injEq] at hr; subst hr; exact h2
        · rename_i d2 hc
          have h2 := walk_to_ip_packet_tnt env hpk fuel d1 _ h1 hc
          exact ih _ r h2 hr

theorem sync_ip_tnt (env : intel_pt_env) (hpk : tnt_counts env) (fuel : Nat) (d : intel_pt_decoder)
    (r : Int × intel_pt_decoder) (h : tnt_inv d)
    (hr : intel_pt_sync_ip env fuel d = some r) : tnt_inv r.2 := by
  unfold intel_pt_sync_ip at hr
  split at hr
  · exact absurd hr (by simp)
  · rename_i e1 d1 hw
    have h1 : tnt_inv d1 := by
      refine walk_to_ip_tnt env hpk fuel _ _ ?_ hw
      exact ⟨h.1, h.2⟩
    split_ifs at hr
    all_goals (simp only [Option.some.injEq] at hr; subst hr; (first | exact ⟨h1.1, h1.2⟩ | exact ⟨fun hs => (by rcases hs with hs | hs <;> cases hs), h1.2⟩))

theorem get_split_psb_tnt (env : intel_pt_env) (d : intel_pt_decoder) (part_psb : Nat)
    (h : tnt_inv d) : tnt_inv (intel_pt_get_split_psb env d part_psb).2 := by
  have h1 := get_next_data_tnt
    { d with pos := (d.pos + d.buf.length) % 2 ^ 64, buf := [] } ⟨h.1, h.2⟩
  unfold intel_pt_get_split_psb
  simp only []
  split_ifs <;> exact ⟨h1.1, h1.2⟩

theorem scan_for_psb_tnt (env : intel_pt_env) (hpk : tnt_counts env) :
    ∀ (fuel : Nat) (d : intel_pt_decoder) (r : Int × intel_pt_decoder), tnt_inv d →
      intel_pt_scan_for_psb env fuel d = some r → tnt_inv r.2 := by
  intro fuel
  induction fuel with
  | zero =>
    intro d r _ hr
    rw [intel_pt_scan_for_psb] at hr
    exact absurd hr (by simp)
  | succ fuel ih =>
    intro d r h hr
    rw [intel_pt_scan_for_psb] at hr
    have h1 : tnt_inv (if d.buf.length = 0 then intel_pt_get_next_data d else (0, d)).2 := by
      split_ifs
      · exact get_next_data_tnt d h
      · exact h
    generalize (if d.buf.length = 0 then intel_pt_get_next_data d else (0, d)) = q at hr h1
    by_cases hq : q.1 ≠ 0
    · rw [if_pos hq] at hr
      simp only [Option.some.injEq] at hr
      subst hr
      exact h1
    · rw [if_neg hq] at hr
      cases hm : memmem env.INTEL_PT_PSB_STR q.2.buf with
      | none =>
        rw [hm] at hr
        simp only [] at hr
        by_cases hp : intel_pt_part_psb env q.2 ≠ 0
        · rw [if_pos hp] at hr
          have h2 : tnt_inv (intel_pt_get_split_psb env q.2 (intel_pt_part_psb env q.2)).2 :=
            get_split_psb_tnt env q.2 _ h1
          generalize intel_pt_get_split_psb env q.2 (intel_pt_part_psb env q.2) = q2 at hr h2
          by_cases hq2 : q2.1 ≠ 0
          · rw [if_pos hq2] at hr
            simp only [Option.some.injEq] at hr
            subst hr
            exact h2
          · rw [if_neg hq2] at hr
            exact ih _ r h2 hr
        · rw [if_neg hp] at hr
          refine ih _ r ?_ hr
          exact ⟨h1.1, h1.2⟩
      | some next =>
        rw [hm] at hr
        simp only [] at hr
        refine get_next_packet_tnt env hpk fuel _ r ?_ hr
        exact ⟨h1.1, h1.2⟩

theorem sync_tnt (env : intel_pt_env) (hpk : tnt_counts env) (fuel : Nat) (d : intel_pt_decoder)
    (r : Int × intel_pt_decoder) (h : tnt_inv d)
    (hr : intel_pt_sync env fuel d = some r) : tnt_inv r.2 := by
  unfold intel_pt_sync at hr
  split at hr
  · exact absurd hr (by simp)
  · split at hr
    · exact absurd hr (by simp)
    · rename_i e1 d1 hs
      have h1 : tnt_inv d1 := by
        refine scan_for_psb_tnt env hpk fuel _ _ ?_ hs
        exact ⟨h.1, h.2⟩
      split_ifs at hr
      · simp only [Option.some.injEq] at hr; subst hr; exact ⟨h1.1, h1.2⟩
      · split at hr
        · exact absurd hr (by simp)
        · rename_i e2 d2 hw
          have h2 : tnt_inv d2 := by
            refine walk_psb_tnt env hpk fuel _ _ ?_ hw
            (first | exact ⟨h1.1, h1.2⟩ | exact ⟨fun hs => (by rcases hs with hs | hs <;> cases hs), h1.2⟩)
          split_ifs at hr
          · simp only [Option.some.injEq] at hr; subst hr; exact ⟨h2.1, h2.2⟩
          · simp only [Option.some.injEq] at hr; subst hr; (first | exact ⟨h2.1, h2.2⟩ | exact ⟨fun hs => (by rcases hs with hs | hs <;> cases hs), h2.2⟩)
          · exact sync_ip_tnt env hpk fuel d2 r h2 hr

theorem decode_step_tnt (env : intel_pt_env) (hpk : tnt_counts env) (fuel : Nat) (d : intel_pt_decoder)
    (r : Int × intel_pt_decoder) (h : tnt_inv d)
    (hr : intel_pt_decode_step env fuel d = some r) : tnt_inv r.2 := by
  unfold intel_pt_decode_step at hr
  simp only [] at hr
  split at hr
  · refine sync_tnt env hpk fuel _ r ?_ hr
    exact ⟨h.1, h.2⟩
  · refine sync_ip_tnt env hpk fuel _ r ?_ hr
    exact ⟨h.1, h.2⟩
  · refine sync_ip_tnt env hpk fuel _ r ?_ hr
    exact ⟨h.1, h.2⟩
  · refine walk_trace_tnt env hpk fuel _ r ?_ hr
    exact ⟨h.1, h.2⟩
  · rename_i hps
    have hpos : 0 < d.tnt.count := h.1 (Or.inl hps)
    split at hr
    · exact absurd hr (by simp)
    · rename_i e1 d1 ht
      have h1 : tnt_inv d1 := by
        refine walk_tnt_tnt env hpk fuel _ _ ?_ ?_ ht
        · exact ⟨h.1, h.2⟩
        · exact hpos
      split_ifs at hr
      · exact walk_trace_tnt env hpk fuel _ r h1 hr
      · simp only [Option.some.injEq] at hr; subst hr; exact ⟨h1.1, h1.2⟩
  · rename_i hps
    have hpos : 0 < d.tnt.count := h.1 (Or.inr hps)
    split at hr
    · exact absurd hr (by simp)
    · rename_i e1 d1 ht
      have h1 : tnt_inv d1 := by
        refine walk_tnt_tnt env hpk fuel _ _ ?_ ?_ ht
        · exact ⟨h.1, h.2⟩
        · exact hpos
      split_ifs at hr
      · exact walk_trace_tnt env hpk fuel _ r h1 hr
      · simp only [Option.some.injEq] at hr; subst hr; exact ⟨h1.1, h1.2⟩
  · refine walk_tip_tnt env _ r ?_ hr
    exact ⟨h.1, h.2⟩
  · refine walk_tip_tnt env _ r ?_ hr
    exact ⟨h.1, h.2⟩
  · split at hr
    · exact absurd hr (by simp)
    · rename_i e1 d1 ht
      have h1 : tnt_inv d1 := by
        refine walk_fup_tnt env fuel _ _ ?_ ht
        (first | exact ⟨h.1, h.2⟩ | exact ⟨fun hs => (by rcases hs with hs | hs <;> cases hs), h.2⟩)
      split_ifs at hr
      · exact walk_fup_tip_tnt env hpk fuel _ r h1 hr
      · simp only [Option.some.injEq] at hr; subst hr; (first | exact ⟨h1.1, h1.2⟩ | exact ⟨fun hs => (by rcases hs with hs | hs <;> cases hs), h1.2⟩)
      · simp only [Option.some.injEq] at hr; subst hr; exact ⟨h1.1, h1.2⟩
  · split at hr
    · exact absurd hr (by simp)
    · rename_i e1 d1 ht
      have h1 : tnt_inv d1 := by
        refine walk_fup_tnt env fuel _ _ ?_ ht
        (first | exact ⟨h.1, h.2⟩ | exact ⟨fun hs => (by rcases hs with hs | hs <;> cases hs), h.2⟩)
      split_ifs at hr
      · exact walk_trace_tnt env hpk fuel _ r h1 hr
      · simp only [Option.some.injEq] at hr; subst hr; exact ⟨h1.1, h1.2⟩

theorem decode_loop_tnt (env : intel_pt_env) (hpk : tnt_counts env) :
    ∀ (fuel : Nat) (d : intel_pt_decoder) (r : Int × intel_pt_decoder), tnt_inv d →
      intel_pt_decode_loop env fuel d = some r → tnt_inv r.2 := by
  intro fuel
  induction fuel with
  | zero =>
    intro d r _ hr
    rw [intel_pt_decode_loop] at hr
    exact absurd hr (by simp)
  | succ fuel ih =>
    intro d r h hr
    rw [intel_pt_decode_loop] at hr
    split at hr
    · exact absurd hr (by simp)
    · rename_i e1 d1 hs
      have h1 : tnt_inv d1 := decode_step_tnt env hpk fuel d _ h hs
      split_ifs at hr
      · exact ih _ r h1 hr
      · simp only [Option.some.injEq] at hr; subst hr; exact ⟨h1.1, h1.2⟩

theorem decode_publish_tnt (err : Int) (d : intel_pt_decoder) (h : tnt_inv d) :
    tnt_inv (intel_pt_decode_publish err d) := by
  unfold intel_pt_decode_publish
  simp only []
  split_ifs <;> exact ⟨h.1, h.2⟩

theorem decode_tnt (env : intel_pt_env) (hpk : tnt_counts env) (fuel : Nat) (d d1 : intel_pt_decoder)
    (h : tnt_inv d) (hr : intel_pt_decode env fuel d = some d1) : tnt_inv d1 := by
  unfold intel_pt_decode at hr
  split at hr
  · exact absurd hr (by simp)
  · rename_i e1 d2 hl
    simp only [Option.some.injEq] at hr; subst hr
    exact decode_publish_tnt e1 d2 (decode_loop_tnt env hpk fuel d _ h hl)

/-! ### The field `tnt` while a packet is fetched -/

theorem bad_packet_tnt_kept (c : intel_pt_pkt) (d : intel_pt_decoder) (h : tnt_kept c d) :
    tnt_kept c (intel_pt_bad_packet d).2 := by
  unfold intel_pt_bad_packet
  simp only []
  split_ifs <;> exact h

theorem get_data_tnt_kept (c : intel_pt_pkt) (d : intel_pt_decoder) (h : tnt_kept c d) :
    tnt_kept c (intel_pt_get_data d).2 := by
  unfold intel_pt_get_data
  simp only []
  split_ifs <;> exact h

theorem get_next_data_tnt_kept (c : intel_pt_pkt) (d : intel_pt_decoder) (h : tnt_kept c d) :
    tnt_kept c (intel_pt_get_next_data d).2 := by
  unfold intel_pt_get_next_data
  split
  · exact get_data_tnt_kept c d h
  · exact h

theorem get_split_packet_tnt_kept (c : intel_pt_pkt) (env : intel_pt_env) (d : intel_pt_decoder)
    (h : tnt_kept c d) :
    tnt_kept c (intel_pt_get_split_packet env d).2 := by
  have hg := get_data_tnt_kept c d h
  unfold intel_pt_get_split_packet
  simp only []
  split_ifs
  · exact hg
  · exact hg
  · refine bad_packet_tnt_kept c _ ?_
    exact hg
  · exact hg

theorem get_next_packet_loop_tnt_kept (c : intel_pt_pkt) (env : intel_pt_env) :
    ∀ (fuel : Nat) (d : intel_pt_decoder) (r : Int × intel_pt_decoder), tnt_kept c d →
      intel_pt_get_next_packet_loop env fuel d = some r → tnt_kept c r.2 := by
  intro fuel
  induction fuel with
  | zero =>
    intro d r _ hr
    rw [intel_pt_get_next_packet_loop] at hr
    exact absurd hr (by simp)
  | succ fuel ih =>
    intro d r h hr
    rw [intel_pt_get_next_packet_loop] at hr
    split_ifs at hr with hc
    lift_lets at hr
    extract_lets d1 r1 d2 p d3 split r2 src d4 at hr
    have h1 : tnt_kept c d1 := h
    have h2 : tnt_kept c r1.2 := by
      show tnt_kept c (if d1.buf.length = 0 then intel_pt_get_next_data d1 else (0, d1)).2
      split_ifs
      · exact get_next_data_tnt_kept c _ h1
      · exact h1
    have h3 : tnt_kept c d3 := h2
    have h4 : tnt_kept c r2.2 := by
      show tnt_kept c (if split = true then intel_pt_get_split_packet env d3 else (p.1, d3)).2
      split_ifs
      · exact get_split_packet_tnt_kept c env _ h3
      · exact h3
    have h5 : tnt_kept c d4 := h4
    split_ifs at hr
    · simp only [Option.some.injEq] at hr; subst hr; exact h2
    · simp only [Option.some.injEq] at hr; subst hr; exact h4
    · simp only [Option.some.injEq] at hr; subst hr; exact bad_packet_tnt_kept c _ h4
    · exact ih _ r h5 hr
    · simp only [Option.some.injEq] at hr; subst hr; exact h5

/-- The function `intel_pt_get_next_packet` leaves the field `tnt` alone. -/
theorem get_next_packet_tnt_kept (env : intel_pt_env) (fuel : Nat)
    (d : intel_pt_decoder) (r : Int × intel_pt_decoder)
    (hr : intel_pt_get_next_packet env fuel d = some r) : r.2.tnt = d.tnt := by
  unfold intel_pt_get_next_packet at hr
  have h := get_next_packet_loop_tnt_kept d.tnt env fuel _ r (by exact (rfl : d.tnt = d.tnt)) hr
  exact h

/-! ### The TNT count at the end of `intel_pt_walk_tnt` -/

/-- The RET case of `intel_pt_walk_tnt`, entered with `tnt.count > 0`: the count stays
positive, or it is 0 and the state is IN_SYNC. -/
theorem walk_tnt_ret_zero (d : intel_pt_decoder) (hc : 0 < d.tnt.count) :
    0 < (intel_pt_walk_tnt_ret d).2.tnt.count ∨
    ((intel_pt_walk_tnt_ret d).2.tnt.count = 0 ∧
      (intel_pt_walk_tnt_ret d).2.pkt_state = intel_pt_pkt_state.INTEL_PT_STATE_IN_SYNC) := by
  unfold intel_pt_walk_tnt_ret
  simp only []
  by_cases h1 : d.return_compression = false
  · rw [if_pos h1]
    exact Or.inl hc
  · rw [if_neg h1]
    by_cases h2 : d.ret_addr = 0
    · rw [if_pos h2]
      exact Or.inl hc
    · rw [if_neg h2]
      by_cases h3 : d.tnt.payload &&& BIT63 = 0
      · rw [if_pos h3]
        exact Or.inl hc
      · rw [if_neg h3]
        by_cases h4 : d.tnt.count - 1 ≠ 0
        · left
          show 0 < d.tnt.count - 1
          omega
        · right
          refine ⟨?_, ?_⟩
          · show d.tnt.count - 1 = 0
            omega
          · show (if d.tnt.count - 1 ≠ 0 then intel_pt_pkt_state.INTEL_PT_STATE_TNT_CONT
              else intel_pt_pkt_state.INTEL_PT_STATE_IN_SYNC) =
                intel_pt_pkt_state.INTEL_PT_STATE_IN_SYNC
            rw [if_neg h4]

/-- The case of a conditional branch in `intel_pt_walk_tnt`, entered with
`tnt.count > 0`: the count stays positive, or it is 0, the state is IN_SYNC and the function
returns. -/
theorem walk_tnt_cond_zero (insn : intel_pt_insn) (d : intel_pt_decoder)
    (hc : 0 < d.tnt.count) :
    0 < (intel_pt_walk_tnt_cond insn d).2.tnt.count ∨
    ((intel_pt_walk_tnt_cond insn d).2.tnt.count = 0 ∧
      (intel_pt_walk_tnt_cond insn d).2.pkt_state = intel_pt_pkt_state.INTEL_PT_STATE_IN_SYNC ∧
      (intel_pt_walk_tnt_cond insn d).1 ≠ none) := by
  have hinv : ∀ (o : Option Int) (x : intel_pt_decoder),
      x.pkt_state = (if d.tnt.count - 1 ≠ 0 then intel_pt_pkt_state.INTEL_PT_STATE_TNT_CONT
        else intel_pt_pkt_state.INTEL_PT_STATE_IN_SYNC) →
      x.tnt.count = d.tnt.count - 1 → (d.tnt.count - 1 = 0 → o ≠ none) →
      0 < x.tnt.count ∨
        (x.tnt.count = 0 ∧ x.pkt_state = intel_pt_pkt_state.INTEL_PT_STATE_IN_SYNC ∧
          o ≠ none) := by
    intro o x hs ht ho
    by_cases h4 : d.tnt.count - 1 ≠ 0
    · left
      omega
    · right
      refine ⟨by omega, ?_, ho (by omega)⟩
      rw [hs, if_neg h4]
  unfold intel_pt_walk_tnt_cond
  simp only []
  by_cases h1 : d.tnt.payload &&& BIT63 ≠ 0
  · rw [if_pos h1]
    exact hinv _ _ rfl rfl (fun _ => by simp)
  · rw [if_neg h1]
    by_cases h2 : d.state.type &&& INTEL_PT_INSTRUCTION ≠ 0
    · rw [if_pos h2]
      exact hinv _ _ rfl rfl (fun _ => by simp)
    · rw [if_neg h2]
      by_cases h3 : d.tnt.count - 1 = 0
      · rw [if_pos h3]
        exact hinv _ _ rfl rfl (fun _ => by simp)
      · rw [if_neg h3]
        exact hinv _ _ rfl rfl (fun h => absurd h h3)

/-- The function `intel_pt_walk_tnt`, entered with `tnt.count > 0`, ends with a positive
count, or with the count 0 and the state IN_SYNC. -/
theorem walk_tnt_zero (env : intel_pt_env) :
    ∀ (fuel : Nat) (d : intel_pt_decoder) (r : Int × intel_pt_decoder),
      0 < d.tnt.count → intel_pt_walk_tnt env fuel d = some r →
      0 < r.2.tnt.count ∨
        (r.2.tnt.count = 0 ∧ r.2.pkt_state = intel_pt_pkt_state.INTEL_PT_STATE_IN_SYNC) := by
  intro fuel
  induction fuel with
  | zero =>
    intro d r _ hr
    rw [intel_pt_walk_tnt] at hr
    exact absurd hr (by simp)
  | succ fuel ih =>
    intro d r hc hr
    rw [intel_pt_walk_tnt] at hr
    split at hr
    · exact absurd hr (by simp)
    · rename_i err insn d1 hcall
      have hf := walk_insn_frame_eq env d 0 _ hcall
      have hc1 : 0 < d1.tnt.count := by
        have ht : d1.tnt = d.tnt := hf.2.1
        rw [ht]
        exact hc
      split_ifs at hr
      · simp only [Option.some.injEq] at hr; subst hr; exact Or.inl hc1
      · simp only [Option.some.injEq] at hr; subst hr; exact Or.inl hc1
      · simp only [Option.some.injEq] at hr; subst hr; exact walk_tnt_ret_zero d1 hc1
      · split at hr
        · exact absurd hr (by simp)
        · rename_i e2 d2 hp
          have h2 : d2.tnt = d1.tnt := get_next_packet_tnt_kept env fuel d1 _ hp
          have hc2 : 0 < d2.tnt.count := by
            rw [h2]
            exact hc1
          simp only [] at hr
          split_ifs at hr
          all_goals
            simp only [Option.some.injEq] at hr
            subst hr
            exact Or.inl hc2
      · have h2 := walk_tnt_cond_zero insn d1 hc1
        split at hr
        · rename_i e2 d2 hcnd
          rw [hcnd] at h2
          simp only [Option.some.injEq] at hr
          subst hr
          rcases h2 with h2 | h2
          · exact Or.inl h2
          · exact Or.inr ⟨h2.1, h2.2.1⟩
        · rename_i d2 hcnd
          rw [hcnd] at h2
          rcases h2 with h2 | h2
          · exact ih _ r h2 hr
          · exact absurd rfl h2.2.2
      · simp only [Option.some.injEq] at hr; subst hr; exact Or.inl hc1

/-! ### The invariant of the TNT states from a new decoder on -/

/-- A decoder built by `intel_pt_decoder_new` is in the state NO_PSB and holds no
packet. -/
theorem decoder_new_tnt (fuel : Nat) (to_double : Nat → Nat) (zalloc_ok : Bool)
    (params : intel_pt_params) (d0 : intel_pt_decoder)
    (hnew : intel_pt_decoder_new fuel to_double zalloc_ok params = some (some d0)) :
    tnt_inv d0 := by
  unfold intel_pt_decoder_new at hnew
  by_cases hcb : params.get_trace = false ∨ params.walk_insn = false
  · rw [if_pos hcb] at hnew
    exact absurd hnew (by simp)
  · rw [if_neg hcb] at hnew
    by_cases hz : zalloc_ok = false
    · rw [if_pos hz] at hnew
      exact absurd hnew (by simp)
    · rw [if_neg hz] at hnew
      split at hnew
      · exact absurd hnew (by simp)
      · rename_i d1 hs
        simp only [Option.some.injEq] at hnew
        subst hnew
        have h1 : tnt_inv d1 := by
          unfold intel_pt_setup_period at hs
          split_ifs at hs
          · split at hs
            · exact absurd hs (by simp)
            · simp only [Option.some.injEq] at hs
              subst hs
              exact ⟨fun hs => (by rcases hs with hs | hs <;> cases hs), fun hs => (by cases hs)⟩
          · simp only [Option.some.injEq] at hs
            subst hs
            exact ⟨fun hs => (by rcases hs with hs | hs <;> cases hs), fun hs => (by cases hs)⟩
        exact ⟨h1.1, h1.2⟩

/-- Every decoder of `decode_calls` satisfies the invariant when the first one does. -/
theorem decode_calls_tnt (env : intel_pt_env) (hpk : tnt_counts env) (d0 d : intel_pt_decoder)
    (h0 : tnt_inv d0) (hr : decode_calls env d0 d) : tnt_inv d := by
  induction hr with
  | init => exact h0
  | decode fuel d d1 _ hd ih => exact decode_tnt env hpk fuel d d1 ih hd

/-- C21: when the unit decoder gives every TNT packet a count that is not negative, then
after every chain of `intel_pt_decode` calls on a decoder built by `intel_pt_decoder_new`,
and after an `intel_pt_decode` call on any decoder with the property, a decoder whose
`pkt_state` is TNT or TNT_CONT has `tnt.count > 0`. The `switch` of `intel_pt_walk_trace`
leaves a TNT packet of count 0 without entering the state, and `intel_pt_walk_tnt`, entered
with a positive count, ends with a positive count or else with the count 0 and `pkt_state`
IN_SYNC. -/
theorem tnt_state_count_spec (env : intel_pt_env) (hpk : tnt_counts env) :
    (∀ (fuel : Nat) (to_double : Nat → Nat) (zalloc_ok : Bool) (params : intel_pt_params)
        (d0 d : intel_pt_decoder),
      intel_pt_decoder_new fuel to_double zalloc_ok params = some (some d0) →
      decode_calls env d0 d →
      (d.pkt_state = intel_pt_pkt_state.INTEL_PT_STATE_TNT ∨
        d.pkt_state = intel_pt_pkt_state.INTEL_PT_STATE_TNT_CONT) → 0 < d.tnt.count) ∧
    (∀ (fuel : Nat) (d d1 : intel_pt_decoder),
      ((d.pkt_state = intel_pt_pkt_state.INTEL_PT_STATE_TNT ∨
        d.pkt_state = intel_pt_pkt_state.INTEL_PT_STATE_TNT_CONT) → 0 < d.tnt.count) →
      (d.packet.type = intel_pt_pkt_type.INTEL_PT_TNT → 0 ≤ d.packet.count) →
      intel_pt_decode env fuel d = some d1 →
      (d1.pkt_state = intel_pt_pkt_state.INTEL_PT_STATE_TNT ∨
        d1.pkt_state = intel_pt_pkt_state.INTEL_PT_STATE_TNT_CONT) → 0 < d1.tnt.count) ∧
    (∀ (fuel : Nat) (no_tip : Bool) (d : intel_pt_decoder),
      d.packet.type = intel_pt_pkt_type.INTEL_PT_TNT → d.packet.count = 0 →
      intel_pt_walk_trace_packet env fuel no_tip d = some (walk_trace_step.brk no_tip d)) ∧
    (∀ (fuel : Nat) (d : intel_pt_decoder) (r : Int × intel_pt_decoder),
      0 < d.tnt.count → intel_pt_walk_tnt env fuel d = some r →
      0 < r.2.tnt.count ∨
        (r.2.tnt.count = 0 ∧
          r.2.pkt_state = intel_pt_pkt_state.INTEL_PT_STATE_IN_SYNC)) := by
  refine ⟨?_, ?_, ?_, ?_⟩
  · intro fuel to_double zalloc_ok params d0 d hnew hr
    have h0 := decoder_new_tnt fuel to_double zalloc_ok params d0 hnew
    exact (decode_calls_tnt env hpk d0 d h0 hr).1
  · intro fuel d d1 h1 h2 hd
    exact (decode_tnt env hpk fuel d d1 ⟨h1, h2⟩ hd).1
  · intro fuel no_tip d ht hc
    unfold intel_pt_walk_trace_packet
    rw [ht]
    simp only []
    rw [if_pos hc]
  · intro fuel d r hc hr
    exact walk_tnt_zero env fuel d r hc hr

/-- The unit decoder of `example_tnt_env` gives its TNT packets the count 2; from the
decoder `example_tnt_decoder`, in the state TNT with two bits, a call of `intel_pt_decode`
returns in the state TNT_CONT with one bit left, and that count is positive. -/
theorem tnt_state_count_spec_witness :
    tnt_counts example_tnt_env ∧
    (intel_pt_decode example_tnt_env 3 example_tnt_decoder).map
      (fun r => (r.pkt_state, r.tnt.count)) =
        some (intel_pt_pkt_state.INTEL_PT_STATE_TNT_CONT, 1) ∧
    (∀ d1 : intel_pt_decoder, intel_pt_decode example_tnt_env 3 example_tnt_decoder = some d1 →
      (d1.pkt_state = intel_pt_pkt_state.INTEL_PT_STATE_TNT ∨
        d1.pkt_state = intel_pt_pkt_state.INTEL_PT_STATE_TNT_CONT) → 0 < d1.tnt.count) :=
  ⟨fun _ _ => (by decide : (0 : Int) ≤ 2), by decide,
    fun d1 hd => (tnt_state_count_spec example_tnt_env
      (fun _ _ => (by decide : (0 : Int) ≤ 2))).2.1 3
      example_tnt_decoder d1 (fun _ => by decide) (fun _ => by decide) hd⟩

/-! ### Instruction walking at a branch of any kind: calls, returns and the stack -/

/-- The function `intel_pt_push` returns 0 or `-ENOMEM`. -/
theorem push_err_cases (s : intel_pt_stack) (ip : Nat) (m : Option intel_pt_blk)
    (r : Int × intel_pt_stack) (h : intel_pt_push s ip m = some r) :
    r.1 = 0 ∨ r.1 = -ENOMEM := by
  have halloc : (intel_pt_alloc_blk s m).1 = 0 ∨ (intel_pt_alloc_blk s m).1 = -ENOMEM := by
    unfold intel_pt_alloc_blk
    split
    · exact Or.inl rfl
    · split
      · exact Or.inr rfl
      · exact Or.inl rfl
  have key : ∀ q : Int × intel_pt_stack, (q.1 = 0 ∨ q.1 = -ENOMEM) →
      (if q.1 ≠ 0 then some q
       else
        match q.2.blk with
        | [] => none
        | blk :: prev =>
          if 0 ≤ q.2.pos ∧ q.2.pos < INTEL_PT_BLK_SIZE then
            some ((0 : Int), { q.2 with
              blk := { ip := Function.update blk.ip q.2.pos.toNat ip } :: prev
              pos := q.2.pos + 1 })
          else none) = some r → r.1 = 0 ∨ r.1 = -ENOMEM := by
    intro q hq hr
    by_cases hq0 : q.1 ≠ 0
    · rw [if_pos hq0] at hr
      simp only [Option.some.injEq] at hr
      subst hr
      exact hq
    · rw [if_neg hq0] at hr
      split at hr
      · exact absurd hr (by simp)
      · by_cases hpos : 0 ≤ q.2.pos ∧ q.2.pos < INTEL_PT_BLK_SIZE
        · rw [if_pos hpos] at hr
          simp only [Option.some.injEq] at hr
          subst hr
          exact Or.inl rfl
        · rw [if_neg hpos] at hr
          exact absurd hr (by simp)
  unfold intel_pt_push at h
  by_cases h1 : s.blk.isEmpty ∨ s.pos = INTEL_PT_BLK_SIZE
  · exact key (intel_pt_alloc_blk s m) halloc (by simpa only [if_pos h1] using h)
  · exact key (0, s) (Or.inl rfl) (by simpa only [if_neg h1] using h)

/-- The error code of the push in `intel_pt_walk_insn` is 0 or `-ENOMEM`. -/
theorem walker_push_err_cases (env : intel_pt_env) (d : intel_pt_decoder)
    (res : walk_insn_result) :
    walker_push_err env d res = 0 ∨ walker_push_err env d res = -ENOMEM := by
  unfold walker_push_err
  split_ifs
  · split
    · rename_i err st h
      exact push_err_cases _ _ _ (err, st) h
    · exact Or.inl rfl
  · exact Or.inl rfl

/-- A call of `intel_pt_walk_insn` that the walker answers, before the stop address, with
a branch: the stack operation `walk_insn_stack` is made on a decoder `ds` that has the
address the walker stopped at and otherwise the fields of before the call, except that a
sample may have been taken; then the call returns the error of the stack operation, or
goes through the loop guard for an unconditional branch, or returns 0. -/
theorem walk_insn_branch_shape (env : intel_pt_env) (d : intel_pt_decoder) (ip : Nat)
    (he : (walker_answer env d ip).err = 0)
    (hstop : ¬ (ip ≠ 0 ∧ (walker_answer env d ip).ip = ip))
    (hbr : (walker_answer env d ip).insn.branch ≠ intel_pt_insn_branch.INTEL_PT_BR_NO_BRANCH) :
    ∃ ds : intel_pt_decoder,
      ds.ip = (walker_answer env d ip).ip ∧ ds.no_progress = d.no_progress ∧
      ds.stuck_ip = d.stuck_ip ∧ ds.stuck_ip_prd = d.stuck_ip_prd ∧
      ds.stuck_ip_cnt = d.stuck_ip_cnt ∧ ds.pkt_state = d.pkt_state ∧
      (ds.state.type = d.state.type ∨ ds.state.type = d.state.type ||| INTEL_PT_INSTRUCTION) ∧
      ds.state.flags = d.state.flags ∧ ds.tx_flags = d.tx_flags ∧ ds.stack = d.stack ∧
      intel_pt_walk_insn env d ip =
        (match walk_insn_stack env (walker_answer env d ip).insn ds with
          | none => none
          | some (err, decoder) =>
            if err ≠ 0 then
              some (err, (walker_answer env d ip).insn,
                intel_pt_walk_insn_out true (walker_answer env d ip).insn decoder)
            else if (walker_answer env d ip).insn.branch =
                intel_pt_insn_branch.INTEL_PT_BR_UNCONDITIONAL then
              some ((intel_pt_walk_insn_uncond (walker_answer env d ip).insn decoder).1,
                (walker_answer env d ip).insn,
                intel_pt_walk_insn_out
                  (intel_pt_walk_insn_uncond (walker_answer env d ip).insn decoder).2.1
                  (walker_answer env d ip).insn
                  (intel_pt_walk_insn_uncond (walker_answer env d ip).insn decoder).2.2)
            else
              some (0, (walker_answer env d ip).insn,
                intel_pt_walk_insn_out true (walker_answer env d ip).insn decoder)) := by
  obtain ⟨s, hip, h2, h3, _, _, _, _, h8, h9, _, _, _, hsm⟩ := walk_insn_sample d
  obtain ⟨hp, hc⟩ := walk_insn_sample_stuck d
  obtain ⟨hst, htx⟩ := walk_insn_sample_state d
  rw [hsm] at hp hc hst htx
  simp only [] at hp hc hst htx
  unfold walker_answer at he hstop hbr ⊢
  unfold intel_pt_walk_insn walk_insn_stack
  simp only [hsm, hip, he, hbr, hstop, ne_eq, not_true_eq_false, if_false, if_true]
  by_cases hsamp : ¬ (intel_pt_next_sample d).1 = 0 ∧
      (env.walk_insn d.ip ip (intel_pt_next_sample d).1).insn_cnt ≥ (intel_pt_next_sample d).1
  · simp only [hsamp, not_false_eq_true, and_self, if_true]
    refine ⟨_, ?_, ?_, ?_, ?_, ?_, ?_, Or.inr ?_, ?_, ?_, ?_, rfl⟩
    · exact (sample_insn_frame _).1
    · rw [(sample_insn_frame _).2.1]; exact h2
    · rw [(sample_insn_frame _).2.2.2.1]; exact h8
    · rw [(sample_insn_stuck _).1]; exact hp
    · rw [(sample_insn_stuck _).2]; exact hc
    · rw [(sample_insn_frame _).2.2.1]; exact h3
    · rw [(sample_insn_record _).1]
      exact congrArg (fun st => st.type ||| INTEL_PT_INSTRUCTION) hst
    · rw [(sample_insn_record _).2.1]
      exact congrArg (fun st => st.flags) hst
    · rw [(sample_insn_record _).2.2]
      exact htx
    · rw [(sample_insn_frame _).2.2.2.2.1]; exact h9
  · simp only [hsamp, if_false]
    refine ⟨_, ?_, ?_, ?_, ?_, ?_, ?_, Or.inl ?_, ?_, ?_, ?_, rfl⟩
    · rfl
    · exact h2
    · exact h8
    · exact hp
    · exact hc
    · exact h3
    · exact congrArg (fun st => st.type) hst
    · exact congrArg (fun st => st.flags) hst
    · exact htx
    · exact h9

/-- On a well-formed stack the stack operation of `intel_pt_walk_insn` does not fault: its
error code is `walker_push_err`, and it changes nothing but the stack and `ret_addr`. -/
theorem walk_insn_stack_spec (env : intel_pt_env) (d ds : intel_pt_decoder)
    (res : walk_insn_result) (hip : ds.ip = res.ip) (hst : ds.stack = d.stack)
    (hs : stack_inv d.stack) :
    ∃ d2 : intel_pt_decoder,
      walk_insn_stack env res.insn ds = some (walker_push_err env d res, d2) ∧
      stack_inv d2.stack ∧ d2.ip = res.ip ∧ d2.no_progress = ds.no_progress ∧
      d2.stuck_ip = ds.stuck_ip ∧ d2.stuck_ip_prd = ds.stuck_ip_prd ∧
      d2.stuck_ip_cnt = ds.stuck_ip_cnt ∧ d2.pkt_state = ds.pkt_state ∧
      d2.state = ds.state ∧ d2.tx_flags = ds.tx_flags := by
  have hs2 : stack_inv ds.stack := by rw [hst]; exact hs
  unfold walk_insn_stack walker_push_err
  rw [hst, hip]
  by_cases hop : res.insn.op = intel_pt_insn_op.INTEL_PT_OP_CALL
  · rw [if_pos hop]
    by_cases hc : res.insn.branch ≠ intel_pt_insn_branch.INTEL_PT_BR_UNCONDITIONAL ∨
        res.insn.rel ≠ 0
    · rw [if_pos hc, if_pos ⟨hop, hc⟩]
      obtain ⟨r, hpush, hinv, _⟩ :=
        push_total d.stack (add_u64_int res.ip res.insn.length) (env.malloc d.stack) hs
      rw [hpush]
      exact ⟨_, rfl, hinv, rfl, rfl, rfl, rfl, rfl, rfl, rfl, rfl⟩
    · have hn : ¬ (res.insn.op = intel_pt_insn_op.INTEL_PT_OP_CALL ∧
          (res.insn.branch ≠ intel_pt_insn_branch.INTEL_PT_BR_UNCONDITIONAL ∨
            res.insn.rel ≠ 0)) := fun h => hc h.2
      rw [if_neg hc, if_neg hn]
      exact ⟨_, rfl, hs2, hip, rfl, rfl, rfl, rfl, rfl, rfl, rfl⟩
  · have hn : ¬ (res.insn.op = intel_pt_insn_op.INTEL_PT_OP_CALL ∧
        (res.insn.branch ≠ intel_pt_insn_branch.INTEL_PT_BR_UNCONDITIONAL ∨
          res.insn.rel ≠ 0)) := fun h => hop h.1
    rw [if_neg hop, if_neg hn]
    by_cases hret : res.insn.op = intel_pt_insn_op.INTEL_PT_OP_RET
    · rw [if_pos hret]
      obtain ⟨s1, hpop, hinv, _⟩ := pop_spec d.stack hs
      rw [hpop]
      exact ⟨_, rfl, hinv, rfl, rfl, rfl, rfl, rfl, rfl, rfl, rfl⟩
    · rw [if_neg hret]
      exact ⟨_, rfl, hs2, hip, rfl, rfl, rfl, rfl, rfl, rfl, rfl⟩

/-- A call of `intel_pt_walk_insn` on a well-formed stack that the walker answers, before
the stop address, with a branch, whatever the instruction is: when the push of a return
address fails the call returns its error code, `-ENOMEM`; otherwise it goes through the
loop guard for an unconditional branch and returns 0 for another branch. The decoder `d2`
at that point has the address the walker stopped at and the loop-guard fields, the
`pkt_state`, the flags of the record and `tx_flags` of before the call. -/
theorem walk_insn_at_branch (env : intel_pt_env) (d : intel_pt_decoder) (ip : Nat)
    (he : (walker_answer env d ip).err = 0)
    (hstop : ¬ (ip ≠ 0 ∧ (walker_answer env d ip).ip = ip))
    (hbr : (walker_answer env d ip).insn.branch ≠ intel_pt_insn_branch.INTEL_PT_BR_NO_BRANCH)
    (hs : stack_inv d.stack) :
    ∃ d2 : intel_pt_decoder,
      d2.ip = (walker_answer env d ip).ip ∧ d2.no_progress = d.no_progress ∧
      d2.stuck_ip = d.stuck_ip ∧ d2.stuck_ip_prd = d.stuck_ip_prd ∧
      d2.stuck_ip_cnt = d.stuck_ip_cnt ∧ d2.pkt_state = d.pkt_state ∧
      (d2.state.type = d.state.type ∨ d2.state.type = d.state.type ||| INTEL_PT_INSTRUCTION) ∧
      d2.state.flags = d.state.flags ∧ d2.tx_flags = d.tx_flags ∧ stack_inv d2.stack ∧
      intel_pt_walk_insn env d ip =
        some
          (if walker_push_err env d (walker_answer env d ip) ≠ 0 then
            (walker_push_err env d (walker_answer env d ip), (walker_answer env d ip).insn,
              intel_pt_walk_insn_out true (walker_answer env d ip).insn d2)
          else if (walker_answer env d ip).insn.branch =
              intel_pt_insn_branch.INTEL_PT_BR_UNCONDITIONAL then
            ((intel_pt_walk_insn_uncond (walker_answer env d ip).insn d2).1,
              (walker_answer env d ip).insn,
              intel_pt_walk_insn_out
                (intel_pt_walk_insn_uncond (walker_answer env d ip).insn d2).2.1
                (walker_answer env d ip).insn
                (intel_pt_walk_insn_uncond (walker_answer env d ip).insn d2).2.2)
          else
            (0, (walker_answer env d ip).insn,
              intel_pt_walk_insn_out true (walker_answer env d ip).insn d2)) := by
  obtain ⟨ds, a1, a2, a3, a4, a5, a6, a7, a8, a9, a10, hshape⟩ :=
    walk_insn_branch_shape env d ip he hstop hbr
  obtain ⟨d2, hstack, b1, b2, b3, b4, b5, b6, b7, b8, b9⟩ :=
    walk_insn_stack_spec env d ds (walker_answer env d ip) a1 a10 hs
  rw [hstack] at hshape
  refine ⟨d2, b2, b3.trans a2, b4.trans a3, b5.trans a4, b6.trans a5, b7.trans a6,
    ?_, ?_, b9.trans a9, b1, ?_⟩
  · rw [b8]; exact a7
  · rw [b8]; exact a8
  · rw [hshape]
    by_cases h1 : walker_push_err env d (walker_answer env d ip) ≠ 0
    · simp only [if_pos h1]
    · simp only [if_neg h1]
      by_cases h2 : (walker_answer env d ip).insn.branch =
          intel_pt_insn_branch.INTEL_PT_BR_UNCONDITIONAL
      · simp only [if_pos h2]
      · simp only [if_neg h2]

/-! ### Instruction walking: the loop guard -/

/-- The loop guard leaves the stack alone. -/
theorem walk_insn_uncond_stack (insn : intel_pt_insn) (d : intel_pt_decoder) :
    (intel_pt_walk_insn_uncond insn d).2.2.stack = d.stack := by
  unfold intel_pt_walk_insn_uncond
  simp only []
  split_ifs <;> rfl

/-- A call of `intel_pt_walk_insn` that the walker answers with an unconditional branch
goes through the loop guard `intel_pt_walk_insn_uncond`, entered with the `no_progress`,
`stuck_ip` and `pkt_state` of before the call and with the `ip` the walker stopped at. -/
theorem walk_insn_uncond_call (env : intel_pt_env) (d : intel_pt_decoder) (ip : Nat)
    (hw : walker_jumps env d ip) :
    ∃ d2 : intel_pt_decoder,
      d2.no_progress = d.no_progress ∧ d2.stuck_ip = d.stuck_ip ∧ d2.pkt_state = d.pkt_state ∧
      d2.ip = (walker_answer env d ip).ip ∧ d2.stuck_ip_prd = d.stuck_ip_prd ∧
      d2.stuck_ip_cnt = d.stuck_ip_cnt ∧ stack_inv d2.stack ∧
      intel_pt_walk_insn env d ip =
        some ((intel_pt_walk_insn_uncond (walker_answer env d ip).insn d2).1,
          (walker_answer env d ip).insn,
          intel_pt_walk_insn_out (intel_pt_walk_insn_uncond (walker_answer env d ip).insn d2).2.1
            (walker_answer env d ip).insn
            (intel_pt_walk_insn_uncond (walker_answer env d ip).insn d2).2.2) := by
  obtain ⟨⟨he, hstop, hbr⟩, hs, hp⟩ := hw
  have hnb : (walker_answer env d ip).insn.branch ≠
      intel_pt_insn_branch.INTEL_PT_BR_NO_BRANCH := by
    rw [hbr]
    decide
  obtain ⟨d2, a1, a2, a3, a4, a5, a6, _, _, _, a10, hcall⟩ :=
    walk_insn_at_branch env d ip he hstop hnb hs
  rw [if_neg (fun h => h hp), if_pos hbr] at hcall
  exact ⟨d2, a2, a3, a6, a1, a4, a5, a10, hcall⟩

/-- A call of `intel_pt_walk_insn` on a well-formed stack that the walker answers, before
the stop address, with a branch whose return address cannot be pushed: the call returns
`-ENOMEM`, with `no_progress` reset and `pkt_state` as it was. -/
theorem walk_insn_push_fail (env : intel_pt_env) (d : intel_pt_decoder) (ip : Nat)
    (he : (walker_answer env d ip).err = 0)
    (hstop : ¬ (ip ≠ 0 ∧ (walker_answer env d ip).ip = ip))
    (hbr : (walker_answer env d ip).insn.branch ≠ intel_pt_insn_branch.INTEL_PT_BR_NO_BRANCH)
    (hs : stack_inv d.stack) (hp : walker_push_err env d (walker_answer env d ip) ≠ 0) :
    ∃ d1 : intel_pt_decoder,
      intel_pt_walk_insn env d ip = some (-ENOMEM, (walker_answer env d ip).insn, d1) ∧
      walker_push_err env d (walker_answer env d ip) = -ENOMEM ∧
      d1.no_progress = 0 ∧ d1.pkt_state = d.pkt_state ∧ d1.ip = (walker_answer env d ip).ip ∧
      stack_inv d1.stack := by
  obtain ⟨d2, a1, _, _, _, _, a6, _, _, _, a10, hcall⟩ :=
    walk_insn_at_branch env d ip he hstop hbr hs
  rw [if_pos hp] at hcall
  have hm : walker_push_err env d (walker_answer env d ip) = -ENOMEM := by
    rcases walker_push_err_cases env d (walker_answer env d ip) with h | h
    · exact absurd h hp
    · exact h
  rw [hm] at hcall
  refine ⟨_, hcall, hm, ?_, ?_, ?_, ?_⟩
  · rw [(walk_insn_out_frame _ _ _).2.1]
    rfl
  · rw [(walk_insn_out_frame _ _ _).2.2.1]
    exact a6
  · rw [(walk_insn_out_frame _ _ _).1]
    exact a1
  · rw [(walk_insn_out_frame _ _ _).2.2.2.2.1]
    exact a10

/-- A call of `intel_pt_walk_insn` on a well-formed stack that is answered with
`INTEL_PT_RETURN` for an unconditional branch has pushed the return address, if there was
one to push, and leaves a well-formed stack. -/
theorem walk_insn_return_jumps (env : intel_pt_env) (d d1 : intel_pt_decoder) (ip : Nat)
    (insn : intel_pt_insn) (hw : walker_uncond (walker_answer env d ip) ip)
    (hs : stack_inv d.stack)
    (hcall : intel_pt_walk_insn env d ip = some (INTEL_PT_RETURN, insn, d1)) :
    walker_jumps env d ip ∧ stack_inv d1.stack := by
  obtain ⟨he, hstop, hbr⟩ := hw
  have hnb : (walker_answer env d ip).insn.branch ≠
      intel_pt_insn_branch.INTEL_PT_BR_NO_BRANCH := by
    rw [hbr]
    decide
  have hp : walker_push_err env d (walker_answer env d ip) = 0 := by
    by_contra hne
    obtain ⟨dx, hx, _⟩ := walk_insn_push_fail env d ip he hstop hnb hs hne
    rw [hx] at hcall
    simp only [Option.some.injEq, Prod.mk.injEq] at hcall
    exact absurd hcall.1 (by decide)
  refine ⟨⟨⟨he, hstop, hbr⟩, hs, hp⟩, ?_⟩
  obtain ⟨d2, _, _, _, _, _, _, hinv, hc2⟩ :=
    walk_insn_uncond_call env d ip ⟨⟨he, hstop, hbr⟩, hs, hp⟩
  rw [hc2] at hcall
  simp only [Option.some.injEq, Prod.mk.injEq] at hcall
  obtain ⟨_, _, hd⟩ := hcall
  rw [← hd, (walk_insn_out_frame _ _ _).2.2.2.2.1, walk_insn_uncond_stack]
  exact hinv

/-- Along a run of calls of `intel_pt_walk_insn` that the walker answers with
unconditional branches, started on a well-formed stack, the stack stays well formed and
every call of the run has gone through the loop guard. -/
theorem walk_insn_run_jumps (env : intel_pt_env) (ip : Nat) (d0 : intel_pt_decoder)
    (hs0 : stack_inv d0.stack) :
    ∀ (n : Nat) (dn : intel_pt_decoder),
      (∀ m, m < n → ∀ dm, walk_insn_run env ip m d0 = some dm →
        walker_uncond (walker_answer env dm ip) ip) →
      walk_insn_run env ip n d0 = some dn →
      stack_inv dn.stack ∧
      ∀ m, m < n → ∀ dm, walk_insn_run env ip m d0 = some dm → walker_jumps env dm ip := by
  intro n
  induction n with
  | zero =>
    intro dn _ h
    unfold walk_insn_run at h
    simp only [Option.some.injEq] at h
    subst h
    exact ⟨hs0, fun m hm => absurd hm (by omega)⟩
  | succ n ih =>
    intro dn hw h
    obtain ⟨d1, insn, h1, hcall⟩ := walk_insn_run_succ env ip n d0 dn h
    obtain ⟨hs1, hj⟩ := ih d1 (fun m hm dm hdm => hw m (by omega) dm hdm) h1
    obtain ⟨hj1, hsn⟩ :=
      walk_insn_return_jumps env d1 dn ip insn (hw n (by omega) d1 h1) hs1 hcall
    refine ⟨hsn, fun m hm dm hdm => ?_⟩
    by_cases hmn : m = n
    · subst hmn
      rw [h1] at hdm
      simp only [Option.some.injEq] at hdm
      subst hdm
      exact hj1
    · exact hj m (by omega) dm hdm

/-- The loop guard for one call: with `cnt` the value of `no_progress` before the call,
the call is answered with `-ELOOP` exactly when `cnt ≥ 2` and either `cnt > 10000` or the
branch target equals the recorded `stuck_ip`; otherwise it is answered with
`INTEL_PT_RETURN`, `no_progress` grows by one, and the second call of a run records the
branch target as `stuck_ip`. -/
theorem walk_insn_loop_guard (env : intel_pt_env) (d : intel_pt_decoder) (ip : Nat)
    (hw : walker_jumps env d ip) (hcnt : 0 ≤ d.no_progress) :
    ∃ ret d1, intel_pt_walk_insn env d ip = some (ret, (walker_answer env d ip).insn, d1) ∧
      ((2 ≤ d.no_progress ∧
          (10000 < d.no_progress ∨ walker_target (walker_answer env d ip) = d.stuck_ip)) →
        ret = -ELOOP ∧ d1.pkt_state = intel_pt_pkt_state.INTEL_PT_STATE_ERR_RESYNC ∧
          d1.no_progress = 0) ∧
      (¬ (2 ≤ d.no_progress ∧
          (10000 < d.no_progress ∨ walker_target (walker_answer env d ip) = d.stuck_ip)) →
        ret = INTEL_PT_RETURN ∧ d1.no_progress = d.no_progress + 1 ∧
          d1.pkt_state = d.pkt_state ∧ d1.ip = walker_target (walker_answer env d ip) ∧
          (d.no_progress = 1 → d1.stuck_ip = walker_target (walker_answer env d ip)) ∧
          (d.no_progress = 0 → d1.stuck_ip = d.stuck_ip)) := by
  obtain ⟨d2, h1, h2, h3, h4, _, _, _, hcall⟩ := walk_insn_uncond_call env d ip hw
  refine ⟨_, _, hcall, ?_, ?_⟩
  · rintro ⟨hge, hor⟩
    have hne0 : d2.no_progress ≠ 0 := by omega
    have hne1 : ¬ d2.no_progress = 1 := by omega
    have hc : d2.no_progress > INTEL_PT_MAX_LOOPS ∨
        add_u64_int d2.ip (add_int (walker_answer env d ip).insn.length
          (walker_answer env d ip).insn.rel) = d2.stuck_ip := by
      rcases hor with h | h
      · left; rw [h1]; unfold INTEL_PT_MAX_LOOPS; omega
      · right; rw [h4, h2]; exact h
    have hu : intel_pt_walk_insn_uncond (walker_answer env d ip).insn d2 =
        (-ELOOP, true,
          { d2 with
            no_progress := d2.no_progress + 1
            state := { d2.state with
              from_ip := d2.ip
              to_ip := add_u64_int d2.ip (add_int (walker_answer env d ip).insn.length
                (walker_answer env d ip).insn.rel) }
            ip := add_u64_int d2.ip (add_int (walker_answer env d ip).insn.length
                (walker_answer env d ip).insn.rel)
            pkt_state := intel_pt_pkt_state.INTEL_PT_STATE_ERR_RESYNC }) := by
      unfold intel_pt_walk_insn_uncond
      simp only [ne_eq, hne0, not_false_eq_true, if_true, hne1, if_false, hc]
    rw [hu]
    refine ⟨rfl, ?_, ?_⟩
    · rw [(walk_insn_out_frame _ _ _).2.2.1]
    · rw [(walk_insn_out_frame _ _ _).2.1]; rfl
  · intro hno
    have hu : (intel_pt_walk_insn_uncond (walker_answer env d ip).insn d2).1 = INTEL_PT_RETURN ∧
        (intel_pt_walk_insn_uncond (walker_answer env d ip).insn d2).2.1 = false ∧
        (intel_pt_walk_insn_uncond (walker_answer env d ip).insn d2).2.2.no_progress =
          d2.no_progress + 1 ∧
        (intel_pt_walk_insn_uncond (walker_answer env d ip).insn d2).2.2.pkt_state =
          d2.pkt_state ∧
        (intel_pt_walk_insn_uncond (walker_answer env d ip).insn d2).2.2.ip =
          add_u64_int d2.ip (add_int (walker_answer env d ip).insn.length
            (walker_answer env d ip).insn.rel) ∧
        (d2.no_progress = 1 →
          (intel_pt_walk_insn_uncond (walker_answer env d ip).insn d2).2.2.stuck_ip =
            add_u64_int d2.ip (add_int (walker_answer env d ip).insn.length
              (walker_answer env d ip).insn.rel)) ∧
        (d2.no_progress = 0 →
          (intel_pt_walk_insn_uncond (walker_answer env d ip).insn d2).2.2.stuck_ip =
            d2.stuck_ip) := by
      have hc : ¬ (d2.no_progress ≠ 0 ∧ ¬ d2.no_progress = 1 ∧
          (d2.no_progress > INTEL_PT_MAX_LOOPS ∨
            add_u64_int d2.ip (add_int (walker_answer env d ip).insn.length
              (walker_answer env d ip).insn.rel) = d2.stuck_ip)) := by
        rintro ⟨a, b, c⟩
        apply hno
        refine ⟨by omega, ?_⟩
        rcases c with c | c
        · left; unfold INTEL_PT_MAX_LOOPS at c; omega
        · right; rw [h4, h2] at c; exact c
      unfold intel_pt_walk_insn_uncond
      simp only []
      split_ifs with a b c e
      · exact ⟨rfl, rfl, rfl, rfl, rfl, fun _ => rfl, fun h => absurd h a⟩
      · exact absurd ⟨a, b, c⟩ hc
      · exact ⟨rfl, rfl, rfl, rfl, rfl, fun h => absurd h b, fun h => absurd h a⟩
      · exact ⟨rfl, rfl, rfl, rfl, rfl, fun h => absurd h b, fun h => absurd h a⟩
      · exact ⟨rfl, rfl, rfl, rfl, rfl, fun h => absurd h (by omega), fun _ => rfl⟩
    obtain ⟨u1, u2, u3, u4, u5, u6, u7⟩ := hu
    refine ⟨u1, ?_, ?_, ?_, ?_, ?_⟩
    · rw [(walk_insn_out_frame _ _ _).2.1, u2, u3, h1]; rfl
    · rw [(walk_insn_out_frame _ _ _).2.2.1, u4, h3]
    · rw [(walk_insn_out_frame _ _ _).1, u5, h4]; rfl
    · intro h; rw [(walk_insn_out_frame _ _ _).2.2.2.1, u6 (by omega), h4]; rfl
    · intro h; rw [(walk_insn_out_frame _ _ _).2.2.2.1, u7 (by omega), h2]

/-- In a run of calls each answered by an unconditional branch, started with
`no_progress = 0`, `no_progress` counts the calls of the run. -/
theorem walk_insn_run_no_progress (env : intel_pt_env) (ip : Nat) (d0 : intel_pt_decoder)
    (h0 : d0.no_progress = 0) :
    ∀ (n : Nat) (dn : intel_pt_decoder),
      (∀ m, m < n → ∀ dm, walk_insn_run env ip m d0 = some dm →
        walker_jumps env dm ip) →
      walk_insn_run env ip n d0 = some dn → dn.no_progress = n := by
  intro n
  induction n with
  | zero =>
    intro dn _ h
    unfold walk_insn_run at h
    simp only [Option.some.injEq] at h
    subst h
    rw [h0]; rfl
  | succ n ih =>
    intro dn hw h
    obtain ⟨d1, insn, h1, h2⟩ := walk_insn_run_succ env ip n d0 dn h
    have hn := ih d1 (fun m hm dm hdm => hw m (by omega) dm hdm) h1
    obtain ⟨ret, d2, hcall, hloop, hret⟩ :=
      walk_insn_loop_guard env d1 ip (hw n (by omega) d1 h1) (by omega)
    rw [hcall] at h2
    simp only [Option.some.injEq, Prod.mk.injEq] at h2
    obtain ⟨hr, _, hd⟩ := h2
    subst hd
    by_cases hc : 2 ≤ d1.no_progress ∧
        (10000 < d1.no_progress ∨ walker_target (walker_answer env d1 ip) = d1.stuck_ip)
    · have := (hloop hc).1
      rw [hr] at this
      exact absurd this (by decide)
    · rw [(hret hc).2.1, hn]; push_cast; rfl


/-- C18, as stated, fails: `example_call_env` answers the first two calls of a run with
unconditional jumps, to `0x2000` and to `0x3000`, so that `no_progress = 2` and the
recorded `stuck_ip` is `0x3000`; the third call, at `0x3000`, is answered with an
unconditional call whose target `0x3000` equals `stuck_ip`. The stack is full and `malloc`
fails, so `intel_pt_walk_insn` returns `-ENOMEM`, which `intel_pt_ext_err` maps to NOMEM,
not `-ELOOP`; `no_progress` is reset to 0 and `pkt_state` stays as it was. -/
theorem walk_insn_loop_guard_counterexample :
    (walk_insn_run example_call_env 0 2 example_call_decoder).map
        (fun d => (d.no_progress, d.stuck_ip, walker_target (walker_answer example_call_env d 0),
          (walker_answer example_call_env d 0).err,
          (walker_answer example_call_env d 0).insn.branch, d.pkt_state)) =
      some (2, 0x3000, 0x3000, 0, intel_pt_insn_branch.INTEL_PT_BR_UNCONDITIONAL,
        intel_pt_pkt_state.INTEL_PT_STATE_NO_PSB) ∧
    ((walk_insn_run example_call_env 0 2 example_call_decoder).bind
        (fun d => intel_pt_walk_insn example_call_env d 0)).map
        (fun r => (r.1, intel_pt_ext_err r.1, r.2.2.no_progress, r.2.2.pkt_state)) =
      some (-ENOMEM, INTEL_PT_ERR_NOMEM, 0, intel_pt_pkt_state.INTEL_PT_STATE_NO_PSB) ∧
    -ENOMEM ≠ -ELOOP ∧ INTEL_PT_ERR_NOMEM ≠ INTEL_PT_ERR_NELOOP :=
  ⟨by decide, by decide, by decide, by decide⟩

/-- C18, amended: in a run of consecutive `intel_pt_walk_insn` calls started with
`no_progress = 0` on a well-formed stack, in which the walker answers every call with an
unconditional branch (a jump, a call or a return), after `n` calls answered with
`INTEL_PT_RETURN` the field `no_progress` is `n`. If the next call has a return address to
push and the push fails, it is answered with `-ENOMEM`, which `intel_pt_ext_err` maps to
NOMEM, with `no_progress` reset to 0 and `pkt_state` unchanged. Otherwise it is answered
with `-ELOOP`, which `intel_pt_ext_err` maps to NELOOP, with `pkt_state = ERR_RESYNC`,
exactly when `n > 10000` or, `n ≥ 2` and the branch target equals the recorded `stuck_ip`,
and with `INTEL_PT_RETURN` else. The recorded `stuck_ip` at the third call is the target
of the second, so a branch to the same target in the second and third call is answered
with `-ELOOP` at the third. -/
theorem walk_insn_loop_guard_spec (env : intel_pt_env) (ip : Nat) (d0 dn : intel_pt_decoder)
    (n : Nat) (h0 : d0.no_progress = 0) (hs0 : stack_inv d0.stack)
    (hw : ∀ m, m ≤ n → ∀ dm, walk_insn_run env ip m d0 = some dm →
      walker_uncond (walker_answer env dm ip) ip)
    (hrun : walk_insn_run env ip n d0 = some dn) :
    dn.no_progress = n ∧
    ∃ ret d1, intel_pt_walk_insn env dn ip = some (ret, (walker_answer env dn ip).insn, d1) ∧
      (walker_push_err env dn (walker_answer env dn ip) ≠ 0 →
        ret = -ENOMEM ∧ intel_pt_ext_err ret = INTEL_PT_ERR_NOMEM ∧ d1.no_progress = 0 ∧
          d1.pkt_state = dn.pkt_state) ∧
      (walker_push_err env dn (walker_answer env dn ip) = 0 →
        ((10000 < n ∨ (2 ≤ n ∧ walker_target (walker_answer env dn ip) = dn.stuck_ip)) →
          ret = -ELOOP ∧ intel_pt_ext_err ret = INTEL_PT_ERR_NELOOP ∧
            d1.pkt_state = intel_pt_pkt_state.INTEL_PT_STATE_ERR_RESYNC) ∧
        (¬ (10000 < n ∨ (2 ≤ n ∧ walker_target (walker_answer env dn ip) = dn.stuck_ip)) →
          ret = INTEL_PT_RETURN ∧ d1.no_progress = n + 1 ∧ d1.pkt_state = dn.pkt_state) ∧
        (n = 2 → ∀ d1, walk_insn_run env ip 1 d0 = some d1 →
          walker_target (walker_answer env d1 ip) = walker_target (walker_answer env dn ip) →
          ret = -ELOOP)) := by
  obtain ⟨hsn, hj⟩ := walk_insn_run_jumps env ip d0 hs0 n dn
    (fun m hm dm hdm => hw m (by omega) dm hdm) hrun
  have hn := walk_insn_run_no_progress env ip d0 h0 n dn hj hrun
  refine ⟨hn, ?_⟩
  obtain ⟨he, hstop, hbr⟩ := hw n (le_refl n) dn hrun
  have hnb : (walker_answer env dn ip).insn.branch ≠
      intel_pt_insn_branch.INTEL_PT_BR_NO_BRANCH := by
    rw [hbr]
    decide
  by_cases hp : walker_push_err env dn (walker_answer env dn ip) = 0
  · have hwn : walker_jumps env dn ip := ⟨⟨he, hstop, hbr⟩, hsn, hp⟩
    obtain ⟨ret, d1, hcall, hloop, hret⟩ := walk_insn_loop_guard env dn ip hwn (by omega)
    refine ⟨ret, d1, hcall, fun h => absurd hp h, fun _ => ⟨?_, ?_, ?_⟩⟩
    · intro hc
      have hc2 : 2 ≤ dn.no_progress ∧
          (10000 < dn.no_progress ∨
            walker_target (walker_answer env dn ip) = dn.stuck_ip) := by
        rcases hc with h | ⟨h, h2⟩
        · exact ⟨by omega, Or.inl (by omega)⟩
        · exact ⟨by omega, Or.inr h2⟩
      obtain ⟨a, b, _⟩ := hloop hc2
      refine ⟨a, ?_, b⟩
      rw [a]; decide
    · intro hc
      have hc2 : ¬ (2 ≤ dn.no_progress ∧
          (10000 < dn.no_progress ∨
            walker_target (walker_answer env dn ip) = dn.stuck_ip)) := by
        rintro ⟨a, b | b⟩
        · exact hc (Or.inl (by omega))
        · exact hc (Or.inr ⟨by omega, b⟩)
      obtain ⟨a, b, c, _⟩ := hret hc2
      exact ⟨a, by rw [b, hn], c⟩
    · intro h2 d1s h1 ht
      subst h2
      obtain ⟨d1x, insn, hr1, hc1⟩ := walk_insn_run_succ env ip 1 d0 dn hrun
      rw [h1] at hr1
      simp only [Option.some.injEq] at hr1
      subst hr1
      have hn1 := walk_insn_run_no_progress env ip d0 h0 1 d1s
        (fun m hm dm hdm => hj m (by omega) dm hdm) h1
      obtain ⟨ret1, d2, hcall1, hloop1, hret1⟩ :=
        walk_insn_loop_guard env d1s ip (hj 1 (by omega) d1s h1) (by omega)
      rw [hcall1] at hc1
      simp only [Option.some.injEq, Prod.mk.injEq] at hc1
      obtain ⟨_, _, hd⟩ := hc1
      subst hd
      have hno : ¬ (2 ≤ d1s.no_progress ∧
          (10000 < d1s.no_progress ∨
            walker_target (walker_answer env d1s ip) = d1s.stuck_ip)) := by
        rintro ⟨a, _⟩; omega
      have hst := (hret1 hno).2.2.2.2.1 (by omega)
      exact (hloop ⟨by omega, Or.inr (by rw [hst, ht])⟩).1
  · obtain ⟨d1, hcall, hm, f1, f2, _, _⟩ := walk_insn_push_fail env dn ip he hstop hnb hsn hp
    refine ⟨-ENOMEM, d1, hcall, fun _ => ⟨rfl, by decide, f1, f2⟩, fun h => absurd h hp⟩

/-- The walker of `example_self_branch_env` always answers with an unconditional branch,
and no return address is pushed for it. -/
theorem example_self_branch_uncond (d : intel_pt_decoder) :
    walker_uncond (walker_answer example_self_branch_env d 0) 0 ∧
    walker_push_err example_self_branch_env d (walker_answer example_self_branch_env d 0) = 0 :=
  ⟨⟨rfl, fun h => h.1 rfl, rfl⟩, rfl⟩

/-- C18 at a two-byte jump to itself at address 0x1000: the first two calls are answered
with `INTEL_PT_RETURN`, and the third call with `-ELOOP`, i.e. NELOOP, and
`pkt_state = ERR_RESYNC`. -/
theorem walk_insn_loop_guard_spec_witness :
    ∃ dn, walk_insn_run example_self_branch_env 0 2 { ip := 0x1000 } = some dn ∧
      dn.no_progress = 2 ∧
      ∃ ret d1, intel_pt_walk_insn example_self_branch_env dn 0 =
          some (ret, (walker_answer example_self_branch_env dn 0).insn, d1) ∧
        ret = -ELOOP ∧ intel_pt_ext_err ret = INTEL_PT_ERR_NELOOP ∧
        d1.pkt_state = intel_pt_pkt_state.INTEL_PT_STATE_ERR_RESYNC := by
  have hev : (walk_insn_run example_self_branch_env 0 2 { ip := 0x1000 }).map
      (fun d => (d.ip, d.stuck_ip)) = some (0x1000, 0x1000) := by decide
  cases hdn : walk_insn_run example_self_branch_env 0 2 { ip := 0x1000 } with
  | none => rw [hdn] at hev; exact absurd hev (by simp)
  | some dn =>
  rw [hdn] at hev
  simp only [Option.map, Option.some.injEq, Prod.mk.injEq] at hev
  have hf := hev
  obtain ⟨hn, ret, d1, hcall, _, hok⟩ :=
    walk_insn_loop_guard_spec example_self_branch_env 0 { ip := 0x1000 } dn 2 rfl (by decide)
      (fun _ _ dm _ => (example_self_branch_uncond dm).1) hdn
  have ht : walker_target (walker_answer example_self_branch_env dn 0) = dn.stuck_ip := by
    show add_u64_int dn.ip (add_int 2 (-2)) = dn.stuck_ip
    rw [hf.1, hf.2]; decide
  exact ⟨dn, rfl, hn, ret, d1, hcall,
    (hok (example_self_branch_uncond dn).2).1 (Or.inr ⟨le_refl 2, ht⟩)⟩

/-! ### The loop guard on periodic branch targets: runs -/

/-- The loop guard for one call of `intel_pt_walk_insn` answered with `INTEL_PT_RETURN`:
the second call of a run records the branch target with `stuck_ip_prd = stuck_ip_cnt = 1`;
a later call finds the branch target different from `stuck_ip`, counts `stuck_ip_cnt`
down, and when it was 1 records the branch target again, with `stuck_ip_prd` one larger
and `stuck_ip_cnt` equal to the new `stuck_ip_prd`. -/
theorem walk_insn_guard_step (env : intel_pt_env) (d d1 : intel_pt_decoder) (ip : Nat)
    (insn : intel_pt_insn)
    (hw : walker_jumps env d ip)
    (hcall : intel_pt_walk_insn env d ip = some (INTEL_PT_RETURN, insn, d1)) :
    (d.no_progress = 1 →
      d1.stuck_ip = walker_target (walker_answer env d ip) ∧
      d1.stuck_ip_prd = 1 ∧ d1.stuck_ip_cnt = 1) ∧
    (2 ≤ d.no_progress →
      ¬ (10000 < d.no_progress ∨ walker_target (walker_answer env d ip) = d.stuck_ip)) ∧
    (2 ≤ d.no_progress → d.stuck_ip_cnt = 1 →
      d1.stuck_ip = walker_target (walker_answer env d ip) ∧
      d1.stuck_ip_prd = d.stuck_ip_prd + 1 ∧ d1.stuck_ip_cnt = d.stuck_ip_prd + 1) ∧
    (2 ≤ d.no_progress → d.stuck_ip_cnt ≠ 1 →
      d1.stuck_ip = d.stuck_ip ∧
      d1.stuck_ip_prd = d.stuck_ip_prd ∧ d1.stuck_ip_cnt = d.stuck_ip_cnt - 1) := by
  obtain ⟨d2, h1, h2, _, h5, h3, h4, _, hc2⟩ := walk_insn_uncond_call env d ip hw
  rw [hc2] at hcall
  simp only [Option.some.injEq, Prod.mk.injEq] at hcall
  obtain ⟨hret, _, hd1⟩ := hcall
  subst hd1
  obtain ⟨u1, u2, u3, u4⟩ := walk_insn_uncond_stuck (walker_answer env d ip).insn d2
  simp only [h1, h2, h3, h4, h5] at u1 u2 u3 u4
  unfold walker_target
  have hno : 2 ≤ d.no_progress →
      ¬ (10000 < d.no_progress ∨ walker_target (walker_answer env d ip) = d.stuck_ip) := by
    intro h hc
    have := u2 h hc
    rw [hret] at this
    exact absurd this (by decide)
  rw [(walk_insn_out_frame _ _ _).2.2.2.1, (walk_insn_out_stuck _ _ _).1,
    (walk_insn_out_stuck _ _ _).2]
  refine ⟨?_, hno, ?_, ?_⟩
  · intro h
    exact (u1 h).2
  · intro h he
    exact (u3 h (hno h) he).2
  · intro h he
    exact (u4 h (hno h) he).2

/-- The loop guard along a run: after `n ≥ 2` calls, each answered with an unconditional
branch and with `INTEL_PT_RETURN`, `stuck_inv` holds. -/
theorem walk_insn_run_stuck (env : intel_pt_env) (ip : Nat) (d0 : intel_pt_decoder)
    (h0 : d0.no_progress = 0) :
    ∀ (n : Nat) (dn : intel_pt_decoder), 2 ≤ n →
      (∀ m, m < n → ∀ dm, walk_insn_run env ip m d0 = some dm →
        walker_jumps env dm ip) →
      walk_insn_run env ip n d0 = some dn → stuck_inv env ip d0 n dn := by
  intro n
  induction n with
  | zero => intro dn h; omega
  | succ n ih =>
    intro dn hn hw h
    obtain ⟨d1, insn, h1, hcall⟩ := walk_insn_run_succ env ip n d0 dn h
    have hnp := walk_insn_run_no_progress env ip d0 h0 n d1
      (fun m hm dm hdm => hw m (by omega) dm hdm) h1
    obtain ⟨g1, _, g3, g4⟩ := walk_insn_guard_step env d1 dn ip insn (hw n (by omega) d1 h1) hcall
    by_cases hn1 : n = 1
    · subst hn1
      obtain ⟨a, b, c⟩ := g1 (by rw [hnp]; rfl)
      refine ⟨1, d1, le_refl 1, by decide, by decide, h1, a, by rw [b]; rfl, by rw [c]; rfl⟩
    · obtain ⟨j, ds, hj, hlo, hhi, hds, hst, hprd, hcnt⟩ :=
        ih d1 (by omega) (fun m hm dm hdm => hw m (by omega) dm hdm) h1
      have hge : 2 ≤ d1.no_progress := by rw [hnp]; omega
      by_cases he : d1.stuck_ip_cnt = 1
      · obtain ⟨a, b, c⟩ := g3 hge he
        have hnj : n = stuck_sample j + j := by rw [hcnt] at he; omega
        have hs := stuck_sample_succ j
        refine ⟨j + 1, d1, by omega, by omega, by omega, ?_, a, ?_, ?_⟩
        · rw [hs, ← hnj]; exact h1
        · rw [b, hprd]; push_cast; rfl
        · rw [c, hprd, hs]; push_cast; omega
      · obtain ⟨a, b, c⟩ := g4 hge he
        have hnj : n ≠ stuck_sample j + j := by
          intro hx
          apply he
          rw [hcnt]
          omega
        refine ⟨j, ds, hj, by omega, by omega, hds, by rw [a, hst], by rw [b, hprd], ?_⟩
        rw [c, hcnt]
        push_cast
        omega

/-- In a run in which the walker answers every call with an unconditional branch, either
one of the first `k` calls is answered with `-ELOOP`, after at least two calls answered
with `INTEL_PT_RETURN`, or all of them are answered with `INTEL_PT_RETURN`. -/
theorem walk_insn_run_progress (env : intel_pt_env) (ip : Nat) (d0 : intel_pt_decoder)
    (h0 : d0.no_progress = 0) (k : Nat)
    (hw : ∀ m, m < k → ∀ dm, walk_insn_run env ip m d0 = some dm →
      walker_jumps env dm ip) :
    (∃ n dn insn d1, n < k ∧ 2 ≤ n ∧ walk_insn_run env ip n d0 = some dn ∧
      intel_pt_walk_insn env dn ip = some (-ELOOP, insn, d1)) ∨
    ∃ dk, walk_insn_run env ip k d0 = some dk := by
  induction k with
  | zero => exact Or.inr ⟨d0, rfl⟩
  | succ k ih =>
    rcases ih (fun m hm dm hdm => hw m (by omega) dm hdm) with ⟨n, dn, insn, d1, a, b, c, d⟩ | ⟨dk, hk⟩
    · exact Or.inl ⟨n, dn, insn, d1, by omega, b, c, d⟩
    · have hnp := walk_insn_run_no_progress env ip d0 h0 k dk
        (fun m hm dm hdm => hw m (by omega) dm hdm) hk
      obtain ⟨ret, d1, hcall, hloop, hret⟩ :=
        walk_insn_loop_guard env dk ip (hw k (by omega) dk hk) (by omega)
      by_cases hc : 2 ≤ dk.no_progress ∧
          (10000 < dk.no_progress ∨ walker_target (walker_answer env dk ip) = dk.stuck_ip)
      · left
        refine ⟨k, dk, (walker_answer env dk ip).insn, d1, by omega, by omega, hk, ?_⟩
        rw [hcall, (hloop hc).1]
      · right
        refine ⟨d1, ?_⟩
        rw [walk_insn_run, hk]
        simp only [hcall, (hret hc).1, if_true]


/-- C37, as stated, fails: `example_self_call_env` answers every call with an
unconditional call of the address `0x1000` it was started at, so the branch targets
repeat with period 1. From a stack with room for two return addresses, with `malloc`
failing, the first two calls are answered with `INTEL_PT_RETURN`, and the third call,
preceded by `min (1 + 1) 10001 = 2` calls, is answered with `-ENOMEM` instead of `-ELOOP`,
although its target equals the recorded `stuck_ip`; `no_progress` is then 0 again. -/
theorem loop_guard_period_counterexample :
    (walk_insn_run example_self_call_env 0 0 example_self_call_decoder).map
        (fun d => walker_target (walker_answer example_self_call_env d 0)) = some 0x1000 ∧
    (walk_insn_run example_self_call_env 0 1 example_self_call_decoder).map
        (fun d => walker_target (walker_answer example_self_call_env d 0)) = some 0x1000 ∧
    (walk_insn_run example_self_call_env 0 2 example_self_call_decoder).map
        (fun d => (walker_target (walker_answer example_self_call_env d 0), d.stuck_ip,
          d.no_progress, (walker_answer example_self_call_env d 0).err,
          (walker_answer example_self_call_env d 0).insn.branch)) =
      some (0x1000, 0x1000, 2, 0, intel_pt_insn_branch.INTEL_PT_BR_UNCONDITIONAL) ∧
    ((walk_insn_run example_self_call_env 0 2 example_self_call_decoder).bind
        (fun d => intel_pt_walk_insn example_self_call_env d 0)).map
        (fun r => (r.1, r.2.2.no_progress)) = some (-ENOMEM, 0) ∧
    min (1 + 1 * (1 + 1) / 2) 10001 = 2 ∧ -ENOMEM ≠ -ELOOP :=
  ⟨by decide, by decide, by decide, by decide, by decide, by decide⟩

/-- C37, amended: in a run of consecutive calls of `intel_pt_walk_insn` started with
`no_progress = 0` on a well-formed stack, in which the walker answers every call with an
unconditional branch (a jump, a call or a return), the push of the return address of a
call never fails, and the branch targets repeat with period `p ≥ 1`, a call is answered
with `-ELOOP` after at most `min (1 + p (p + 1) / 2) 10001` calls answered with
`INTEL_PT_RETURN`, and after at least 2; so for `p = 1` it is the third call. As long as
the calls are answered with `INTEL_PT_RETURN`, `stuck_ip` is the branch target of the call
that came after `1 + j (j - 1) / 2` calls, where `j = stuck_ip_prd`, and it is recorded
again `j` calls later, with `j` one larger. -/
theorem loop_guard_period_spec (env : intel_pt_env) (ip : Nat) (d0 : intel_pt_decoder)
    (p : Nat) (hp : 1 ≤ p) (h0 : d0.no_progress = 0) (hs0 : stack_inv d0.stack)
    (hwp : ∀ m, m ≤ min (1 + p * (p + 1) / 2) 10001 → ∀ dm,
      walk_insn_run env ip m d0 = some dm →
      walker_uncond (walker_answer env dm ip) ip ∧
        walker_push_err env dm (walker_answer env dm ip) = 0)
    (hper : ∀ m dm dm1, m + p ≤ min (1 + p * (p + 1) / 2) 10001 →
      walk_insn_run env ip m d0 = some dm → walk_insn_run env ip (m + p) d0 = some dm1 →
      walker_target (walker_answer env dm1 ip) = walker_target (walker_answer env dm ip)) :
    (∃ n dn insn d1, n ≤ min (1 + p * (p + 1) / 2) 10001 ∧ 2 ≤ n ∧
      walk_insn_run env ip n d0 = some dn ∧
      intel_pt_walk_insn env dn ip = some (-ELOOP, insn, d1)) ∧
    (p = 1 → ∃ dn insn d1, walk_insn_run env ip 2 d0 = some dn ∧
      intel_pt_walk_insn env dn ip = some (-ELOOP, insn, d1)) ∧
    (∀ n dn, 2 ≤ n → n ≤ min (1 + p * (p + 1) / 2) 10001 + 1 →
      walk_insn_run env ip n d0 = some dn →
      ∃ (j : Nat) (ds : intel_pt_decoder), 1 ≤ j ∧ 1 + j * (j - 1) / 2 < n ∧
        n ≤ 1 + j * (j - 1) / 2 + j ∧
        walk_insn_run env ip (1 + j * (j - 1) / 2) d0 = some ds ∧
        dn.stuck_ip = walker_target (walker_answer env ds ip) ∧
        dn.stuck_ip_prd = j ∧ dn.stuck_ip_cnt = ((1 + j * (j - 1) / 2 : Nat) : Int) + j + 1 - n) := by
  have hw : ∀ m, m ≤ min (1 + p * (p + 1) / 2) 10001 → ∀ dm,
      walk_insn_run env ip m d0 = some dm → walker_jumps env dm ip :=
    fun m hm dm hdm =>
      ⟨(hwp m hm dm hdm).1,
        (walk_insn_run_jumps env ip d0 hs0 m dm
          (fun k hk dk hdk => (hwp k (by omega) dk hdk).1) hdm).1,
        (hwp m hm dm hdm).2⟩
  have hN : 1 + p * (p + 1) / 2 = stuck_sample p + p := by
    rw [← stuck_sample_succ]
    unfold stuck_sample
    rw [Nat.add_sub_cancel, Nat.mul_comm]
  have hs1 : 1 ≤ stuck_sample p := by unfold stuck_sample; omega
  have hmain : ∃ n dn insn d1, n ≤ min (1 + p * (p + 1) / 2) 10001 ∧ 2 ≤ n ∧
      walk_insn_run env ip n d0 = some dn ∧
      intel_pt_walk_insn env dn ip = some (-ELOOP, insn, d1) := by
    rcases walk_insn_run_progress env ip d0 h0 (min (1 + p * (p + 1) / 2) 10001 + 1)
      (fun m hm dm hdm => hw m (by omega) dm hdm) with ⟨n, dn, insn, d1, a, b, c, d⟩ | ⟨dk, hk⟩
    · exact ⟨n, dn, insn, d1, by omega, b, c, d⟩
    · exfalso
      obtain ⟨dN, insn, hN1, hcall⟩ := walk_insn_run_succ env ip _ d0 dk hk
      have hwN := hw _ (le_refl _) dN hN1
      have hnp := walk_insn_run_no_progress env ip d0 h0 _ dN
        (fun m hm dm hdm => hw m (by omega) dm hdm) hN1
      have hge : 2 ≤ dN.no_progress := by rw [hnp]; omega
      obtain ⟨_, g2, _, _⟩ := walk_insn_guard_step env dN dk ip insn hwN hcall
      apply g2 hge
      by_cases hbig : 10001 ≤ 1 + p * (p + 1) / 2
      · left
        rw [hnp, Nat.min_eq_right hbig]
        decide
      · right
        have hmin : min (1 + p * (p + 1) / 2) 10001 = stuck_sample p + p := by
          rw [Nat.min_eq_left (by omega), hN]
        obtain ⟨j, ds, hj, hlo, hhi, hds, hst, _, _⟩ :=
          walk_insn_run_stuck env ip d0 h0 _ dN (by omega)
            (fun m hm dm hdm => hw m (by omega) dm hdm) hN1
        rw [hmin] at hlo hhi
        have hjp : j = p := by
          rcases Nat.lt_trichotomy j p with hlt | heq | hgt
          · have := stuck_sample_lt (j + 1) (p + 1) (by omega) (by omega)
            rw [stuck_sample_succ, stuck_sample_succ] at this
            omega
          · exact heq
          · have := stuck_sample_mono (p + 1) j (by omega)
            rw [stuck_sample_succ] at this
            omega
        subst hjp
        rw [hst]
        exact hper (stuck_sample j) ds dN (by rw [hmin]) hds (by rw [← hmin]; exact hN1)
  refine ⟨hmain, ?_, ?_⟩
  · intro h1
    subst h1
    obtain ⟨n, dn, insn, d1, a, b, c, d⟩ := hmain
    have : n = 2 := by
      have : min (1 + 1 * (1 + 1) / 2) 10001 = 2 := by decide
      omega
    subst this
    exact ⟨dn, insn, d1, c, d⟩
  · intro n dn hn hle hrun
    exact walk_insn_run_stuck env ip d0 h0 n dn hn
      (fun m hm dm hdm => hw m (by omega) dm hdm) hrun

/-- The branch targets of the first three calls of the run of `example_self_branch_env`
started at address 0x1000 are all 0x1000. -/
theorem example_self_branch_target (m : Nat) (hm : m ≤ 2) (dm : intel_pt_decoder)
    (h : walk_insn_run example_self_branch_env 0 m { ip := 0x1000 } = some dm) :
    walker_target (walker_answer example_self_branch_env dm 0) = 0x1000 := by
  have hip : dm.ip = 0x1000 := by
    interval_cases m
    · have hev : (walk_insn_run example_self_branch_env 0 0 { ip := 0x1000 }).map
          (fun d => d.ip) = some 0x1000 := by decide
      rw [h] at hev
      simpa using hev
    · have hev : (walk_insn_run example_self_branch_env 0 1 { ip := 0x1000 }).map
          (fun d => d.ip) = some 0x1000 := by decide
      rw [h] at hev
      simpa using hev
    · have hev : (walk_insn_run example_self_branch_env 0 2 { ip := 0x1000 }).map
          (fun d => d.ip) = some 0x1000 := by decide
      rw [h] at hev
      simpa using hev
  show add_u64_int dm.ip (add_int 2 (-2)) = 0x1000
  rw [hip]
  decide


/-- C37 at a two-byte jump to itself at address 0x1000 (period 1): the first two calls are
answered with `INTEL_PT_RETURN` and the third with `-ELOOP`. -/
theorem loop_guard_period_spec_witness :
    ∃ dn insn d1, walk_insn_run example_self_branch_env 0 2 { ip := 0x1000 } = some dn ∧
      intel_pt_walk_insn example_self_branch_env dn 0 = some (-ELOOP, insn, d1) :=
  (loop_guard_period_spec example_self_branch_env 0 { ip := 0x1000 } 1 (le_refl 1) rfl
    (by decide) (fun _ _ dm _ => example_self_branch_uncond dm)
    (fun m dm dm1 hm h1 h2 => by
      have hm2 : m + 1 ≤ 2 := hm
      rw [example_self_branch_target (m + 1) hm2 dm1 h2,
        example_self_branch_target m (by omega) dm h1])).2.1 rfl

/-! ### Branches handed back to the caller: calls and returns included -/

/-- A call of `intel_pt_walk_insn` on a well-formed stack that the walker answers, before
the stop address, with an indirect or conditional branch, whatever the instruction is,
and whose push of the return address, if there is one, succeeds: the call returns 0 at the
address of the branch, in the same `pkt_state`; the type of the record is as before,
possibly with the bit `INTEL_PT_INSTRUCTION` added, and the record has the flag IN_TX when
`tx_flags` has it. -/
theorem walk_insn_handed_call (env : intel_pt_env) (d : intel_pt_decoder) (ip : Nat)
    (he : (walker_answer env d ip).err = 0)
    (hb : (walker_answer env d ip).insn.branch = intel_pt_insn_branch.INTEL_PT_BR_INDIRECT ∨
      (walker_answer env d ip).insn.branch = intel_pt_insn_branch.INTEL_PT_BR_CONDITIONAL)
    (hstop : ¬ (ip ≠ 0 ∧ (walker_answer env d ip).ip = ip))
    (hs : stack_inv d.stack) (hp : walker_push_err env d (walker_answer env d ip) = 0) :
    ∃ d1 : intel_pt_decoder,
      intel_pt_walk_insn env d ip = some (0, (walker_answer env d ip).insn, d1) ∧
      d1.ip = (walker_answer env d ip).ip ∧ d1.pkt_state = d.pkt_state ∧ walk_frame d d1 ∧
      (d1.state.type = d.state.type ∨
        d1.state.type = d.state.type ||| INTEL_PT_INSTRUCTION) ∧
      d1.state.flags =
        (if d.tx_flags &&& INTEL_PT_IN_TX ≠ 0 then d.state.flags ||| INTEL_PT_IN_TX
         else d.state.flags) ∧
      stack_inv d1.stack := by
  have hnb : (walker_answer env d ip).insn.branch ≠
      intel_pt_insn_branch.INTEL_PT_BR_NO_BRANCH := by
    rcases hb with hb | hb <;> rw [hb] <;> decide
  have hnu : ¬ (walker_answer env d ip).insn.branch =
      intel_pt_insn_branch.INTEL_PT_BR_UNCONDITIONAL := by
    rcases hb with hb | hb <;> rw [hb] <;> decide
  obtain ⟨d2, a1, _, _, _, _, a6, a7, a8, a9, a10, hcall⟩ :=
    walk_insn_at_branch env d ip he hstop hnb hs
  rw [if_neg (fun h => h hp), if_neg hnu] at hcall
  obtain ⟨o1, o2, _, _⟩ := walk_insn_out_record true (walker_answer env d ip).insn d2
  refine ⟨_, hcall, ?_, ?_, walk_insn_frame_eq env d ip _ hcall, ?_, ?_, ?_⟩
  · rw [(walk_insn_out_frame _ _ _).1]
    exact a1
  · rw [(walk_insn_out_frame _ _ _).2.2.1]
    exact a6
  · rw [o1]
    exact a7
  · rw [o2, a8, a9]
  · rw [(walk_insn_out_frame _ _ _).2.2.2.2.1]
    exact a10

/-- What `intel_pt_walk_tip` does once `intel_pt_walk_insn` has returned an error. -/
theorem walk_tip_after_err (env : intel_pt_env) (d d1 : intel_pt_decoder)
    (insn : intel_pt_insn) (err : Int) (hr : err ≠ INTEL_PT_RETURN) (h0 : err ≠ 0)
    (hcall : intel_pt_walk_insn env d 0 = some (err, insn, d1)) :
    intel_pt_walk_tip env d = some (err, d1) := by
  have hl : (match env.pgd_ip with
      | none => false
      | some pgd_ip =>
        decide (err = INTEL_PT_RETURN ∧
          d1.pkt_state = intel_pt_pkt_state.INTEL_PT_STATE_TIP_PGD ∧
          d1.state.type &&& INTEL_PT_BRANCH ≠ 0) && pgd_ip d1.state.to_ip) = false := by
    cases env.pgd_ip with
    | none => rfl
    | some f =>
      have h : ¬ (err = INTEL_PT_RETURN ∧
          d1.pkt_state = intel_pt_pkt_state.INTEL_PT_STATE_TIP_PGD ∧
          d1.state.type &&& INTEL_PT_BRANCH ≠ 0) := fun h => hr h.1
      simp only [h, decide_False, Bool.false_and]
  unfold intel_pt_walk_tip
  rw [hcall]
  simp only []
  split_ifs with c1
  · exact absurd (hl.symm.trans c1) (by decide)
  · rfl

/-- C22, as stated, fails: `example_indirect_call_env` stops at an indirect call at
`0x3000`; the stack of `example_tip_decoder`, in state TIP, is empty and `malloc` fails, so
the return address is not pushed and `intel_pt_walk_tip` returns `-ENOMEM`, not 0, with
`pkt_state` left at TIP, not IN_SYNC. -/
theorem walk_tip_indirect_counterexample :
    (walker_answer example_indirect_call_env example_tip_decoder 0).err = 0 ∧
    (walker_answer example_indirect_call_env example_tip_decoder 0).insn.branch =
      intel_pt_insn_branch.INTEL_PT_BR_INDIRECT ∧
    (intel_pt_walk_tip example_indirect_call_env example_tip_decoder).map
        (fun r => (r.1, r.2.pkt_state, r.2.ip)) =
      some (-ENOMEM, intel_pt_pkt_state.INTEL_PT_STATE_TIP, 0x3000) ∧
    -ENOMEM ≠ (0 : Int) :=
  ⟨by decide, by decide, by decide, by decide⟩

/-- C22, amended: in `intel_pt_walk_tip` on a well-formed stack, when the walker stops at
an indirect branch, whatever the instruction is: if the instruction is a call whose
return address cannot be pushed, the result is `-ENOMEM` and `pkt_state` is unchanged;
otherwise the result is 0, `pkt_state = IN_SYNC` and `from_ip` is the address of the
branch; in the state TIP_PGD `to_ip = 0`, `pge` becomes false and `ip` stays at the branch
if the packet count is 0 and becomes `last_ip` otherwise; in another state (TIP),
`to_ip = 0` with `ip` unchanged if the count is 0, and `to_ip = ip = last_ip`
otherwise. -/
theorem walk_tip_indirect_spec (env : intel_pt_env) (d : intel_pt_decoder)
    (he : (walker_answer env d 0).err = 0)
    (hbr : (walker_answer env d 0).insn.branch = intel_pt_insn_branch.INTEL_PT_BR_INDIRECT)
    (hs : stack_inv d.stack) :
    (walker_push_err env d (walker_answer env d 0) ≠ 0 →
      ∃ d2, intel_pt_walk_tip env d = some (-ENOMEM, d2) ∧ d2.pkt_state = d.pkt_state ∧
        d2.ip = (walker_answer env d 0).ip) ∧
    (walker_push_err env d (walker_answer env d 0) = 0 →
      ∃ d2, intel_pt_walk_tip env d = some (0, d2) ∧
        d2.pkt_state = intel_pt_pkt_state.INTEL_PT_STATE_IN_SYNC ∧
        d2.state.from_ip = (walker_answer env d 0).ip ∧
        (d.pkt_state = intel_pt_pkt_state.INTEL_PT_STATE_TIP_PGD →
          d2.state.to_ip = 0 ∧ d2.pge = false ∧
          d2.ip = (if d.packet.count = 0 then (walker_answer env d 0).ip else d.last_ip)) ∧
        (d.pkt_state ≠ intel_pt_pkt_state.INTEL_PT_STATE_TIP_PGD →
          d2.pge = d.pge ∧
          (d.packet.count = 0 → d2.state.to_ip = 0 ∧ d2.ip = (walker_answer env d 0).ip) ∧
          (d.packet.count ≠ 0 → d2.state.to_ip = d.last_ip ∧ d2.ip = d.last_ip))) := by
  have hstop : ¬ ((0 : Nat) ≠ 0 ∧ (walker_answer env d 0).ip = 0) := fun h => h.1 rfl
  have hnb : (walker_answer env d 0).insn.branch ≠
      intel_pt_insn_branch.INTEL_PT_BR_NO_BRANCH := by
    rw [hbr]
    decide
  refine ⟨fun hp => ?_, fun hp => ?_⟩
  · obtain ⟨d1, hcall, _, _, f2, f3, _⟩ := walk_insn_push_fail env d 0 he hstop hnb hs hp
    exact ⟨d1, walk_tip_after_err env d d1 _ _ (by decide) (by decide) hcall, f2, f3⟩
  · obtain ⟨d1, hcall, hip, hps, hf, _, _, _⟩ :=
      walk_insn_handed_call env d 0 he (Or.inl hbr) hstop hs hp
    obtain ⟨hpk, _, hli, _, hpge, _⟩ := hf
    rw [walk_tip_after_zero env d d1 _ hcall, if_pos hbr, hps, hpk]
    by_cases hst : d.pkt_state = intel_pt_pkt_state.INTEL_PT_STATE_TIP_PGD
    · rw [if_pos hst]
      by_cases hc : d.packet.count = 0
      · rw [if_neg (not_not.mpr hc)]
        exact ⟨_, rfl, rfl, hip, fun _ => ⟨rfl, rfl, by rw [if_pos hc]; exact hip⟩,
          fun h => absurd hst h⟩
      · rw [if_pos hc]
        exact ⟨_, rfl, rfl, hip, fun _ => ⟨rfl, rfl, by rw [if_neg hc]; exact hli⟩,
          fun h => absurd hst h⟩
    · rw [if_neg hst]
      by_cases hc : d.packet.count = 0
      · rw [if_pos hc]
        exact ⟨_, rfl, rfl, hip, fun h => absurd h hst,
          fun _ => ⟨hpge, fun _ => ⟨rfl, hip⟩, fun h => absurd hc h⟩⟩
      · rw [if_neg hc]
        exact ⟨_, rfl, rfl, hip, fun h => absurd h hst,
          fun _ => ⟨hpge, fun h => absurd h hc, fun _ => ⟨hli, hli⟩⟩⟩

/-- C22 at a decoder in the state TIP with `last_ip = 0x600` and an indirect jump at
`0x3000`: the record goes from `0x3000` to `0x600`, and `ip` becomes `0x600`. -/
theorem walk_tip_indirect_spec_witness :
    ∃ d2, intel_pt_walk_tip example_indirect_env example_tip_decoder = some (0, d2) ∧
      d2.pkt_state = intel_pt_pkt_state.INTEL_PT_STATE_IN_SYNC ∧
      d2.state.from_ip = 0x3000 ∧ d2.state.to_ip = 0x600 ∧ d2.ip = 0x600 := by
  obtain ⟨d2, h, h1, h2, _, h4⟩ :=
    (walk_tip_indirect_spec example_indirect_env example_tip_decoder rfl rfl
      (by decide)).2 rfl
  obtain ⟨_, _, h5⟩ := h4 (by decide)
  obtain ⟨h6, h7⟩ := h5 (by decide)
  exact ⟨d2, h, h1, h2, h6, h7⟩

/-- C24, amended: `intel_pt_walk_fup` walks from the current `ip` to `last_ip`. When the
walker arrives at `last_ip` the result is `-EAGAIN`, or 0 with a transaction record if
`set_fup_tx_flags` is set; when it reports an indirect or a conditional branch before
`last_ip`, whatever the instruction is, the result is `-ENOENT`, which `intel_pt_ext_err`
maps to MISMAT, with `pkt_state = ERR_RESYNC`, unless the instruction is a call whose
return address cannot be pushed: then the result is `-ENOMEM` and `pkt_state` is
unchanged; when it reports an instruction that is not a branch the result is 0 and
`pkt_state` is unchanged. -/
theorem walk_fup_spec (env : intel_pt_env) (fuel : Nat) (d : intel_pt_decoder) :
    ((walker_answer env d d.last_ip).err = 0 → d.last_ip ≠ 0 →
      (walker_answer env d d.last_ip).ip = d.last_ip →
      ∃ ret d2, intel_pt_walk_fup env (fuel + 1) d = some (ret, d2) ∧ d2.ip = d.last_ip ∧
        d2.pkt_state = d.pkt_state ∧ d2.set_fup_tx_flags = false ∧
        (d.set_fup_tx_flags = false → ret = -EAGAIN) ∧
        (d.set_fup_tx_flags = true → ret = 0 ∧ d2.state.type = INTEL_PT_TRANSACTION ∧
          d2.state.from_ip = d.last_ip ∧ d2.state.to_ip = 0 ∧
          d2.state.flags = d.fup_tx_flags ∧ d2.tx_flags = d.fup_tx_flags)) ∧
    ((walker_answer env d d.last_ip).err = 0 →
      ((walker_answer env d d.last_ip).insn.branch =
          intel_pt_insn_branch.INTEL_PT_BR_INDIRECT ∨
        (walker_answer env d d.last_ip).insn.branch =
          intel_pt_insn_branch.INTEL_PT_BR_CONDITIONAL) →
      ¬ (d.last_ip ≠ 0 ∧ (walker_answer env d d.last_ip).ip = d.last_ip) →
      stack_inv d.stack →
      (walker_push_err env d (walker_answer env d d.last_ip) = 0 →
        ∃ d2, intel_pt_walk_fup env (fuel + 1) d = some (-ENOENT, d2) ∧
          intel_pt_ext_err (-ENOENT) = INTEL_PT_ERR_MISMAT ∧
          d2.pkt_state = intel_pt_pkt_state.INTEL_PT_STATE_ERR_RESYNC ∧
          d2.ip = (walker_answer env d d.last_ip).ip) ∧
      (walker_push_err env d (walker_answer env d d.last_ip) ≠ 0 →
        ∃ d2, intel_pt_walk_fup env (fuel + 1) d = some (-ENOMEM, d2) ∧
          d2.pkt_state = d.pkt_state ∧ d2.ip = (walker_answer env d d.last_ip).ip)) ∧
    ((walker_answer env d d.last_ip).err = 0 →
      (walker_answer env d d.last_ip).insn.branch =
        intel_pt_insn_branch.INTEL_PT_BR_NO_BRANCH →
      ¬ (d.last_ip ≠ 0 ∧ (walker_answer env d d.last_ip).ip = d.last_ip) →
      ∃ d2, intel_pt_walk_fup env (fuel + 1) d = some (0, d2) ∧
        d2.pkt_state = d.pkt_state ∧
        d2.ip = add_u64_int (walker_answer env d d.last_ip).ip
          (walker_answer env d d.last_ip).insn.length) := by
  refine ⟨?_, ?_, ?_⟩
  · intro he h0 hs
    obtain ⟨d1, hcall, hip, hps, hf⟩ := walk_insn_stop_call env d d.last_ip he h0 hs
    obtain ⟨_, _, _, _, _, _, hft, hsf, _⟩ := hf
    rw [walk_fup_after_call env fuel d d1 _ _ hcall, if_neg (by decide), if_pos rfl, hsf]
    by_cases hset : d.set_fup_tx_flags = true
    · rw [if_pos hset]
      refine ⟨_, _, rfl, hip, hps, rfl, fun h => ?_, fun _ => ⟨rfl, rfl, hip, rfl, hft, hft⟩⟩
      rw [hset] at h; exact absurd h (by decide)
    · rw [if_neg hset]
      refine ⟨_, _, rfl, hip, hps, ?_, fun _ => rfl, fun h => absurd h hset⟩
      rw [hsf]
      cases hv : d.set_fup_tx_flags
      · rfl
      · exact absurd hv hset
  · intro he hb hstop hs
    have hnb : (walker_answer env d d.last_ip).insn.branch ≠
        intel_pt_insn_branch.INTEL_PT_BR_NO_BRANCH := by
      rcases hb with hb | hb <;> rw [hb] <;> decide
    refine ⟨fun hp => ?_, fun hp => ?_⟩
    · obtain ⟨d1, hcall, hip, _, _⟩ :=
        walk_insn_handed_call env d d.last_ip he hb hstop hs hp
      rw [walk_fup_after_call env fuel d d1 _ _ hcall, if_neg (by decide), if_neg (by decide),
        if_neg (by simp), if_pos hb]
      exact ⟨_, rfl, by decide, rfl, hip⟩
    · obtain ⟨d1, hcall, _, _, f2, f3, _⟩ :=
        walk_insn_push_fail env d d.last_ip he hstop hnb hs hp
      rw [walk_fup_after_call env fuel d d1 _ _ hcall, if_neg (by decide), if_neg (by decide),
        if_pos (by decide)]
      exact ⟨_, rfl, f2, f3⟩
  · intro he hbr hstop
    obtain ⟨d1, hcall, hip, hps, _⟩ := walk_insn_no_branch_call env d d.last_ip he hbr hstop
    rw [walk_fup_after_call env fuel d d1 _ _ hcall, if_pos rfl]
    exact ⟨_, rfl, hps, hip⟩

/-- C24, amended, at a walker that walks straight to `last_ip = 0x4000`: the result is
`-EAGAIN` with `ip = 0x4000`. -/
theorem walk_fup_spec_witness :
    ∃ ret d2, intel_pt_walk_fup example_straight_env 1 example_fup_decoder = some (ret, d2) ∧
      d2.ip = 0x4000 ∧ ret = -EAGAIN := by
  obtain ⟨ret, d2, h, h1, _, _, h4, _⟩ :=
    (walk_fup_spec example_straight_env 0 example_fup_decoder).1 rfl (by decide) rfl
  exact ⟨ret, d2, h, h1, h4 rfl⟩

/-! ### MODE.TSX followed by FUP: the TIP packet -/

/-- The call of `intel_pt_decode` in state FUP_NO_TIP that follows the transaction record:
the walker is at `last_ip` already, the TIP packet is fetched, and the indirect branch the
walker then finds, whatever the instruction is, is published as a branch record to the
address of the TIP packet, with the flag IN_TX, provided the return address of a call is
pushed. -/
theorem decode_fup_no_tip_tip (env : intel_pt_env) (k : Nat) (x dB dC : intel_pt_decoder)
    (insn : intel_pt_insn)
    (hps : x.pkt_state = intel_pt_pkt_state.INTEL_PT_STATE_FUP_NO_TIP)
    (hset : x.set_fup_tx_flags = false) (htx : x.tx_flags = INTEL_PT_IN_TX)
    (hlast : x.last_ip ≠ 0)
    (hwe : (walker_answer env (fup_no_tip_decoder x) x.last_ip).err = 0)
    (hwip : (walker_answer env (fup_no_tip_decoder x) x.last_ip).ip = x.last_ip)
    (hcall : intel_pt_walk_insn env (fup_no_tip_decoder x) x.last_ip = some (-EAGAIN, insn, dB))
    (hfetch : intel_pt_get_next_packet env k dB = some (0, dC))
    (ht : dC.packet.type = intel_pt_pkt_type.INTEL_PT_TIP) (hcnt : dC.packet.count ≠ 0)
    (hwe3 : (walker_answer env (tip_decoder dC) 0).err = 0)
    (hbr3 : (walker_answer env (tip_decoder dC) 0).insn.branch =
      intel_pt_insn_branch.INTEL_PT_BR_INDIRECT)
    (hs3 : stack_inv (tip_decoder dC).stack)
    (hp3 : walker_push_err env (tip_decoder dC) (walker_answer env (tip_decoder dC) 0) = 0) :
    ∃ z : intel_pt_decoder, intel_pt_decode env (k + 2) x = some z ∧
      z.pkt_state = intel_pt_pkt_state.INTEL_PT_STATE_IN_SYNC ∧
      (z.state.type = INTEL_PT_BRANCH ∨
        z.state.type = INTEL_PT_BRANCH ||| INTEL_PT_INSTRUCTION) ∧
      z.state.flags = INTEL_PT_IN_TX ∧
      z.state.from_ip = (walker_answer env (tip_decoder dC) 0).ip ∧
      z.state.to_ip = (tip_decoder dC).last_ip ∧ z.state.err = 0 ∧
      z.ip = (tip_decoder dC).last_ip := by
  -- the walk to `last_ip`
  have hfB := walk_insn_frame_eq env (fup_no_tip_decoder x) x.last_ip _ hcall
  obtain ⟨_, _, _, _, _, b6, _, b8, _⟩ := hfB
  have hB8 : dB.set_fup_tx_flags = false := b8.trans hset
  have hB6 : dB.tx_flags = INTEL_PT_IN_TX := b6.trans htx
  obtain ⟨tB, flB⟩ := walk_insn_stop_record env (fup_no_tip_decoder x) dB x.last_ip insn
    hwe hlast hwip hcall
  have htB : dB.state.type = INTEL_PT_BRANCH := tB
  have hflB : dB.state.flags = INTEL_PT_IN_TX := by
    rw [flB]
    show (if x.tx_flags &&& INTEL_PT_IN_TX ≠ 0 then 0 ||| INTEL_PT_IN_TX else 0) = _
    rw [htx]
    decide
  have hfup : intel_pt_walk_fup env (k + 1) (fup_no_tip_decoder x) = some (-EAGAIN, dB) := by
    rw [walk_fup_after_call env k (fup_no_tip_decoder x) dB _ _ hcall, if_neg (by decide),
      if_pos rfl, hB8]
    simp only [Bool.false_eq_true, if_false]
  -- the TIP packet
  obtain ⟨flC, txC⟩ := get_next_packet_flags env k dB dC hfetch
  have htC : dC.state.type = INTEL_PT_BRANCH :=
    (get_next_packet_type env k dB (0, dC) hfetch).trans htB
  obtain ⟨dE, hcallE, hipE, hpsE, hfE, tE, flE, _⟩ :=
    walk_insn_handed_call env (tip_decoder dC) 0 hwe3 (Or.inl hbr3) (fun h => h.1 rfl) hs3 hp3
  obtain ⟨e1, _, e3, _, _, e6, _⟩ := hfE
  have hcntE : dE.packet.count ≠ 0 := by
    rw [e1]
    exact hcnt
  have htip : intel_pt_walk_tip env (tip_decoder dC) =
      some (0,
        { dE with
          pkt_state := intel_pt_pkt_state.INTEL_PT_STATE_IN_SYNC
          state := { dE.state with from_ip := dE.ip, to_ip := dE.last_ip }
          ip := dE.last_ip }) := by
    rw [walk_tip_after_zero env (tip_decoder dC) dE _ hcallE, if_pos hbr3, hpsE]
    have hn : ¬ (tip_decoder dC).pkt_state = intel_pt_pkt_state.INTEL_PT_STATE_TIP_PGD := by
      show ¬ intel_pt_pkt_state.INTEL_PT_STATE_TIP = intel_pt_pkt_state.INTEL_PT_STATE_TIP_PGD
      decide
    rw [if_neg hn, if_neg hcntE]
  have hpkt : intel_pt_walk_trace_packet env k false dC =
      some (walk_trace_step.ret 0
        { dE with
          pkt_state := intel_pt_pkt_state.INTEL_PT_STATE_IN_SYNC
          state := { dE.state with from_ip := dE.ip, to_ip := dE.last_ip }
          ip := dE.last_ip }) := by
    have htip2 : intel_pt_walk_tip env
        { intel_pt_set_last_ip dC with pkt_state := intel_pt_pkt_state.INTEL_PT_STATE_TIP } =
        some (0,
          { dE with
            pkt_state := intel_pt_pkt_state.INTEL_PT_STATE_IN_SYNC
            state := { dE.state with from_ip := dE.ip, to_ip := dE.last_ip }
            ip := dE.last_ip }) := htip
    unfold intel_pt_walk_trace_packet
    simp only [ht, hcnt, ne_eq, not_false_eq_true, if_true, htip2]
  have htrace : intel_pt_walk_trace env (k + 1) dB =
      some (0,
        { dE with
          pkt_state := intel_pt_pkt_state.INTEL_PT_STATE_IN_SYNC
          state := { dE.state with from_ip := dE.ip, to_ip := dE.last_ip }
          ip := dE.last_ip }) := by
    unfold intel_pt_walk_trace
    rw [walk_trace_round env k false dB dC hfetch, hpkt]
  have hstep : intel_pt_decode_step env (k + 1) x =
      some (0,
        { dE with
          pkt_state := intel_pt_pkt_state.INTEL_PT_STATE_IN_SYNC
          state := { dE.state with from_ip := dE.ip, to_ip := dE.last_ip }
          ip := dE.last_ip }) := by
    have hfup2 : intel_pt_walk_fup env (k + 1)
        { x with
          state := { x.state with type := INTEL_PT_BRANCH, flags := 0 }
          pkt_state := intel_pt_pkt_state.INTEL_PT_STATE_IN_SYNC } = some (-EAGAIN, dB) := hfup
    unfold intel_pt_decode_step
    simp only [hps, hfup2, if_true, htrace]
  obtain ⟨p1, p2, p3, p4, p5, p6, p7⟩ := decode_publish_ok
    { dE with
      pkt_state := intel_pt_pkt_state.INTEL_PT_STATE_IN_SYNC
      state := { dE.state with from_ip := dE.ip, to_ip := dE.last_ip }
      ip := dE.last_ip }
  have hDt : (tip_decoder dC).state.type = INTEL_PT_BRANCH := htC
  have hDf : (tip_decoder dC).state.flags = INTEL_PT_IN_TX := flC.trans hflB
  have hDx : (tip_decoder dC).tx_flags = INTEL_PT_IN_TX := txC.trans hB6
  refine ⟨_, decode_of_step_ok env (k + 1) x _ hstep, p6, ?_, ?_, p2.trans hipE,
    p3.trans e3, p5, p7.trans e3⟩
  · rw [p1]
    show dE.state.type = _ ∨ dE.state.type = _
    rw [← hDt]
    exact tE
  · rw [p4]
    show dE.state.flags = _
    rw [flE, hDx, hDf]
    decide


/-- The call of `intel_pt_decode` in state FUP_NO_TIP that follows the transaction record,
when the indirect branch that the walker finds behind the TIP packet is a call whose return
address cannot be pushed: the call ends with `err = NOMEM`, at the address of the branch
and in the state TIP. -/
theorem decode_fup_no_tip_tip_nomem (env : intel_pt_env) (k : Nat)
    (x dB dC : intel_pt_decoder) (insn : intel_pt_insn)
    (hps : x.pkt_state = intel_pt_pkt_state.INTEL_PT_STATE_FUP_NO_TIP)
    (hset : x.set_fup_tx_flags = false)
    (hcall : intel_pt_walk_insn env (fup_no_tip_decoder x) x.last_ip = some (-EAGAIN, insn, dB))
    (hfetch : intel_pt_get_next_packet env k dB = some (0, dC))
    (ht : dC.packet.type = intel_pt_pkt_type.INTEL_PT_TIP) (hcnt : dC.packet.count ≠ 0)
    (hwe3 : (walker_answer env (tip_decoder dC) 0).err = 0)
    (hbr3 : (walker_answer env (tip_decoder dC) 0).insn.branch =
      intel_pt_insn_branch.INTEL_PT_BR_INDIRECT)
    (hs3 : stack_inv (tip_decoder dC).stack)
    (hp3 : walker_push_err env (tip_decoder dC) (walker_answer env (tip_decoder dC) 0) ≠ 0) :
    ∃ z : intel_pt_decoder, intel_pt_decode env (k + 2) x = some z ∧
      z.state.err = INTEL_PT_ERR_NOMEM ∧
      z.pkt_state = intel_pt_pkt_state.INTEL_PT_STATE_TIP ∧
      z.state.from_ip = (walker_answer env (tip_decoder dC) 0).ip := by
  have hfB := walk_insn_frame_eq env (fup_no_tip_decoder x) x.last_ip _ hcall
  obtain ⟨_, _, _, _, _, _, _, b8, _⟩ := hfB
  have hB8 : dB.set_fup_tx_flags = false := b8.trans hset
  have hfup : intel_pt_walk_fup env (k + 1) (fup_no_tip_decoder x) = some (-EAGAIN, dB) := by
    rw [walk_fup_after_call env k (fup_no_tip_decoder x) dB _ _ hcall, if_neg (by decide),
      if_pos rfl, hB8]
    simp only [Bool.false_eq_true, if_false]
  have hnb : (walker_answer env (tip_decoder dC) 0).insn.branch ≠
      intel_pt_insn_branch.INTEL_PT_BR_NO_BRANCH := by
    rw [hbr3]
    decide
  obtain ⟨dE, hcallE, _, _, hpsE, hipE, _⟩ :=
    walk_insn_push_fail env (tip_decoder dC) 0 hwe3 (fun h => h.1 rfl) hnb hs3 hp3
  have htip : intel_pt_walk_tip env (tip_decoder dC) = some (-ENOMEM, dE) :=
    walk_tip_after_err env (tip_decoder dC) dE _ _ (by decide) (by decide) hcallE
  have hpkt : intel_pt_walk_trace_packet env k false dC =
      some (walk_trace_step.ret (-ENOMEM) dE) := by
    have htip2 : intel_pt_walk_tip env
        { intel_pt_set_last_ip dC with pkt_state := intel_pt_pkt_state.INTEL_PT_STATE_TIP } =
        some (-ENOMEM, dE) := htip
    unfold intel_pt_walk_trace_packet
    simp only [ht, hcnt, ne_eq, not_false_eq_true, if_true, htip2]
  have htrace : intel_pt_walk_trace env (k + 1) dB = some (-ENOMEM, dE) := by
    unfold intel_pt_walk_trace
    rw [walk_trace_round env k false dB dC hfetch, hpkt]
  have hstep : intel_pt_decode_step env (k + 1) x = some (-ENOMEM, dE) := by
    have hfup2 : intel_pt_walk_fup env (k + 1)
        { x with
          state := { x.state with type := INTEL_PT_BRANCH, flags := 0 }
          pkt_state := intel_pt_pkt_state.INTEL_PT_STATE_IN_SYNC } = some (-EAGAIN, dB) := hfup
    unfold intel_pt_decode_step
    simp only [hps, hfup2, if_true, htrace]
  obtain ⟨p1, p2, _, _, _, p6, _⟩ := decode_publish_err (-ENOMEM) dE (by decide)
  exact ⟨_, decode_of_step env (k + 1) x dE (-ENOMEM) (by decide) hstep,
    p1.trans (by decide), p6.trans hpsE, p2.trans hipE⟩

/-- C25, amended: a decoder in sync fetches a MODE.TSX packet with InTX set and TXAbort
clear, with tracing enabled, and then a FUP packet with an address, and the walker arrives
at that address (`last_ip`) without meeting a branch. Then the call of `intel_pt_decode`
publishes a record of the type `INTEL_PT_TRANSACTION` with the flag IN_TX, from `last_ip`
to 0, with `err = 0`, and leaves the decoder in state FUP_NO_TIP with `tx_flags = IN_TX`,
before the next packet. If the next call finds the walker at `last_ip`, fetches a TIP
packet with an address and the walker then stops at an indirect branch, whatever the
instruction is, on a well-formed stack, that call publishes a record of the type
`INTEL_PT_BRANCH` (with `INTEL_PT_INSTRUCTION` added when an instruction sample is due)
with the flag IN_TX, from the address of the branch to the address of the TIP packet, in
state IN_SYNC; unless the instruction is a call whose return address cannot be pushed:
then that call ends with `err = NOMEM` at the address of the branch, in the state TIP. -/
theorem mode_tsx_fup_tip_spec (env : intel_pt_env) (g : Nat) (d0 d1 d2 : intel_pt_decoder)
    (hsync : d0.pkt_state = intel_pt_pkt_state.INTEL_PT_STATE_IN_SYNC)
    (h1 : intel_pt_get_next_packet env (g + 2)
      { d0 with state := { d0.state with type := INTEL_PT_BRANCH, flags := 0 } } = some (0, d1))
    (ht1 : d1.packet.type = intel_pt_pkt_type.INTEL_PT_MODE_TSX)
    (hpay : (d1.packet.payload &&& (INTEL_PT_IN_TX ||| INTEL_PT_ABORT_TX)) % 2 ^ 32 =
      INTEL_PT_IN_TX)
    (hpge : d1.pge = true)
    (h2 : intel_pt_get_next_packet env (g + 2) d1 = some (0, d2))
    (ht2 : d2.packet.type = intel_pt_pkt_type.INTEL_PT_FUP) (hcnt : d2.packet.count ≠ 0)
    (hne : (tsx_fup_decoder d2).last_ip ≠ 0)
    (hwe : (walker_answer env (tsx_fup_decoder d2) (tsx_fup_decoder d2).last_ip).err = 0)
    (hwip : (walker_answer env (tsx_fup_decoder d2) (tsx_fup_decoder d2).last_ip).ip =
      (tsx_fup_decoder d2).last_ip) :
    ∃ x : intel_pt_decoder, intel_pt_decode env (g + 4) d0 = some x ∧
      x.pkt_state = intel_pt_pkt_state.INTEL_PT_STATE_FUP_NO_TIP ∧
      x.state.type = INTEL_PT_TRANSACTION ∧ x.state.flags = INTEL_PT_IN_TX ∧
      x.state.from_ip = (tsx_fup_decoder d2).last_ip ∧ x.state.to_ip = 0 ∧ x.state.err = 0 ∧
      x.ip = (tsx_fup_decoder d2).last_ip ∧ x.last_ip = (tsx_fup_decoder d2).last_ip ∧
      x.tx_flags = INTEL_PT_IN_TX ∧
      x.pos = d2.pos ∧ x.buf = d2.buf ∧ x.pkt_step = d2.pkt_step ∧
      ∀ (k : Nat) (insn : intel_pt_insn) (dB dC : intel_pt_decoder),
        (walker_answer env (fup_no_tip_decoder x) x.last_ip).err = 0 →
        (walker_answer env (fup_no_tip_decoder x) x.last_ip).ip = x.last_ip →
        intel_pt_walk_insn env (fup_no_tip_decoder x) x.last_ip = some (-EAGAIN, insn, dB) →
        intel_pt_get_next_packet env k dB = some (0, dC) →
        dC.packet.type = intel_pt_pkt_type.INTEL_PT_TIP → dC.packet.count ≠ 0 →
        (walker_answer env (tip_decoder dC) 0).err = 0 →
        (walker_answer env (tip_decoder dC) 0).insn.branch =
          intel_pt_insn_branch.INTEL_PT_BR_INDIRECT →
        stack_inv (tip_decoder dC).stack →
        (walker_push_err env (tip_decoder dC) (walker_answer env (tip_decoder dC) 0) = 0 →
          ∃ z : intel_pt_decoder, intel_pt_decode env (k + 2) x = some z ∧
            z.pkt_state = intel_pt_pkt_state.INTEL_PT_STATE_IN_SYNC ∧
            (z.state.type = INTEL_PT_BRANCH ∨
              z.state.type = INTEL_PT_BRANCH ||| INTEL_PT_INSTRUCTION) ∧
            z.state.flags = INTEL_PT_IN_TX ∧
            z.state.from_ip = (walker_answer env (tip_decoder dC) 0).ip ∧
            z.state.to_ip = (tip_decoder dC).last_ip ∧ z.state.err = 0 ∧
            z.ip = (tip_decoder dC).last_ip) ∧
        (walker_push_err env (tip_decoder dC) (walker_answer env (tip_decoder dC) 0) ≠ 0 →
          ∃ z : intel_pt_decoder, intel_pt_decode env (k + 2) x = some z ∧
            z.state.err = INTEL_PT_ERR_NOMEM ∧
            z.pkt_state = intel_pt_pkt_state.INTEL_PT_STATE_TIP ∧
            z.state.from_ip = (walker_answer env (tip_decoder dC) 0).ip) := by
  obtain ⟨x, a1, a2, a3, a4, a5, a6, a7, a8, a9, a10, a11, a12, a13, _, _, a16⟩ :=
    decode_tsx_fup env g d0 d1 d2 hsync h1 ht1 hpay hpge h2 ht2 hcnt hne hwe hwip
  refine ⟨x, a1, a2, a3, a4, a5, a6, a7, a8, a9, a10, a12, a13, a16, ?_⟩
  intro k insn dB dC hwe2 hwip2 hcall hfetch ht hc hwe3 hbr3 hs3
  exact ⟨fun hp3 => decode_fup_no_tip_tip env k x dB dC insn a2 a11 a10
      (by rw [a9]; exact hne) hwe2 hwip2 hcall hfetch ht hc hwe3 hbr3 hs3 hp3,
    fun hp3 => decode_fup_no_tip_tip_nomem env k x dB dC insn a2 a11 hcall hfetch ht hc
      hwe3 hbr3 hs3 hp3⟩


/-- C25 at `example_tsx_decoder`: the first call publishes the transaction record from
0x500 to 0 and stops in state FUP_NO_TIP, before the TIP packet. -/
theorem mode_tsx_fup_tip_spec_witness :
    ∃ x : intel_pt_decoder, intel_pt_decode example_tsx_env 4 example_tsx_decoder = some x ∧
      x.pkt_state = intel_pt_pkt_state.INTEL_PT_STATE_FUP_NO_TIP ∧
      x.state.type = INTEL_PT_TRANSACTION ∧ x.state.flags = INTEL_PT_IN_TX ∧
      x.state.from_ip = 0x500 ∧ x.state.to_ip = 0 := by
  obtain ⟨x, a1, a2, a3, a4, a5, a6, _⟩ :=
    mode_tsx_fup_tip_spec example_tsx_env 0 example_tsx_decoder
      { example_tsx_decoder with
        state := { example_tsx_decoder.state with type := INTEL_PT_BRANCH, flags := 0 }
        packet := { type := intel_pt_pkt_type.INTEL_PT_MODE_TSX, payload := 1 }
        pkt_len := 2
        pkt_step := 2 }
      { example_tsx_decoder with
        state := { example_tsx_decoder.state with type := INTEL_PT_BRANCH, flags := 0 }
        last_packet_type := intel_pt_pkt_type.INTEL_PT_MODE_TSX
        pos := 2
        buf := [0xdd, 0x00, 0x05, 0, 0, 0, 0, 0, 0, 0xcd, 0x00, 0x06, 0, 0, 0, 0, 0, 0]
        packet := { type := intel_pt_pkt_type.INTEL_PT_FUP, count := 6, payload := 0x500 }
        pkt_len := 9
        pkt_step := 9 }
      rfl rfl rfl rfl rfl rfl rfl (by decide) (by decide) rfl rfl
  exact ⟨x, a1, a2, a3, a4, a5, a6⟩


/-! ### Overflow: every way to the OVF packet -/

/-- One round of the loop of `intel_pt_walk_trace`, entered at its top or at the label
`next`, on the packet `dh.packet`. -/
theorem walk_trace_round_at (env : intel_pt_env) (fuel : Nat) (no_tip at_next : Bool)
    (d dh : intel_pt_decoder)
    (h : (if at_next then some ((0 : Int), d) else intel_pt_get_next_packet env fuel d) =
      some (0, dh)) :
    intel_pt_walk_trace_loop env (fuel + 1) no_tip at_next d =
      match intel_pt_walk_trace_packet env fuel no_tip dh with
      | none => none
      | some (walk_trace_step.ret r d2) => some (r, d2)
      | some (walk_trace_step.brk no_tip1 d2) =>
        intel_pt_walk_trace_loop env fuel no_tip1 false d2
      | some (walk_trace_step.next no_tip1 d2) =>
        intel_pt_walk_trace_loop env fuel no_tip1 true d2 := by
  rw [intel_pt_walk_trace_loop, h]
  simp only [ne_eq, not_true_eq_false, if_false]

/-- A call that meets an OVF packet in the `switch` of a packet walker returns what
`intel_pt_overflow` gives there. -/
theorem meets_ovf_result (env : intel_pt_env) (d1 : intel_pt_decoder)
    (hovf : d1.packet.type = intel_pt_pkt_type.INTEL_PT_OVF) (c : handler_call)
    (hm : meets_ovf env d1 c) : handler_result env c = some (intel_pt_overflow d1) := by
  have hne : (-EOVERFLOW : Int) ≠ 0 := by decide
  have hna : ¬ ((-EOVERFLOW : Int) = -EAGAIN) := by decide
  have hnl : ¬ ((-EOVERFLOW : Int) = -ENOLINK) := by decide
  induction hm with
  | trace_here fuel no_tip at_next d h =>
    show intel_pt_walk_trace_loop env (fuel + 1) no_tip at_next d = _
    rw [walk_trace_round_at env fuel no_tip at_next d d1 h]
    unfold intel_pt_walk_trace_packet
    simp only [hovf]
  | trace_brk fuel no_tip at_next no_tip1 d dh d2 h hsw _ ih =>
    show intel_pt_walk_trace_loop env (fuel + 1) no_tip at_next d = _
    rw [walk_trace_round_at env fuel no_tip at_next d dh h, hsw]
    exact ih
  | trace_next fuel no_tip at_next no_tip1 d dh d2 h hsw _ ih =>
    show intel_pt_walk_trace_loop env (fuel + 1) no_tip at_next d = _
    rw [walk_trace_round_at env fuel no_tip at_next d dh h, hsw]
    exact ih
  | trace_psbend fuel no_tip at_next d dh stack h hp hcs _ ih =>
    show intel_pt_walk_trace_loop env (fuel + 1) no_tip at_next d = _
    have ih2 : intel_pt_walk_psbend env fuel
        { dh with last_ip := 0, have_last_ip := true, stack := stack } =
          some (intel_pt_overflow d1) := ih
    rw [walk_trace_round_at env fuel no_tip at_next d dh h]
    unfold intel_pt_walk_trace_packet
    simp only [hp, hcs, ih2, overflow_eq, if_neg hna, ne_eq, hne, not_false_eq_true, if_true]
  | trace_fup_tip fuel at_next d dh da h hp hc hf _ ih =>
    show intel_pt_walk_trace_loop env (fuel + 1) false at_next d = _
    have ih2 : intel_pt_walk_fup_tip env fuel da = some (intel_pt_overflow d1) := ih
    have hag : ¬ ((-EAGAIN : Int) ≠ -EAGAIN) := fun hx => hx rfl
    rw [walk_trace_round_at env fuel false at_next d dh h]
    unfold intel_pt_walk_trace_packet intel_pt_walk_trace_fup
    simp only [hp, if_neg hc, hf, if_neg hag, ih2, Bool.false_eq_true, if_false]
  | psbend_here fuel d h =>
    show intel_pt_walk_psbend env (fuel + 1) d = _
    rw [walk_psbend_round env fuel d d1 h]
    unfold intel_pt_walk_psbend_packet
    simp only [hovf]
  | psbend_go fuel d dh d2 h hsw _ ih =>
    show intel_pt_walk_psbend env (fuel + 1) d = _
    rw [walk_psbend_round env fuel d dh h, hsw]
    exact ih
  | fup_tip_here fuel d h =>
    show intel_pt_walk_fup_tip_loop env (fuel + 1) d = _
    rw [walk_fup_tip_round env fuel d d1 h]
    unfold intel_pt_walk_fup_tip_packet
    simp only [hovf]
  | fup_tip_go fuel d dh d2 h hsw _ ih =>
    show intel_pt_walk_fup_tip_loop env (fuel + 1) d = _
    rw [walk_fup_tip_round env fuel d dh h, hsw]
    exact ih
  | psb_here fuel d h =>
    show intel_pt_walk_psb env (fuel + 1) d = _
    rw [walk_psb_round env fuel d d1 h]
    unfold intel_pt_walk_psb_packet intel_pt_walk_sync_timing
    simp only [hovf]
  | psb_go fuel d dh d2 h hsw _ ih =>
    show intel_pt_walk_psb env (fuel + 1) d = _
    rw [walk_psb_round env fuel d dh h, hsw]
    exact ih
  | to_ip_here fuel d h =>
    show intel_pt_walk_to_ip env (fuel + 1) d = _
    rw [walk_to_ip_round env fuel d d1 h]
    unfold intel_pt_walk_to_ip_packet intel_pt_walk_sync_timing
    simp only [hovf]
  | to_ip_go fuel d dh d2 h hsw _ ih =>
    show intel_pt_walk_to_ip env (fuel + 1) d = _
    rw [walk_to_ip_round env fuel d dh h, hsw]
    exact ih
  | to_ip_psb fuel d dh stack h hp hcs _ ih =>
    show intel_pt_walk_to_ip env (fuel + 1) d = _
    have ih2 : intel_pt_walk_psb env fuel
        { dh with last_ip := 0, have_last_ip := true, stack := stack } =
          some (intel_pt_overflow d1) := ih
    rw [walk_to_ip_round env fuel d dh h]
    unfold intel_pt_walk_to_ip_packet intel_pt_walk_sync_timing
    simp only [hp, hcs, ih2, overflow_eq, ne_eq, hne, not_false_eq_true, if_true]
  | sync_ip_walk fuel d _ ih =>
    show intel_pt_sync_ip env fuel d = _
    have ih2 : intel_pt_walk_to_ip env fuel { d with set_fup_tx_flags := false } =
        some (intel_pt_overflow d1) := ih
    unfold intel_pt_sync_ip
    simp only [ih2, overflow_eq, ne_eq, hne, not_false_eq_true, if_true]
  | sync_psb fuel d dp stack hcs hscan _ ih =>
    show intel_pt_sync env fuel d = _
    have ih2 : intel_pt_walk_psb env fuel
        { dp with
          have_last_ip := true
          pkt_state := intel_pt_pkt_state.INTEL_PT_STATE_NO_IP } =
          some (intel_pt_overflow d1) := ih
    unfold intel_pt_sync
    simp only [hcs, hscan, ih2, overflow_eq, ne_eq, hne, not_false_eq_true, if_true,
      not_true_eq_false, if_false]
  | sync_sync_ip fuel d dp dq stack hcs hscan hpsb hip _ ih =>
    show intel_pt_sync env fuel d = _
    have ih2 : intel_pt_sync_ip env fuel dq = some (intel_pt_overflow d1) := ih
    unfold intel_pt_sync
    simp only [hcs, hscan, hpsb, hip, ne_eq, not_true_eq_false, if_false]
    exact ih2
  | step_no_psb fuel d hs _ ih =>
    show intel_pt_decode_step env fuel d = _
    have hx : intel_pt_decode_step env fuel d =
        intel_pt_sync env fuel
          { d with state := { d.state with type := INTEL_PT_BRANCH, flags := 0 } } := by
      unfold intel_pt_decode_step
      simp only [hs]
    rw [hx]
    exact ih
  | step_no_ip fuel d hs _ ih =>
    show intel_pt_decode_step env fuel d = _
    have hx : intel_pt_decode_step env fuel d =
        intel_pt_sync_ip env fuel
          { d with
            state := { d.state with type := INTEL_PT_BRANCH, flags := 0 }
            have_last_ip := false
            last_ip := 0
            ip := 0 } := by
      unfold intel_pt_decode_step
      simp only [hs]
    rw [hx]
    exact ih
  | step_err_resync fuel d hs _ ih =>
    show intel_pt_decode_step env fuel d = _
    have hx : intel_pt_decode_step env fuel d =
        intel_pt_sync_ip env fuel
          { d with state := { d.state with type := INTEL_PT_BRANCH, flags := 0 } } := by
      unfold intel_pt_decode_step
      simp only [hs]
    rw [hx]
    exact ih
  | step_in_sync fuel d hs _ ih =>
    show intel_pt_decode_step env fuel d = _
    have hx : intel_pt_decode_step env fuel d =
        intel_pt_walk_trace env fuel
          { d with state := { d.state with type := INTEL_PT_BRANCH, flags := 0 } } := by
      unfold intel_pt_decode_step
      simp only [hs]
    rw [hx]
    exact ih
  | step_tnt fuel d da hs ht _ ih =>
    show intel_pt_decode_step env fuel d = _
    have ih2 : intel_pt_walk_trace env fuel da = some (intel_pt_overflow d1) := ih
    unfold intel_pt_decode_step
    rcases hs with hs | hs
    · simp only [hs] at ht
      simp only [hs, ht, if_true]
      exact ih2
    · simp only [hs] at ht
      simp only [hs, ht, if_true]
      exact ih2
  | step_fup fuel d da hs hf _ ih =>
    show intel_pt_decode_step env fuel d = _
    have ih2 : intel_pt_walk_fup_tip env fuel da = some (intel_pt_overflow d1) := ih
    unfold intel_pt_decode_step
    simp only [hs, hf, if_true]
    exact ih2
  | step_fup_no_tip fuel d da hs hf _ ih =>
    show intel_pt_decode_step env fuel d = _
    have ih2 : intel_pt_walk_trace env fuel da = some (intel_pt_overflow d1) := ih
    unfold intel_pt_decode_step
    simp only [hs, hf, if_true]
    exact ih2
  | loop_here fuel d _ ih =>
    show intel_pt_decode_loop env (fuel + 1) d = _
    have ih2 : intel_pt_decode_step env fuel d = some (intel_pt_overflow d1) := ih
    rw [intel_pt_decode_loop, ih2]
    simp only [overflow_eq, if_neg hnl]
  | loop_again fuel d d2 hstep _ ih =>
    show intel_pt_decode_loop env (fuel + 1) d = _
    rw [intel_pt_decode_loop, hstep]
    simp only [if_true]
    exact ih

/-- The deferred TIP of `intel_pt_walk_tnt`: at an indirect branch that is not a return the
function fetches a packet, and on any packet that is not a TIP with an address it returns
`-ENOENT`, sets `pkt_state` to ERR_RESYNC and `pkt_step` to 0. -/
theorem walk_tnt_missing_tip (env : intel_pt_env) (fuel : Nat) (d da d1 : intel_pt_decoder)
    (insn : intel_pt_insn)
    (hw : intel_pt_walk_insn env d 0 = some (0, insn, da))
    (hop : insn.op ≠ intel_pt_insn_op.INTEL_PT_OP_RET)
    (hbr : insn.branch = intel_pt_insn_branch.INTEL_PT_BR_INDIRECT)
    (hfetch : intel_pt_get_next_packet env fuel da = some (0, d1))
    (hp : d1.packet.type ≠ intel_pt_pkt_type.INTEL_PT_TIP) :
    intel_pt_walk_tnt env (fuel + 1) d =
      some (-ENOENT,
        { d1 with
          pkt_state := intel_pt_pkt_state.INTEL_PT_STATE_ERR_RESYNC
          pkt_step := 0 }) := by
  have h1 : ¬ ((0 : Int) = INTEL_PT_RETURN) := by decide
  have h2 : ¬ ((0 : Int) ≠ 0) := fun h => h rfl
  have h3 : d1.packet.type ≠ intel_pt_pkt_type.INTEL_PT_TIP ∨ d1.packet.count = 0 := Or.inl hp
  rw [intel_pt_walk_tnt, hw]
  simp only [if_neg h1, if_neg h2, if_neg hop, if_pos hbr, hfetch, if_pos h3]
  rfl

/-- C28, as stated, fails: `example_ovf_tnt_decoder` is in the state TNT with one TNT bit
left, in front of an OVF packet, and the walker reports an indirect jump. The call of
`intel_pt_decode` runs `intel_pt_walk_tnt`, which fetches the OVF packet where it expects
the deferred TIP: the record has `err = MISMAT` and not OVR, `overflow` stays false, and
`pkt_state` is ERR_RESYNC with `pkt_step = 0`, so that the packet is fetched again. The
next call meets the OVF packet in `intel_pt_walk_to_ip` and publishes `err = OVR` with
`overflow` set. -/
theorem overflow_counterexample :
    (intel_pt_decode example_ovf_tnt_env 4 example_ovf_tnt_decoder).map
        (fun x => (x.state.err, x.overflow, x.pkt_state, x.pkt_step, x.packet.type)) =
      some (INTEL_PT_ERR_MISMAT, false, intel_pt_pkt_state.INTEL_PT_STATE_ERR_RESYNC, 0,
        intel_pt_pkt_type.INTEL_PT_OVF) ∧
    ((intel_pt_decode example_ovf_tnt_env 4 example_ovf_tnt_decoder).bind
        (intel_pt_decode example_ovf_tnt_env 4)).map
        (fun x => (x.state.err, x.overflow, x.pkt_state)) =
      some (INTEL_PT_ERR_OVR, true, intel_pt_pkt_state.INTEL_PT_STATE_ERR_RESYNC) ∧
    INTEL_PT_ERR_MISMAT ≠ INTEL_PT_ERR_OVR :=
  ⟨by decide, by decide, by decide⟩

/-- C28: an OVF packet met in the `switch` of `intel_pt_walk_trace`,
`intel_pt_walk_psbend`, `intel_pt_walk_fup_tip`, `intel_pt_walk_psb` or
`intel_pt_walk_to_ip` (`d1` is the decoder as the `switch` finds it) gives what
`intel_pt_overflow` gives: `-EOVERFLOW` with `tx_flags = 0`, `timestamp_insn_cnt = 0`,
`pkt_state = ERR_RESYNC` and `overflow = true`. Every call that meets the packet this way
(`meets_ovf`: the walker itself in any round of its loop, or a caller up to the loop of
`intel_pt_decode`) returns that result, and then `intel_pt_decode` publishes a record with
`err = OVR` and `from_ip` the current `ip`, and leaves `ip`, `last_ip` and `have_last_ip`
as they were at the OVF packet. The next call of `intel_pt_decode` runs `intel_pt_sync_ip`
on that decoder, with only the type and the flags of the record reset. An OVF packet that
`intel_pt_walk_tnt` fetches at an indirect branch, where it expects the deferred TIP, is
not handled this way: the function returns `-ENOENT`, which is published as `err = MISMAT`
with `overflow` unchanged, `pkt_state = ERR_RESYNC` and `pkt_step = 0`. -/
theorem overflow_spec (env : intel_pt_env) (d1 : intel_pt_decoder)
    (hovf : d1.packet.type = intel_pt_pkt_type.INTEL_PT_OVF) :
    intel_pt_overflow d1 =
      (-EOVERFLOW,
        { d1 with
          tx_flags := 0
          timestamp_insn_cnt := 0
          pkt_state := intel_pt_pkt_state.INTEL_PT_STATE_ERR_RESYNC
          overflow := true }) ∧
    intel_pt_ext_err (-EOVERFLOW) = INTEL_PT_ERR_OVR ∧
    (∀ c : handler_call, meets_ovf env d1 c →
      handler_result env c = some (intel_pt_overflow d1)) ∧
    (∀ (fuel : Nat) (d0 : intel_pt_decoder),
      meets_ovf env d1 (handler_call.decode_loop fuel d0) →
      intel_pt_decode env fuel d0 =
        some (intel_pt_decode_publish (-EOVERFLOW) (intel_pt_overflow d1).2)) ∧
    (intel_pt_decode_publish (-EOVERFLOW) (intel_pt_overflow d1).2).state.err =
      INTEL_PT_ERR_OVR ∧
    (intel_pt_decode_publish (-EOVERFLOW) (intel_pt_overflow d1).2).state.from_ip = d1.ip ∧
    (intel_pt_decode_publish (-EOVERFLOW) (intel_pt_overflow d1).2).ip = d1.ip ∧
    (intel_pt_decode_publish (-EOVERFLOW) (intel_pt_overflow d1).2).last_ip = d1.last_ip ∧
    (intel_pt_decode_publish (-EOVERFLOW) (intel_pt_overflow d1).2).have_last_ip =
      d1.have_last_ip ∧
    (intel_pt_decode_publish (-EOVERFLOW) (intel_pt_overflow d1).2).pkt_state =
      intel_pt_pkt_state.INTEL_PT_STATE_ERR_RESYNC ∧
    (intel_pt_decode_publish (-EOVERFLOW) (intel_pt_overflow d1).2).overflow = true ∧
    (intel_pt_decode_publish (-EOVERFLOW) (intel_pt_overflow d1).2).tx_flags = 0 ∧
    (intel_pt_decode_publish (-EOVERFLOW) (intel_pt_overflow d1).2).timestamp_insn_cnt = 0 ∧
    (∀ fuel2 : Nat,
      intel_pt_decode_step env fuel2
          (intel_pt_decode_publish (-EOVERFLOW) (intel_pt_overflow d1).2) =
        intel_pt_sync_ip env fuel2
          { intel_pt_decode_publish (-EOVERFLOW) (intel_pt_overflow d1).2 with
            state :=
              { (intel_pt_decode_publish (-EOVERFLOW) (intel_pt_overflow d1).2).state with
                type := INTEL_PT_BRANCH, flags := 0 } }) ∧
    (∀ (fuel : Nat) (d da : intel_pt_decoder) (insn : intel_pt_insn),
      intel_pt_walk_insn env d 0 = some (0, insn, da) →
      insn.op ≠ intel_pt_insn_op.INTEL_PT_OP_RET →
      insn.branch = intel_pt_insn_branch.INTEL_PT_BR_INDIRECT →
      intel_pt_get_next_packet env fuel da = some (0, d1) →
      intel_pt_walk_tnt env (fuel + 1) d =
        some (-ENOENT,
          { d1 with
            pkt_state := intel_pt_pkt_state.INTEL_PT_STATE_ERR_RESYNC
            pkt_step := 0 }) ∧
      intel_pt_ext_err (-ENOENT) = INTEL_PT_ERR_MISMAT ∧
      ∀ d0 : intel_pt_decoder,
        d0.pkt_state = intel_pt_pkt_state.INTEL_PT_STATE_TNT ∨
          d0.pkt_state = intel_pt_pkt_state.INTEL_PT_STATE_TNT_CONT →
        d = { d0 with state := { d0.state with type := INTEL_PT_BRANCH, flags := 0 } } →
        intel_pt_decode env (fuel + 2) d0 =
          some (intel_pt_decode_publish (-ENOENT)
            { d1 with
              pkt_state := intel_pt_pkt_state.INTEL_PT_STATE_ERR_RESYNC
              pkt_step := 0 }) ∧
        (intel_pt_decode_publish (-ENOENT)
            { d1 with
              pkt_state := intel_pt_pkt_state.INTEL_PT_STATE_ERR_RESYNC
              pkt_step := 0 }).state.err = INTEL_PT_ERR_MISMAT ∧
        (intel_pt_decode_publish (-ENOENT)
            { d1 with
              pkt_state := intel_pt_pkt_state.INTEL_PT_STATE_ERR_RESYNC
              pkt_step := 0 }).overflow = d1.overflow ∧
        (intel_pt_decode_publish (-ENOENT)
            { d1 with
              pkt_state := intel_pt_pkt_state.INTEL_PT_STATE_ERR_RESYNC
              pkt_step := 0 }).pkt_state = intel_pt_pkt_state.INTEL_PT_STATE_ERR_RESYNC ∧
        (intel_pt_decode_publish (-ENOENT)
            { d1 with
              pkt_state := intel_pt_pkt_state.INTEL_PT_STATE_ERR_RESYNC
              pkt_step := 0 }).pkt_step = 0) := by
  have hext : intel_pt_ext_err (-EOVERFLOW) = INTEL_PT_ERR_OVR := by decide
  have hext2 : intel_pt_ext_err (-ENOENT) = INTEL_PT_ERR_MISMAT := by decide
  have hne : (-EOVERFLOW : Int) ≠ 0 := by decide
  have hne2 : (-ENOENT : Int) ≠ 0 := by decide
  have hnl2 : (-ENOENT : Int) ≠ -ENOLINK := by decide
  have hnag : ¬ ((-ENOENT : Int) = -EAGAIN) := by decide
  have htip : d1.packet.type ≠ intel_pt_pkt_type.INTEL_PT_TIP := by
    rw [hovf]
    decide
  obtain ⟨p1, p2, p3, p4, p5, p6, p7, p8, p9⟩ :=
    decode_publish_err (-EOVERFLOW) (intel_pt_overflow d1).2 hne
  refine ⟨rfl, hext, meets_ovf_result env d1 hovf, ?_, p1.trans hext, p2, p3, p4, p5, p6, p7,
    p8, p9, ?_, ?_⟩
  · intro fuel d0 hm
    have hl : intel_pt_decode_loop env fuel d0 = some (intel_pt_overflow d1) :=
      meets_ovf_result env d1 hovf _ hm
    unfold intel_pt_decode
    rw [hl]
    rfl
  · intro fuel2
    unfold intel_pt_decode_step
    have hst : (intel_pt_decode_publish (-EOVERFLOW) (intel_pt_overflow d1).2).pkt_state =
        intel_pt_pkt_state.INTEL_PT_STATE_ERR_RESYNC := p6
    simp only [hst]
  · intro fuel d da insn hw hop hbr hfetch
    have ht := walk_tnt_missing_tip env fuel d da d1 insn hw hop hbr hfetch htip
    refine ⟨ht, hext2, ?_⟩
    intro d0 hs hd
    subst hd
    obtain ⟨q1, _, _, _, _, q6, q7, _, _⟩ :=
      decode_publish_err (-ENOENT)
        { d1 with
          pkt_state := intel_pt_pkt_state.INTEL_PT_STATE_ERR_RESYNC
          pkt_step := 0 } hne2
    refine ⟨?_, q1.trans hext2, q7, q6, ?_⟩
    · apply decode_of_step env (fuel + 1) d0 _ (-ENOENT) hnl2
      unfold intel_pt_decode_step
      rcases hs with hs | hs
      · simp only [hs] at ht
        simp only [hs, ht, if_neg hnag]
      · simp only [hs] at ht
        simp only [hs, ht, if_neg hnag]
    · unfold intel_pt_decode_publish
      rw [if_pos hne2]

/-- C28 at `example_ovf_decoder`, a synchronised decoder in front of an OVF packet: the
call of `intel_pt_decode` meets the packet in the first round of `intel_pt_walk_trace` and
publishes a record with `err = OVR`, in state ERR_RESYNC with `overflow = true`. -/
theorem overflow_spec_witness :
    intel_pt_decode example_packet_env 3 example_ovf_decoder =
      some (intel_pt_decode_publish (-EOVERFLOW)
        (intel_pt_overflow
          { example_ovf_decoder with
            state := { example_ovf_decoder.state with type := INTEL_PT_BRANCH, flags := 0 }
            packet := { type := intel_pt_pkt_type.INTEL_PT_OVF }
            pkt_len := 2
            pkt_step := 2 }).2) ∧
    (intel_pt_decode_publish (-EOVERFLOW)
        (intel_pt_overflow
          { example_ovf_decoder with
            state := { example_ovf_decoder.state with type := INTEL_PT_BRANCH, flags := 0 }
            packet := { type := intel_pt_pkt_type.INTEL_PT_OVF }
            pkt_len := 2
            pkt_step := 2 }).2).state.err = INTEL_PT_ERR_OVR ∧
    (intel_pt_decode_publish (-EOVERFLOW)
        (intel_pt_overflow
          { example_ovf_decoder with
            state := { example_ovf_decoder.state with type := INTEL_PT_BRANCH, flags := 0 }
            packet := { type := intel_pt_pkt_type.INTEL_PT_OVF }
            pkt_len := 2
            pkt_step := 2 }).2).pkt_state = intel_pt_pkt_state.INTEL_PT_STATE_ERR_RESYNC :=
  have h := overflow_spec example_packet_env
    { example_ovf_decoder with
      state := { example_ovf_decoder.state with type := INTEL_PT_BRANCH, flags := 0 }
      packet := { type := intel_pt_pkt_type.INTEL_PT_OVF }
      pkt_len := 2
      pkt_step := 2 }
    rfl
  ⟨h.2.2.2.1 3 example_ovf_decoder
      (meets_ovf.loop_here 2 _
        (meets_ovf.step_in_sync 2 _ rfl (meets_ovf.trace_here 1 false false _ rfl))),
    h.2.2.2.2.1, h.2.2.2.2.2.2.2.2.2.1⟩

/-! ### The target of a taken branch: the sum of `int` values -/

/-- The `int` sum of C is the sum of the integers as long as that fits in 32 bits. -/
theorem add_int_eq (a b : Int) (h1 : -2 ^ 31 ≤ a + b) (h2 : a + b < 2 ^ 31) :
    add_int a b = a + b := by
  unfold add_int
  omega

/-- C20, as stated, fails at a conditional branch of length 6 with the displacement
`0x7fffffff` at the address `0x100000000`, taken on the only bit of the TNT packet:
`intel_pt_walk_tnt` consumes the bit and leaves `ip = 0x80000005`, because it adds
`length + rel` as `int` values, and the sum wraps to `-0x7ffffffb`. The address
`ip + length + rel` is `0x180000005`, and that is the target which `intel_pt_walk_tip`
computes for the same instruction, in `uint64_t`, when the branch leaves the filter
region. -/
theorem walk_tnt_target_truncated :
    (intel_pt_walk_tnt example_far_env 1 example_far_decoder).map
        (fun r => (r.1, r.2.state.from_ip, r.2.ip, r.2.state.to_ip, r.2.tnt.count,
          r.2.pkt_state)) =
      some (0, 0x100000000, 0x80000005, 0x80000005, 0,
        intel_pt_pkt_state.INTEL_PT_STATE_IN_SYNC) ∧
    add_int 6 0x7fffffff = -0x7ffffffb ∧
    add_u64_int 0x100000000 (6 + 0x7fffffff) = 0x180000005 ∧
    (intel_pt_walk_tip example_far_env
        { example_far_decoder with
          pkt_state := intel_pt_pkt_state.INTEL_PT_STATE_TIP_PGD }).map
        (fun r => (r.1, r.2.ip, r.2.pkt_state)) =
      some (0, 0x180000005, intel_pt_pkt_state.INTEL_PT_STATE_IN_SYNC) ∧
    (0x80000005 : Nat) ≠ 0x180000005 :=
  ⟨by decide, by decide, by decide, by decide, by decide⟩

end IntelPt
